import Mathlib

/-!
# FLAC reference codec: file decoder, stream encoder and metadata objects

A shallow embedding of `src/libFLAC/file_decoder.c`, `src/libFLAC/encoder.c` and
`src/libFLAC/metadata_object.c`, and of the seek table code of `src/flac/encode.c`.

Conventions of the embedding.

* C `unsigned` values are natural numbers; arithmetic that the C code performs in
  `unsigned` (32 bit) or `uint64` is reduced with `% 2^32` / `% 2^64` where it is written.
* C `long` values are integers (signed overflow is undefined in C and is not modelled).
* Library code that is not part of the translated files (the stream decoder, the MD5
  routines, the bit buffer, the frame writers, `stdio`) is represented by explicit
  scripts: the values those calls return and the callbacks they make are inputs.
* Client callbacks are pure functions of their arguments; every call made to the client
  is recorded in a log, in order.
-/

namespace FLAC

/-! ## Shared frame types -/

/-- The `FLAC__FrameHeader` fields used by the translated code.  `number` is the union
`number.frame_number` / `number.sample_number`. -/
structure FrameHeader where
  blocksize : Nat
  sample_rate : Nat
  channels : Nat
  channel_assignment : Nat
  bits_per_sample : Nat
  number : Nat
  deriving DecidableEq, Repr

/-- The `FLAC__Frame` record handed to write callbacks. -/
structure Frame where
  header : FrameHeader
  deriving DecidableEq, Repr

/-- Sample buffers: one array of samples per channel (`const int32 *buffer[]`). -/
abbrev Buffers := List (List Int)

/-! ## File decoder: data model -/

/-- The states named in `FLAC__FileDecoderStateString` of `file_decoder.c`. -/
inductive FileDecoderState
  | OK
  | SEEKING
  | END_OF_FILE
  | ERROR_OPENING_FILE
  | MEMORY_ALLOCATION_ERROR
  | SEEK_ERROR
  | STREAM_ERROR
  | UNINITIALIZED
  deriving DecidableEq, Repr

/-- Return value of a decoder write callback. -/
inductive StreamDecoderWriteStatus
  | CONTINUE
  | ABORT
  deriving DecidableEq, Repr

/-- Return value of the decoder read callback. -/
inductive StreamDecoderReadStatus
  | CONTINUE
  | END_OF_STREAM
  | ABORT
  deriving DecidableEq, Repr

/-- The body of a STREAMINFO block (`FLAC__StreamMetaData_StreamInfo`). -/
structure StreamInfo where
  min_blocksize : Nat
  max_blocksize : Nat
  min_framesize : Nat
  max_framesize : Nat
  sample_rate : Nat
  channels : Nat
  bits_per_sample : Nat
  total_samples : Nat
  md5sum : List Nat
  deriving DecidableEq, Repr

/-- Metadata block type tag; only STREAMINFO is distinguished by the file decoder. -/
inductive MetaDataType
  | STREAMINFO
  | OTHER (code : Nat)
  deriving DecidableEq, Repr

/-- A metadata block as passed to the metadata callback (`FLAC__StreamMetaData`).
`stream_info` is the member `data.stream_info` of the union. -/
structure StreamMetaData where
  type : MetaDataType
  is_last : Bool
  length : Nat
  stream_info : StreamInfo
  deriving DecidableEq, Repr

/-- One call of `FLAC__MD5Accumulate`: the buffers and the three size arguments. -/
structure MD5Chunk where
  buffer : Buffers
  channels : Nat
  samples : Nat
  bytes_per_sample : Nat
  deriving DecidableEq, Repr

/-- The running MD5 context: everything accumulated since `MD5Init`, in order. -/
abbrev MD5Context := List MD5Chunk

/-- The MD5 routines of `private/md5.h`, which are outside the translated files:
`final` is the digest `MD5Final` writes, `accumulate_ok` is the success flag of
`FLAC__MD5Accumulate` (it allocates and can fail). -/
structure MD5Lib where
  final : MD5Context → List Nat
  accumulate_ok : MD5Context → MD5Chunk → Bool

/-- The private part `FLAC__FileDecoderPrivate`.  The three client callbacks and
`client_data` are carried separately as a `FileDecoderClient`; `file` and `stream` record
whether the pointers are non-null, and `file_is_stdin` whether `file == stdin`. -/
structure FileDecoderPrivate where
  file : Bool
  file_is_stdin : Bool
  stream : Bool
  md5context : MD5Context
  stored_md5sum : List Nat
  computed_md5sum : List Nat
  stream_info : StreamInfo
  last_frame : Frame
  target_sample : Nat
  deriving DecidableEq, Repr

/-- The public object `FLAC__FileDecoder`: `guts` is `none` for a null pointer. -/
structure FileDecoder where
  state : FileDecoderState
  check_md5 : Bool
  guts : Option FileDecoderPrivate
  deriving DecidableEq, Repr

/-- A file decoder whose `guts` pointer is non-null.  The callbacks and the seek routines
dereference `decoder->guts` unconditionally, so they are defined on this type. -/
structure ActiveDecoder where
  state : FileDecoderState
  check_md5 : Bool
  guts : FileDecoderPrivate
  deriving DecidableEq, Repr

/-- View an active decoder as the public object. -/
def ActiveDecoder.toFileDecoder (d : ActiveDecoder) : FileDecoder :=
  { state := d.state, check_md5 := d.check_md5, guts := some d.guts }

/-- The client of a file decoder: the return value of its write callback.  The metadata
and error callbacks return `void`. -/
structure FileDecoderClient where
  write_callback : Frame → Buffers → StreamDecoderWriteStatus

/-- A call made to one of the client callbacks. -/
inductive ClientCall
  | write (frame : Frame) (buffer : Buffers)
  | metadata (block : StreamMetaData)
  | error (status : Nat)
  deriving DecidableEq, Repr

/-- `memcmp(a, b, 16) != 0` on byte arrays. -/
def memcmp16 (a b : List Nat) : Bool :=
  a.take 16 != b.take 16

/-- The sixteen zero bytes that `metadata_callback_` compares the stored sum with. -/
def zero_md5sum : List Nat := List.replicate 16 0

/-! ## File decoder: callbacks installed in the stream decoder -/

/-- `read_callback_`: `feof_before` is `feof(file)` on entry, `bytes` the requested count,
`bytes_read` the result of `fread`, `feof_after` is `feof(file)` after a read of zero
bytes.  Returns the status, the new `*bytes` and the decoder. -/
def read_callback_ (file_decoder : ActiveDecoder) (feof_before : Bool) (bytes : Nat)
    (bytes_read : Nat) (feof_after : Bool) :
    StreamDecoderReadStatus × Nat × ActiveDecoder :=
  if feof_before then
    (.END_OF_STREAM, bytes, { file_decoder with state := .END_OF_FILE })
  else if bytes > 0 then
    if bytes_read = 0 then
      if feof_after then
        (.END_OF_STREAM, bytes, { file_decoder with state := .END_OF_FILE })
      else
        (.ABORT, bytes, file_decoder)
    else
      (.CONTINUE, bytes_read % 2 ^ 32, file_decoder)
  else
    (.ABORT, bytes, file_decoder)

/-- `write_callback_`: returns the status handed back to the stream decoder, the decoder
and the calls made to the client. -/
def write_callback_ (client : FileDecoderClient) (md5 : MD5Lib) (file_decoder : ActiveDecoder)
    (frame : Frame) (buffer : Buffers) :
    StreamDecoderWriteStatus × ActiveDecoder × List ClientCall :=
  if file_decoder.state = .SEEKING then
    let this_frame_sample := frame.header.number
    let next_frame_sample := (this_frame_sample + frame.header.blocksize) % 2 ^ 64
    let target_sample := file_decoder.guts.target_sample
    let d1 : ActiveDecoder :=
      { file_decoder with guts := { file_decoder.guts with last_frame := frame } }
    if this_frame_sample ≤ target_sample ∧ target_sample < next_frame_sample then
      let delta := (target_sample - this_frame_sample) % 2 ^ 32
      let d2 : ActiveDecoder := { d1 with state := .OK }
      if delta > 0 then
        let newbuffer : Buffers := (buffer.take frame.header.channels).map (List.drop delta)
        let last_frame : Frame :=
          { header := { frame.header with
              blocksize := (frame.header.blocksize + 2 ^ 32 - delta) % 2 ^ 32
              number := (frame.header.number + delta) % 2 ^ 64 } }
        let d3 : ActiveDecoder := { d2 with guts := { d2.guts with last_frame := last_frame } }
        (client.write_callback last_frame newbuffer, d3, [.write last_frame newbuffer])
      else
        (client.write_callback frame buffer, d2, [.write frame buffer])
    else
      (.CONTINUE, d1, [])
  else
    let chunk : MD5Chunk :=
      { buffer := buffer, channels := frame.header.channels, samples := frame.header.blocksize,
        bytes_per_sample := ((frame.header.bits_per_sample + 7) % 2 ^ 32) / 8 }
    if file_decoder.check_md5 ∧ md5.accumulate_ok file_decoder.guts.md5context chunk = false then
      (.ABORT, file_decoder, [])
    else
      let d1 : ActiveDecoder :=
        if file_decoder.check_md5 then
          { file_decoder with
              guts := { file_decoder.guts with
                md5context := file_decoder.guts.md5context ++ [chunk] } }
        else file_decoder
      (client.write_callback frame buffer, d1, [.write frame buffer])

/-- `metadata_callback_`. -/
def metadata_callback_ (file_decoder : ActiveDecoder) (metadata : StreamMetaData) :
    ActiveDecoder × List ClientCall :=
  let d1 : ActiveDecoder :=
    if metadata.type = .STREAMINFO then
      let g : FileDecoderPrivate :=
        { file_decoder.guts with
            stream_info := metadata.stream_info
            stored_md5sum := metadata.stream_info.md5sum.take 16 }
      if memcmp16 g.stored_md5sum zero_md5sum = false then
        { file_decoder with guts := g, check_md5 := false }
      else
        { file_decoder with guts := g }
    else file_decoder
  if d1.state ≠ .SEEKING then (d1, [.metadata metadata]) else (d1, [])

/-- `error_callback_`. -/
def error_callback_ (file_decoder : ActiveDecoder) (status : Nat) :
    ActiveDecoder × List ClientCall :=
  if file_decoder.state ≠ .SEEKING then (file_decoder, [.error status]) else (file_decoder, [])

/-! ## The stream decoder as a script -/

/-- One callback made by the stream decoder while it runs. -/
inductive StreamEvent
  | read (feof_before : Bool) (bytes : Nat) (bytes_read : Nat) (feof_after : Bool)
  | write (frame : Frame) (buffer : Buffers)
  | metadata (block : StreamMetaData)
  | error (status : Nat)
  deriving DecidableEq, Repr

/-- One call of a `FLAC__stream_decoder_process_*` function: the callbacks it makes, in
order, and the value it returns. -/
structure StreamCall where
  events : List StreamEvent
  result : Bool
  deriving DecidableEq, Repr

/-- Deliver one stream decoder callback to the file decoder. -/
def deliver (client : FileDecoderClient) (md5 : MD5Lib) (d : ActiveDecoder) :
    StreamEvent → ActiveDecoder × List ClientCall
  | .read feof_before bytes bytes_read feof_after =>
      ((read_callback_ d feof_before bytes bytes_read feof_after).2.2, [])
  | .write frame buffer => (write_callback_ client md5 d frame buffer).2
  | .metadata block => metadata_callback_ d block
  | .error status => error_callback_ d status

/-- Deliver a sequence of stream decoder callbacks, collecting the client calls. -/
def dispatch (client : FileDecoderClient) (md5 : MD5Lib) :
    ActiveDecoder → List StreamEvent → ActiveDecoder × List ClientCall
  | d, [] => (d, [])
  | d, e :: es =>
      let r := deliver client md5 d e
      let rest := dispatch client md5 r.1 es
      (rest.1, r.2 ++ rest.2)

/-! ## File decoder: public functions -/

/-- `FLAC__file_decoder_finish`: returns the result and the decoder afterwards. -/
def FLAC__file_decoder_finish (md5 : MD5Lib) (decoder : FileDecoder) : Bool × FileDecoder :=
  if decoder.state = .UNINITIALIZED then
    (true, decoder)
  else
    match decoder.guts with
    | some g =>
        let computed_md5sum := (md5.final g.md5context).take 16
        let md5_failed := decoder.check_md5 && memcmp16 g.stored_md5sum computed_md5sum
        (!md5_failed, { decoder with guts := none, state := .UNINITIALIZED })
    | none =>
        (true, { decoder with state := .UNINITIALIZED })

/-- The four functions `FLAC__file_decoder_process_whole_file`, `_process_metadata`,
`_process_one_frame` and `_process_remaining_frames` have the same body around a different
stream decoder call.  `stream_at_eof` is `stream->state == FLAC__STREAM_DECODER_END_OF_FILE`
on entry and `call` is the stream decoder call. -/
def FLAC__file_decoder_process (client : FileDecoderClient) (md5 : MD5Lib)
    (decoder : ActiveDecoder) (stream_at_eof : Bool) (call : StreamCall) :
    Bool × ActiveDecoder × List ClientCall :=
  let d0 : ActiveDecoder :=
    if stream_at_eof then { decoder with state := .END_OF_FILE } else decoder
  if d0.state = .END_OF_FILE then
    (true, d0, [])
  else
    let r := dispatch client md5 d0 call.events
    if call.result = false then
      (false, { r.1 with state := .STREAM_ERROR }, r.2)
    else
      (true, r.1, r.2)

/-! ## File decoder: seeking -/

/-- Modelled from the spec: the constant `FLAC__MAX_BLOCK_SIZE` of `FLAC/format.h`, which is
not among the translated files; the spec gives blocksize the range 16..65535. -/
def FLAC__MAX_BLOCK_SIZE : Nat := 65535

/-- One iteration of the search loop of `seek_to_absolute_sample_`, as seen from outside:
the result of `fseek` and of `FLAC__stream_decoder_flush` (consulted only when the
iteration seeks), the `FLAC__stream_decoder_process_one_frame` call, and the results of
`ftell` (`-1` for failure) and `FLAC__stream_decoder_input_bytes_unconsumed` (consulted
only when the iteration moves forward). -/
structure SeekStep where
  fseek_ok : Bool
  flush_ok : Bool
  frame : StreamCall
  ftell : Int
  unconsumed : Nat
  deriving DecidableEq, Repr

/-- Everything `FLAC__file_decoder_seek_absolute` obtains from the stream decoder and from
`stdio`, in call order.  `estimate` is the value of the floating point expression
`(long)((double)target_sample / (double)total_samples * (double)(filesize-l+1))`. -/
structure SeekEnv where
  reset_ok : Bool
  fseek_end_ok : Bool
  filesize : Int
  rewind_ok : Bool
  metadata : StreamCall
  first_frame_offset : Int
  unconsumed : Nat
  estimate : Int
  steps : List SeekStep
  deriving DecidableEq, Repr

/-- Outcome of a seek: `result` is the returned value, or `none` while the search loop is
still running when the script of iterations ends; `seeks` lists the positions passed to
`fseek` by the search loop, in order. -/
structure SeekResult where
  result : Option Bool
  decoder : ActiveDecoder
  calls : List ClientCall
  seeks : List Int
  deriving DecidableEq, Repr

/-- The guess `blocksize * channels * bits_per_sample/8 + 64`, computed in `unsigned`. -/
def approx_bytes_per_frame (blocksize channels bits_per_sample : Nat) : Nat :=
  ((blocksize * channels * bits_per_sample) % 2 ^ 32 / 8 + 64) % 2 ^ 32

/-- The `while(1)` loop of `seek_to_absolute_sample_`, one script entry per iteration. -/
def seek_loop (client : FileDecoderClient) (md5 : MD5Lib) (l : Int) (target_sample : Nat) :
    List SeekStep → Int → Int → Nat → Bool → ActiveDecoder → SeekResult
  | [], _, _, _, _, decoder =>
      { result := none, decoder := decoder, calls := [], seeks := [] }
  | s :: rest, pos, last_pos, last_frame_sample, needs_seek, decoder =>
      let sought : List Int := if needs_seek then [pos] else []
      if needs_seek ∧ s.fseek_ok = false then
        { result := some false, decoder := { decoder with state := .SEEK_ERROR },
          calls := [], seeks := sought }
      else if needs_seek ∧ s.flush_ok = false then
        { result := some false, decoder := { decoder with state := .STREAM_ERROR },
          calls := [], seeks := sought }
      else
        let r := dispatch client md5 decoder s.frame.events
        if s.frame.result = false then
          { result := some false, decoder := { r.1 with state := .SEEK_ERROR },
            calls := r.2, seeks := sought }
        else if r.1.state ≠ .SEEKING then
          { result := some true, decoder := r.1, calls := r.2, seeks := sought }
        else
          let this_frame_sample := r.1.guts.last_frame.header.number
          if this_frame_sample = last_frame_sample then
            let pos1 := pos - (last_pos - pos)
            let pos2 := if pos1 < l then l else pos1
            let t := seek_loop client md5 l target_sample rest pos2 last_pos this_frame_sample
              true r.1
            { t with calls := r.2 ++ t.calls, seeks := sought ++ t.seeks }
          else if target_sample < this_frame_sample then
            let h := r.1.guts.last_frame.header
            let pos1 := pos - (approx_bytes_per_frame h.blocksize h.channels h.bits_per_sample : Int)
            let pos2 := if pos1 < l then l else pos1
            let t := seek_loop client md5 l target_sample rest pos2 pos this_frame_sample
              true r.1
            { t with calls := r.2 ++ t.calls, seeks := sought ++ t.seeks }
          else if s.ftell = -1 then
            { result := some false, decoder := { r.1 with state := .SEEK_ERROR },
              calls := r.2, seeks := sought }
          else
            let pos1 := s.ftell - (s.unconsumed : Int)
            let pos2 := if pos1 < l then l else pos1
            let t := seek_loop client md5 l target_sample rest pos2 pos this_frame_sample
              false r.1
            { t with calls := r.2 ++ t.calls, seeks := sought ++ t.seeks }

/-- `seek_to_absolute_sample_`. -/
def seek_to_absolute_sample_ (client : FileDecoderClient) (md5 : MD5Lib) (env : SeekEnv)
    (decoder : ActiveDecoder) (filesize : Int) (target_sample : Nat) : SeekResult :=
  let si := decoder.guts.stream_info
  let is_variable_blocksize_stream : Bool := si.min_blocksize != si.max_blocksize
  let approx : Nat :=
    if is_variable_blocksize_stream = false then
      approx_bytes_per_frame si.min_blocksize si.channels si.bits_per_sample
    else
      approx_bytes_per_frame 1152 si.channels si.bits_per_sample
  if env.first_frame_offset = -1 then
    { result := some false, decoder := { decoder with state := .SEEK_ERROR },
      calls := [], seeks := [] }
  else
    let l : Int := env.first_frame_offset - (env.unconsumed : Int)
    let pos0 : Int := l + env.estimate - (approx : Int)
    let r : Int :=
      filesize -
        ((((si.channels * si.bits_per_sample * FLAC__MAX_BLOCK_SIZE) % 2 ^ 32 / 8 + 64) % 2 ^ 32 :
          Nat) : Int)
    let pos1 : Int := if pos0 ≥ r then r - 1 else pos0
    let pos2 : Int := if pos1 < l then l else pos1
    let d1 : ActiveDecoder :=
      { decoder with guts := { decoder.guts with target_sample := target_sample } }
    seek_loop client md5 l target_sample env.steps pos2 (-1) 0xffffffffffffffff true d1

/-- `FLAC__file_decoder_seek_absolute`. -/
def FLAC__file_decoder_seek_absolute (client : FileDecoderClient) (md5 : MD5Lib)
    (env : SeekEnv) (decoder : ActiveDecoder) (sample : Nat) : SeekResult :=
  let d1 : ActiveDecoder := { decoder with state := .SEEKING, check_md5 := false }
  if env.reset_ok = false then
    { result := some false, decoder := { d1 with state := .STREAM_ERROR }, calls := [],
      seeks := [] }
  else if env.fseek_end_ok = false then
    { result := some false, decoder := { d1 with state := .SEEK_ERROR }, calls := [],
      seeks := [] }
  else if env.filesize = -1 then
    { result := some false, decoder := { d1 with state := .SEEK_ERROR }, calls := [],
      seeks := [] }
  else if env.rewind_ok = false then
    { result := some false, decoder := { d1 with state := .SEEK_ERROR }, calls := [],
      seeks := [] }
  else
    let r := dispatch client md5 d1 env.metadata.events
    if env.metadata.result = false then
      { result := some false, decoder := { r.1 with state := .STREAM_ERROR }, calls := r.2,
        seeks := [] }
    else if sample > r.1.guts.stream_info.total_samples then
      { result := some false, decoder := { r.1 with state := .SEEK_ERROR }, calls := r.2,
        seeks := [] }
    else
      let t := seek_to_absolute_sample_ client md5 env r.1 env.filesize sample
      { t with calls := r.2 ++ t.calls }

/-! ## Stream encoder: constants

`FLAC/format.h` is not among the translated files; the constants that `encoder.c` takes
from it are given the values the specification states. -/

/-- Modelled from the spec: `FLAC__MAX_CHANNELS`; the spec gives channels the range 1..8. -/
def FLAC__MAX_CHANNELS : Nat := 8

/-- Modelled from the spec: `FLAC__MAX_BITS_PER_SAMPLE`; the spec gives bits per sample the
range 4..32. -/
def FLAC__MAX_BITS_PER_SAMPLE : Nat := 32

/-- Modelled from the spec: `FLAC__MAX_SAMPLE_RATE`; the spec gives the sample rate the
range 1..655350. -/
def FLAC__MAX_SAMPLE_RATE : Nat := 655350

/-- Modelled from the spec: `FLAC__MIN_BLOCK_SIZE`; the spec gives blocksize the range
16..65535. -/
def FLAC__MIN_BLOCK_SIZE : Nat := 16

/-- Modelled from the spec: `FLAC__MIN_QLP_COEFF_PRECISION`; the spec gives the coefficient
precision the range 5..15. -/
def FLAC__MIN_QLP_COEFF_PRECISION : Nat := 5

/-- Modelled from the spec: `FLAC__MAX_FIXED_ORDER`; the spec gives fixed predictors the
orders 0..4. -/
def FLAC__MAX_FIXED_ORDER : Nat := 4

/-- Modelled from the spec: `FLAC__ENTROPY_CODING_METHOD_PARTITIONED_RICE_ORDER_LEN`; the
spec gives the partition order 4 bits. -/
def FLAC__ENTROPY_CODING_METHOD_PARTITIONED_RICE_ORDER_LEN : Nat := 4

/-- Modelled from the spec: `FLAC__ENTROPY_CODING_METHOD_PARTITIONED_RICE_PARAMETER_LEN`;
the spec gives the Rice parameter 4 bits in the first coding method. -/
def FLAC__ENTROPY_CODING_METHOD_PARTITIONED_RICE_PARAMETER_LEN : Nat := 4

/-- Modelled from the spec: `FLAC__STREAM_METADATA_ENCODING_MIN_FRAME_SIZE_LEN`; the spec
gives the minimum frame size 24 bits. -/
def FLAC__STREAM_METADATA_ENCODING_MIN_FRAME_SIZE_LEN : Nat := 24

/-- Modelled from the spec: `FLAC__STREAM_SYNC`, the magic `fLaC` as a big-endian word. -/
def FLAC__STREAM_SYNC : Nat := 0x664C6143

/-- Modelled from the spec: `FLAC__STREAM_SYNC_LEN`, the four bytes of the magic in bits. -/
def FLAC__STREAM_SYNC_LEN : Nat := 32

/-- The value of `FLAC__CHANNEL_ASSIGNMENT_INDEPENDENT` and its three siblings; only their
being distinct is used. -/
def FLAC__CHANNEL_ASSIGNMENT_INDEPENDENT : Nat := 0

/-- Left/side channel assignment. -/
def FLAC__CHANNEL_ASSIGNMENT_LEFT_SIDE : Nat := 1

/-- Right/side channel assignment. -/
def FLAC__CHANNEL_ASSIGNMENT_RIGHT_SIDE : Nat := 2

/-- Mid/side channel assignment. -/
def FLAC__CHANNEL_ASSIGNMENT_MID_SIDE : Nat := 3

/-! ## Stream encoder: data model -/

/-- The states named in `FLAC__EncoderStateString`. -/
inductive EncoderState
  | OK
  | UNINITIALIZED
  | INVALID_NUMBER_OF_CHANNELS
  | INVALID_BITS_PER_SAMPLE
  | INVALID_SAMPLE_RATE
  | INVALID_BLOCK_SIZE
  | INVALID_QLP_COEFF_PRECISION
  | MID_SIDE_CHANNELS_MISMATCH
  | MID_SIDE_SAMPLE_SIZE_MISMATCH
  | BLOCK_SIZE_TOO_SMALL_FOR_LPC_ORDER
  | NOT_STREAMABLE
  | FRAMING_ERROR
  | FATAL_ERROR_WHILE_ENCODING
  | FATAL_ERROR_WHILE_WRITING
  | MEMORY_ALLOCATION_ERROR
  deriving DecidableEq, Repr

/-- Return value of the encoder write callback (`FLAC__EncoderWriteStatusString`). -/
inductive EncoderWriteStatus
  | OK
  | FATAL_ERROR
  deriving DecidableEq, Repr

/-- The bit buffer `FLAC__BitBuffer`, with the fields `encoder.c` reads. -/
structure BitBuffer where
  buffer : List Nat
  bytes : Nat
  bits : Nat
  total_bits : Nat
  total_consumed_bits : Nat
  deriving DecidableEq, Repr

/-- The partitioned Rice description inside a subframe header: the partition order and the
first `2^order` parameters. -/
structure PartitionedRice where
  order : Nat
  parameters : List Nat
  deriving DecidableEq, Repr

/-- The subframe description `FLAC__SubframeHeader`: the `type` tag together with the
member of the `data` union that belongs to it. -/
inductive SubframeHeader
  | CONSTANT (value : Int)
  | VERBATIM
  | FIXED (order : Nat) (warmup : List Int) (rice : PartitionedRice)
  | LPC (order : Nat) (qlp_coeff_precision : Nat) (quantization_level : Int)
      (qlp_coeff : List Int) (warmup : List Int) (rice : PartitionedRice)
  deriving DecidableEq, Repr

/-- The member `data.encoding` of the stream metadata block kept by the encoder. -/
structure EncodingInfo where
  min_blocksize : Nat
  max_blocksize : Nat
  min_framesize : Nat
  max_framesize : Nat
  sample_rate : Nat
  channels : Nat
  bits_per_sample : Nat
  total_samples : Nat
  deriving DecidableEq, Repr

/-- The metadata block `encoder->guts->metadata`. -/
structure EncoderMetaData where
  type : Nat
  is_last : Bool
  length : Nat
  encoding : EncodingInfo
  deriving DecidableEq, Repr

/-- The private part `FLAC__EncoderPrivate`.  The floating point copies `real_signal` and
`real_signal_mid_side` hold `(real)x` for every stored sample `x`, so they are determined by
the integer buffers and are not stored; the callbacks and `client_data` are carried
separately as an `EncoderClient`. -/
structure EncoderPrivate where
  input_capacity : Nat
  integer_signal : List (List Int)
  integer_signal_mid_side : List (List Int)
  residual : List (List Int)
  best_residual : Nat
  frame : BitBuffer
  frame_mid_side : BitBuffer
  frame_left_side : BitBuffer
  frame_right_side : BitBuffer
  best_subframe : SubframeHeader
  candidate_subframe : SubframeHeader
  current_frame_can_do_mid_side : Bool
  metadata : EncoderMetaData
  current_sample_number : Nat
  current_frame_number : Nat
  deriving DecidableEq, Repr

/-- The public settings of `FLAC__Encoder` that `encoder.c` reads and writes. -/
structure EncoderSettings where
  state : EncoderState
  streamable_subset : Bool
  do_mid_side_stereo : Bool
  channels : Nat
  bits_per_sample : Nat
  sample_rate : Nat
  blocksize : Nat
  max_lpc_order : Nat
  qlp_coeff_precision : Nat
  do_qlp_coeff_prec_search : Bool
  do_exhaustive_model_search : Bool
  rice_optimization_level : Nat
  deriving DecidableEq, Repr

/-- The public object `FLAC__Encoder`: the settings and the `guts` pointer (`none` when
null). -/
structure Encoder extends EncoderSettings where
  guts : Option EncoderPrivate
  deriving DecidableEq, Repr

/-- An encoder whose `guts` pointer is non-null; the processing functions dereference it
unconditionally. -/
structure ActiveEncoder extends EncoderSettings where
  guts : EncoderPrivate
  deriving DecidableEq, Repr

/-- View an active encoder as the public object. -/
def ActiveEncoder.toEncoder (e : ActiveEncoder) : Encoder :=
  { toEncoderSettings := e.toEncoderSettings, guts := some e.guts }

/-- The client of an encoder: the return value of its write callback for the arguments
`buffer`, `bytes`, `samples`, `current_frame`.  The metadata callback returns `void`. -/
structure EncoderClient where
  write_callback : List Nat → Nat → Nat → Nat → EncoderWriteStatus

/-- A call made to one of the encoder client callbacks. -/
inductive EncoderCall
  | write (buffer : List Nat) (bytes : Nat) (samples : Nat) (current_frame : Nat)
  | metadata (block : EncoderMetaData)
  deriving DecidableEq, Repr

/-- The library routines `encoder.c` calls that are outside the translated files
(`private/bitbuffer.h`, `private/encoder_framing.h`, `private/fixed.h`, `private/lpc.h`,
`malloc`).  A routine that can fail returns `none` on failure.  Floating point results are
carried as rationals, and the floating point routines, which read `real_signal`, take the
integer signal it was copied from.

* `malloc_guts` is the freshly allocated private part (its fields hold whatever the
  allocator left there) and `malloc_int32 k n` the `k`-th array of `n` samples allocated by
  `encoder_resize_buffers_`; `malloc_real_ok k n` is the success of the `k`-th allocation of
  a floating point array.
* `METADATA_TYPE_ENCODING` and `STREAM_METADATA_ENCODING_LENGTH` are the constants
  `FLAC__METADATA_TYPE_ENCODING` and `FLAC__STREAM_METADATA_ENCODING_LENGTH`. -/
structure EncoderLib where
  malloc_guts : Option EncoderPrivate
  malloc_int32 : Nat → Nat → Option (List Int)
  malloc_real_ok : Nat → Nat → Bool
  METADATA_TYPE_ENCODING : Nat
  STREAM_METADATA_ENCODING_LENGTH : Nat
  bitbuffer_init : BitBuffer → BitBuffer
  bitbuffer_clear : BitBuffer → Option BitBuffer
  bitbuffer_write_raw_uint32 : BitBuffer → Nat → Nat → Option BitBuffer
  bitbuffer_zero_pad_to_byte_boundary : BitBuffer → Option BitBuffer
  add_metadata_block : EncoderMetaData → BitBuffer → Option BitBuffer
  frame_add_header : FrameHeader → Bool → Bool → BitBuffer → Option BitBuffer
  subframe_add_constant : Nat → SubframeHeader → BitBuffer → Option BitBuffer
  subframe_add_fixed : List Int → Nat → Nat → SubframeHeader → BitBuffer → Option BitBuffer
  subframe_add_lpc : List Int → Nat → Nat → SubframeHeader → BitBuffer → Option BitBuffer
  subframe_add_verbatim : List Int → Nat → Nat → BitBuffer → Option BitBuffer
  fixed_compute_best_predictor : List Int → Nat → Nat × List ℚ
  fixed_compute_residual : List Int → List Int → Nat → Nat → List Int
  lpc_compute_autocorrelation : List Int → Nat → Nat → List ℚ
  lpc_compute_lp_coefficients : List ℚ → Nat → List (List ℚ) × List ℚ
  lpc_compute_best_order : List ℚ → Nat → Nat → Nat → Nat
  lpc_compute_expected_bits_per_residual_sample : ℚ → Nat → ℚ
  lpc_quantize_coefficients : List ℚ → Nat → Nat → Nat → Int × List Int × Int
  lpc_compute_residual_from_qlp_coefficients :
    List Int → List Int → Nat → List Int → Nat → Int → List Int

/-! ## Stream encoder: residual coding cost -/

/-- `(unsigned)((value) < 0 ? -(value) : (value))` for a 32 bit sample. -/
def abs_unsigned (value : Int) : Nat := value.natAbs % 2 ^ 32

/-- The cost estimate `RICE_BITS(value, parameter)`, an `unsigned` expression. -/
def RICE_BITS (value : Int) (parameter : Nat) : Nat :=
  (2 + parameter + (abs_unsigned value >>> parameter)) % 2 ^ 32

/-- The scan `for(j = 0; j < 32; j++, z >>= 1) if(mean & z) break;`: the final `j`. -/
def leading_zero_scan (mean : Nat) : Nat → Nat → Nat → Nat
  | 0, j, _ => j
  | fuel + 1, j, z =>
      if j < 32 then
        if mean &&& z ≠ 0 then j else leading_zero_scan mean fuel (j + 1) (z >>> 1)
      else j

/-- The Rice parameter `encoder_set_partitioned_rice_` derives from a partition mean. -/
def parameter_of_mean (mean : Nat) : Nat :=
  let j := leading_zero_scan mean 33 0 0x80000000
  let parameter := if j > 31 then 0 else 32 - j - 1
  let max_parameter := 2 ^ FLAC__ENTROPY_CODING_METHOD_PARTITIONED_RICE_PARAMETER_LEN - 1
  if parameter > max_parameter then max_parameter else parameter

/-- The body of the partition loop of `encoder_set_partitioned_rice_` for partitions
`i, i+1, ...`, `count` of them: `k` is the running residual index, `bits` the running cost
and `parameters` the parameters written so far.  `none` is the early `return false`. -/
def partition_loop (residual : List Int) (residual_samples predictor_order partition_order : Nat) :
    Nat → Nat → Nat → Nat → List Nat → Option (List Nat × Nat)
  | 0, _, _, bits, parameters => some (parameters, bits)
  | count + 1, i, k, bits, parameters =>
      let partition_samples0 := ((residual_samples + predictor_order) % 2 ^ 32) >>> partition_order
      if i = 0 ∧ partition_samples0 ≤ predictor_order then none
      else
        let partition_samples :=
          if i = 0 then partition_samples0 - predictor_order else partition_samples0
        let mean0 := partition_samples >>> 1
        let mean1 := (List.range partition_samples).foldl
          (fun m j => (m + abs_unsigned (residual.getD (k + j) 0)) % 2 ^ 32) mean0
        let mean := mean1 / partition_samples
        let parameter := parameter_of_mean mean
        let bits1 := (bits + FLAC__ENTROPY_CODING_METHOD_PARTITIONED_RICE_PARAMETER_LEN) % 2 ^ 32
        let bits2 := (List.range partition_samples).foldl
          (fun b j => (b + RICE_BITS (residual.getD (k + j) 0) parameter) % 2 ^ 32) bits1
        partition_loop residual residual_samples predictor_order partition_order count (i + 1)
          (k + partition_samples) bits2 (parameters ++ [parameter])

/-- `encoder_set_partitioned_rice_`: `none` when it returns `false`, otherwise the
parameters written (`2^partition_order` of them) and `*bits`. -/
def encoder_set_partitioned_rice_ (residual : List Int)
    (residual_samples predictor_order rice_parameter partition_order : Nat) :
    Option (List Nat × Nat) :=
  let bits0 := 2 + 3
  if partition_order = 0 then
    let bits1 := bits0 + FLAC__ENTROPY_CODING_METHOD_PARTITIONED_RICE_PARAMETER_LEN
    let bits2 := (List.range residual_samples).foldl
      (fun b i => (b + RICE_BITS (residual.getD i 0) rice_parameter) % 2 ^ 32) bits1
    some ([rice_parameter], bits2)
  else
    partition_loop residual residual_samples predictor_order partition_order
      (2 ^ partition_order % 2 ^ 32) 0 0 bits0 []

/-- The loop of `encoder_find_best_partition_order_` from `partition_order` on, `count`
iterations at most; the state is `(best_residual_bits, *best_partition_order, best
parameters)`. -/
def best_partition_loop (residual : List Int)
    (residual_samples predictor_order rice_parameter : Nat) :
    Nat → Nat → Nat × Nat × List Nat → Nat × Nat × List Nat
  | 0, _, best => best
  | count + 1, partition_order, best =>
      match encoder_set_partitioned_rice_ residual residual_samples predictor_order
          rice_parameter partition_order with
      | none => best
      | some (parameters, residual_bits) =>
          let best1 :=
            if best.1 = 0 ∨ residual_bits < best.1 then
              (residual_bits, partition_order, parameters)
            else best
          best_partition_loop residual residual_samples predictor_order rice_parameter count
            (partition_order + 1) best1

/-- `encoder_find_best_partition_order_`: the returned bit count, `*best_partition_order`
and the first `2^order` entries of `best_parameters`.  The out-parameters are assigned in
the first iteration (order 0 is never rejected), so their prior content is not an input. -/
def encoder_find_best_partition_order_ (residual : List Int)
    (residual_samples predictor_order rice_parameter max_partition_order : Nat) :
    Nat × Nat × List Nat :=
  best_partition_loop residual residual_samples predictor_order rice_parameter
    (max_partition_order + 1) 0 (0, 0, [])

/-! ## Stream encoder: subframe candidates -/

/-- `encoder_evaluate_constant_subframe_`: the estimate and the subframe written. -/
def encoder_evaluate_constant_subframe_ (signal : Int) (bits_per_sample : Nat) :
    Nat × SubframeHeader :=
  ((8 + bits_per_sample) % 2 ^ 32, .CONSTANT signal)

/-- `encoder_evaluate_verbatim_subframe_`: the estimate and the subframe written. -/
def encoder_evaluate_verbatim_subframe_ (blocksize bits_per_sample : Nat) :
    Nat × SubframeHeader :=
  ((8 + blocksize * bits_per_sample) % 2 ^ 32, .VERBATIM)

/-- `encoder_evaluate_fixed_subframe_`: the estimate, the residual array afterwards and the
subframe written. -/
def encoder_evaluate_fixed_subframe_ (lib : EncoderLib) (signal residual : List Int)
    (blocksize bits_per_sample order rice_parameter max_partition_order : Nat) :
    Nat × List Int × SubframeHeader :=
  let residual_samples := (blocksize + 2 ^ 32 - order) % 2 ^ 32
  let residual1 := lib.fixed_compute_residual signal residual residual_samples order
  let best := encoder_find_best_partition_order_ residual1 residual_samples order rice_parameter
    max_partition_order
  ((8 + order * bits_per_sample + best.1) % 2 ^ 32, residual1,
    .FIXED order (signal.take order) { order := best.2.1, parameters := best.2.2 })

/-- `encoder_evaluate_lpc_subframe_`: the estimate, and when the coefficients could be
quantized the residual array afterwards and the subframe written (`none` for the early
`return 0`, which leaves both untouched). -/
def encoder_evaluate_lpc_subframe_ (lib : EncoderLib) (signal residual : List Int)
    (lp_coeff : List ℚ)
    (blocksize bits_per_sample order qlp_coeff_precision rice_parameter max_partition_order : Nat) :
    Nat × Option (List Int × SubframeHeader) :=
  let residual_samples := (blocksize + 2 ^ 32 - order) % 2 ^ 32
  let q := lib.lpc_quantize_coefficients lp_coeff order qlp_coeff_precision bits_per_sample
  if q.1 ≠ 0 then (0, none)
  else
    let residual1 := lib.lpc_compute_residual_from_qlp_coefficients signal residual
      residual_samples q.2.1 order q.2.2
    let best := encoder_find_best_partition_order_ residual1 residual_samples order
      rice_parameter max_partition_order
    ((8 + 9 + order * (qlp_coeff_precision + bits_per_sample) + best.1) % 2 ^ 32,
      some (residual1,
        .LPC order qlp_coeff_precision q.2.2 q.2.1 (signal.take order)
          { order := best.2.1, parameters := best.2.2 }))

/-- The working state of `encoder_process_subframes_` for one channel: the two subframe
descriptions, the two residual arrays, the index of the best one and `best_bits`. -/
structure SubframeSearch where
  best_subframe : SubframeHeader
  candidate_subframe : SubframeHeader
  residual : List (List Int)
  best_residual : Nat
  best_bits : Nat
  deriving DecidableEq, Repr

/-- The index `!best_residual` of the residual array a candidate is computed into. -/
def other_residual (best_residual : Nat) : Nat := if best_residual = 0 then 1 else 0

/-- `encoder_promote_candidate_subframe_` followed by `best_bits = candidate_bits`. -/
def encoder_promote_candidate_subframe_ (s : SubframeSearch) (candidate_bits : Nat) :
    SubframeSearch :=
  { s with best_subframe := s.candidate_subframe
           best_residual := other_residual s.best_residual
           best_bits := candidate_bits }

/-- A loop `for(x = lo; x <= hi; x++)` over `unsigned` values whose body neither breaks nor
returns; the body yields `none` when it does not end.  With `hi` the largest `unsigned` the
condition never fails and the loop does not end: `none`. -/
def for_inclusive {σ : Type} (lo hi : Nat) (body : Nat → σ → Option σ) (s : σ) : Option σ :=
  if lo ≤ hi ∧ hi = 2 ^ 32 - 1 then none
  else (List.range' lo (hi + 1 - lo)).foldlM (fun s x => body x s) s

/-- The estimate `(x > 0.0) ? (unsigned)(x+0.5) : 0`, clamped to the largest parameter. -/
def rice_parameter_of_bits (x : ℚ) : Nat :=
  let p : Nat := if x > 0 then (Int.toNat ⌊x + 1 / 2⌋) % 2 ^ 32 else 0
  if p ≥ 2 ^ FLAC__ENTROPY_CODING_METHOD_PARTITIONED_RICE_PARAMETER_LEN then
    2 ^ FLAC__ENTROPY_CODING_METHOD_PARTITIONED_RICE_PARAMETER_LEN - 1
  else p

/-- One iteration of the fixed-order loop of `encoder_process_subframes_`. -/
def fixed_order_step (lib : EncoderLib) (signal : List Int) (bits : List ℚ)
    (blocksize bits_per_sample max_partition_order : Nat) (fixed_order : Nat)
    (s : SubframeSearch) : SubframeSearch :=
  if bits.getD fixed_order 0 ≥ (bits_per_sample : ℚ) then s
  else
    let rice_parameter := rice_parameter_of_bits (bits.getD fixed_order 0)
    let target := other_residual s.best_residual
    let r := encoder_evaluate_fixed_subframe_ lib signal (s.residual.getD target []) blocksize
      bits_per_sample fixed_order rice_parameter max_partition_order
    let s1 : SubframeSearch :=
      { s with residual := s.residual.set target r.2.1, candidate_subframe := r.2.2 }
    if r.1 < s1.best_bits then encoder_promote_candidate_subframe_ s1 r.1 else s1

/-- One iteration of the coefficient-precision loop of `encoder_process_subframes_`. -/
def qlp_precision_step (lib : EncoderLib) (signal : List Int) (lp_coeff : List ℚ)
    (blocksize bits_per_sample lpc_order rice_parameter max_partition_order : Nat)
    (qlp_coeff_precision : Nat) (s : SubframeSearch) : SubframeSearch :=
  let target := other_residual s.best_residual
  let r := encoder_evaluate_lpc_subframe_ lib signal (s.residual.getD target []) lp_coeff
    blocksize bits_per_sample lpc_order qlp_coeff_precision rice_parameter max_partition_order
  let s1 : SubframeSearch :=
    match r.2 with
    | some w => { s with residual := s.residual.set target w.1, candidate_subframe := w.2 }
    | none => s
  if r.1 > 0 ∧ r.1 < s1.best_bits then encoder_promote_candidate_subframe_ s1 r.1 else s1

/-- One iteration of the LPC-order loop of `encoder_process_subframes_`; `qlp_range` is
`(min_qlp_coeff_precision, max_qlp_coeff_precision)`. -/
def lpc_order_step (lib : EncoderLib) (signal : List Int) (lp_coeff : List (List ℚ))
    (lpc_error : List ℚ) (blocksize bits_per_sample max_partition_order : Nat)
    (qlp_range : Nat × Nat) (lpc_order : Nat) (s : SubframeSearch) : Option SubframeSearch :=
  let index := (lpc_order + 2 ^ 32 - 1) % 2 ^ 32
  let x := lib.lpc_compute_expected_bits_per_residual_sample (lpc_error.getD index 0) blocksize
  if x ≥ (bits_per_sample : ℚ) then some s
  else
    let rice_parameter := rice_parameter_of_bits x
    for_inclusive qlp_range.1 qlp_range.2
      (fun qlp_coeff_precision t =>
        some (qlp_precision_step lib signal (lp_coeff.getD index []) blocksize bits_per_sample
          lpc_order rice_parameter max_partition_order qlp_coeff_precision t)) s

/-- The `encode lpc` block of `encoder_process_subframes_` for one channel. -/
def lpc_search (lib : EncoderLib) (encoder : EncoderSettings) (frame_header : FrameHeader)
    (signal : List Int) (max_partition_order : Nat) (s : SubframeSearch) :
    Option SubframeSearch :=
  if encoder.max_lpc_order > 0 then
    let max_lpc_order :=
      if encoder.max_lpc_order ≥ frame_header.blocksize then
        (frame_header.blocksize + 2 ^ 32 - 1) % 2 ^ 32
      else encoder.max_lpc_order
    if max_lpc_order > 0 then
      let autoc := lib.lpc_compute_autocorrelation signal frame_header.blocksize
        ((max_lpc_order + 1) % 2 ^ 32)
      let c := lib.lpc_compute_lp_coefficients autoc max_lpc_order
      let guess_lpc_order := lib.lpc_compute_best_order c.2 max_lpc_order frame_header.blocksize
        frame_header.bits_per_sample
      let lpc_range : Nat × Nat :=
        if encoder.do_exhaustive_model_search then (1, max_lpc_order)
        else (guess_lpc_order, guess_lpc_order)
      let qlp_range : Nat × Nat :=
        if encoder.do_qlp_coeff_prec_search then
          (FLAC__MIN_QLP_COEFF_PRECISION,
            (32 + 2 ^ 32 - frame_header.bits_per_sample - 1) % 2 ^ 32)
        else (encoder.qlp_coeff_precision, encoder.qlp_coeff_precision)
      for_inclusive lpc_range.1 lpc_range.2
        (lpc_order_step lib signal c.1 c.2 frame_header.blocksize frame_header.bits_per_sample
          max_partition_order qlp_range) s
    else some s
  else some s

/-- The warmup comparison `for(i = 1; i <= FLAC__MAX_FIXED_ORDER; i++)` of the constant
check: whether `signal[0] == signal[i]` for every `i` it visits. -/
def signal_is_constant (signal : List Int) : Bool :=
  (List.range' 1 FLAC__MAX_FIXED_ORDER).all (fun i => signal.getD 0 0 == signal.getD i 0)

/-- The candidate search of `encoder_process_subframes_` for one channel, from the verbatim
baseline to the last LPC candidate.  The fixed predictor routine is called on
`signal + FLAC__MAX_FIXED_ORDER`; it is handed the whole array and the length
`blocksize - FLAC__MAX_FIXED_ORDER`. -/
def subframe_search (lib : EncoderLib) (encoder : EncoderSettings) (frame_header : FrameHeader)
    (signal : List Int) (max_partition_order : Nat) (s0 : SubframeSearch) :
    Option SubframeSearch :=
  let v := encoder_evaluate_verbatim_subframe_ frame_header.blocksize frame_header.bits_per_sample
  let s1 : SubframeSearch := { s0 with best_subframe := v.2, best_bits := v.1 }
  if frame_header.blocksize ≥ FLAC__MAX_FIXED_ORDER then
    let p := lib.fixed_compute_best_predictor signal
      (frame_header.blocksize - FLAC__MAX_FIXED_ORDER)
    if p.2.getD 1 0 = 0 then
      if signal_is_constant signal then
        let c := encoder_evaluate_constant_subframe_ (signal.getD 0 0) frame_header.bits_per_sample
        let s2 : SubframeSearch := { s1 with candidate_subframe := c.2 }
        if c.1 < s2.best_bits then some (encoder_promote_candidate_subframe_ s2 c.1) else some s2
      else some s1
    else
      let fixed_range : Nat × Nat :=
        if encoder.do_exhaustive_model_search then (0, FLAC__MAX_FIXED_ORDER) else (p.1, p.1)
      match for_inclusive fixed_range.1 fixed_range.2
          (fun fixed_order t =>
            some (fixed_order_step lib signal p.2 frame_header.blocksize
              frame_header.bits_per_sample max_partition_order fixed_order t)) s1 with
      | none => none
      | some s2 => lpc_search lib encoder frame_header signal max_partition_order s2
  else some s1

/-- The `switch` that appends the best subframe to the frame (`none` when the writer
fails). -/
def add_best_subframe (lib : EncoderLib) (s : SubframeSearch) (signal : List Int)
    (frame_header : FrameHeader) (frame : BitBuffer) : Option BitBuffer :=
  match s.best_subframe with
  | .CONSTANT _ => lib.subframe_add_constant frame_header.bits_per_sample s.best_subframe frame
  | .FIXED order _ _ =>
      lib.subframe_add_fixed (s.residual.getD s.best_residual [])
        ((frame_header.blocksize + 2 ^ 32 - order) % 2 ^ 32) frame_header.bits_per_sample
        s.best_subframe frame
  | .LPC order _ _ _ _ _ =>
      lib.subframe_add_lpc (s.residual.getD s.best_residual [])
        ((frame_header.blocksize + 2 ^ 32 - order) % 2 ^ 32) frame_header.bits_per_sample
        s.best_subframe frame
  | .VERBATIM =>
      lib.subframe_add_verbatim signal frame_header.blocksize frame_header.bits_per_sample frame

/-- The loop `while(!(b & 1)) { limit++; b >>= 1; }`: the final `limit`, or `none` when the
loop is still running after `fuel` tests (for `b = 0` it never ends). -/
def limit_loop : Nat → Nat → Nat → Option Nat
  | 0, _, _ => none
  | fuel + 1, b, limit =>
      if b % 2 = 0 then limit_loop fuel (b / 2) (limit + 1) else some limit

/-- The `max_partition_order` computed at the start of `encoder_process_subframes_`. -/
def max_partition_order_of (encoder : EncoderSettings) (is_last_frame : Bool) : Option Nat :=
  if is_last_frame then some 0
  else
    match limit_loop 33 encoder.blocksize 0 with
    | none => none
    | some limit => some (min encoder.rice_optimization_level limit)

/-- The channel loop of `encoder_process_subframes_` over the remaining channels. -/
def subframes_channel_loop (lib : EncoderLib) (frame_header : FrameHeader)
    (integer_signal : List (List Int)) (max_partition_order : Nat) :
    List Nat → ActiveEncoder → BitBuffer → Option (Bool × ActiveEncoder × BitBuffer)
  | [], encoder, frame => some (true, encoder, frame)
  | channel :: rest, encoder, frame =>
      let signal := integer_signal.getD channel []
      let s0 : SubframeSearch :=
        { best_subframe := encoder.guts.best_subframe
          candidate_subframe := encoder.guts.candidate_subframe
          residual := encoder.guts.residual
          best_residual := encoder.guts.best_residual
          best_bits := 0 }
      match subframe_search lib encoder.toEncoderSettings frame_header signal
          max_partition_order s0 with
      | none => none
      | some s =>
          let e1 : ActiveEncoder :=
            { encoder with
                guts := { encoder.guts with
                  best_subframe := s.best_subframe
                  candidate_subframe := s.candidate_subframe
                  residual := s.residual
                  best_residual := s.best_residual } }
          match add_best_subframe lib s signal frame_header frame with
          | none => some (false, { e1 with state := .FATAL_ERROR_WHILE_ENCODING }, frame)
          | some frame1 =>
              subframes_channel_loop lib frame_header integer_signal max_partition_order rest e1
                frame1

/-- `encoder_process_subframes_`: the returned flag, the encoder and the bit buffer `frame`
afterwards; `none` when the function does not return. -/
def encoder_process_subframes_ (lib : EncoderLib) (encoder : ActiveEncoder)
    (is_last_frame : Bool) (frame_header : FrameHeader) (channels : Nat)
    (integer_signal : List (List Int)) (frame : BitBuffer) :
    Option (Bool × ActiveEncoder × BitBuffer) :=
  match max_partition_order_of encoder.toEncoderSettings is_last_frame with
  | none => none
  | some max_partition_order =>
      subframes_channel_loop lib frame_header integer_signal max_partition_order
        (List.range channels) encoder frame

/-! ## Stream encoder: frames -/

/-- One candidate frame of `encoder_process_frame_`: clear the bit buffer `buffer`, add the
frame header and the subframes of `integer_signal`.  Returns the encoder and the finished
bit buffer, or `none` in its place after a failure (the state is then set); the outer
`none` means the code does not return. -/
def build_candidate (lib : EncoderLib) (encoder : ActiveEncoder) (is_last_frame : Bool)
    (frame_header : FrameHeader) (integer_signal : List (List Int)) (buffer : BitBuffer) :
    Option (ActiveEncoder × Option BitBuffer) :=
  match lib.bitbuffer_clear buffer with
  | none => some ({ encoder with state := .MEMORY_ALLOCATION_ERROR }, none)
  | some b0 =>
      match lib.frame_add_header frame_header encoder.streamable_subset is_last_frame b0 with
      | none => some ({ encoder with state := .FRAMING_ERROR }, none)
      | some b1 =>
          match encoder_process_subframes_ lib encoder is_last_frame frame_header
              encoder.channels integer_signal b1 with
          | none => none
          | some (false, e1, _) => some (e1, none)
          | some (true, e1, b2) => some (e1, some b2)

/-- The frame header `encoder_process_frame_` fills in, with the given channel
assignment. -/
def frame_header_of (encoder : ActiveEncoder) (channel_assignment : Nat) : FrameHeader :=
  { blocksize := encoder.blocksize
    sample_rate := encoder.sample_rate
    channels := encoder.channels
    channel_assignment := channel_assignment
    bits_per_sample := encoder.bits_per_sample
    number := encoder.guts.current_frame_number }

/-- The tail of `encoder_process_frame_` from `Zero-pad the frame` on: `smallest_frame` is
the chosen bit buffer and `which` says which of the four it is (0 `frame`, 1
`frame_mid_side`, 2 `frame_left_side`, 3 `frame_right_side`). -/
def write_frame (lib : EncoderLib) (client : EncoderClient) (encoder : ActiveEncoder)
    (which : Nat) (smallest_frame : BitBuffer) : Bool × ActiveEncoder × List EncoderCall :=
  match lib.bitbuffer_zero_pad_to_byte_boundary smallest_frame with
  | none => (false, { encoder with state := .MEMORY_ALLOCATION_ERROR }, [])
  | some padded =>
      let g0 := encoder.guts
      let g1 : EncoderPrivate :=
        if which = 0 then { g0 with frame := padded }
        else if which = 1 then { g0 with frame_mid_side := padded }
        else if which = 2 then { g0 with frame_left_side := padded }
        else { g0 with frame_right_side := padded }
      let call := EncoderCall.write padded.buffer padded.bytes encoder.blocksize
        g0.current_frame_number
      if client.write_callback padded.buffer padded.bytes encoder.blocksize
          g0.current_frame_number ≠ .OK then
        (false, { encoder with guts := g1, state := .FATAL_ERROR_WHILE_WRITING }, [call])
      else
        let m := g1.metadata.encoding
        let g2 : EncoderPrivate :=
          { g1 with
              current_frame_can_do_mid_side := true
              current_sample_number := 0
              current_frame_number := (g1.current_frame_number + 1) % 2 ^ 32
              metadata := { g1.metadata with
                encoding := { m with
                  total_samples := (m.total_samples + encoder.blocksize) % 2 ^ 64
                  min_framesize := if padded.bytes < m.min_framesize then padded.bytes
                    else m.min_framesize
                  max_framesize := if padded.bytes > m.max_framesize then padded.bytes
                    else m.max_framesize } } }
        (true, { encoder with guts := g2 }, [call])

/-- `encoder_process_frame_`: the returned flag, the encoder and the client calls made;
`none` when the function does not return. -/
def encoder_process_frame_ (lib : EncoderLib) (client : EncoderClient)
    (encoder : ActiveEncoder) (is_last_frame : Bool) :
    Option (Bool × ActiveEncoder × List EncoderCall) :=
  match build_candidate lib encoder is_last_frame
      (frame_header_of encoder FLAC__CHANNEL_ASSIGNMENT_INDEPENDENT)
      encoder.guts.integer_signal encoder.guts.frame with
  | none => none
  | some (e0, none) => some (false, e0, [])
  | some (e0, some frame) =>
      let e1 : ActiveEncoder := { e0 with guts := { e0.guts with frame := frame } }
      if e1.do_mid_side_stereo ∧ e1.guts.current_frame_can_do_mid_side then
        let left := e1.guts.integer_signal.getD 0 []
        let right := e1.guts.integer_signal.getD 1 []
        let mid := e1.guts.integer_signal_mid_side.getD 0 []
        let side := e1.guts.integer_signal_mid_side.getD 1 []
        match build_candidate lib e1 is_last_frame
            (frame_header_of e1 FLAC__CHANNEL_ASSIGNMENT_MID_SIDE) [mid, side]
            e1.guts.frame_mid_side with
        | none => none
        | some (e2, none) => some (false, e2, [])
        | some (e2, some frame_mid_side) =>
            let e3 : ActiveEncoder :=
              { e2 with guts := { e2.guts with frame_mid_side := frame_mid_side } }
            let smallest1 : Nat × BitBuffer :=
              if frame_mid_side.total_bits < frame.total_bits then (1, frame_mid_side)
              else (0, frame)
            match build_candidate lib e3 is_last_frame
                (frame_header_of e3 FLAC__CHANNEL_ASSIGNMENT_LEFT_SIDE) [left, side]
                e3.guts.frame_left_side with
            | none => none
            | some (e4, none) => some (false, e4, [])
            | some (e4, some frame_left_side) =>
                let e5 : ActiveEncoder :=
                  { e4 with guts := { e4.guts with frame_left_side := frame_left_side } }
                let smallest2 : Nat × BitBuffer :=
                  if frame_left_side.total_bits < smallest1.2.total_bits then
                    (2, frame_left_side)
                  else smallest1
                match build_candidate lib e5 is_last_frame
                    (frame_header_of e5 FLAC__CHANNEL_ASSIGNMENT_RIGHT_SIDE) [side, right]
                    e5.guts.frame_right_side with
                | none => none
                | some (e6, none) => some (false, e6, [])
                | some (e6, some frame_right_side) =>
                    let e7 : ActiveEncoder :=
                      { e6 with guts := { e6.guts with frame_right_side := frame_right_side } }
                    let smallest3 : Nat × BitBuffer :=
                      if frame_right_side.total_bits < smallest2.2.total_bits then
                        (3, frame_right_side)
                      else smallest2
                    some (write_frame lib client e7 smallest3.1 smallest3.2)
      else
        some (write_frame lib client e1 0 frame)

/-! ## Stream encoder: public functions -/

/-- The first loop of `encoder_resize_buffers_` (`for(i = 0; ok && i < channels; i++)`):
the integer and the floating point array of each channel. -/
def resize_signal_loop (lib : EncoderLib) (new_size : Nat) :
    List Nat → Bool → ActiveEncoder → Bool × ActiveEncoder
  | [], ok, encoder => (ok, encoder)
  | i :: rest, ok, encoder =>
      if ok = false then (ok, encoder)
      else
        let r1 : Bool × ActiveEncoder :=
          match lib.malloc_int32 (2 * i) new_size with
          | none => (false, { encoder with state := .MEMORY_ALLOCATION_ERROR })
          | some current_is =>
              (true, { encoder with
                guts := { encoder.guts with
                  integer_signal := encoder.guts.integer_signal.set i current_is } })
        let r2 : Bool × ActiveEncoder :=
          if lib.malloc_real_ok (2 * i + 1) new_size then r1
          else (false, { r1.2 with state := .MEMORY_ALLOCATION_ERROR })
        resize_signal_loop lib new_size rest r2.1 r2.2

/-- The second loop of `encoder_resize_buffers_` (`for(i = 0; ok && i < 2; i++)`): the
mid-side arrays; `base` is the number of allocations made before it. -/
def resize_mid_side_loop (lib : EncoderLib) (new_size base : Nat) :
    List Nat → Bool → ActiveEncoder → Bool × ActiveEncoder
  | [], ok, encoder => (ok, encoder)
  | i :: rest, ok, encoder =>
      if ok = false then (ok, encoder)
      else
        let r1 : Bool × ActiveEncoder :=
          match lib.malloc_int32 (base + 2 * i) new_size with
          | none => (false, { encoder with state := .MEMORY_ALLOCATION_ERROR })
          | some current_is =>
              (true, { encoder with
                guts := { encoder.guts with
                  integer_signal_mid_side :=
                    encoder.guts.integer_signal_mid_side.set i current_is } })
        let r2 : Bool × ActiveEncoder :=
          if lib.malloc_real_ok (base + 2 * i + 1) new_size then r1
          else (false, { r1.2 with state := .MEMORY_ALLOCATION_ERROR })
        resize_mid_side_loop lib new_size base rest r2.1 r2.2

/-- The third loop of `encoder_resize_buffers_` (`for(i = 0; i < 2; i++)`): the residual
arrays. -/
def resize_residual_loop (lib : EncoderLib) (new_size base : Nat) :
    List Nat → Bool → ActiveEncoder → Bool × ActiveEncoder
  | [], ok, encoder => (ok, encoder)
  | i :: rest, ok, encoder =>
      match lib.malloc_int32 (base + i) new_size with
      | none =>
          resize_residual_loop lib new_size base rest false
            { encoder with state := .MEMORY_ALLOCATION_ERROR }
      | some residual =>
          resize_residual_loop lib new_size base rest ok
            { encoder with
                guts := { encoder.guts with residual := encoder.guts.residual.set i residual } }

/-- `encoder_resize_buffers_`. -/
def encoder_resize_buffers_ (lib : EncoderLib) (encoder : ActiveEncoder) (new_size : Nat) :
    Bool × ActiveEncoder :=
  if new_size ≤ encoder.guts.input_capacity then (true, encoder)
  else
    let r1 := resize_signal_loop lib new_size (List.range encoder.channels) true encoder
    let r2 : Bool × ActiveEncoder :=
      if r1.1 then resize_mid_side_loop lib new_size (2 * encoder.channels) (List.range 2) true r1.2
      else r1
    let r3 : Bool × ActiveEncoder :=
      if r2.1 then resize_residual_loop lib new_size (2 * encoder.channels + 4) (List.range 2) true r2.2
      else r2
    if r3.1 then (true, { r3.2 with guts := { r3.2.guts with input_capacity := new_size } })
    else (false, r3.2)

/-- The precision `FLAC__encoder_init` chooses when `qlp_coeff_precision == 0`.  The last
case is `min(13, 8*sizeof(int32) - bits_per_sample - 1)`, computed in `size_t` (64 bit). -/
def default_qlp_coeff_precision (bits_per_sample blocksize : Nat) : Nat :=
  if bits_per_sample < 16 then
    let v := (2 + bits_per_sample / 2) % 2 ^ 32
    if 5 > v then 5 else v
  else if bits_per_sample = 16 then
    if blocksize ≤ 192 then 7
    else if blocksize ≤ 384 then 8
    else if blocksize ≤ 576 then 9
    else if blocksize ≤ 1152 then 10
    else if blocksize ≤ 2304 then 11
    else if blocksize ≤ 4608 then 12
    else 13
  else
    let v := (32 + 2 ^ 64 - bits_per_sample - 1) % 2 ^ 64
    (if 13 < v then 13 else v) % 2 ^ 32

/-- The metadata block `FLAC__encoder_init` fills in before it writes the stream header:
the frame sizes and the number of samples are not known yet and are 0. -/
def initial_metadata (lib : EncoderLib) (encoder : EncoderSettings) : EncoderMetaData :=
  { type := lib.METADATA_TYPE_ENCODING
    is_last := true
    length := lib.STREAM_METADATA_ENCODING_LENGTH
    encoding :=
      { min_blocksize := encoder.blocksize
        max_blocksize := encoder.blocksize
        min_framesize := 0
        max_framesize := 0
        sample_rate := encoder.sample_rate
        channels := encoder.channels
        bits_per_sample := encoder.bits_per_sample
        total_samples := 0 } }

/-- The part of `FLAC__encoder_init` from `malloc` of the private part on; `encoder` holds
the settings after the parameter checks. -/
def encoder_init_guts (lib : EncoderLib) (client : EncoderClient) (encoder : Encoder) :
    Encoder × List EncoderCall :=
  match lib.malloc_guts with
  | none => ({ encoder with guts := none, state := .MEMORY_ALLOCATION_ERROR }, [])
  | some fresh =>
      let g0 : EncoderPrivate :=
        { fresh with
            input_capacity := 0
            integer_signal := List.replicate encoder.channels []
            integer_signal_mid_side := [[], []]
            residual := [[], []]
            best_residual := 0
            current_frame_can_do_mid_side := true
            current_sample_number := 0
            current_frame_number := 0 }
      let a0 : ActiveEncoder := { toEncoderSettings := encoder.toEncoderSettings, guts := g0 }
      let r := encoder_resize_buffers_ lib a0 a0.blocksize
      if r.1 = false then (r.2.toEncoder, [])
      else
        let a1 : ActiveEncoder :=
          { r.2 with guts := { r.2.guts with frame := lib.bitbuffer_init r.2.guts.frame } }
        match lib.bitbuffer_clear a1.guts.frame with
        | none => ({ a1 with state := .MEMORY_ALLOCATION_ERROR }.toEncoder, [])
        | some b0 =>
            match lib.bitbuffer_write_raw_uint32 b0 FLAC__STREAM_SYNC FLAC__STREAM_SYNC_LEN with
            | none =>
                ({ a1 with guts := { a1.guts with frame := b0 },
                           state := .FRAMING_ERROR }.toEncoder, [])
            | some b1 =>
                let metadata : EncoderMetaData := initial_metadata lib a1.toEncoderSettings
                let a2 : ActiveEncoder :=
                  { a1 with guts := { a1.guts with frame := b1, metadata := metadata } }
                match lib.add_metadata_block metadata b1 with
                | none => ({ a2 with state := .FRAMING_ERROR }.toEncoder, [])
                | some b2 =>
                    let a3 : ActiveEncoder := { a2 with guts := { a2.guts with frame := b2 } }
                    let call := EncoderCall.write b2.buffer b2.bytes 0
                      a3.guts.current_frame_number
                    if client.write_callback b2.buffer b2.bytes 0
                        a3.guts.current_frame_number ≠ .OK then
                      ({ a3 with state := .FATAL_ERROR_WHILE_WRITING }.toEncoder, [call])
                    else
                      let m := a3.guts.metadata
                      let a4 : ActiveEncoder :=
                        { a3 with
                            guts := { a3.guts with
                              metadata := { m with
                                encoding := { m.encoding with
                                  min_framesize :=
                                    2 ^ FLAC__STREAM_METADATA_ENCODING_MIN_FRAME_SIZE_LEN - 1 } } } }
                      (a4.toEncoder, [call])

/-- `FLAC__encoder_init` with the value of the constant `FLAC__MAX_SAMPLE_RATE`, which
`encoder.c` takes from `FLAC/format.h`, as the parameter `max_sample_rate`: the encoder
afterwards (its `state` is the returned value) and the client calls made. -/
def FLAC__encoder_init_with (max_sample_rate : Nat) (lib : EncoderLib) (client : EncoderClient)
    (encoder : Encoder) : Encoder × List EncoderCall :=
  let e0 : Encoder := { encoder with state := .OK }
  if e0.channels = 0 ∨ e0.channels > FLAC__MAX_CHANNELS then
    ({ e0 with state := .INVALID_NUMBER_OF_CHANNELS }, [])
  else if e0.do_mid_side_stereo ∧ e0.channels ≠ 2 then
    ({ e0 with state := .MID_SIDE_CHANNELS_MISMATCH }, [])
  else if e0.do_mid_side_stereo ∧ e0.bits_per_sample > 16 then
    ({ e0 with state := .MID_SIDE_SAMPLE_SIZE_MISMATCH }, [])
  else if e0.bits_per_sample = 0 ∨ e0.bits_per_sample > FLAC__MAX_BITS_PER_SAMPLE then
    ({ e0 with state := .INVALID_BITS_PER_SAMPLE }, [])
  else if e0.sample_rate = 0 ∨ e0.sample_rate > max_sample_rate then
    ({ e0 with state := .INVALID_SAMPLE_RATE }, [])
  else if e0.blocksize < FLAC__MIN_BLOCK_SIZE ∨ e0.blocksize > FLAC__MAX_BLOCK_SIZE then
    ({ e0 with state := .INVALID_BLOCK_SIZE }, [])
  else if e0.blocksize < e0.max_lpc_order then
    ({ e0 with state := .BLOCK_SIZE_TOO_SMALL_FOR_LPC_ORDER }, [])
  else if e0.qlp_coeff_precision ≠ 0 ∧
      (e0.qlp_coeff_precision < FLAC__MIN_QLP_COEFF_PRECISION ∨
        (e0.qlp_coeff_precision + e0.bits_per_sample) % 2 ^ 32 ≥ 32) then
    ({ e0 with state := .INVALID_QLP_COEFF_PRECISION }, [])
  else
    let e1 : Encoder :=
      if e0.qlp_coeff_precision = 0 then
        { e0 with
            qlp_coeff_precision := default_qlp_coeff_precision e0.bits_per_sample e0.blocksize }
      else e0
    if e1.streamable_subset ∧
        (e1.bits_per_sample ≠ 8 ∧ e1.bits_per_sample ≠ 12 ∧ e1.bits_per_sample ≠ 16 ∧
          e1.bits_per_sample ≠ 20 ∧ e1.bits_per_sample ≠ 24) then
      ({ e1 with state := .NOT_STREAMABLE }, [])
    else if e1.streamable_subset ∧ e1.sample_rate > 655350 then
      ({ e1 with state := .NOT_STREAMABLE }, [])
    else
      let e2 : Encoder :=
        if e1.rice_optimization_level ≥
            2 ^ FLAC__ENTROPY_CODING_METHOD_PARTITIONED_RICE_ORDER_LEN then
          { e1 with
              rice_optimization_level :=
                2 ^ FLAC__ENTROPY_CODING_METHOD_PARTITIONED_RICE_ORDER_LEN - 1 }
        else e1
      encoder_init_guts lib client e2

/-- `FLAC__encoder_init`: the encoder afterwards (its `state` is the returned value) and
the client calls made.  `FLAC__MAX_SAMPLE_RATE` has the value the specification states. -/
def FLAC__encoder_init (lib : EncoderLib) (client : EncoderClient) (encoder : Encoder) :
    Encoder × List EncoderCall :=
  FLAC__encoder_init_with FLAC__MAX_SAMPLE_RATE lib client encoder

/-- Conversion of a 64 bit value to `int32` (the value modulo `2^32`, in the signed range). -/
def to_int32 (x : Int) : Int := (x + 2 ^ 31) % 2 ^ 32 - 2 ^ 31

/-- The body of the sample loop of `FLAC__encoder_process` for input index `j` and buffer
index `i`: store the sample of every channel, update the mid-side buffers, and increment
`current_sample_number`.  The subtraction and the addition of two samples are the exact
integer operations (their overflow in `int32` is undefined in C). -/
def store_sample (encoder : ActiveEncoder) (buf : Buffers) (i j : Nat) : ActiveEncoder :=
  let g := encoder.guts
  let integer_signal := (List.range encoder.channels).foldl
    (fun sig channel =>
      sig.set channel ((sig.getD channel []).set i ((buf.getD channel []).getD j 0)))
    g.integer_signal
  let g1 : EncoderPrivate := { g with integer_signal := integer_signal }
  let ms : Bool := encoder.do_mid_side_stereo && encoder.channels == 2
  let min_side : Int := to_int32 (-(2 ^ (encoder.bits_per_sample - 1)))
  let max_side : Int := to_int32 (2 ^ (encoder.bits_per_sample - 1) - 1)
  let g2 : EncoderPrivate :=
    if ms ∧ g1.current_frame_can_do_mid_side then
      let left := (buf.getD 0 []).getD j 0
      let right := (buf.getD 1 []).getD j 0
      let side := left - right
      if side < min_side ∨ side > max_side then
        { g1 with current_frame_can_do_mid_side := false }
      else
        let mid := (left + right) >>> 1
        { g1 with
            integer_signal_mid_side :=
              (g1.integer_signal_mid_side.set 0
                ((g1.integer_signal_mid_side.getD 0 []).set i mid)).set 1
                ((g1.integer_signal_mid_side.getD 1 []).set i side) }
    else g1
  { encoder with
      guts := { g2 with current_sample_number := (g2.current_sample_number + 1) % 2 ^ 32 } }

/-- The loop `for(i = current_sample_number; i < blocksize && j < samples; i++, j++)` of
`FLAC__encoder_process`, at most `fuel` iterations: the final `i`, `j` and encoder. -/
def fill_loop (buf : Buffers) (samples : Nat) :
    Nat → Nat → Nat → ActiveEncoder → Nat × Nat × ActiveEncoder
  | 0, i, j, encoder => (i, j, encoder)
  | fuel + 1, i, j, encoder =>
      if i < encoder.blocksize ∧ j < samples then
        fill_loop buf samples fuel (i + 1) (j + 1) (store_sample encoder buf i j)
      else (i, j, encoder)

/-- The `do ... while(j < samples)` loop of `FLAC__encoder_process`, at most `fuel`
iterations; `calls` are the client calls made so far.  `none` when the loop is still
running after `fuel` iterations or a frame does not return. -/
def process_loop (lib : EncoderLib) (client : EncoderClient) (buf : Buffers) (samples : Nat) :
    Nat → Nat → ActiveEncoder → List EncoderCall →
      Option (Bool × ActiveEncoder × List EncoderCall)
  | 0, _, _, _ => none
  | fuel + 1, j, encoder, calls =>
      let f := fill_loop buf samples (samples - j) encoder.guts.current_sample_number j encoder
      if f.1 = f.2.2.blocksize then
        match encoder_process_frame_ lib client f.2.2 false with
        | none => none
        | some (false, e1, c) => some (false, e1, calls ++ c)
        | some (true, e1, c) =>
            if f.2.1 < samples then process_loop lib client buf samples fuel f.2.1 e1 (calls ++ c)
            else some (true, e1, calls ++ c)
      else if f.2.1 < samples then process_loop lib client buf samples fuel f.2.1 f.2.2 calls
      else some (true, f.2.2, calls)

/-- `FLAC__encoder_process`: the returned flag, the encoder and the client calls made;
`none` when the function does not return.  Every iteration of the outer loop but the first
consumes a sample or never ends, so `samples + 2` iterations are enough whenever the
function returns. -/
def FLAC__encoder_process (lib : EncoderLib) (client : EncoderClient) (encoder : ActiveEncoder)
    (buf : Buffers) (samples : Nat) : Option (Bool × ActiveEncoder × List EncoderCall) :=
  process_loop lib client buf samples (samples + 2) 0 encoder []

/-- `FLAC__encoder_finish`: the encoder afterwards and the client calls made.  `none` when
the function does not return normally: the last frame does not return, or `guts` is null
while the state is not `UNINITIALIZED` (the function dereferences it). -/
def FLAC__encoder_finish (lib : EncoderLib) (client : EncoderClient) (encoder : Encoder) :
    Option (Encoder × List EncoderCall) :=
  if encoder.state = .UNINITIALIZED then some (encoder, [])
  else
    match encoder.guts with
    | none => none
    | some g =>
        let a0 : ActiveEncoder := { toEncoderSettings := encoder.toEncoderSettings, guts := g }
        let flushed : Option (ActiveEncoder × List EncoderCall) :=
          if g.current_sample_number ≠ 0 then
            match encoder_process_frame_ lib client
                { a0 with blocksize := g.current_sample_number } true with
            | none => none
            | some r => some (r.2.1, r.2.2)
          else some (a0, [])
        match flushed with
        | none => none
        | some (a1, calls) =>
            some ({ toEncoderSettings := { a1.toEncoderSettings with state := .UNINITIALIZED },
                    guts := none },
                  calls ++ [.metadata a1.guts.metadata])

/-- Successive calls of `FLAC__encoder_process`, one per chunk `(buf, samples)`, stopping
at the first call that returns `false`. -/
def encoder_process_all (lib : EncoderLib) (client : EncoderClient) :
    List (Buffers × Nat) → ActiveEncoder → Option (Bool × ActiveEncoder × List EncoderCall)
  | [], encoder => some (true, encoder, [])
  | chunk :: rest, encoder =>
      match FLAC__encoder_process lib client encoder chunk.1 chunk.2 with
      | none => none
      | some (false, e1, c) => some (false, e1, c)
      | some (true, e1, c) =>
          match encoder_process_all lib client rest e1 with
          | none => none
          | some r => some (r.1, r.2.1, c ++ r.2.2)

/-- A whole encoding session after a successful `FLAC__encoder_init`: the chunks are
processed in order (up to the first failing call) and `FLAC__encoder_finish` is called.
Returns the encoder afterwards and the client calls made by the processing calls and by the
finishing call. -/
def encoder_session (lib : EncoderLib) (client : EncoderClient) (encoder : ActiveEncoder)
    (chunks : List (Buffers × Nat)) : Option (Encoder × List EncoderCall) :=
  match encoder_process_all lib client chunks encoder with
  | none => none
  | some r =>
      match FLAC__encoder_finish lib client r.2.1.toEncoder with
      | none => none
      | some t => some (t.1, r.2.2 ++ t.2)

/-! ## Sequences of calls on a file decoder -/

/-- A call of the public decoding interface on an initialized file decoder: one of the
`FLAC__file_decoder_process_*` functions, or `FLAC__file_decoder_seek_absolute`. -/
inductive DecoderCall
  | process (stream_at_eof : Bool) (call : StreamCall)
  | seek (env : SeekEnv) (sample : Nat)
  deriving DecidableEq, Repr

/-- Perform a sequence of calls, collecting the client calls. -/
def run_calls (client : FileDecoderClient) (md5 : MD5Lib) :
    ActiveDecoder → List DecoderCall → ActiveDecoder × List ClientCall
  | d, [] => (d, [])
  | d, .process stream_at_eof call :: rest =>
      let r := FLAC__file_decoder_process client md5 d stream_at_eof call
      let t := run_calls client md5 r.2.1 rest
      (t.1, r.2.2 ++ t.2)
  | d, .seek env sample :: rest =>
      let r := FLAC__file_decoder_seek_absolute client md5 env d sample
      let t := run_calls client md5 r.decoder rest
      (t.1, r.calls ++ t.2)

/-! ## Concrete values used to evaluate the definitions -/

/-- A client whose write callback always continues. -/
def example_decoder_client : FileDecoderClient :=
  { write_callback := fun _ _ => .CONTINUE }

/-- An MD5 stand-in: the digest is sixteen copies of the number of chunks accumulated. -/
def example_md5 : MD5Lib :=
  { final := fun context => List.replicate 16 context.length
    accumulate_ok := fun _ _ => true }

/-- A STREAMINFO body with the given total number of samples and MD5 sum. -/
def example_stream_info (total_samples : Nat) (md5sum : List Nat) : StreamInfo :=
  { min_blocksize := 16, max_blocksize := 16, min_framesize := 0, max_framesize := 0,
    sample_rate := 44100, channels := 1, bits_per_sample := 16,
    total_samples := total_samples, md5sum := md5sum }

/-- A STREAMINFO block with the given total number of samples and MD5 sum. -/
def example_stream_info_block (total_samples : Nat) (md5sum : List Nat) : StreamMetaData :=
  { type := .STREAMINFO, is_last := true, length := 34,
    stream_info := example_stream_info total_samples md5sum }

/-- A mono frame of sixteen samples starting at the given sample number. -/
def example_frame (number : Nat) : Frame :=
  { header := { blocksize := 16, sample_rate := 44100, channels := 1, channel_assignment := 0,
                bits_per_sample := 16, number := number } }

/-- A freshly opened decoder in state `OK` with MD5 checking on. -/
def example_decoder : ActiveDecoder :=
  { state := .OK
    check_md5 := true
    guts :=
      { file := true, file_is_stdin := false, stream := true, md5context := [],
        stored_md5sum := List.replicate 16 7, computed_md5sum := [],
        stream_info := example_stream_info 0 [],
        last_frame := example_frame 0, target_sample := 0 } }

/-- A seek script on a stream of unknown length: every library call succeeds, the metadata
call delivers a STREAMINFO block with `total_samples = 0`, and the first frame decoded by
the search is the frame of samples 0..15. -/
def example_seek_env : SeekEnv :=
  { reset_ok := true
    fseek_end_ok := true
    filesize := 1000
    rewind_ok := true
    metadata := { events := [.metadata (example_stream_info_block 0 (List.replicate 16 7))],
                  result := true }
    first_frame_offset := 50
    unconsumed := 8
    estimate := 0
    steps := [{ fseek_ok := true, flush_ok := true,
                frame := { events := [.write (example_frame 0) [List.replicate 16 5]],
                           result := true },
                ftell := 200, unconsumed := 0 }] }

/-- An empty bit buffer. -/
def example_bitbuffer : BitBuffer :=
  { buffer := [], bytes := 0, bits := 0, total_bits := 0, total_consumed_bits := 0 }

/-- Append `n` bytes of value `tag` to a byte-aligned bit buffer. -/
def example_append (b : BitBuffer) (tag n : Nat) : BitBuffer :=
  { b with buffer := b.buffer ++ List.replicate n tag, bytes := b.bytes + n,
           total_bits := b.total_bits + 8 * n }

/-- A private part as `malloc` might return it. -/
def example_guts : EncoderPrivate :=
  { input_capacity := 0, integer_signal := [], integer_signal_mid_side := [], residual := [],
    best_residual := 0, frame := example_bitbuffer, frame_mid_side := example_bitbuffer,
    frame_left_side := example_bitbuffer, frame_right_side := example_bitbuffer,
    best_subframe := .VERBATIM, candidate_subframe := .VERBATIM,
    current_frame_can_do_mid_side := false,
    metadata := { type := 0, is_last := false, length := 0,
                  encoding := { min_blocksize := 0, max_blocksize := 0, min_framesize := 0,
                                max_framesize := 0, sample_rate := 0, channels := 0,
                                bits_per_sample := 0, total_samples := 0 } },
    current_sample_number := 0, current_frame_number := 0 }

/-- A library in which nothing fails: allocation returns zeroed arrays, every writer appends
a fixed number of bytes, the fixed predictor reports zero expected bits for every order and
LPC analysis is trivial. -/
def example_lib : EncoderLib :=
  { malloc_guts := some example_guts
    malloc_int32 := fun _ n => some (List.replicate n 0)
    malloc_real_ok := fun _ _ => true
    METADATA_TYPE_ENCODING := 0
    STREAM_METADATA_ENCODING_LENGTH := 18
    bitbuffer_init := fun _ => example_bitbuffer
    bitbuffer_clear := fun _ => some example_bitbuffer
    bitbuffer_write_raw_uint32 := fun b _ n => some (example_append b 1 (n / 8))
    bitbuffer_zero_pad_to_byte_boundary := fun b => some b
    add_metadata_block := fun m b => some (example_append b 2 (4 + m.length))
    frame_add_header := fun _ _ _ b => some (example_append b 3 6)
    subframe_add_constant := fun _ _ b => some (example_append b 4 3)
    subframe_add_fixed := fun _ _ _ _ b => some (example_append b 5 3)
    subframe_add_lpc := fun _ _ _ _ b => some (example_append b 6 3)
    subframe_add_verbatim := fun _ n _ b => some (example_append b 7 n)
    fixed_compute_best_predictor := fun _ _ => (0, [0, 0, 0, 0, 0])
    fixed_compute_residual := fun _ r _ _ => r
    lpc_compute_autocorrelation := fun _ _ _ => []
    lpc_compute_lp_coefficients := fun _ _ => ([], [])
    lpc_compute_best_order := fun _ _ _ _ => 1
    lpc_compute_expected_bits_per_residual_sample := fun _ _ => 0
    lpc_quantize_coefficients := fun _ _ _ _ => (1, [], 0)
    lpc_compute_residual_from_qlp_coefficients := fun _ r _ _ _ _ => r }

/-- An encoder client whose write callback always succeeds. -/
def example_encoder_client : EncoderClient :=
  { write_callback := fun _ _ _ _ => .OK }

/-- Settings for a mono stream with the given sample size, an explicit coefficient
precision (0 for automatic) and blocksize 16; the streamable subset is not requested. -/
def example_encoder (bits_per_sample qlp_coeff_precision : Nat) : Encoder :=
  { state := .UNINITIALIZED, streamable_subset := false, do_mid_side_stereo := false,
    channels := 1, bits_per_sample := bits_per_sample, sample_rate := 44100, blocksize := 16,
    max_lpc_order := 0, qlp_coeff_precision := qlp_coeff_precision,
    do_qlp_coeff_prec_search := false, do_exhaustive_model_search := false,
    rice_optimization_level := 0, guts := none }

/-- The example decoder in the middle of a seek to sample 5. -/
def example_seeking_decoder : ActiveDecoder :=
  { example_decoder with
      state := .SEEKING
      guts := { example_decoder.guts with target_sample := 5 } }

/-- The example encoder after `FLAC__encoder_init` with 16 bit samples. -/
def example_initialized : ActiveEncoder :=
  { toEncoderSettings :=
      (FLAC__encoder_init example_lib example_encoder_client
        (example_encoder 16 0)).1.toEncoderSettings
    guts :=
      (FLAC__encoder_init example_lib example_encoder_client
        (example_encoder 16 0)).1.guts.getD example_guts }

/-- Two calls of `FLAC__encoder_process` with ten mono samples each. -/
def example_chunks : List (Buffers × Nat) :=
  [([[1, 2, 3, 4, 5, 6, 7, 8, 9, 10]], 10), ([[3, 1, 4, 1, 5, 9, 2, 6, 5, 3]], 10)]

/-- The outcome of the session that feeds `example_chunks` to the example encoder and
finishes. -/
def example_session_result : Encoder × List EncoderCall :=
  (encoder_session example_lib example_encoder_client example_initialized example_chunks).getD
    (example_encoder 16 0, [])

/-- Settings for a 16 bit stereo stream with mid-side coding enabled and blocksize 16. -/
def example_stereo_encoder : Encoder :=
  { example_encoder 16 0 with do_mid_side_stereo := true, channels := 2 }

/-- The stereo example encoder after `FLAC__encoder_init`. -/
def example_stereo : ActiveEncoder :=
  { toEncoderSettings :=
      (FLAC__encoder_init example_lib example_encoder_client
        example_stereo_encoder).1.toEncoderSettings
    guts :=
      (FLAC__encoder_init example_lib example_encoder_client
        example_stereo_encoder).1.guts.getD example_guts }

/-- One block of 16 stereo samples; the first has `left = 20000` and `right = -20000`, so
`left - right = 40000` needs 17 bits. -/
def example_wide_block : Buffers :=
  [[20000, 0, 0, 0, 0, 0, 0, 0, 0, 0, 0, 0, 0, 0, 0, 0],
   [-20000, 0, 0, 0, 0, 0, 0, 0, 0, 0, 0, 0, 0, 0, 0, 0]]

/-- One block of 16 stereo samples whose differences fit in 16 bits. -/
def example_narrow_block : Buffers :=
  [[5, 3, -7, 0, 0, 0, 0, 0, 0, 0, 0, 0, 0, 0, 0, 0],
   [2, 4, 1, 0, 0, 0, 0, 0, 0, 0, 0, 0, 0, 0, 0, 0]]

/-! ## Specification vocabulary for the encoder -/

/-- The call `call` hands the client exactly one frame: the bytes are those of a bit buffer
that `build_candidate` filled with one frame header and its subframes and that was then
padded to a byte boundary; the header carries the frame number passed as `current_frame`
and the blocksize passed as `samples`. -/
def IsFrameWrite (lib : EncoderLib) (call : EncoderCall) : Prop :=
  ∃ (e e' : ActiveEncoder) (is_last_frame : Bool) (channel_assignment : Nat)
    (integer_signal : List (List Int)) (buffer b padded : BitBuffer),
    build_candidate lib e is_last_frame (frame_header_of e channel_assignment) integer_signal
        buffer = some (e', some b) ∧
      lib.bitbuffer_zero_pad_to_byte_boundary b = some padded ∧
      call = .write padded.buffer padded.bytes e.blocksize e.guts.current_frame_number

/-- The encoder `e'` differs from `e` at most in its state and in the working storage of
frame construction (bit buffers, subframe descriptions, residual arrays): settings, input
buffers, metadata and the sample and frame counters are the same. -/
def frame_untouched (e e' : ActiveEncoder) : Prop :=
  e'.toEncoderSettings = { e.toEncoderSettings with state := e'.state } ∧
    e'.guts.input_capacity = e.guts.input_capacity ∧
    e'.guts.integer_signal = e.guts.integer_signal ∧
    e'.guts.integer_signal_mid_side = e.guts.integer_signal_mid_side ∧
    e'.guts.current_frame_can_do_mid_side = e.guts.current_frame_can_do_mid_side ∧
    e'.guts.metadata = e.guts.metadata ∧
    e'.guts.current_sample_number = e.guts.current_sample_number ∧
    e'.guts.current_frame_number = e.guts.current_frame_number

/-- The outcome `(ok, e', calls)` of a frame started on `e` is as `encoder_process_frame_`
promises: settings and input buffers are kept; on success exactly one frame is written with
the current blocksize and frame number, the client accepted it, the frame number advances by
one, the sample count by the blocksize and the block is empty again; on failure the
counters and the metadata are as before and at most one frame was handed to the client,
which refused it. -/
def frame_outcome (lib : EncoderLib) (client : EncoderClient) (e : ActiveEncoder)
    (ok : Bool) (e' : ActiveEncoder) (calls : List EncoderCall) : Prop :=
  e'.toEncoderSettings = { e.toEncoderSettings with state := e'.state } ∧
    e'.guts.input_capacity = e.guts.input_capacity ∧
    e'.guts.integer_signal = e.guts.integer_signal ∧
    e'.guts.integer_signal_mid_side = e.guts.integer_signal_mid_side ∧
    (ok = true →
      e'.state = e.state ∧
      e'.guts.current_frame_number = (e.guts.current_frame_number + 1) % 2 ^ 32 ∧
      e'.guts.current_sample_number = 0 ∧
      e'.guts.current_frame_can_do_mid_side = true ∧
      e'.guts.metadata.encoding.total_samples =
        (e.guts.metadata.encoding.total_samples + e.blocksize) % 2 ^ 64 ∧
      ∃ buffer bytes,
        calls = [.write buffer bytes e.blocksize e.guts.current_frame_number] ∧
        client.write_callback buffer bytes e.blocksize e.guts.current_frame_number = .OK ∧
        IsFrameWrite lib (.write buffer bytes e.blocksize e.guts.current_frame_number)) ∧
    (ok = false →
      e'.guts.current_frame_number = e.guts.current_frame_number ∧
      e'.guts.current_sample_number = e.guts.current_sample_number ∧
      e'.guts.current_frame_can_do_mid_side = e.guts.current_frame_can_do_mid_side ∧
      e'.guts.metadata = e.guts.metadata ∧
      (calls = [] ∨
        ∃ buffer bytes,
          calls = [.write buffer bytes e.blocksize e.guts.current_frame_number] ∧
          client.write_callback buffer bytes e.blocksize e.guts.current_frame_number ≠ .OK ∧
          IsFrameWrite lib (.write buffer bytes e.blocksize e.guts.current_frame_number)))

/-- The `samples` arguments of the write calls of a log, in order. -/
def written_samples : List EncoderCall → List Nat
  | [] => []
  | .write _ _ samples _ :: rest => samples :: written_samples rest
  | .metadata _ :: rest => written_samples rest

/-- The library writers used for a frame never fail. -/
def writers_never_fail (lib : EncoderLib) : Prop :=
  (∀ b, lib.bitbuffer_clear b ≠ none) ∧
    (∀ h s l b, lib.frame_add_header h s l b ≠ none) ∧
    (∀ n h b, lib.subframe_add_constant n h b ≠ none) ∧
    (∀ r n p h b, lib.subframe_add_fixed r n p h b ≠ none) ∧
    (∀ r n p h b, lib.subframe_add_lpc r n p h b ≠ none) ∧
    (∀ x n p b, lib.subframe_add_verbatim x n p b ≠ none) ∧
    (∀ b, lib.bitbuffer_zero_pad_to_byte_boundary b ≠ none)

/-- The order guesses of the library stay below the largest `unsigned`, the coefficient
precision does too, and the precision search is not combined with 32 bit samples: then
every `for` loop of the candidate search ends. -/
def search_loops_end (lib : EncoderLib) (encoder : EncoderSettings) : Prop :=
  (∀ x n, (lib.fixed_compute_best_predictor x n).1 < 2 ^ 32 - 1) ∧
    (∀ r m b p, lib.lpc_compute_best_order r m b p < 2 ^ 32 - 1) ∧
    (encoder.do_qlp_coeff_prec_search = true →
      0 < encoder.bits_per_sample ∧ encoder.bits_per_sample < 32) ∧
    encoder.qlp_coeff_precision < 2 ^ 32 - 1 ∧
    encoder.max_lpc_order < 2 ^ 32 - 1

/-- The `bytes` arguments of the write calls of a log that the client accepted, in order:
the byte lengths of the frames emitted. -/
def accepted_bytes (client : EncoderClient) : List EncoderCall → List Nat
  | [] => []
  | .write buffer bytes samples current_frame :: rest =>
      if client.write_callback buffer bytes samples current_frame = .OK then
        bytes :: accepted_bytes client rest
      else accepted_bytes client rest
  | .metadata _ :: rest => accepted_bytes client rest

/-! ## Metadata objects: data model (`metadata_object.c`)

`format.h`, which declares the types, is not among the translated files; the structures
follow the members the code touches.  A pointer to a heap array is an `Option (List _)`:
`none` is the null pointer, the list holds the array's elements.  The members of the union
`data` are separate fields. -/

/-- Modelled from the spec: the metadata block types (`FLAC__MetaDataType` of `format.h`);
`OTHER` stands for every other value of the enumeration (cue sheet, unknown, undefined). -/
inductive FLAC__MetaDataType
  | STREAMINFO
  | PADDING
  | APPLICATION
  | SEEKTABLE
  | VORBIS_COMMENT
  | OTHER (code : Nat)
  deriving DecidableEq, Repr

/-- Modelled from the spec: `FLAC__STREAM_METADATA_STREAMINFO_LENGTH`, the 34 bytes of a
STREAMINFO body. -/
def FLAC__STREAM_METADATA_STREAMINFO_LENGTH : Nat := 34

/-- Modelled from the spec: `FLAC__STREAM_METADATA_APPLICATION_ID_LEN`, the bits of the
4-byte application id. -/
def FLAC__STREAM_METADATA_APPLICATION_ID_LEN : Nat := 32

/-- Modelled from the spec: `FLAC__STREAM_METADATA_SEEKPOINT_LENGTH`, the 18 bytes of a
serialized seek point. -/
def FLAC__STREAM_METADATA_SEEKPOINT_LENGTH : Nat := 18

/-- Modelled from the spec: `FLAC__STREAM_METADATA_SEEKPOINT_PLACEHOLDER`, the sample number
`0xFFFFFFFFFFFFFFFF` that marks a placeholder point. -/
def FLAC__STREAM_METADATA_SEEKPOINT_PLACEHOLDER : Nat := 0xFFFFFFFFFFFFFFFF

/-- Modelled from the spec: `FLAC__STREAM_METADATA_VORBIS_COMMENT_ENTRY_LENGTH_LEN`, the bits
of the `u32` length in front of the vendor string and of every comment. -/
def FLAC__STREAM_METADATA_VORBIS_COMMENT_ENTRY_LENGTH_LEN : Nat := 32

/-- Modelled from the spec: `FLAC__STREAM_METADATA_VORBIS_COMMENT_NUM_COMMENTS_LEN`, the bits
of the `u32` comment count. -/
def FLAC__STREAM_METADATA_VORBIS_COMMENT_NUM_COMMENTS_LEN : Nat := 32

/-- The member `data.application`: the 4 byte id and the data pointer. -/
structure StreamMetaData_Application where
  id : List Nat
  data : Option (List Nat)
  deriving DecidableEq, Repr

/-- One seek point (`FLAC__StreamMetaData_SeekPoint`). -/
structure StreamMetaData_SeekPoint where
  sample_number : Nat
  stream_offset : Nat
  frame_samples : Nat
  deriving DecidableEq, Repr

/-- The member `data.seek_table`. -/
structure StreamMetaData_SeekTable where
  num_points : Nat
  points : Option (List StreamMetaData_SeekPoint)
  deriving DecidableEq, Repr

/-- One length-prefixed string (`FLAC__StreamMetaData_VorbisComment_Entry`). -/
structure StreamMetaData_VorbisComment_Entry where
  length : Nat
  entry : Option (List Nat)
  deriving DecidableEq, Repr

/-- The member `data.vorbis_comment`. -/
structure StreamMetaData_VorbisComment where
  vendor_string : StreamMetaData_VorbisComment_Entry
  num_comments : Nat
  comments : Option (List StreamMetaData_VorbisComment_Entry)
  deriving DecidableEq, Repr

/-- A metadata object (`FLAC__StreamMetaData`) as `metadata_object.c` handles it. -/
structure FLAC__StreamMetaData where
  type : FLAC__MetaDataType
  is_last : Bool
  length : Nat
  stream_info : StreamInfo
  application : StreamMetaData_Application
  seek_table : StreamMetaData_SeekTable
  vorbis_comment : StreamMetaData_VorbisComment
  deriving DecidableEq, Repr

/-- The allocator and the platform, which the code takes from the C library and the
compiler: `malloc_ok request size` tells whether the `request`-th `malloc` of a call
succeeds, `realloc_ok size` whether `realloc` to `size` bytes does; the `sizeof` values of
the object and of the two array element types; and what freshly allocated, not yet
initialized array elements hold. -/
structure Heap where
  malloc_ok : Nat → Nat → Bool
  realloc_ok : Nat → Bool
  sizeof_StreamMetaData : Nat
  sizeof_SeekPoint : Nat
  sizeof_VorbisComment_Entry : Nat
  stale_point : StreamMetaData_SeekPoint
  stale_entry : StreamMetaData_VorbisComment_Entry

/-- An entry of all zero bytes: length 0 and a null pointer. -/
def zero_entry : StreamMetaData_VorbisComment_Entry := { length := 0, entry := none }

/-- An object of all zero bytes, as `memset(object, 0, sizeof(FLAC__StreamMetaData))` leaves
it (type value 0 is STREAMINFO). -/
def zero_object : FLAC__StreamMetaData :=
  { type := .STREAMINFO
    is_last := false
    length := 0
    stream_info :=
      { min_blocksize := 0, max_blocksize := 0, min_framesize := 0, max_framesize := 0,
        sample_rate := 0, channels := 0, bits_per_sample := 0, total_samples := 0,
        md5sum := List.replicate 16 0 }
    application := { id := [0, 0, 0, 0], data := none }
    seek_table := { num_points := 0, points := none }
    vorbis_comment := { vendor_string := zero_entry, num_comments := 0, comments := none } }

/-- The point written into new seek table slots. -/
def placeholder_point : StreamMetaData_SeekPoint :=
  { sample_number := FLAC__STREAM_METADATA_SEEKPOINT_PLACEHOLDER
    stream_offset := 0
    frame_samples := 0 }

/-! ## Metadata objects: local routines -/

/-- `copy_vcentry_`: the returned flag and `*to` (here `dst`) afterwards; the length is stored before
the allocation is tried. -/
def copy_vcentry_ (heap : Heap) (request : Nat)
    (dst src : StreamMetaData_VorbisComment_Entry) :
    Bool × StreamMetaData_VorbisComment_Entry :=
  let to1 := { dst with length := src.length }
  match src.entry with
  | none => (true, { to1 with entry := none })
  | some x =>
      if heap.malloc_ok request src.length then
        (true, { to1 with entry := some (x.take src.length) })
      else (false, to1)

/-- `seektable_calculate_length_`. -/
def seektable_calculate_length_ (object : FLAC__StreamMetaData) : FLAC__StreamMetaData :=
  { object with
      length :=
        (object.seek_table.num_points * FLAC__STREAM_METADATA_SEEKPOINT_LENGTH) % 2 ^ 32 }

/-- The loop `for(i = lo; i < hi; i++) points[i] = placeholder`. -/
def set_placeholders (lo hi : Nat) (points : List StreamMetaData_SeekPoint) :
    List StreamMetaData_SeekPoint :=
  (List.range' lo (hi - lo)).foldl (fun array i => array.set i placeholder_point) points

/-- `seekpoint_array_new_`: `none` is the null pointer of a failed `malloc`. -/
def seekpoint_array_new_ (heap : Heap) (request num_points : Nat) :
    Option (List StreamMetaData_SeekPoint) :=
  if heap.malloc_ok request ((num_points * heap.sizeof_SeekPoint) % 2 ^ 64) then
    some (set_placeholders 0 num_points (List.replicate num_points heap.stale_point))
  else none

/-- `vorbiscomment_calculate_length_`: every `+=` is an `unsigned` addition. -/
def vorbiscomment_calculate_length_ (object : FLAC__StreamMetaData) : FLAC__StreamMetaData :=
  let v := object.vorbis_comment
  let l0 := (FLAC__STREAM_METADATA_VORBIS_COMMENT_ENTRY_LENGTH_LEN / 8) % 2 ^ 32
  let l1 := (l0 + v.vendor_string.length) % 2 ^ 32
  let l2 := (l1 + FLAC__STREAM_METADATA_VORBIS_COMMENT_NUM_COMMENTS_LEN / 8) % 2 ^ 32
  let l3 := (List.range v.num_comments).foldl
    (fun length i =>
      ((length + FLAC__STREAM_METADATA_VORBIS_COMMENT_ENTRY_LENGTH_LEN / 8) % 2 ^ 32 +
        ((v.comments.getD []).getD i zero_entry).length) % 2 ^ 32)
    l2
  { object with length := l3 }

/-- `vorbiscomment_entry_array_new_`: the array is zeroed with `memset`. -/
def vorbiscomment_entry_array_new_ (heap : Heap) (request num_comments : Nat) :
    Option (List StreamMetaData_VorbisComment_Entry) :=
  if heap.malloc_ok request ((num_comments * heap.sizeof_VorbisComment_Entry) % 2 ^ 64) then
    some (List.replicate num_comments zero_entry)
  else none

/-- The entry a `dest` pointer of `vorbiscomment_set_entry_` points to: the vendor string or
the comment with the given index. -/
inductive EntrySlot
  | vendor_string
  | comment (comment_num : Nat)
  deriving DecidableEq, Repr

/-- Read the entry `dest` points to. -/
def EntrySlot.read (object : FLAC__StreamMetaData) :
    EntrySlot → StreamMetaData_VorbisComment_Entry
  | .vendor_string => object.vorbis_comment.vendor_string
  | .comment n => (object.vorbis_comment.comments.getD []).getD n zero_entry

/-- Store through `dest`. -/
def EntrySlot.store (object : FLAC__StreamMetaData) (x : StreamMetaData_VorbisComment_Entry) :
    EntrySlot → FLAC__StreamMetaData
  | .vendor_string => { object with vorbis_comment := { object.vorbis_comment with vendor_string := x } }
  | .comment n =>
      { object with
          vorbis_comment := { object.vorbis_comment with
            comments := object.vorbis_comment.comments.map (fun array => array.set n x) } }

/-- `vorbiscomment_set_entry_`: the returned flag and the object afterwards.  The following
`free(save)` releases the bytes `src` pointed to; the contents of entries are kept as they
were at the assignment. -/
def vorbiscomment_set_entry_ (heap : Heap) (object : FLAC__StreamMetaData) (dest : EntrySlot)
    (src : StreamMetaData_VorbisComment_Entry) (copy : Bool) : Bool × FLAC__StreamMetaData :=
  if copy then
    let r := copy_vcentry_ heap 0 (dest.read object) src
    if r.1 = false then (false, dest.store object r.2)
    else (true, vorbiscomment_calculate_length_ (dest.store object r.2))
  else (true, vorbiscomment_calculate_length_ (dest.store object src))

/-! ## Metadata objects: public routines -/

/-- `FLAC__metadata_object_new`: `none` is the null pointer, returned when `malloc` fails
and for a type outside the five cases of the `switch`. -/
def FLAC__metadata_object_new (heap : Heap) (type : FLAC__MetaDataType) :
    Option FLAC__StreamMetaData :=
  if heap.malloc_ok 0 heap.sizeof_StreamMetaData then
    let object : FLAC__StreamMetaData := { zero_object with is_last := false, type := type }
    match type with
    | .STREAMINFO => some { object with length := FLAC__STREAM_METADATA_STREAMINFO_LENGTH }
    | .PADDING => some object
    | .APPLICATION =>
        some { object with length := FLAC__STREAM_METADATA_APPLICATION_ID_LEN / 8 }
    | .SEEKTABLE => some object
    | .VORBIS_COMMENT =>
        some { object with
          length := (FLAC__STREAM_METADATA_VORBIS_COMMENT_ENTRY_LENGTH_LEN +
            FLAC__STREAM_METADATA_VORBIS_COMMENT_NUM_COMMENTS_LEN) / 8 }
    | .OTHER _ => none
  else none

/-- `FLAC__metadata_object_seektable_resize_points`: the returned flag and the object
afterwards.  `old_size` and `new_size` are `unsigned`; after `realloc` the array has room
for `new_size / sizeof` points, the old ones first. -/
def FLAC__metadata_object_seektable_resize_points (heap : Heap)
    (object : FLAC__StreamMetaData) (new_num_points : Nat) : Bool × FLAC__StreamMetaData :=
  let t := object.seek_table
  match t.points with
  | none =>
      if new_num_points = 0 then (true, object)
      else
        match seekpoint_array_new_ heap 0 new_num_points with
        | none => (false, object)
        | some array =>
            (true, seektable_calculate_length_
              { object with
                  seek_table := { num_points := new_num_points, points := some array } })
  | some old =>
      let old_size := (t.num_points * heap.sizeof_SeekPoint) % 2 ^ 32
      let new_size := (new_num_points * heap.sizeof_SeekPoint) % 2 ^ 32
      let moved : Option (Option (List StreamMetaData_SeekPoint)) :=
        if new_size = 0 then some none
        else if heap.realloc_ok new_size then
          some (some (old.take (new_size / heap.sizeof_SeekPoint) ++
            List.replicate (new_size / heap.sizeof_SeekPoint - old.length) heap.stale_point))
        else none
      match moved with
      | none => (false, { object with seek_table := { t with points := none } })
      | some points =>
          let points1 :=
            if new_size > old_size then
              points.map (set_placeholders t.num_points new_num_points)
            else points
          (true, seektable_calculate_length_
            { object with seek_table := { num_points := new_num_points, points := points1 } })

/-- `FLAC__metadata_object_seektable_set_point`. -/
def FLAC__metadata_object_seektable_set_point (object : FLAC__StreamMetaData)
    (point_num : Nat) (point : StreamMetaData_SeekPoint) : FLAC__StreamMetaData :=
  { object with
      seek_table := { object.seek_table with
        points := object.seek_table.points.map (fun array => array.set point_num point) } }

/-- The loop `for(i = start; i > (int)num; i--) array[i] = array[i-1]` of the two insert
functions, at most `fuel` iterations: the final `i` and the array. -/
def move_forward_loop {α : Type} (dflt : α) (num : Int) : Nat → Int → List α → Int × List α
  | 0, i, array => (i, array)
  | fuel + 1, i, array =>
      if i > num then
        move_forward_loop dflt num fuel (i - 1)
          (array.set i.toNat (array.getD (i - 1).toNat dflt))
      else (i, array)

/-- The loop `for(i = num; i < last; i++) array[i] = array[i+1]` of the two delete
functions. -/
def move_backward_loop {α : Type} (dflt : α) (num last : Nat) (array : List α) : List α :=
  (List.range' num (last - num)).foldl (fun a i => a.set i (a.getD (i + 1) dflt)) array

/-- `FLAC__metadata_object_seektable_insert_point`; the conversions to `int` are `to_int32`.
The loop runs fewer than `num_points` times. -/
def FLAC__metadata_object_seektable_insert_point (heap : Heap) (object : FLAC__StreamMetaData)
    (point_num : Nat) (point : StreamMetaData_SeekPoint) : Bool × FLAC__StreamMetaData :=
  let r := FLAC__metadata_object_seektable_resize_points heap object
    ((object.seek_table.num_points + 1) % 2 ^ 32)
  if r.1 = false then (false, r.2)
  else
    let o1 := r.2
    let moved := o1.seek_table.points.map (fun array =>
      (move_forward_loop placeholder_point (to_int32 point_num) o1.seek_table.num_points
        (to_int32 o1.seek_table.num_points - 1) array).2)
    let o2 : FLAC__StreamMetaData := { o1 with seek_table := { o1.seek_table with points := moved } }
    (true, seektable_calculate_length_ (FLAC__metadata_object_seektable_set_point o2 point_num point))

/-- `FLAC__metadata_object_seektable_delete_point`; `num_points - 1` is an `unsigned`. -/
def FLAC__metadata_object_seektable_delete_point (heap : Heap) (object : FLAC__StreamMetaData)
    (point_num : Nat) : Bool × FLAC__StreamMetaData :=
  let last := (object.seek_table.num_points + 2 ^ 32 - 1) % 2 ^ 32
  let moved := object.seek_table.points.map
    (move_backward_loop placeholder_point point_num last)
  let o1 : FLAC__StreamMetaData :=
    { object with seek_table := { object.seek_table with points := moved } }
  FLAC__metadata_object_seektable_resize_points heap o1 last

/-- `FLAC__metadata_object_vorbiscomment_set_vendor_string`. -/
def FLAC__metadata_object_vorbiscomment_set_vendor_string (heap : Heap)
    (object : FLAC__StreamMetaData) (entry : StreamMetaData_VorbisComment_Entry) (copy : Bool) :
    Bool × FLAC__StreamMetaData :=
  vorbiscomment_set_entry_ heap object .vendor_string entry copy

/-- `FLAC__metadata_object_vorbiscomment_resize_comments`: the returned flag and the object
afterwards. -/
def FLAC__metadata_object_vorbiscomment_resize_comments (heap : Heap)
    (object : FLAC__StreamMetaData) (new_num_comments : Nat) : Bool × FLAC__StreamMetaData :=
  let v := object.vorbis_comment
  match v.comments with
  | none =>
      if new_num_comments = 0 then (true, object)
      else
        match vorbiscomment_entry_array_new_ heap 0 new_num_comments with
        | none => (false, object)
        | some array =>
            (true, vorbiscomment_calculate_length_
              { object with
                  vorbis_comment := { v with
                    num_comments := new_num_comments, comments := some array } })
  | some old =>
      let old_size := (v.num_comments * heap.sizeof_VorbisComment_Entry) % 2 ^ 32
      let new_size := (new_num_comments * heap.sizeof_VorbisComment_Entry) % 2 ^ 32
      let moved : Option (Option (List StreamMetaData_VorbisComment_Entry)) :=
        if new_size = 0 then some none
        else if heap.realloc_ok new_size then
          some (some (old.take (new_size / heap.sizeof_VorbisComment_Entry) ++
            List.replicate (new_size / heap.sizeof_VorbisComment_Entry - old.length)
              heap.stale_entry))
        else none
      match moved with
      | none =>
          (false, { object with vorbis_comment := { v with comments := none } })
      | some comments =>
          let comments1 :=
            if new_size > old_size then
              comments.map (fun array =>
                (List.range' v.num_comments
                  ((new_size - old_size) / heap.sizeof_VorbisComment_Entry)).foldl
                  (fun a i => a.set i zero_entry) array)
            else comments
          (true, vorbiscomment_calculate_length_
            { object with
                vorbis_comment := { v with
                  num_comments := new_num_comments, comments := comments1 } })

/-- `FLAC__metadata_object_vorbiscomment_set_comment`. -/
def FLAC__metadata_object_vorbiscomment_set_comment (heap : Heap)
    (object : FLAC__StreamMetaData) (comment_num : Nat)
    (entry : StreamMetaData_VorbisComment_Entry) (copy : Bool) : Bool × FLAC__StreamMetaData :=
  vorbiscomment_set_entry_ heap object (.comment comment_num) entry copy

/-- `FLAC__metadata_object_vorbiscomment_insert_comment`; the conversions to `int` are
`to_int32`. -/
def FLAC__metadata_object_vorbiscomment_insert_comment (heap : Heap)
    (object : FLAC__StreamMetaData) (comment_num : Nat)
    (entry : StreamMetaData_VorbisComment_Entry) (copy : Bool) : Bool × FLAC__StreamMetaData :=
  let r := FLAC__metadata_object_vorbiscomment_resize_comments heap object
    ((object.vorbis_comment.num_comments + 1) % 2 ^ 32)
  if r.1 = false then (false, r.2)
  else
    let o1 := r.2
    let moved := o1.vorbis_comment.comments.map (fun array =>
      let m := move_forward_loop zero_entry (to_int32 comment_num) o1.vorbis_comment.num_comments
        (to_int32 o1.vorbis_comment.num_comments - 1) array
      m.2.set m.1.toNat zero_entry)
    let o2 : FLAC__StreamMetaData :=
      { o1 with vorbis_comment := { o1.vorbis_comment with comments := moved } }
    FLAC__metadata_object_vorbiscomment_set_comment heap o2 comment_num entry copy

/-- `FLAC__metadata_object_vorbiscomment_delete_comment`; `num_comments - 1` is an
`unsigned`, and after the loop `i` is the larger of `comment_num` and `num_comments - 1`. -/
def FLAC__metadata_object_vorbiscomment_delete_comment (heap : Heap)
    (object : FLAC__StreamMetaData) (comment_num : Nat) : Bool × FLAC__StreamMetaData :=
  let last := (object.vorbis_comment.num_comments + 2 ^ 32 - 1) % 2 ^ 32
  let i := if comment_num < last then last else comment_num
  let moved := object.vorbis_comment.comments.map (fun array =>
    (move_backward_loop zero_entry comment_num last array).set i zero_entry)
  let o1 : FLAC__StreamMetaData :=
    { object with vorbis_comment := { object.vorbis_comment with comments := moved } }
  FLAC__metadata_object_vorbiscomment_resize_comments heap o1 last

/-! ## Metadata objects: values and vocabulary for the theorems -/

/-- A heap on which every allocation succeeds, with the sizes of a 64 bit platform. -/
def example_heap : Heap :=
  { malloc_ok := fun _ _ => true
    realloc_ok := fun _ => true
    sizeof_StreamMetaData := 160
    sizeof_SeekPoint := 24
    sizeof_VorbisComment_Entry := 16
    stale_point := { sample_number := 7, stream_offset := 7, frame_samples := 7 }
    stale_entry := { length := 7, entry := none } }

/-- The length `FLAC__metadata_object_new` is expected to give an empty object of each of
the five handled types: the byte size of the serialized empty body. -/
def empty_body_length : FLAC__MetaDataType → Nat
  | .STREAMINFO => 34
  | .PADDING => 0
  | .APPLICATION => 4
  | .SEEKTABLE => 0
  | .VORBIS_COMMENT => 8
  | .OTHER _ => 0

/-- The three operations that change the size of a seek table. -/
inductive SeekTableOp
  | resize_points (new_num_points : Nat)
  | insert_point (point_num : Nat) (point : StreamMetaData_SeekPoint)
  | delete_point (point_num : Nat)
  deriving DecidableEq, Repr

/-- Apply a seek table operation: the returned flag and the object afterwards. -/
def SeekTableOp.apply (heap : Heap) (object : FLAC__StreamMetaData) :
    SeekTableOp → Bool × FLAC__StreamMetaData
  | .resize_points n => FLAC__metadata_object_seektable_resize_points heap object n
  | .insert_point k p => FLAC__metadata_object_seektable_insert_point heap object k p
  | .delete_point k => FLAC__metadata_object_seektable_delete_point heap object k

/-- The seek table is as the functions assert it: either no array and no points, or an
array holding exactly `num_points > 0` points. -/
def seek_table_well_formed (t : StreamMetaData_SeekTable) : Prop :=
  match t.points with
  | none => t.num_points = 0
  | some array => array.length = t.num_points ∧ 0 < t.num_points

/-- An empty SEEKTABLE object, as `FLAC__metadata_object_new` makes it. -/
def example_seektable : FLAC__StreamMetaData := { zero_object with type := .SEEKTABLE }

/-- The byte size of a serialized VORBIS_COMMENT body, in the words of the format: a 4 byte
length and the vendor bytes, a 4 byte comment count, and for each comment a 4 byte length and
the comment bytes. -/
def vorbis_comment_serialized_size (v : StreamMetaData_VorbisComment) : Nat :=
  4 + v.vendor_string.length + 4 +
    ((List.range v.num_comments).map
      (fun i => 4 + ((v.comments.getD []).getD i zero_entry).length)).sum

/-- The five operations that change a VORBIS_COMMENT object. -/
inductive VorbisCommentOp
  | set_vendor_string (entry : StreamMetaData_VorbisComment_Entry) (copy : Bool)
  | resize_comments (new_num_comments : Nat)
  | set_comment (comment_num : Nat) (entry : StreamMetaData_VorbisComment_Entry) (copy : Bool)
  | insert_comment (comment_num : Nat) (entry : StreamMetaData_VorbisComment_Entry)
      (copy : Bool)
  | delete_comment (comment_num : Nat)
  deriving DecidableEq, Repr

/-- Apply a VORBIS_COMMENT operation: the returned flag and the object afterwards. -/
def VorbisCommentOp.apply (heap : Heap) (object : FLAC__StreamMetaData) :
    VorbisCommentOp → Bool × FLAC__StreamMetaData
  | .set_vendor_string e c =>
      FLAC__metadata_object_vorbiscomment_set_vendor_string heap object e c
  | .resize_comments n => FLAC__metadata_object_vorbiscomment_resize_comments heap object n
  | .set_comment k e c => FLAC__metadata_object_vorbiscomment_set_comment heap object k e c
  | .insert_comment k e c =>
      FLAC__metadata_object_vorbiscomment_insert_comment heap object k e c
  | .delete_comment k => FLAC__metadata_object_vorbiscomment_delete_comment heap object k

/-- An empty VORBIS_COMMENT object, as `FLAC__metadata_object_new` makes it. -/
def example_vorbis_comment : FLAC__StreamMetaData :=
  { zero_object with type := .VORBIS_COMMENT, length := 8 }

/-- An entry is well formed when its pointer, if not null, points to exactly `length`
bytes. -/
def entry_well_formed (e : StreamMetaData_VorbisComment_Entry) : Prop :=
  match e.entry with
  | none => True
  | some bytes => bytes.length = e.length

/-- A metadata object is well formed for copying: it has one of the five handled types and
the arrays of its body have the sizes its counters say (application data of `length - 4 > 0`
bytes when present; a seek table as the functions assert it, of a byte size that fits an
`unsigned`; a well formed vendor string and either no comment array and no comments or an
array of `num_comments > 0` well formed comments). -/
def object_well_formed (heap : Heap) (o : FLAC__StreamMetaData) : Prop :=
  match o.type with
  | .STREAMINFO => True
  | .PADDING => True
  | .APPLICATION =>
      match o.application.data with
      | none => True
      | some data => 4 < o.length ∧ o.length < 2 ^ 32 ∧ data.length = o.length - 4
  | .SEEKTABLE =>
      seek_table_well_formed o.seek_table ∧ 0 < heap.sizeof_SeekPoint ∧
        o.seek_table.num_points * heap.sizeof_SeekPoint < 2 ^ 32
  | .VORBIS_COMMENT =>
      entry_well_formed o.vorbis_comment.vendor_string ∧
        match o.vorbis_comment.comments with
        | none => o.vorbis_comment.num_comments = 0
        | some array =>
            array.length = o.vorbis_comment.num_comments ∧ 0 < o.vorbis_comment.num_comments ∧
              ∀ e ∈ array, entry_well_formed e
  | .OTHER _ => False

/-- A VORBIS_COMMENT object with a vendor string and two comments. -/
def example_comments : FLAC__StreamMetaData :=
  { zero_object with
      type := .VORBIS_COMMENT
      length := 27
      vorbis_comment :=
        { vendor_string := { length := 4, entry := some [102, 108, 97, 99] }
          num_comments := 2
          comments := some [{ length := 3, entry := some [97, 61, 98] },
                            { length := 4, entry := some [99, 61, 100, 101] }] } }

/-- The comment array is as the functions assert it: either no array and no comments, or an
array holding exactly `num_comments > 0` entries. -/
def vorbis_comment_well_formed (v : StreamMetaData_VorbisComment) : Prop :=
  match v.comments with
  | none => v.num_comments = 0
  | some array => array.length = v.num_comments ∧ 0 < v.num_comments

/-- The conditions of the `FLAC__ASSERT`s at the head of
`FLAC__metadata_object_seektable_insert_point`, in their order: the object is not the null
pointer, its type, and the range of `point_num`. -/
def FLAC__metadata_object_seektable_insert_point_asserts (object : FLAC__StreamMetaData)
    (point_num : Nat) : List Bool :=
  [true, decide (object.type = .VORBIS_COMMENT),
    decide (object.seek_table.num_points ≥ point_num)]

/-- An entry of three bytes. -/
def example_entry : StreamMetaData_VorbisComment_Entry :=
  { length := 3, entry := some [120, 61, 121] }

/-! ## Command line encoder: reading an extended number -/

/-- Conversion of an `int` to `FLAC__int16` (the value modulo `2^16`, in the signed range). -/
def to_int16 (x : Int) : Int := (x + 2 ^ 15) % 2 ^ 16 - 2 ^ 15

/-- `read_sane_extended` of `src/flac/encode.c` after `fread` has stored `bytes_read` bytes
in `buf` (ten bytes): the returned flag and `*val` afterwards.  `none` stands for the last
statement when the exponent is 63: it shifts by `shift - 1 = -1`, which C leaves
undefined. -/
def read_sane_extended (buf : List Nat) (bytes_read : Nat) (eof_ok : Bool) (val : Nat) :
    Option (Bool × Nat) :=
  let e := to_int16 ((((buf.getD 0 0 <<< 8) ||| buf.getD 1 0 : Nat) : Int) - 0x3FFF)
  let shift := to_int16 (63 - e)
  if bytes_read = 0 ∧ eof_ok = true then some (true, val)
  else if bytes_read < 10 then some (false, val)
  else if buf.getD 0 0 >>> 7 = 1 ∨ e < 0 ∨ e > 63 then some (false, val)
  else
    let p := (List.range 8).foldl
      (fun p i => p ||| ((buf.getD (i + 2) 0 <<< (56 - i * 8)) % 2 ^ 64)) 0
    if shift - 1 < 0 then none
    else
      some (true, ((p >>> shift.toNat) % 2 ^ 32 + ((p >>> (shift - 1).toNat) &&& 1)) % 2 ^ 32)

/-- The value of a non-negative 80 bit extended number in the words of IEEE 754: the 64 bit
mantissa (bytes 2..9, big endian, with its explicit integer bit) times
`2^(exponent - 16383 - 63)`, the exponent being the low 15 bits of bytes 0 and 1. -/
def sane_extended_value (buf : List Nat) : ℚ :=
  let exponent : Int := (((buf.getD 0 0 % 128) * 256 + buf.getD 1 0 : Nat) : Int)
  let mantissa : Nat := (List.range 8).foldl (fun m i => m * 256 + buf.getD (i + 2) 0) 0
  (mantissa : ℚ) * (2 : ℚ) ^ (exponent - 16383 - 63)

/-- The ten bytes of the extended number `2^32`: exponent `0x401F`, mantissa `2^63`. -/
def example_extended : List Nat := [0x40, 0x1F, 0x80, 0, 0, 0, 0, 0, 0, 0]

/-! ## Rice code of the bitstream -/

/-- Modelled from the spec: the zigzag map of the Rice writer, `u = (v<<1)^(v>>31)` on 32
bit values, that is `2v` for `v >= 0` and `-2v - 1` for `v < 0`. -/
def zigzag (v : Int) : Nat := if v < 0 then (-2 * v - 1).toNat else (2 * v).toNat

/-- Modelled from the spec: the number of bits the Rice writer emits for `v` with parameter
`p`: `u >> p` zero bits, one stop bit and `p` raw bits. -/
def rice_code_bits (v : Int) (p : Nat) : Nat := (zigzag v >>> p) + 1 + p

/-! ## Stream encoder: the partitions of a residual -/

/-- The number of residuals in partition `i`: `blocksize >> partition_order`, less the
`predictor_order` warmup samples for partition 0. -/
def partition_size (blocksize predictor_order partition_order i : Nat) : Nat :=
  if i = 0 then (blocksize >>> partition_order) - predictor_order
  else blocksize >>> partition_order

/-- The index of the first residual of partition `i` when the partitions follow one another
from index 0. -/
def partition_start (blocksize predictor_order partition_order i : Nat) : Nat :=
  if i = 0 then 0 else i * (blocksize >>> partition_order) - predictor_order

/-- The mean the partition loop of `encoder_set_partitioned_rice_` computes for the
`partition_samples` residuals from index `k` on: the sum of their magnitudes, started at
`partition_samples >> 1`, divided by their number, in `unsigned` arithmetic. -/
def partition_mean (residual : List Int) (k partition_samples : Nat) : Nat :=
  (List.range partition_samples).foldl
    (fun m j => (m + abs_unsigned (residual.getD (k + j) 0)) % 2 ^ 32)
    (partition_samples >>> 1) / partition_samples

/-- The cost the partition loop adds to `bits` for one partition: the parameter field and
`RICE_BITS` of each of its residuals. -/
def partition_bits (residual : List Int) (k partition_samples parameter bits : Nat) : Nat :=
  (List.range partition_samples).foldl
    (fun b j => (b + RICE_BITS (residual.getD (k + j) 0) parameter) % 2 ^ 32)
    ((bits + FLAC__ENTROPY_CODING_METHOD_PARTITIONED_RICE_PARAMETER_LEN) % 2 ^ 32)

/-- The parameter the partition loop chooses for partition `i`. -/
def partition_parameter (residual : List Int) (blocksize predictor_order partition_order
    i : Nat) : Nat :=
  parameter_of_mean (partition_mean residual
    (partition_start blocksize predictor_order partition_order i)
    (partition_size blocksize predictor_order partition_order i))

/-- Six residuals for a block of 8 samples with predictor order 2. -/
def example_residual : List Int := [1, -2, 3, -4, 5, -6]

/-- The state `(bits, order, parameters)` of the partition order search is the best of the
orders below `o`: all of these are accepted, the state holds the bits and the parameters
computed for its order, no accepted order below `o` has fewer bits and every order below
its own has more. -/
def best_partition_so_far (residual : List Int) (rs po rp o : Nat)
    (best : Nat × Nat × List Nat) : Prop :=
  best.2.1 < o ∧
    encoder_set_partitioned_rice_ residual rs po rp best.2.1 = some (best.2.2, best.1) ∧
    best.1 ≠ 0 ∧
    (∀ q, q < o →
      ∃ r, encoder_set_partitioned_rice_ residual rs po rp q = some r ∧ best.1 ≤ r.2) ∧
    (∀ q, q < best.2.1 →
      ∃ r, encoder_set_partitioned_rice_ residual rs po rp q = some r ∧ best.1 < r.2)

/-- The two residual arrays are in place and `best_residual` is one of their indices. -/
def residual_arrays_in_place (s : SubframeSearch) : Prop :=
  s.residual.length = 2 ∧ s.best_residual < 2

/-- The best subframe of a search state is accounted for: the estimate is at most the
verbatim estimate, and the best subframe is the verbatim one, or the subframe some call of
`encoder_evaluate_fixed_subframe_` or of `encoder_evaluate_lpc_subframe_` on this signal
wrote, with the estimate that call returned and with the residual that call computed in
`residual[best_residual]`. -/
def best_is_evaluated (lib : EncoderLib) (signal : List Int)
    (blocksize bits_per_sample max_partition_order : Nat) (s : SubframeSearch) : Prop :=
  s.best_bits ≤ (encoder_evaluate_verbatim_subframe_ blocksize bits_per_sample).1 ∧
    (s.best_subframe = .VERBATIM ∨
      (∃ prior order rice_parameter,
        encoder_evaluate_fixed_subframe_ lib signal prior blocksize bits_per_sample order
            rice_parameter max_partition_order =
          (s.best_bits, s.residual.getD s.best_residual [], s.best_subframe)) ∨
      (∃ prior lp_coeff order qlp_coeff_precision rice_parameter,
        encoder_evaluate_lpc_subframe_ lib signal prior lp_coeff blocksize bits_per_sample
            order qlp_coeff_precision rice_parameter max_partition_order =
          (s.best_bits, some (s.residual.getD s.best_residual [], s.best_subframe))))

/-- The example library with a fixed predictor routine that guesses order 2 at no bits per
residual sample (one bit for order 1) and leaves a residual of zeros. -/
def example_fixed_lib : EncoderLib :=
  { example_lib with
      fixed_compute_best_predictor := fun _ _ => (2, [16, 1, 0, 16, 16])
      fixed_compute_residual := fun _ _ n _ => List.replicate n 0 }

/-- A search state as a channel finds it: both residual arrays in place. -/
def example_search : SubframeSearch :=
  { best_subframe := .VERBATIM, candidate_subframe := .VERBATIM, residual := [[], []],
    best_residual := 0, best_bits := 0 }

/-- The frame header of a block of the given size for the mono example encoder. -/
def example_frame_header (blocksize : Nat) : FrameHeader :=
  { blocksize := blocksize, sample_rate := 44100, channels := 1, channel_assignment := 0,
    bits_per_sample := 16, number := 0 }

/-- A block of 16 samples that is not constant. -/
def example_signal : List Int := [1, 2, 3, 4, 5, 6, 7, 8, 9, 10, 3, 1, 4, 1, 5, 9]

/-- The result of the candidate search on the example block with `example_fixed_lib`. -/
def example_search_result : SubframeSearch :=
  (subframe_search example_fixed_lib example_initialized.toEncoderSettings
    (example_frame_header 16) example_signal 0 example_search).getD example_search

/-- A block of 16 equal samples. -/
def example_constant_signal : List Int := List.replicate 16 5

/-- The result of the candidate search on the constant block with `example_lib`. -/
def example_constant_result : SubframeSearch :=
  (subframe_search example_lib example_initialized.toEncoderSettings
    (example_frame_header 16) example_constant_signal 0 example_search).getD example_search

/-- A session of the mono example encoder (blocksize 16): a first block of 16 samples of
value `x`, then four samples of value 5, then `FLAC__encoder_finish`, which writes the four
samples as a last frame of blocksize 4. -/
def example_tail_session (x : Int) : Option (Encoder × List EncoderCall) :=
  encoder_session example_lib example_encoder_client example_initialized
    [([List.replicate 16 x], 16), ([[5, 5, 5, 5]], 4)]

/-- The choice `encoder_process_frame_` makes among its four bit buffers: the index and the
buffer `smallest_frame` points to after the three comparisons. -/
def smallest_of_four (frame frame_mid_side frame_left_side frame_right_side : BitBuffer) :
    Nat × BitBuffer :=
  let smallest1 : Nat × BitBuffer :=
    if frame_mid_side.total_bits < frame.total_bits then (1, frame_mid_side) else (0, frame)
  let smallest2 : Nat × BitBuffer :=
    if frame_left_side.total_bits < smallest1.2.total_bits then (2, frame_left_side)
    else smallest1
  if frame_right_side.total_bits < smallest2.2.total_bits then (3, frame_right_side)
  else smallest2

/-- The outcome of one frame of the stereo example encoder on its zeroed block. -/
def example_stereo_frame : Bool × ActiveEncoder × List EncoderCall :=
  (encoder_process_frame_ example_lib example_encoder_client example_stereo false).getD
    (false, example_stereo, [])

/-! ## File decoder: initialization -/

/-- `FLAC__file_decoder_init`: the decoder afterwards (its `state` is the returned value).
`fresh` is what `malloc` returns for the private part (`none` for a null pointer, otherwise
the contents the block happens to hold, which the function does not clear),
`filename_is_stdin` is `0 == strcmp(filename, "-")`, `fopen_ok` tells whether `fopen`
returns a file, `stream_instance` whether `FLAC__stream_decoder_get_new_instance` returns an
instance and `stream_init_ok` whether `FLAC__stream_decoder_init` returns
`FLAC__STREAM_DECODER_SEARCH_FOR_METADATA`.  The public member `check_md5` is set by the
client beforehand and is not touched. -/
def FLAC__file_decoder_init (fresh : Option FileDecoderPrivate)
    (filename_is_stdin fopen_ok stream_instance stream_init_ok : Bool)
    (decoder : FileDecoder) : FileDecoder :=
  match fresh with
  | none => { decoder with state := .MEMORY_ALLOCATION_ERROR, guts := none }
  | some g =>
      let g1 : FileDecoderPrivate :=
        { g with stream := false, file := filename_is_stdin || fopen_ok,
                 file_is_stdin := filename_is_stdin }
      if g1.file = false then
        { decoder with state := .ERROR_OPENING_FILE, guts := some g1 }
      else
        let g2 : FileDecoderPrivate := { g1 with md5context := [], stream := stream_instance }
        if stream_init_ok = false then
          { decoder with state := .MEMORY_ALLOCATION_ERROR, guts := some g2 }
        else
          { decoder with state := .OK, guts := some g2 }

/-- A block of memory for the private part of a decoder in which every byte is zero. -/
def example_zeroed_private : FileDecoderPrivate :=
  { file := false, file_is_stdin := false, stream := false, md5context := [],
    stored_md5sum := List.replicate 16 0, computed_md5sum := List.replicate 16 0,
    stream_info := example_stream_info 0 (List.replicate 16 0),
    last_frame := example_frame 0, target_sample := 0 }

/-- The MD5 digest of the empty message, `d41d8cd98f00b204e9800998ecf8427e`. -/
def md5_of_empty_message : List Nat :=
  [0xd4, 0x1d, 0x8c, 0xd9, 0x8f, 0x00, 0xb2, 0x04, 0xe9, 0x80, 0x09, 0x98, 0xec, 0xf8, 0x42, 0x7e]

/-- An MD5 stand-in that gives the empty context the digest of the empty message and any
other context sixteen copies of the number of chunks accumulated. -/
def example_md5_of_empty : MD5Lib :=
  { final := fun context =>
      if context.isEmpty then md5_of_empty_message else List.replicate 16 context.length
    accumulate_ok := fun _ _ => true }

/-- A new decoder instance on which the client has switched MD5 checking on. -/
def example_new_decoder : FileDecoder :=
  { state := .UNINITIALIZED, check_md5 := true, guts := none }

namespace Pointers

/-- The type `FLAC__StreamMetaData_VorbisComment_Entry`: `entry` is an address. -/
structure VorbisComment_Entry where
  length : Nat
  entry : Nat
  deriving DecidableEq, Repr

/-- The member `data.application`: `data` is an address. -/
structure Application where
  id : List Nat
  data : Nat
  deriving DecidableEq, Repr

/-- The member `data.seek_table`: `points` is an address. -/
structure SeekTable where
  num_points : Nat
  points : Nat
  deriving DecidableEq, Repr

/-- The member `data.vorbis_comment`: `comments` is an address. -/
structure VorbisComment where
  vendor_string : VorbisComment_Entry
  num_comments : Nat
  comments : Nat
  deriving DecidableEq, Repr

/-- The type `FLAC__StreamMetaData` as it lies in memory; the members of the union `data`
are separate fields. -/
structure StreamMetaData where
  type : FLAC__MetaDataType
  is_last : Bool
  length : Nat
  stream_info : StreamInfo
  application : Application
  seek_table : SeekTable
  vorbis_comment : VorbisComment
  deriving DecidableEq, Repr

/-- What an allocated block holds: a metadata object, bytes, an array of seek points or an
array of comment entries. -/
inductive Block
  | object (o : StreamMetaData)
  | bytes (x : List Nat)
  | points (x : List StreamMetaData_SeekPoint)
  | entries (x : List VorbisComment_Entry)
  deriving DecidableEq, Repr

/-- The memory: the blocks allocated so far, `none` for a block that has been freed. -/
abbrev Memory := List (Option Block)

/-- The block an address points to: `none` for the null pointer, for an address that was
never allocated and for a freed block. -/
def read (mem : Memory) (a : Nat) : Option Block :=
  if a = 0 then none else mem.getD (a - 1) none

/-- Store `b` in the block at address `a`. -/
def write (mem : Memory) (a : Nat) (b : Block) : Memory :=
  if a = 0 then mem else mem.set (a - 1) (some b)

/-- `malloc(size)` as request number `request` of the call, followed by the initialization
of the block to `contents` that the code performs (`memcpy`, `memset`, member stores): the
address, `0` when the allocation fails, and the memory afterwards. -/
def malloc (heap : Heap) (request size : Nat) (contents : Block) (mem : Memory) :
    Nat × Memory :=
  if heap.malloc_ok request size then (mem.length + 1, mem ++ [some contents]) else (0, mem)

/-- `free(a)`; the null pointer is ignored. -/
def free (mem : Memory) (a : Nat) : Memory :=
  if a = 0 then mem else mem.set (a - 1) none

/-- The difference `a - b` of two `unsigned` values: the difference modulo `2^32`. -/
def unsigned_sub (a b : Nat) : Nat :=
  if b ≤ a then (a - b) % 2 ^ 32 else (2 ^ 32 - (b - a) % 2 ^ 32) % 2 ^ 32

/-- An entry of all zero bytes. -/
def zero_entry : VorbisComment_Entry := { length := 0, entry := 0 }

/-- An object of all zero bytes, as `memset(object, 0, sizeof(FLAC__StreamMetaData))` leaves
it. -/
def zero_object : StreamMetaData :=
  { type := .STREAMINFO
    is_last := false
    length := 0
    stream_info := FLAC.zero_object.stream_info
    application := { id := [0, 0, 0, 0], data := 0 }
    seek_table := { num_points := 0, points := 0 }
    vorbis_comment := { vendor_string := zero_entry, num_comments := 0, comments := 0 } }

/-- `copy_bytes_(to, from, bytes)`: the returned flag, the value of `*to` afterwards (`dst`
on entry) and the memory.  The seek point array is passed through a cast, `bytes` being a
whole number of points.  `none` when the behaviour is undefined: `from` does not point to
an array of at least `bytes` bytes. -/
def copy_bytes_ (heap : Heap) (request : Nat) (mem : Memory) (dst src bytes : Nat) :
    Option (Bool × Nat × Memory) :=
  if bytes > 0 ∧ src ≠ 0 then
    match read mem src with
    | some (.bytes x) =>
        if x.length < bytes then none
        else
          let r := malloc heap request bytes (.bytes (x.take bytes)) mem
          if r.1 = 0 then some (false, dst, mem) else some (true, r.1, r.2)
    | some (.points x) =>
        if x.length * heap.sizeof_SeekPoint < bytes ∨ bytes % heap.sizeof_SeekPoint ≠ 0 then none
        else
          let r := malloc heap request bytes (.points (x.take (bytes / heap.sizeof_SeekPoint)))
            mem
          if r.1 = 0 then some (false, dst, mem) else some (true, r.1, r.2)
    | _ => none
  else some (true, 0, mem)

/-- `copy_vcentry_(to, from)`: the returned flag, `*to` afterwards and the memory; the
length is stored before the allocation is tried.  `none` when the behaviour is undefined:
`from->entry` does not point to at least `from->length` bytes. -/
def copy_vcentry_ (heap : Heap) (request : Nat) (mem : Memory)
    (dst src : VorbisComment_Entry) : Option (Bool × VorbisComment_Entry × Memory) :=
  let to1 : VorbisComment_Entry := { dst with length := src.length }
  if src.entry = 0 then some (true, { to1 with entry := 0 }, mem)
  else
    match read mem src.entry with
    | some (.bytes x) =>
        if x.length < src.length then none
        else
          let r := malloc heap request src.length (.bytes (x.take src.length)) mem
          if r.1 = 0 then some (false, to1, mem)
          else some (true, { to1 with entry := r.1 }, r.2)
    | _ => none

/-- `vorbiscomment_entry_array_new_`: the array is zeroed with `memset`. -/
def vorbiscomment_entry_array_new_ (heap : Heap) (request : Nat) (mem : Memory)
    (num_comments : Nat) : Nat × Memory :=
  malloc heap request ((num_comments * heap.sizeof_VorbisComment_Entry) % 2 ^ 64)
    (.entries (List.replicate num_comments zero_entry)) mem

/-- `vorbiscomment_entry_array_delete_`: `none` when `object_array` does not point to an
array of at least `num_comments` entries. -/
def vorbiscomment_entry_array_delete_ (mem : Memory) (object_array num_comments : Nat) :
    Option Memory :=
  match read mem object_array with
  | some (.entries x) =>
      if x.length < num_comments then none
      else some (free ((x.take num_comments).foldl (fun m e => free m e.entry) mem) object_array)
  | _ => none

/-- The loop of `vorbiscomment_entry_array_copy_` over the indices given: the returned
pointer (`0` after a failed allocation, which deletes the array) and the memory. -/
def copy_entries_loop (heap : Heap) (request : Nat) (source : List VorbisComment_Entry)
    (return_array num_comments : Nat) : List Nat → Memory → Option (Nat × Memory)
  | [], mem => some (return_array, mem)
  | i :: rest, mem =>
      match read mem return_array with
      | some (.entries array) =>
          match copy_vcentry_ heap (request + 1 + i) mem (array.getD i zero_entry)
              (source.getD i zero_entry) with
          | none => none
          | some (ok, e, mem1) =>
              let mem2 := write mem1 return_array (.entries (array.set i e))
              if ok = true then copy_entries_loop heap request source return_array num_comments rest mem2
              else
                (vorbiscomment_entry_array_delete_ mem2 return_array num_comments).map
                  (fun m => (0, m))
      | _ => none

/-- `vorbiscomment_entry_array_copy_`: the array allocation is request `request`, the copy
of entry `i` is request `request + 1 + i`.  The source array is read only once the new array
is there.  `none` when the behaviour is undefined: `object_array` does not point to an array
of at least `num_comments` entries. -/
def vorbiscomment_entry_array_copy_ (heap : Heap) (request : Nat) (mem : Memory)
    (object_array num_comments : Nat) : Option (Nat × Memory) :=
  let r := vorbiscomment_entry_array_new_ heap request mem num_comments
  if r.1 = 0 then some (0, r.2)
  else
    match read r.2 object_array with
    | some (.entries source) =>
        if source.length < num_comments then none
        else
          copy_entries_loop heap request source r.1 num_comments (List.range num_comments) r.2
    | _ => none

/-- `FLAC__metadata_object_new`: the pointer returned (`0` when `malloc` fails and for a type
outside the five cases of the `switch`, whose block is freed again) and the memory. -/
def FLAC__metadata_object_new (heap : Heap) (mem : Memory) (type : FLAC__MetaDataType) :
    Nat × Memory :=
  let object : StreamMetaData := { zero_object with is_last := false, type := type }
  let r := malloc heap 0 heap.sizeof_StreamMetaData (.object object) mem
  if r.1 = 0 then r
  else
    match type with
    | .STREAMINFO =>
        (r.1, write r.2 r.1
          (.object { object with length := FLAC__STREAM_METADATA_STREAMINFO_LENGTH }))
    | .PADDING => r
    | .APPLICATION =>
        (r.1, write r.2 r.1
          (.object { object with length := FLAC__STREAM_METADATA_APPLICATION_ID_LEN / 8 }))
    | .SEEKTABLE => r
    | .VORBIS_COMMENT =>
        (r.1, write r.2 r.1
          (.object { object with
            length := (FLAC__STREAM_METADATA_VORBIS_COMMENT_ENTRY_LENGTH_LEN +
              FLAC__STREAM_METADATA_VORBIS_COMMENT_NUM_COMMENTS_LEN) / 8 }))
    | .OTHER _ => (0, free r.2 r.1)

/-- `FLAC__metadata_object_delete_data`: `none` when the behaviour is undefined (`object`
does not point to an object, or its comment array pointer to no array). -/
def FLAC__metadata_object_delete_data (mem : Memory) (object : Nat) : Option Memory :=
  match read mem object with
  | some (.object o) =>
      match o.type with
      | .STREAMINFO => some mem
      | .PADDING => some mem
      | .APPLICATION => some (free mem o.application.data)
      | .SEEKTABLE => some (free mem o.seek_table.points)
      | .VORBIS_COMMENT =>
          let mem1 := free mem o.vorbis_comment.vendor_string.entry
          if o.vorbis_comment.comments ≠ 0 then
            vorbiscomment_entry_array_delete_ mem1 o.vorbis_comment.comments
              o.vorbis_comment.num_comments
          else some mem1
      | .OTHER _ => some mem
  | _ => none

/-- `FLAC__metadata_object_delete`. -/
def FLAC__metadata_object_delete (mem : Memory) (object : Nat) : Option Memory :=
  (FLAC__metadata_object_delete_data mem object).map (fun m => free m object)

/-- `FLAC__metadata_object_copy`: the pointer returned (`0` when an allocation fails) and
the memory afterwards.  The object itself is request 0, the body allocations follow.
`none` when the behaviour is undefined: `object` or one of the pointers read through it
does not point to a block of the kind and size the code reads. -/
def FLAC__metadata_object_copy (heap : Heap) (mem : Memory) (object : Nat) :
    Option (Nat × Memory) :=
  match read mem object with
  | some (.object o) =>
      let r := FLAC__metadata_object_new heap mem o.type
      if r.1 = 0 then some r
      else
        match read r.2 r.1 with
        | some (.object fresh) =>
            let target : StreamMetaData :=
              { fresh with is_last := o.is_last, type := o.type, length := o.length }
            match target.type with
            | .STREAMINFO =>
                some (r.1, write r.2 r.1 (.object { target with stream_info := o.stream_info }))
            | .PADDING => some (r.1, write r.2 r.1 (.object target))
            | .APPLICATION =>
                let to1 : StreamMetaData :=
                  { target with application := { target.application with id := o.application.id } }
                match copy_bytes_ heap 1 r.2 to1.application.data o.application.data
                    (unsigned_sub o.length (FLAC__STREAM_METADATA_APPLICATION_ID_LEN / 8)) with
                | none => none
                | some (ok, data, mem1) =>
                    let mem2 := write mem1 r.1
                      (.object { to1 with application := { to1.application with data := data } })
                    if ok = true then some (r.1, mem2)
                    else (FLAC__metadata_object_delete mem2 r.1).map (fun m => (0, m))
            | .SEEKTABLE =>
                let to1 : StreamMetaData :=
                  { target with
                      seek_table := { target.seek_table with num_points := o.seek_table.num_points } }
                match copy_bytes_ heap 1 r.2 to1.seek_table.points o.seek_table.points
                    ((o.seek_table.num_points * heap.sizeof_SeekPoint) % 2 ^ 32) with
                | none => none
                | some (ok, points, mem1) =>
                    let mem2 := write mem1 r.1
                      (.object { to1 with seek_table := { to1.seek_table with points := points } })
                    if ok = true then some (r.1, mem2)
                    else (FLAC__metadata_object_delete mem2 r.1).map (fun m => (0, m))
            | .VORBIS_COMMENT =>
                match copy_vcentry_ heap 1 r.2 target.vorbis_comment.vendor_string
                    o.vorbis_comment.vendor_string with
                | none => none
                | some (ok, vendor_string, mem1) =>
                    let to1 : StreamMetaData :=
                      { target with
                          vorbis_comment := { target.vorbis_comment with
                            vendor_string := vendor_string } }
                    if ok = false then
                      (FLAC__metadata_object_delete (write mem1 r.1 (.object to1)) r.1).map
                        (fun m => (0, m))
                    else if o.vorbis_comment.num_comments = 0 then
                      some (r.1, write mem1 r.1
                        (.object { to1 with
                          vorbis_comment := { to1.vorbis_comment with
                            comments := 0
                            num_comments := o.vorbis_comment.num_comments } }))
                    else
                      match vorbiscomment_entry_array_copy_ heap 2 mem1
                          o.vorbis_comment.comments o.vorbis_comment.num_comments with
                      | none => none
                      | some (comments, mem2) =>
                          let to2 : StreamMetaData :=
                            { to1 with
                                vorbis_comment := { to1.vorbis_comment with
                                  comments := comments } }
                          if comments = 0 then
                            (FLAC__metadata_object_delete (write mem2 r.1 (.object to2)) r.1).map
                              (fun m => (0, m))
                          else
                            some (r.1, write mem2 r.1
                              (.object { to2 with
                                vorbis_comment := { to2.vorbis_comment with
                                  num_comments := o.vorbis_comment.num_comments } }))
            | .OTHER _ => some (0, free r.2 r.1)
        | _ => none
  | _ => none

/-- The bytes a pointer points to, `none` for the null pointer; the outer `none` when the
pointer is not null and does not point to a block of bytes. -/
def load_bytes (mem : Memory) (a : Nat) : Option (Option (List Nat)) :=
  if a = 0 then some none
  else
    match read mem a with
    | some (.bytes x) => some (some x)
    | _ => none

/-- The seek points a pointer points to. -/
def load_points (mem : Memory) (a : Nat) : Option (Option (List StreamMetaData_SeekPoint)) :=
  if a = 0 then some none
  else
    match read mem a with
    | some (.points x) => some (some x)
    | _ => none

/-- An entry with the bytes its pointer points to. -/
def load_entry (mem : Memory) (e : VorbisComment_Entry) :
    Option StreamMetaData_VorbisComment_Entry :=
  (load_bytes mem e.entry).map (fun b => { length := e.length, entry := b })

/-- The entries of a list, every one with its bytes. -/
def load_entry_list (mem : Memory) :
    List VorbisComment_Entry → Option (List StreamMetaData_VorbisComment_Entry)
  | [] => some []
  | e :: rest =>
      match load_entry mem e, load_entry_list mem rest with
      | some v, some vs => some (v :: vs)
      | _, _ => none

/-- The comment array a pointer points to, every entry with its bytes. -/
def load_entries (mem : Memory) (a : Nat) :
    Option (Option (List StreamMetaData_VorbisComment_Entry)) :=
  if a = 0 then some none
  else
    match read mem a with
    | some (.entries x) => (load_entry_list mem x).map some
    | _ => none

/-- The value of the object at address `a`: its members together with the contents of every
array that the body of its type points to (the members of the union that belong to other
types read as zero).  `none` when `a` or one of these pointers does not point to a block of
the right kind. -/
def load (mem : Memory) (a : Nat) : Option FLAC__StreamMetaData :=
  match read mem a with
  | some (.object o) =>
      let base : FLAC__StreamMetaData :=
        { FLAC.zero_object with type := o.type, is_last := o.is_last, length := o.length }
      match o.type with
      | .STREAMINFO => some { base with stream_info := o.stream_info }
      | .PADDING => some base
      | .APPLICATION =>
          (load_bytes mem o.application.data).map
            (fun d => { base with application := { id := o.application.id, data := d } })
      | .SEEKTABLE =>
          (load_points mem o.seek_table.points).map
            (fun p => { base with
              seek_table := { num_points := o.seek_table.num_points, points := p } })
      | .VORBIS_COMMENT =>
          match load_entry mem o.vorbis_comment.vendor_string,
              load_entries mem o.vorbis_comment.comments with
          | some v, some c =>
              some { base with
                vorbis_comment :=
                  { vendor_string := v, num_comments := o.vorbis_comment.num_comments,
                    comments := c } }
          | _, _ => none
      | .OTHER _ => some base
  | _ => none

/-- The addresses of the blocks that make up the object at address `a`: the object and the
arrays the body of its type points to. -/
def blocks_of (mem : Memory) (a : Nat) : List Nat :=
  match read mem a with
  | some (.object o) =>
      a :: (match o.type with
        | .APPLICATION => [o.application.data]
        | .SEEKTABLE => [o.seek_table.points]
        | .VORBIS_COMMENT =>
            o.vorbis_comment.vendor_string.entry :: o.vorbis_comment.comments ::
              (match read mem o.vorbis_comment.comments with
                | some (.entries x) => x.map VorbisComment_Entry.entry
                | _ => [])
        | _ => []).filter (fun p => p ≠ 0)
  | _ => []

/-- A memory holding the example comments object at address 1: its vendor string at
address 2, the comment array at address 3 and the two comments at addresses 4 and 5. -/
def example_memory : Memory :=
  [some (.object
      { zero_object with
          type := .VORBIS_COMMENT
          length := 27
          vorbis_comment :=
            { vendor_string := { length := 4, entry := 2 }, num_comments := 2, comments := 3 } }),
   some (.bytes [102, 108, 97, 99]),
   some (.entries [{ length := 3, entry := 4 }, { length := 4, entry := 5 }]),
   some (.bytes [97, 61, 98]),
   some (.bytes [99, 61, 100, 101])]

end Pointers

/-- The example decoder after the STREAMINFO block of a stream of 100 samples. -/
def example_long_decoder : ActiveDecoder :=
  { example_decoder with
      guts := { example_decoder.guts with
                  stream_info := example_stream_info 100 (List.replicate 16 7) } }

/-- The example seek script on a stream of 100 samples. -/
def example_long_env : SeekEnv :=
  { example_seek_env with
      metadata := { events := [.metadata (example_stream_info_block 100 (List.replicate 16 7))],
                    result := true } }

/-- The body of the sample loop of `FLAC__encoder_process_interleaved` for the buffer index
`i`: the channel loop, which reads `buf[k]` and increments `k` for every channel, and the
increment of `current_sample_number`.  `left` is the local variable of that name.  Returns
the encoder, `k` and `left` afterwards; `none` when `buf[k]` lies outside the buffer.  The
subtraction and the addition of two samples are the exact integer operations. -/
def store_sample_interleaved (encoder : ActiveEncoder) (buf : List Int) (i k : Nat)
    (left : Int) : Option (ActiveEncoder × Nat × Int) :=
  let ms : Bool := encoder.do_mid_side_stereo && encoder.channels == 2
  let min_side : Int := to_int32 (-(2 ^ (encoder.bits_per_sample - 1)))
  let max_side : Int := to_int32 (2 ^ (encoder.bits_per_sample - 1) - 1)
  let r := (List.range encoder.channels).foldlM
    (fun (st : EncoderPrivate × Nat × Int) channel =>
      match buf[st.2.1]? with
      | none => none
      | some x =>
          let g1 : EncoderPrivate :=
            { st.1 with
                integer_signal :=
                  st.1.integer_signal.set channel ((st.1.integer_signal.getD channel []).set i x) }
          let k1 := (st.2.1 + 1) % 2 ^ 32
          if ms ∧ g1.current_frame_can_do_mid_side then
            if channel = 0 then some (g1, k1, x)
            else
              let side := st.2.2 - x
              if side < min_side ∨ side > max_side then
                some ({ g1 with current_frame_can_do_mid_side := false }, k1, st.2.2)
              else
                let mid := (st.2.2 + x) >>> 1
                some ({ g1 with
                    integer_signal_mid_side :=
                      (g1.integer_signal_mid_side.set 0
                        ((g1.integer_signal_mid_side.getD 0 []).set i mid)).set 1
                        ((g1.integer_signal_mid_side.getD 1 []).set i side) }, k1, st.2.2)
          else some (g1, k1, st.2.2))
    (encoder.guts, k, left)
  r.map (fun st =>
    ({ encoder with
        guts := { st.1 with current_sample_number := (st.1.current_sample_number + 1) % 2 ^ 32 } },
      st.2.1, st.2.2))

/-- The loop `for(i = current_sample_number; i < blocksize && j < samples; i++, j++, k++)` of
`FLAC__encoder_process_interleaved`, at most `fuel` iterations: the final `i`, `j`, `k`,
`left` and encoder. -/
def fill_loop_interleaved (buf : List Int) (samples : Nat) :
    Nat → Nat → Nat → Nat → Int → ActiveEncoder →
      Option (Nat × Nat × Nat × Int × ActiveEncoder)
  | 0, i, j, k, left, encoder => some (i, j, k, left, encoder)
  | fuel + 1, i, j, k, left, encoder =>
      if i < encoder.blocksize ∧ j < samples then
        match store_sample_interleaved encoder buf i k left with
        | none => none
        | some (e1, k1, left1) =>
            fill_loop_interleaved buf samples fuel (i + 1) (j + 1) ((k1 + 1) % 2 ^ 32) left1 e1
      else some (i, j, k, left, encoder)

/-- The `do ... while(j < samples)` loop of `FLAC__encoder_process_interleaved`, at most
`fuel` iterations.  `none` when the loop is still running after `fuel` iterations, a frame
does not return or a read lies outside the buffer. -/
def process_loop_interleaved (lib : EncoderLib) (client : EncoderClient) (buf : List Int)
    (samples : Nat) :
    Nat → Nat → Nat → Int → ActiveEncoder → List EncoderCall →
      Option (Bool × ActiveEncoder × List EncoderCall)
  | 0, _, _, _, _, _ => none
  | fuel + 1, j, k, left, encoder, calls =>
      match fill_loop_interleaved buf samples (samples - j) encoder.guts.current_sample_number j k
          left encoder with
      | none => none
      | some (i1, j1, k1, left1, f) =>
          if i1 = f.blocksize then
            match encoder_process_frame_ lib client f false with
            | none => none
            | some (false, e1, c) => some (false, e1, calls ++ c)
            | some (true, e1, c) =>
                if j1 < samples then
                  process_loop_interleaved lib client buf samples fuel j1 k1 left1 e1 (calls ++ c)
                else some (true, e1, calls ++ c)
          else if j1 < samples then
            process_loop_interleaved lib client buf samples fuel j1 k1 left1 f calls
          else some (true, f, calls)

/-- `FLAC__encoder_process_interleaved`: the returned flag, the encoder and the client calls
made; `none` when the function does not return or reads outside `buf`. -/
def FLAC__encoder_process_interleaved (lib : EncoderLib) (client : EncoderClient)
    (encoder : ActiveEncoder) (buf : List Int) (samples : Nat) :
    Option (Bool × ActiveEncoder × List EncoderCall) :=
  process_loop_interleaved lib client buf samples (samples + 2) 0 0 0 encoder []

/-! ## Command line encoder: filling the seek table (`src/flac/encode.c`) -/

/-- The members of `encoder_wrapper_struct` that `write_callback` updates before it prints,
verifies and writes the bytes: the counters and the seek table template (the member
`data.seek_table` of `*seek_table`). -/
structure encoder_wrapper_struct where
  bytes_written : Nat
  samples_written : Nat
  stream_offset : Nat
  current_frame : Nat
  seek_table : StreamMetaData_SeekTable
  first_seek_point_to_check : Nat
  deriving DecidableEq, Repr

/-- The loop `for(i = first_seek_point_to_check; i < num_points; i++)` of `write_callback`,
at most `fuel` iterations: `first_seek_point_to_check` and the points afterwards.  `none`
when `points[i]` lies outside the array or the loop is still running after `fuel`
iterations. -/
def seek_point_loop (blocksize frame_first_sample frame_last_sample offset num_points : Nat) :
    Nat → Nat → Nat → List StreamMetaData_SeekPoint →
      Option (Nat × List StreamMetaData_SeekPoint)
  | 0, _, _, _ => none
  | fuel + 1, i, first_seek_point_to_check, points =>
      if i < num_points then
        match points[i]? with
        | none => none
        | some point =>
            let test_sample := point.sample_number
            if test_sample > frame_last_sample then some (first_seek_point_to_check, points)
            else if test_sample ≥ frame_first_sample then
              seek_point_loop blocksize frame_first_sample frame_last_sample offset num_points
                fuel ((i + 1) % 2 ^ 32) ((first_seek_point_to_check + 1) % 2 ^ 32)
                (points.set i
                  { sample_number := frame_first_sample, stream_offset := offset,
                    frame_samples := blocksize })
            else
              seek_point_loop blocksize frame_first_sample frame_last_sample offset num_points
                fuel ((i + 1) % 2 ^ 32) ((first_seek_point_to_check + 1) % 2 ^ 32) points
      else some (first_seek_point_to_check, points)

/-- The difference `a - b` of two `uint64` values. -/
def uint64_sub (a b : Nat) : Nat :=
  if b ≤ a then (a - b) % 2 ^ 64 else (2 ^ 64 - (b - a) % 2 ^ 64) % 2 ^ 64

/-- The part of `write_callback` that marks seek points and updates the counters (up to the
assignment of `current_frame`); what follows it prints statistics, feeds the verifying
decoder and writes the bytes to the file, and does not touch these members.  `blocksize` is
the value of `FLAC__stream_encoder_get_blocksize(encoder)`.  `none` when a point is read
outside the array or the array pointer is null while `num_points > 0`. -/
def write_callback (blocksize : Nat) (encoder_wrapper : encoder_wrapper_struct)
    (bytes samples current_frame : Nat) : Option encoder_wrapper_struct :=
  let marked : Option encoder_wrapper_struct :=
    if encoder_wrapper.stream_offset > 0 ∧ encoder_wrapper.seek_table.num_points > 0 then
      let frame_first_sample := (current_frame * blocksize) % 2 ^ 64
      let frame_last_sample := uint64_sub ((frame_first_sample + blocksize) % 2 ^ 64) 1
      match encoder_wrapper.seek_table.points with
      | none => none
      | some points =>
          (seek_point_loop blocksize frame_first_sample frame_last_sample
            (uint64_sub encoder_wrapper.bytes_written encoder_wrapper.stream_offset)
            encoder_wrapper.seek_table.num_points
            (encoder_wrapper.seek_table.num_points + 1)
            encoder_wrapper.first_seek_point_to_check
            encoder_wrapper.first_seek_point_to_check points).map
            (fun r =>
              { encoder_wrapper with
                  first_seek_point_to_check := r.1
                  seek_table := { encoder_wrapper.seek_table with points := some r.2 } })
    else some encoder_wrapper
  marked.map (fun w =>
    { w with
        bytes_written := (w.bytes_written + bytes) % 2 ^ 64
        samples_written := (w.samples_written + samples) % 2 ^ 64
        current_frame := current_frame })

/-- A wrapper after the metadata (100 bytes) and two frames of 16 samples (60 bytes) have
been written, with a template for the samples 20, 40, 45 and 90 and a placeholder; the
point for sample 20 has been filled by frame 1. -/
def example_wrapper : encoder_wrapper_struct :=
  { bytes_written := 160, samples_written := 32, stream_offset := 100, current_frame := 1,
    first_seek_point_to_check := 1,
    seek_table :=
      { num_points := 5
        points := some
          [{ sample_number := 16, stream_offset := 30, frame_samples := 16 },
           { sample_number := 40, stream_offset := 0, frame_samples := 0 },
           { sample_number := 45, stream_offset := 0, frame_samples := 0 },
           { sample_number := 90, stream_offset := 0, frame_samples := 0 },
           placeholder_point] } }

/-- The points of the example wrapper. -/
def example_template : List StreamMetaData_SeekPoint :=
  example_wrapper.seek_table.points.getD []

/-! # Theorems -/

/-! ## File decoder: the MD5 comparison -/

theorem read_callback_keeps (d : ActiveDecoder) (fb : Bool) (b br : Nat) (fa : Bool) :
    (read_callback_ d fb b br fa).2.2.check_md5 = d.check_md5 ∧
      (read_callback_ d fb b br fa).2.2.guts = d.guts := by
  unfold read_callback_
  split_ifs <;> simp

theorem write_callback_keeps (client : FileDecoderClient) (md5 : MD5Lib) (d : ActiveDecoder)
    (frame : Frame) (buffer : Buffers) :
    (write_callback_ client md5 d frame buffer).2.1.check_md5 = d.check_md5 ∧
      (write_callback_ client md5 d frame buffer).2.1.guts.stored_md5sum = d.guts.stored_md5sum ∧
      (d.check_md5 = false →
        (write_callback_ client md5 d frame buffer).2.1.guts.md5context = d.guts.md5context) := by
  unfold write_callback_
  dsimp only
  split_ifs <;> simp_all

theorem metadata_callback_keeps (d : ActiveDecoder) (m : StreamMetaData) :
    (d.check_md5 = false → (metadata_callback_ d m).1.check_md5 = false) ∧
      (metadata_callback_ d m).1.guts.md5context = d.guts.md5context ∧
      (m.type ≠ .STREAMINFO →
        (metadata_callback_ d m).1.check_md5 = d.check_md5 ∧
        (metadata_callback_ d m).1.guts.stored_md5sum = d.guts.stored_md5sum) := by
  unfold metadata_callback_
  dsimp only
  split_ifs <;> simp_all

theorem error_callback_keeps (d : ActiveDecoder) (status : Nat) :
    (error_callback_ d status).1.check_md5 = d.check_md5 ∧
      (error_callback_ d status).1.guts = d.guts := by
  unfold error_callback_
  split_ifs <;> simp


theorem deliver_gate_off (client : FileDecoderClient) (md5 : MD5Lib) (d : ActiveDecoder)
    (e : StreamEvent) (h : d.check_md5 = false) :
    (deliver client md5 d e).1.check_md5 = false ∧
      (deliver client md5 d e).1.guts.md5context = d.guts.md5context := by
  cases e with
  | read fb b br fa =>
      have k := read_callback_keeps d fb b br fa
      simp [deliver, k.1, k.2, h]
  | write frame buffer =>
      have k := write_callback_keeps client md5 d frame buffer
      simp [deliver, k.1, k.2.2 h, h]
  | metadata block =>
      have k := metadata_callback_keeps d block
      simp [deliver, k.1 h, k.2.1]
  | error status =>
      have k := error_callback_keeps d status
      simp [deliver, k.1, k.2, h]

theorem dispatch_gate_off (client : FileDecoderClient) (md5 : MD5Lib) (events : List StreamEvent) :
    ∀ d : ActiveDecoder, d.check_md5 = false →
      (dispatch client md5 d events).1.check_md5 = false ∧
        (dispatch client md5 d events).1.guts.md5context = d.guts.md5context := by
  induction events with
  | nil => intro d h; simp [dispatch, h]
  | cons e es ih =>
      intro d h
      have k := deliver_gate_off client md5 d e h
      have t := ih (deliver client md5 d e).1 k.1
      simp only [dispatch]
      exact ⟨t.1, t.2.trans k.2⟩

theorem deliver_gate_kept (client : FileDecoderClient) (md5 : MD5Lib) (d : ActiveDecoder)
    (e : StreamEvent) (h : ∀ b, e = .metadata b → b.type ≠ .STREAMINFO) :
    (deliver client md5 d e).1.check_md5 = d.check_md5 ∧
      (deliver client md5 d e).1.guts.stored_md5sum = d.guts.stored_md5sum := by
  cases e with
  | read fb b br fa =>
      have k := read_callback_keeps d fb b br fa
      simp [deliver, k.1, k.2]
  | write frame buffer =>
      have k := write_callback_keeps client md5 d frame buffer
      simp [deliver, k.1, k.2.1]
  | metadata block =>
      have k := (metadata_callback_keeps d block).2.2 (h block rfl)
      simp [deliver, k.1, k.2]
  | error status =>
      have k := error_callback_keeps d status
      simp [deliver, k.1, k.2]

theorem dispatch_gate_kept (client : FileDecoderClient) (md5 : MD5Lib)
    (events : List StreamEvent) :
    ∀ d : ActiveDecoder, (∀ b, StreamEvent.metadata b ∈ events → b.type ≠ .STREAMINFO) →
      (dispatch client md5 d events).1.check_md5 = d.check_md5 ∧
        (dispatch client md5 d events).1.guts.stored_md5sum = d.guts.stored_md5sum := by
  induction events with
  | nil => intro d _; simp [dispatch]
  | cons e es ih =>
      intro d h
      have k := deliver_gate_kept client md5 d e
        (fun b hb => h b (by simp [hb]))
      have t := ih (deliver client md5 d e).1 (fun b hb => h b (by simp [hb]))
      simp only [dispatch]
      exact ⟨t.1.trans k.1, t.2.trans k.2⟩

theorem memcmp16_take_left (a b : List Nat) : memcmp16 (a.take 16) b = memcmp16 a b := by
  simp [memcmp16, List.take_take]

theorem memcmp16_take_right (a b : List Nat) : memcmp16 a (b.take 16) = memcmp16 a b := by
  simp [memcmp16, List.take_take]

theorem metadata_callback_streaminfo (d : ActiveDecoder) (m : StreamMetaData)
    (hm : m.type = .STREAMINFO) :
    (metadata_callback_ d m).1.guts.stored_md5sum = m.stream_info.md5sum.take 16 ∧
      (metadata_callback_ d m).1.check_md5 =
        (d.check_md5 && memcmp16 m.stream_info.md5sum zero_md5sum) := by
  unfold metadata_callback_
  dsimp only
  rw [memcmp16_take_left]
  cases hz : memcmp16 m.stream_info.md5sum zero_md5sum <;> split_ifs <;> simp_all

theorem finish_result (md5 : MD5Lib) (decoder : FileDecoder) :
    ((FLAC__file_decoder_finish md5 decoder).1 = false ↔
        decoder.state ≠ .UNINITIALIZED ∧ decoder.check_md5 = true ∧
          ∃ g, decoder.guts = some g ∧
            memcmp16 g.stored_md5sum (md5.final g.md5context) = true) ∧
      (FLAC__file_decoder_finish md5 decoder).2.state = .UNINITIALIZED := by
  unfold FLAC__file_decoder_finish
  by_cases hs : decoder.state = .UNINITIALIZED
  · simp [hs]
  · cases hg : decoder.guts with
    | none => simp [hs]
    | some g => simp [hs, memcmp16_take_right]

/-- `FLAC__file_decoder_finish` returns `false` exactly when the decoder is initialized, MD5
checking is on and the stored sum differs from the computed one, and it always leaves the
state `UNINITIALIZED`.  For a decoder that has received its STREAMINFO block through
`metadata_callback_` (followed by any callbacks other than a further STREAMINFO block) this
is: checking was on when the block arrived, the stored sum is not all zero, and the
computed sum differs from it. -/
theorem finish_after_streaminfo (client : FileDecoderClient) (md5 : MD5Lib)
    (decoder : FileDecoder) (d0 : ActiveDecoder) (m : StreamMetaData)
    (events : List StreamEvent) (hm : m.type = .STREAMINFO)
    (hev : ∀ b, StreamEvent.metadata b ∈ events → b.type ≠ .STREAMINFO) :
    (((FLAC__file_decoder_finish md5 decoder).1 = false ↔
        decoder.state ≠ .UNINITIALIZED ∧ decoder.check_md5 = true ∧
          ∃ g, decoder.guts = some g ∧
            memcmp16 g.stored_md5sum (md5.final g.md5context) = true) ∧
      (decoder.state = .UNINITIALIZED → (FLAC__file_decoder_finish md5 decoder).1 = true) ∧
      (FLAC__file_decoder_finish md5 decoder).2.state = .UNINITIALIZED) ∧
    ((FLAC__file_decoder_finish md5
          (dispatch client md5 (metadata_callback_ d0 m).1 events).1.toFileDecoder).1 = false ↔
        (dispatch client md5 (metadata_callback_ d0 m).1 events).1.state ≠ .UNINITIALIZED ∧
          d0.check_md5 = true ∧
          memcmp16 m.stream_info.md5sum zero_md5sum = true ∧
          memcmp16 m.stream_info.md5sum
            (md5.final (dispatch client md5 (metadata_callback_ d0 m).1 events).1.guts.md5context)
            = true) := by
  have k := dispatch_gate_kept client md5 events (metadata_callback_ d0 m).1 hev
  have s := metadata_callback_streaminfo d0 m hm
  refine ⟨⟨(finish_result md5 decoder).1, ?_, (finish_result md5 decoder).2⟩, ?_⟩
  · intro hu
    simp [FLAC__file_decoder_finish, hu]
  · rw [(finish_result md5 _).1]
    simp only [ActiveDecoder.toFileDecoder, Option.some.injEq, exists_eq_left']
    rw [k.1, k.2, s.1, s.2, memcmp16_take_left]
    simp only [Bool.and_eq_true]
    tauto

theorem seek_loop_gate_off (client : FileDecoderClient) (md5 : MD5Lib) (l : Int)
    (target_sample : Nat) (steps : List SeekStep) :
    ∀ (pos last_pos : Int) (last_frame_sample : Nat) (needs_seek : Bool) (d : ActiveDecoder),
      d.check_md5 = false →
      (seek_loop client md5 l target_sample steps pos last_pos last_frame_sample needs_seek
          d).decoder.check_md5 = false ∧
        (seek_loop client md5 l target_sample steps pos last_pos last_frame_sample needs_seek
          d).decoder.guts.md5context = d.guts.md5context := by
  induction steps with
  | nil => intro pos last_pos lfs ns d h; simp [seek_loop, h]
  | cons s rest ih =>
      intro pos last_pos lfs ns d h
      have k := dispatch_gate_off client md5 s.frame.events d h
      unfold seek_loop
      dsimp only
      split_ifs
      all_goals first
        | exact ⟨h, rfl⟩
        | exact ⟨k.1, k.2⟩
        | (simp only []
           refine ⟨(ih _ _ _ _ _ k.1).1, ((ih _ _ _ _ _ k.1).2).trans k.2⟩)

theorem seek_to_absolute_sample_gate_off (client : FileDecoderClient) (md5 : MD5Lib)
    (env : SeekEnv) (d : ActiveDecoder) (filesize : Int) (target_sample : Nat)
    (h : d.check_md5 = false) :
    (seek_to_absolute_sample_ client md5 env d filesize target_sample).decoder.check_md5 = false ∧
      (seek_to_absolute_sample_ client md5 env d filesize target_sample).decoder.guts.md5context =
        d.guts.md5context := by
  unfold seek_to_absolute_sample_
  dsimp only
  by_cases hf : env.first_frame_offset = -1
  · simp [hf, h]
  · rw [if_neg hf]
    exact seek_loop_gate_off client md5 _ target_sample env.steps _ _ _ _
      { d with guts := { d.guts with target_sample := target_sample } } h

theorem seek_absolute_gate_off (client : FileDecoderClient) (md5 : MD5Lib) (env : SeekEnv)
    (decoder : ActiveDecoder) (sample : Nat) :
    (FLAC__file_decoder_seek_absolute client md5 env decoder sample).decoder.check_md5 = false ∧
      (FLAC__file_decoder_seek_absolute client md5 env decoder sample).decoder.guts.md5context =
        decoder.guts.md5context := by
  have k := dispatch_gate_off client md5 env.metadata.events
    { decoder with state := .SEEKING, check_md5 := false } rfl
  have t := seek_to_absolute_sample_gate_off client md5 env
    (dispatch client md5 { decoder with state := .SEEKING, check_md5 := false }
      env.metadata.events).1 env.filesize sample k.1
  unfold FLAC__file_decoder_seek_absolute
  dsimp only
  split_ifs
  all_goals first
    | exact ⟨rfl, rfl⟩
    | exact ⟨k.1, k.2⟩
    | exact ⟨t.1, t.2.trans k.2⟩

theorem process_gate_off (client : FileDecoderClient) (md5 : MD5Lib) (d : ActiveDecoder)
    (stream_at_eof : Bool) (call : StreamCall) (h : d.check_md5 = false) :
    (FLAC__file_decoder_process client md5 d stream_at_eof call).2.1.check_md5 = false ∧
      (FLAC__file_decoder_process client md5 d stream_at_eof call).2.1.guts.md5context =
        d.guts.md5context := by
  unfold FLAC__file_decoder_process
  dsimp only
  by_cases he : stream_at_eof = true
  · simp [he, h]
  · simp only [he, if_false, Bool.false_eq_true]
    have k := dispatch_gate_off client md5 call.events d h
    split_ifs
    · exact ⟨h, rfl⟩
    · exact ⟨k.1, k.2⟩
    · exact ⟨k.1, k.2⟩

theorem run_calls_gate_off (client : FileDecoderClient) (md5 : MD5Lib)
    (calls : List DecoderCall) :
    ∀ d : ActiveDecoder, d.check_md5 = false →
      (run_calls client md5 d calls).1.check_md5 = false ∧
        (run_calls client md5 d calls).1.guts.md5context = d.guts.md5context := by
  induction calls with
  | nil => intro d h; simp [run_calls, h]
  | cons c rest ih =>
      intro d h
      cases c with
      | process stream_at_eof call =>
          have k := process_gate_off client md5 d stream_at_eof call h
          have t := ih _ k.1
          simp only [run_calls]
          exact ⟨t.1, t.2.trans k.2⟩
      | seek env sample =>
          have k := seek_absolute_gate_off client md5 env d sample
          have t := ih _ k.1
          simp only [run_calls]
          exact ⟨t.1, t.2.trans k.2⟩

/-- C3: after any call of `FLAC__file_decoder_seek_absolute`, whatever it returns (and also
while its search is still running), `check_md5` is false; the call itself and every later
call of the decoding interface (processing calls with any decoded frames, further seeks)
leave `check_md5` false and the MD5 context as it was before the seek; and a subsequent
`FLAC__file_decoder_finish` returns `true`. -/
theorem seek_disables_md5 (client : FileDecoderClient) (md5 : MD5Lib) (env : SeekEnv)
    (decoder : ActiveDecoder) (sample : Nat) (later : List DecoderCall) :
    (FLAC__file_decoder_seek_absolute client md5 env decoder sample).decoder.check_md5 = false ∧
      (run_calls client md5
        (FLAC__file_decoder_seek_absolute client md5 env decoder sample).decoder
        later).1.check_md5 = false ∧
      (run_calls client md5
        (FLAC__file_decoder_seek_absolute client md5 env decoder sample).decoder
        later).1.guts.md5context = decoder.guts.md5context ∧
      (FLAC__file_decoder_finish md5
        (run_calls client md5
          (FLAC__file_decoder_seek_absolute client md5 env decoder sample).decoder
          later).1.toFileDecoder).1 = true := by
  have k := seek_absolute_gate_off client md5 env decoder sample
  have t := run_calls_gate_off client md5 later _ k.1
  refine ⟨k.1, t.1, t.2.trans k.2, ?_⟩
  have f := (finish_result md5
    (run_calls client md5
      (FLAC__file_decoder_seek_absolute client md5 env decoder sample).decoder
      later).1.toFileDecoder).1
  cases hr : (FLAC__file_decoder_finish md5
    (run_calls client md5
      (FLAC__file_decoder_seek_absolute client md5 env decoder sample).decoder
      later).1.toFileDecoder).1 with
  | true => rfl
  | false =>
      have c := (f.mp hr).2.1
      simp [ActiveDecoder.toFileDecoder, t.1] at c

/-- C4 (counterexample): on a stream whose STREAMINFO has `total_samples = 0`, a seek to
sample 0 passes the range check, enters the search (it calls `fseek` at position 42) and
returns `true` when the first frame decoded holds sample 0. -/
theorem seek_unknown_total_at_zero :
    (dispatch example_decoder_client example_md5
        { example_decoder with state := .SEEKING, check_md5 := false }
        example_seek_env.metadata.events).1.guts.stream_info.total_samples = 0 ∧
      (FLAC__file_decoder_seek_absolute example_decoder_client example_md5 example_seek_env
        example_decoder 0).result = some true ∧
      (FLAC__file_decoder_seek_absolute example_decoder_client example_md5 example_seek_env
        example_decoder 0).seeks = [42] := by
  decide

/-- C4 (amended): for every target sample greater than 0, if the STREAMINFO total_samples
known after processing the metadata is zero, `FLAC__file_decoder_seek_absolute` returns
`false` without entering the search (no position is passed to `fseek`, and the search script
is not consulted); when the calls before the range check succeed the state is
`SEEK_ERROR`. -/
theorem seek_unknown_total_fails (client : FileDecoderClient) (md5 : MD5Lib) (env : SeekEnv)
    (decoder : ActiveDecoder) (sample : Nat) (hs : 0 < sample)
    (ht : (dispatch client md5 { decoder with state := .SEEKING, check_md5 := false }
      env.metadata.events).1.guts.stream_info.total_samples = 0) :
    (FLAC__file_decoder_seek_absolute client md5 env decoder sample).result = some false ∧
      (FLAC__file_decoder_seek_absolute client md5 env decoder sample).seeks = [] ∧
      (∀ steps : List SeekStep,
        FLAC__file_decoder_seek_absolute client md5 { env with steps := steps } decoder sample =
          FLAC__file_decoder_seek_absolute client md5 env decoder sample) ∧
      (env.reset_ok = true → env.fseek_end_ok = true → env.filesize ≠ -1 →
        env.rewind_ok = true → env.metadata.result = true →
        (FLAC__file_decoder_seek_absolute client md5 env decoder sample).decoder.state =
          .SEEK_ERROR) := by
  have hgt : sample > (dispatch client md5 { decoder with state := .SEEKING, check_md5 := false }
      env.metadata.events).1.guts.stream_info.total_samples := by omega
  refine ⟨?_, ?_, ?_, ?_⟩
  · unfold FLAC__file_decoder_seek_absolute
    dsimp only
    split_ifs <;> rfl
  · unfold FLAC__file_decoder_seek_absolute
    dsimp only
    split_ifs <;> rfl
  · intro steps
    unfold FLAC__file_decoder_seek_absolute
    dsimp only
    split_ifs <;> rfl
  · intro h1 h2 h3 h4 h5
    unfold FLAC__file_decoder_seek_absolute
    dsimp only
    simp [h1, h2, h3, h4, h5, hgt]

/-- Witness for C4 (amended): a seek to sample 5 on the stream of unknown length. -/
theorem seek_unknown_total_fails_witness :
    (FLAC__file_decoder_seek_absolute example_decoder_client example_md5 example_seek_env
        example_decoder 5).result = some false ∧
      (FLAC__file_decoder_seek_absolute example_decoder_client example_md5 example_seek_env
        example_decoder 5).seeks = [] :=
  ⟨(seek_unknown_total_fails example_decoder_client example_md5 example_seek_env
      example_decoder 5 (by decide) (by decide)).1,
   (seek_unknown_total_fails example_decoder_client example_md5 example_seek_env
      example_decoder 5 (by decide) (by decide)).2.1⟩

/-- C5: while the file decoder is `SEEKING`, a decoded frame with first sample `F` and
blocksize `B` (an `unsigned`, with `F + B` not wrapping in `uint64`) such that
`F <= target < F + B` makes `write_callback_` call the client write callback exactly once;
with `delta = target - F`, the frame header passed has blocksize `B - delta` and sample
number `target` and is otherwise the decoded header, the buffer passed for every channel
`c < channels` is `buffer[c]` advanced by `delta`, so its first sample is
`buffer[c][delta]`; the state becomes `OK` and the status returned is the client's. -/
theorem seek_delivery (client : FileDecoderClient) (md5 : MD5Lib) (d : ActiveDecoder)
    (frame : Frame) (buffer : Buffers) (hs : d.state = .SEEKING)
    (hB : frame.header.blocksize < 2 ^ 32)
    (hW : frame.header.number + frame.header.blocksize < 2 ^ 64)
    (hF : frame.header.number ≤ d.guts.target_sample)
    (hT : d.guts.target_sample < frame.header.number + frame.header.blocksize) :
    ∃ (newframe : Frame) (newbuffer : Buffers),
      (write_callback_ client md5 d frame buffer).1 = client.write_callback newframe newbuffer ∧
      (write_callback_ client md5 d frame buffer).2.2 = [.write newframe newbuffer] ∧
      (write_callback_ client md5 d frame buffer).2.1.state = .OK ∧
      newframe.header =
        { frame.header with
            blocksize := frame.header.blocksize - (d.guts.target_sample - frame.header.number)
            number := d.guts.target_sample } ∧
      (∀ c, c < frame.header.channels →
        newbuffer[c]? =
          (buffer[c]?).map (List.drop (d.guts.target_sample - frame.header.number))) ∧
      (∀ c samples, c < frame.header.channels → buffer[c]? = some samples →
        (newbuffer[c]?).bind (fun s => s[0]?) =
          samples[d.guts.target_sample - frame.header.number]?) := by
  have hdelta : (d.guts.target_sample - frame.header.number) % 2 ^ 32 =
      d.guts.target_sample - frame.header.number := Nat.mod_eq_of_lt (by omega)
  have hnext : (frame.header.number + frame.header.blocksize) % 2 ^ 64 =
      frame.header.number + frame.header.blocksize := Nat.mod_eq_of_lt hW
  have hcond : frame.header.number ≤ d.guts.target_sample ∧
      d.guts.target_sample < (frame.header.number + frame.header.blocksize) % 2 ^ 64 := by
    rw [hnext]; exact ⟨hF, hT⟩
  by_cases hd : d.guts.target_sample - frame.header.number > 0
  · refine ⟨{ header := { frame.header with
        blocksize := frame.header.blocksize - (d.guts.target_sample - frame.header.number)
        number := d.guts.target_sample } },
      (buffer.take frame.header.channels).map
        (List.drop (d.guts.target_sample - frame.header.number)), ?_, ?_, ?_, rfl, ?_, ?_⟩
    · unfold write_callback_
      dsimp only
      rw [if_pos hs, if_pos hcond, hdelta, if_pos hd]
      have e1 : (frame.header.blocksize + 2 ^ 32 -
          (d.guts.target_sample - frame.header.number)) % 2 ^ 32 =
          frame.header.blocksize - (d.guts.target_sample - frame.header.number) := by omega
      have e2 : (frame.header.number + (d.guts.target_sample - frame.header.number)) % 2 ^ 64 =
          d.guts.target_sample := by omega
      rw [e1, e2]
    · unfold write_callback_
      dsimp only
      rw [if_pos hs, if_pos hcond, hdelta, if_pos hd]
      have e1 : (frame.header.blocksize + 2 ^ 32 -
          (d.guts.target_sample - frame.header.number)) % 2 ^ 32 =
          frame.header.blocksize - (d.guts.target_sample - frame.header.number) := by omega
      have e2 : (frame.header.number + (d.guts.target_sample - frame.header.number)) % 2 ^ 64 =
          d.guts.target_sample := by omega
      rw [e1, e2]
    · unfold write_callback_
      dsimp only
      rw [if_pos hs, if_pos hcond, hdelta, if_pos hd]
    · intro c hc
      simp [List.getElem?_map, List.getElem?_take, hc]
    · intro c samples hc hb
      simp [List.getElem?_map, List.getElem?_take, hc, hb]
  · have h0 : d.guts.target_sample - frame.header.number = 0 := by omega
    refine ⟨frame, buffer, ?_, ?_, ?_, ?_, ?_, ?_⟩
    · unfold write_callback_
      dsimp only
      rw [if_pos hs, if_pos hcond, hdelta, if_neg hd]
    · unfold write_callback_
      dsimp only
      rw [if_pos hs, if_pos hcond, hdelta, if_neg hd]
    · unfold write_callback_
      dsimp only
      rw [if_pos hs, if_pos hcond, hdelta, if_neg hd]
    · have : d.guts.target_sample = frame.header.number := by omega
      rw [h0, this]
      simp
    · intro c _
      rw [h0]
      cases buffer[c]? <;> simp
    · intro c samples _ hb
      rw [h0, hb]
      simp

/-- Witness for C5: the example decoder seeks to sample 5 and receives the frame of
samples 0..15; the hypotheses hold and the state becomes `OK`. -/
theorem seek_delivery_witness :
    (write_callback_ example_decoder_client example_md5 example_seeking_decoder
      (example_frame 0) [List.range' 100 16]).2.1.state = .OK :=
  (seek_delivery example_decoder_client example_md5 example_seeking_decoder (example_frame 0)
    [List.range' 100 16] rfl (by decide) (by decide) (by decide) (by decide)).elim
    (fun _ h => h.elim (fun _ k => k.2.2.1))

/-! ## Stream encoder: parameter checks of `FLAC__encoder_init` -/

theorem resize_signal_loop_state (lib : EncoderLib) (n : Nat) (s : EncoderState)
    (l : List Nat) :
    ∀ (ok : Bool) (e : ActiveEncoder),
      (e.state = s ∨ e.state = .MEMORY_ALLOCATION_ERROR) →
      ((resize_signal_loop lib n l ok e).2.state = s ∨
        (resize_signal_loop lib n l ok e).2.state = .MEMORY_ALLOCATION_ERROR) := by
  induction l with
  | nil => intro ok e h; simpa [resize_signal_loop] using h
  | cons i rest ih =>
      intro ok e h
      unfold resize_signal_loop
      dsimp only
      split_ifs
      · exact h
      all_goals
        cases hm : lib.malloc_int32 (2 * i) n <;> apply ih <;>
          first | exact h | exact Or.inr rfl

theorem resize_mid_side_loop_state (lib : EncoderLib) (n base : Nat) (s : EncoderState)
    (l : List Nat) :
    ∀ (ok : Bool) (e : ActiveEncoder),
      (e.state = s ∨ e.state = .MEMORY_ALLOCATION_ERROR) →
      ((resize_mid_side_loop lib n base l ok e).2.state = s ∨
        (resize_mid_side_loop lib n base l ok e).2.state = .MEMORY_ALLOCATION_ERROR) := by
  induction l with
  | nil => intro ok e h; simpa [resize_mid_side_loop] using h
  | cons i rest ih =>
      intro ok e h
      unfold resize_mid_side_loop
      dsimp only
      split_ifs
      · exact h
      all_goals
        cases hm : lib.malloc_int32 (base + 2 * i) n <;> apply ih <;>
          first | exact h | exact Or.inr rfl

theorem resize_residual_loop_state (lib : EncoderLib) (n base : Nat) (s : EncoderState)
    (l : List Nat) :
    ∀ (ok : Bool) (e : ActiveEncoder),
      (e.state = s ∨ e.state = .MEMORY_ALLOCATION_ERROR) →
      ((resize_residual_loop lib n base l ok e).2.state = s ∨
        (resize_residual_loop lib n base l ok e).2.state = .MEMORY_ALLOCATION_ERROR) := by
  induction l with
  | nil => intro ok e h; simpa [resize_residual_loop] using h
  | cons i rest ih =>
      intro ok e h
      unfold resize_residual_loop
      cases hm : lib.malloc_int32 (base + i) n <;> apply ih <;>
        first | exact h | exact Or.inr rfl

theorem encoder_resize_buffers_state (lib : EncoderLib) (e : ActiveEncoder) (n : Nat) :
    (encoder_resize_buffers_ lib e n).2.state = e.state ∨
      (encoder_resize_buffers_ lib e n).2.state = .MEMORY_ALLOCATION_ERROR := by
  unfold encoder_resize_buffers_
  dsimp only
  have h1 := resize_signal_loop_state lib n e.state (List.range e.channels) true e (Or.inl rfl)
  have h2 := resize_mid_side_loop_state lib n (2 * e.channels) e.state (List.range 2) true
    (resize_signal_loop lib n (List.range e.channels) true e).2 h1
  have h3 := resize_residual_loop_state lib n (2 * e.channels + 4) e.state (List.range 2) true
    (resize_mid_side_loop lib n (2 * e.channels) (List.range 2) true
      (resize_signal_loop lib n (List.range e.channels) true e).2).2 h2
  split_ifs
  all_goals first
    | exact Or.inl rfl
    | exact h1
    | exact h2
    | exact h3

/-- The states `FLAC__encoder_init` can end in once the parameter checks have passed. -/
theorem encoder_init_guts_state (lib : EncoderLib) (client : EncoderClient) (e : Encoder)
    (h : e.state = .OK) :
    (encoder_init_guts lib client e).1.state = .OK ∨
      (encoder_init_guts lib client e).1.state = .MEMORY_ALLOCATION_ERROR ∨
      (encoder_init_guts lib client e).1.state = .FRAMING_ERROR ∨
      (encoder_init_guts lib client e).1.state = .FATAL_ERROR_WHILE_WRITING := by
  unfold encoder_init_guts
  cases hg : lib.malloc_guts with
  | none => simp
  | some fresh =>
      dsimp only
      have hr := encoder_resize_buffers_state lib
        { toEncoderSettings := e.toEncoderSettings,
          guts := { fresh with
            input_capacity := 0
            integer_signal := List.replicate e.channels []
            integer_signal_mid_side := [[], []]
            residual := [[], []]
            best_residual := 0
            current_frame_can_do_mid_side := true
            current_sample_number := 0
            current_frame_number := 0 } } e.blocksize
      split_ifs
      · rcases hr with hr | hr <;> simp_all [ActiveEncoder.toEncoder]
      · split
        · simp [ActiveEncoder.toEncoder]
        · split
          · simp [ActiveEncoder.toEncoder]
          · split
            · simp [ActiveEncoder.toEncoder]
            · split_ifs
              · simp [ActiveEncoder.toEncoder]
              · rcases hr with hr | hr <;> simp_all [ActiveEncoder.toEncoder]

/-- C6 (counterexample): with 3 bits per sample (outside 4..32), other settings valid and
mid-side stereo off, `FLAC__encoder_init` does not answer `INVALID_BITS_PER_SAMPLE`: it
succeeds with state `OK`. -/
theorem init_accepts_three_bits :
    (FLAC__encoder_init example_lib example_encoder_client (example_encoder 3 0)).1.state =
      .OK := by
  decide

/-- C6 (amended): for settings with a valid channel count and mid-side stereo off,
`FLAC__encoder_init` answers `INVALID_BITS_PER_SAMPLE` exactly when `bits_per_sample` is 0
or greater than 32; every value in 1..32 is not rejected on this ground. -/
theorem init_bits_per_sample (lib : EncoderLib) (client : EncoderClient) (e : Encoder)
    (hc : e.channels ≠ 0 ∧ e.channels ≤ FLAC__MAX_CHANNELS)
    (hm : e.do_mid_side_stereo = false) :
    (FLAC__encoder_init lib client e).1.state = .INVALID_BITS_PER_SAMPLE ↔
      e.bits_per_sample = 0 ∨ e.bits_per_sample > 32 := by
  have key : ∀ e' : Encoder, e'.state = .OK →
      (encoder_init_guts lib client e').1.state ≠ .INVALID_BITS_PER_SAMPLE := by
    intro e' h'
    rcases encoder_init_guts_state lib client e' h' with h | h | h | h <;> simp [h]
  unfold FLAC__encoder_init FLAC__encoder_init_with
  dsimp only
  have hc1 : ¬ (e.channels = 0 ∨ e.channels > FLAC__MAX_CHANNELS) := by omega
  rw [if_neg hc1]
  simp only [hm, Bool.false_eq_true, false_and, if_false]
  by_cases hb : e.bits_per_sample = 0 ∨ e.bits_per_sample > FLAC__MAX_BITS_PER_SAMPLE
  · rw [if_pos hb]
    simpa [FLAC__MAX_BITS_PER_SAMPLE] using hb
  · rw [if_neg hb]
    have hb' : ¬ (e.bits_per_sample = 0 ∨ e.bits_per_sample > 32) := by
      simpa [FLAC__MAX_BITS_PER_SAMPLE] using hb
    simp only [hb', iff_false]
    split_ifs
    all_goals first
      | (intro h; cases h)
      | (apply key; rfl)

/-- Witness for C6 (amended): 3 bits per sample is not rejected, 33 is. -/
theorem init_bits_per_sample_witness :
    (FLAC__encoder_init example_lib example_encoder_client (example_encoder 33 0)).1.state =
      .INVALID_BITS_PER_SAMPLE :=
  (init_bits_per_sample example_lib example_encoder_client (example_encoder 33 0)
    (by decide) rfl).2 (Or.inr (by decide))


/-- Settings that pass every parameter check reach the allocation part of
`FLAC__encoder_init` in state `OK`. -/
theorem init_passes_checks (lib : EncoderLib) (client : EncoderClient) (e : Encoder)
    (h1 : ¬ (e.channels = 0 ∨ e.channels > FLAC__MAX_CHANNELS))
    (h2 : ¬ (e.do_mid_side_stereo = true ∧ e.channels ≠ 2))
    (h3 : ¬ (e.do_mid_side_stereo = true ∧ e.bits_per_sample > 16))
    (h4 : ¬ (e.bits_per_sample = 0 ∨ e.bits_per_sample > FLAC__MAX_BITS_PER_SAMPLE))
    (h5 : ¬ (e.sample_rate = 0 ∨ e.sample_rate > FLAC__MAX_SAMPLE_RATE))
    (h6 : ¬ (e.blocksize < FLAC__MIN_BLOCK_SIZE ∨ e.blocksize > FLAC__MAX_BLOCK_SIZE))
    (h7 : ¬ e.blocksize < e.max_lpc_order)
    (h8 : ¬ (e.qlp_coeff_precision ≠ 0 ∧
      (e.qlp_coeff_precision < FLAC__MIN_QLP_COEFF_PRECISION ∨
        (e.qlp_coeff_precision + e.bits_per_sample) % 2 ^ 32 ≥ 32)))
    (h9 : ¬ (e.streamable_subset = true ∧
      ((e.bits_per_sample ≠ 8 ∧ e.bits_per_sample ≠ 12 ∧ e.bits_per_sample ≠ 16 ∧
          e.bits_per_sample ≠ 20 ∧ e.bits_per_sample ≠ 24) ∨ e.sample_rate > 655350))) :
    ∃ e' : Encoder, e'.state = .OK ∧ e'.channels = e.channels ∧
      e'.bits_per_sample = e.bits_per_sample ∧ e'.sample_rate = e.sample_rate ∧
      e'.blocksize = e.blocksize ∧
      FLAC__encoder_init lib client e = encoder_init_guts lib client e' := by
  unfold FLAC__encoder_init FLAC__encoder_init_with
  dsimp only
  rw [if_neg h1, if_neg h2, if_neg h3, if_neg h4, if_neg h5, if_neg h6, if_neg h7, if_neg h8]
  split_ifs
  all_goals first
    | (refine ⟨_, ?_, ?_, ?_, ?_, ?_, rfl⟩ <;> rfl)
    | (exfalso; simp_all)

/-- Settings that pass every parameter check reach the allocation part of
`FLAC__encoder_init` in state `OK`, whatever the value of `FLAC__MAX_SAMPLE_RATE`. -/
theorem init_with_passes_checks (max_sample_rate : Nat) (lib : EncoderLib)
    (client : EncoderClient) (e : Encoder)
    (h1 : ¬ (e.channels = 0 ∨ e.channels > FLAC__MAX_CHANNELS))
    (h2 : ¬ (e.do_mid_side_stereo = true ∧ e.channels ≠ 2))
    (h3 : ¬ (e.do_mid_side_stereo = true ∧ e.bits_per_sample > 16))
    (h4 : ¬ (e.bits_per_sample = 0 ∨ e.bits_per_sample > FLAC__MAX_BITS_PER_SAMPLE))
    (h5 : ¬ (e.sample_rate = 0 ∨ e.sample_rate > max_sample_rate))
    (h6 : ¬ (e.blocksize < FLAC__MIN_BLOCK_SIZE ∨ e.blocksize > FLAC__MAX_BLOCK_SIZE))
    (h7 : ¬ e.blocksize < e.max_lpc_order)
    (h8 : ¬ (e.qlp_coeff_precision ≠ 0 ∧
      (e.qlp_coeff_precision < FLAC__MIN_QLP_COEFF_PRECISION ∨
        (e.qlp_coeff_precision + e.bits_per_sample) % 2 ^ 32 ≥ 32)))
    (h9 : ¬ (e.streamable_subset = true ∧
      ((e.bits_per_sample ≠ 8 ∧ e.bits_per_sample ≠ 12 ∧ e.bits_per_sample ≠ 16 ∧
          e.bits_per_sample ≠ 20 ∧ e.bits_per_sample ≠ 24) ∨ e.sample_rate > 655350))) :
    ∃ e' : Encoder, e'.state = .OK ∧
      FLAC__encoder_init_with max_sample_rate lib client e = encoder_init_guts lib client e' := by
  unfold FLAC__encoder_init_with
  dsimp only
  rw [if_neg h1, if_neg h2, if_neg h3, if_neg h4, if_neg h5, if_neg h6, if_neg h7, if_neg h8]
  split_ifs
  all_goals first
    | (refine ⟨_, ?_, rfl⟩; rfl)
    | (exfalso; simp_all)

/-- C7: for settings that pass all earlier checks of `FLAC__encoder_init`, the resulting
state is `NOT_STREAMABLE` exactly when `streamable_subset` is set and `bits_per_sample` is
not one of 8, 12, 16, 20, 24 or `sample_rate > 655350`; with `streamable_subset` off the
parameters are accepted: only a failure of allocation or of writing the stream header can
keep the state from being `OK`.  The statement holds for every value `max_sample_rate` of
the constant `FLAC__MAX_SAMPLE_RATE` that the earlier sample rate check compares with;
`FLAC__encoder_init` is the instance `max_sample_rate = FLAC__MAX_SAMPLE_RATE`, in which no
sample rate above 655350 passes that earlier check. -/
theorem init_streamable_subset (max_sample_rate : Nat) (lib : EncoderLib)
    (client : EncoderClient) (e : Encoder)
    (h1 : ¬ (e.channels = 0 ∨ e.channels > FLAC__MAX_CHANNELS))
    (h2 : ¬ (e.do_mid_side_stereo = true ∧ e.channels ≠ 2))
    (h3 : ¬ (e.do_mid_side_stereo = true ∧ e.bits_per_sample > 16))
    (h4 : ¬ (e.bits_per_sample = 0 ∨ e.bits_per_sample > FLAC__MAX_BITS_PER_SAMPLE))
    (h5 : ¬ (e.sample_rate = 0 ∨ e.sample_rate > max_sample_rate))
    (h6 : ¬ (e.blocksize < FLAC__MIN_BLOCK_SIZE ∨ e.blocksize > FLAC__MAX_BLOCK_SIZE))
    (h7 : ¬ e.blocksize < e.max_lpc_order)
    (h8 : ¬ (e.qlp_coeff_precision ≠ 0 ∧
      (e.qlp_coeff_precision < FLAC__MIN_QLP_COEFF_PRECISION ∨
        (e.qlp_coeff_precision + e.bits_per_sample) % 2 ^ 32 ≥ 32))) :
    ((FLAC__encoder_init_with max_sample_rate lib client e).1.state = .NOT_STREAMABLE ↔
      e.streamable_subset = true ∧
        ((e.bits_per_sample ≠ 8 ∧ e.bits_per_sample ≠ 12 ∧ e.bits_per_sample ≠ 16 ∧
            e.bits_per_sample ≠ 20 ∧ e.bits_per_sample ≠ 24) ∨ e.sample_rate > 655350)) ∧
    (e.streamable_subset = false →
      (FLAC__encoder_init_with max_sample_rate lib client e).1.state = .OK ∨
        (FLAC__encoder_init_with max_sample_rate lib client e).1.state =
          .MEMORY_ALLOCATION_ERROR ∨
        (FLAC__encoder_init_with max_sample_rate lib client e).1.state = .FRAMING_ERROR ∨
        (FLAC__encoder_init_with max_sample_rate lib client e).1.state =
          .FATAL_ERROR_WHILE_WRITING) ∧
    (max_sample_rate = FLAC__MAX_SAMPLE_RATE →
      FLAC__encoder_init_with max_sample_rate lib client e = FLAC__encoder_init lib client e) := by
  have pass : ¬ (e.streamable_subset = true ∧
      ((e.bits_per_sample ≠ 8 ∧ e.bits_per_sample ≠ 12 ∧ e.bits_per_sample ≠ 16 ∧
          e.bits_per_sample ≠ 20 ∧ e.bits_per_sample ≠ 24) ∨ e.sample_rate > 655350)) →
      (FLAC__encoder_init_with max_sample_rate lib client e).1.state = .OK ∨
        (FLAC__encoder_init_with max_sample_rate lib client e).1.state =
          .MEMORY_ALLOCATION_ERROR ∨
        (FLAC__encoder_init_with max_sample_rate lib client e).1.state = .FRAMING_ERROR ∨
        (FLAC__encoder_init_with max_sample_rate lib client e).1.state =
          .FATAL_ERROR_WHILE_WRITING := by
    intro h9
    obtain ⟨e', hs, he⟩ :=
      init_with_passes_checks max_sample_rate lib client e h1 h2 h3 h4 h5 h6 h7 h8 h9
    rw [he]
    exact encoder_init_guts_state lib client e' hs
  refine ⟨⟨?_, ?_⟩, ?_, ?_⟩
  · intro h
    by_contra h9
    rcases pass h9 with k | k | k | k <;> rw [k] at h <;> cases h
  · intro h9
    unfold FLAC__encoder_init_with
    dsimp only
    rw [if_neg h1, if_neg h2, if_neg h3, if_neg h4, if_neg h5, if_neg h6, if_neg h7,
      if_neg h8]
    split_ifs
    all_goals first
      | rfl
      | (exfalso; rcases h9 with ⟨hs, hb | hr⟩ <;> simp_all)
  · intro hs
    exact pass (by simp [hs])
  · intro hm
    rw [hm]
    rfl

/-- Witness for C7: with the streamable subset requested, a sample rate of 700000 that
passes a sample rate limit of `2^20 - 1` (the largest 20 bit value) is answered with
`NOT_STREAMABLE`, and so are 10 bit samples under the limit `FLAC__MAX_SAMPLE_RATE` in
`FLAC__encoder_init`; 16 bit samples at 44100 Hz are accepted. -/
theorem init_streamable_subset_witness :
    (FLAC__encoder_init_with (2 ^ 20 - 1) example_lib example_encoder_client
        { example_encoder 16 0 with streamable_subset := true, sample_rate := 700000 }).1.state =
      .NOT_STREAMABLE ∧
    (FLAC__encoder_init example_lib example_encoder_client
        { example_encoder 10 0 with streamable_subset := true }).1.state = .NOT_STREAMABLE ∧
    (FLAC__encoder_init example_lib example_encoder_client
        { example_encoder 16 0 with streamable_subset := true }).1.state ≠ .NOT_STREAMABLE :=
  ⟨((init_streamable_subset (2 ^ 20 - 1) example_lib example_encoder_client
      { example_encoder 16 0 with streamable_subset := true, sample_rate := 700000 }
      (by decide) (by decide) (by decide) (by decide) (by decide) (by decide) (by decide)
      (by decide)).1).mpr ⟨rfl, Or.inr (by decide)⟩,
   ((init_streamable_subset FLAC__MAX_SAMPLE_RATE example_lib example_encoder_client
      { example_encoder 10 0 with streamable_subset := true }
      (by decide) (by decide) (by decide) (by decide) (by decide) (by decide) (by decide)
      (by decide)).1).mpr ⟨rfl, Or.inl (by decide)⟩,
   fun h => absurd
     (((init_streamable_subset FLAC__MAX_SAMPLE_RATE example_lib example_encoder_client
      { example_encoder 16 0 with streamable_subset := true }
      (by decide) (by decide) (by decide) (by decide) (by decide) (by decide) (by decide)
      (by decide)).1).mp h).2 (by decide)⟩

/-- C8 (counterexample): with 8 bits per sample the explicit precision 16 (outside 5..15)
is accepted: `FLAC__encoder_init` succeeds with state `OK`. -/
theorem init_accepts_precision_sixteen :
    (FLAC__encoder_init example_lib example_encoder_client (example_encoder 8 16)).1.state =
      .OK := by
  decide

/-- C8 (amended): for settings that pass the earlier checks of `FLAC__encoder_init`, an
explicitly requested (non-zero) `qlp_coeff_precision` yields state
`INVALID_QLP_COEFF_PRECISION` exactly when it is below 5 or the `unsigned` sum
`qlp_coeff_precision + bits_per_sample` is at least 32. -/
theorem init_qlp_coeff_precision (lib : EncoderLib) (client : EncoderClient) (e : Encoder)
    (h1 : ¬ (e.channels = 0 ∨ e.channels > FLAC__MAX_CHANNELS))
    (h2 : ¬ (e.do_mid_side_stereo = true ∧ e.channels ≠ 2))
    (h3 : ¬ (e.do_mid_side_stereo = true ∧ e.bits_per_sample > 16))
    (h4 : ¬ (e.bits_per_sample = 0 ∨ e.bits_per_sample > FLAC__MAX_BITS_PER_SAMPLE))
    (h5 : ¬ (e.sample_rate = 0 ∨ e.sample_rate > FLAC__MAX_SAMPLE_RATE))
    (h6 : ¬ (e.blocksize < FLAC__MIN_BLOCK_SIZE ∨ e.blocksize > FLAC__MAX_BLOCK_SIZE))
    (h7 : ¬ e.blocksize < e.max_lpc_order)
    (hq : e.qlp_coeff_precision ≠ 0) :
    (FLAC__encoder_init lib client e).1.state = .INVALID_QLP_COEFF_PRECISION ↔
      e.qlp_coeff_precision < 5 ∨ (e.qlp_coeff_precision + e.bits_per_sample) % 2 ^ 32 ≥ 32 := by
  have key : ∀ e' : Encoder, e'.state = .OK →
      (encoder_init_guts lib client e').1.state ≠ .INVALID_QLP_COEFF_PRECISION := by
    intro e' h'
    rcases encoder_init_guts_state lib client e' h' with h | h | h | h <;> simp [h]
  unfold FLAC__encoder_init FLAC__encoder_init_with
  dsimp only
  rw [if_neg h1, if_neg h2, if_neg h3, if_neg h4, if_neg h5, if_neg h6, if_neg h7]
  by_cases h8 : e.qlp_coeff_precision ≠ 0 ∧
      (e.qlp_coeff_precision < FLAC__MIN_QLP_COEFF_PRECISION ∨
        (e.qlp_coeff_precision + e.bits_per_sample) % 2 ^ 32 ≥ 32)
  · rw [if_pos h8]
    simpa [FLAC__MIN_QLP_COEFF_PRECISION] using h8.2
  · rw [if_neg h8]
    have h8' : ¬ (e.qlp_coeff_precision < 5 ∨
        (e.qlp_coeff_precision + e.bits_per_sample) % 2 ^ 32 ≥ 32) := by
      intro h
      exact h8 ⟨hq, by simpa [FLAC__MIN_QLP_COEFF_PRECISION] using h⟩
    simp only [h8', iff_false]
    split_ifs
    all_goals first
      | (intro h; cases h)
      | (apply key; rfl)

/-- Witness for C8 (amended): with 8 bits per sample the precision 4 is rejected. -/
theorem init_qlp_coeff_precision_witness :
    (FLAC__encoder_init example_lib example_encoder_client (example_encoder 8 4)).1.state =
      .INVALID_QLP_COEFF_PRECISION :=
  (init_qlp_coeff_precision example_lib example_encoder_client (example_encoder 8 4)
    (by decide) (by decide) (by decide) (by decide) (by decide) (by decide) (by decide)
    (by decide)).2 (Or.inl (by decide))

/-! ## Stream encoder: what a frame changes -/

theorem subframes_channel_loop_keeps (lib : EncoderLib) (fh : FrameHeader)
    (sig : List (List Int)) (mpo : Nat) (l : List Nat) :
    ∀ (e : ActiveEncoder) (frame : BitBuffer) (ok : Bool) (e' : ActiveEncoder)
      (frame' : BitBuffer),
      subframes_channel_loop lib fh sig mpo l e frame = some (ok, e', frame') →
      e'.toEncoderSettings = { e.toEncoderSettings with state := e'.state } ∧
        (ok = true → e'.state = e.state) ∧
        e'.guts = { e.guts with
          best_subframe := e'.guts.best_subframe
          candidate_subframe := e'.guts.candidate_subframe
          residual := e'.guts.residual
          best_residual := e'.guts.best_residual } := by
  induction l with
  | nil =>
      intro e frame ok e' frame' h
      simp only [subframes_channel_loop, Option.some.injEq, Prod.mk.injEq] at h
      obtain ⟨_, rfl, _⟩ := h
      simp
  | cons c rest ih =>
      intro e frame ok e' frame' h
      unfold subframes_channel_loop at h
      dsimp only at h
      split at h
      · cases h
      · split at h
        · simp only [Option.some.injEq, Prod.mk.injEq] at h
          obtain ⟨rfl, rfl, _⟩ := h
          simp
        · have k := ih _ _ _ _ _ h
          refine ⟨?_, ?_, ?_⟩
          · rw [k.1]
          · intro hok; rw [k.2.1 hok]
          · rw [k.2.2]

theorem build_candidate_keeps (lib : EncoderLib) (e : ActiveEncoder) (is_last : Bool)
    (fh : FrameHeader) (sig : List (List Int)) (buf : BitBuffer) (e' : ActiveEncoder)
    (r : Option BitBuffer) (h : build_candidate lib e is_last fh sig buf = some (e', r)) :
    e'.toEncoderSettings = { e.toEncoderSettings with state := e'.state } ∧
      (r ≠ none → e'.state = e.state) ∧
      e'.guts = { e.guts with
        best_subframe := e'.guts.best_subframe
        candidate_subframe := e'.guts.candidate_subframe
        residual := e'.guts.residual
        best_residual := e'.guts.best_residual } := by
  unfold build_candidate at h
  split at h
  · simp only [Option.some.injEq, Prod.mk.injEq] at h
    obtain ⟨rfl, rfl⟩ := h
    simp
  · split at h
    · simp only [Option.some.injEq, Prod.mk.injEq] at h
      obtain ⟨rfl, rfl⟩ := h
      simp
    · split at h
      · cases h
      · rename_i hx
        simp only [Option.some.injEq, Prod.mk.injEq] at h
        obtain ⟨rfl, rfl⟩ := h
        unfold encoder_process_subframes_ at hx
        split at hx
        · cases hx
        · have k := subframes_channel_loop_keeps _ _ _ _ _ _ _ _ _ _ hx
          exact ⟨k.1, by simp, k.2.2⟩
      · rename_i hx
        simp only [Option.some.injEq, Prod.mk.injEq] at h
        obtain ⟨rfl, rfl⟩ := h
        unfold encoder_process_subframes_ at hx
        split at hx
        · cases hx
        · have k := subframes_channel_loop_keeps _ _ _ _ _ _ _ _ _ _ hx
          exact ⟨k.1, fun _ => k.2.1 rfl, k.2.2⟩

/-- What the tail of `encoder_process_frame_` does with the chosen bit buffer. -/
theorem write_frame_spec (lib : EncoderLib) (client : EncoderClient) (e : ActiveEncoder)
    (which : Nat) (b : BitBuffer) :
    (write_frame lib client e which b).2.1.toEncoderSettings =
        { e.toEncoderSettings with state := (write_frame lib client e which b).2.1.state } ∧
      (write_frame lib client e which b).2.1.guts.integer_signal = e.guts.integer_signal ∧
      (write_frame lib client e which b).2.1.guts.integer_signal_mid_side =
        e.guts.integer_signal_mid_side ∧
      (write_frame lib client e which b).2.1.guts.input_capacity = e.guts.input_capacity ∧
      ((write_frame lib client e which b).1 = true →
        (write_frame lib client e which b).2.1.state = e.state ∧
        (write_frame lib client e which b).2.1.guts.current_frame_number =
          (e.guts.current_frame_number + 1) % 2 ^ 32 ∧
        (write_frame lib client e which b).2.1.guts.current_sample_number = 0 ∧
        (write_frame lib client e which b).2.1.guts.current_frame_can_do_mid_side = true ∧
        (write_frame lib client e which b).2.1.guts.metadata.encoding.total_samples =
          (e.guts.metadata.encoding.total_samples + e.blocksize) % 2 ^ 64 ∧
        ∃ padded, lib.bitbuffer_zero_pad_to_byte_boundary b = some padded ∧
          (write_frame lib client e which b).2.2 =
            [.write padded.buffer padded.bytes e.blocksize e.guts.current_frame_number] ∧
          client.write_callback padded.buffer padded.bytes e.blocksize
            e.guts.current_frame_number = .OK) ∧
      ((write_frame lib client e which b).1 = false →
        (write_frame lib client e which b).2.1.guts.current_frame_number =
          e.guts.current_frame_number ∧
        (write_frame lib client e which b).2.1.guts.current_sample_number =
          e.guts.current_sample_number ∧
        (write_frame lib client e which b).2.1.guts.current_frame_can_do_mid_side =
          e.guts.current_frame_can_do_mid_side ∧
        (write_frame lib client e which b).2.1.guts.metadata = e.guts.metadata ∧
        ((write_frame lib client e which b).2.2 = [] ∨
          ∃ padded, lib.bitbuffer_zero_pad_to_byte_boundary b = some padded ∧
            (write_frame lib client e which b).2.2 =
              [.write padded.buffer padded.bytes e.blocksize e.guts.current_frame_number] ∧
            client.write_callback padded.buffer padded.bytes e.blocksize
              e.guts.current_frame_number ≠ .OK)) := by
  unfold write_frame
  cases hp : lib.bitbuffer_zero_pad_to_byte_boundary b with
  | none => simp
  | some padded =>
      dsimp only
      by_cases hw : client.write_callback padded.buffer padded.bytes e.blocksize
          e.guts.current_frame_number = .OK
      · simp only [hw, ne_eq, not_true_eq_false, if_false]
        split_ifs <;> simp [hw]
      · simp only [hw, ne_eq, not_false_eq_true, if_true]
        split_ifs <;> simp [hw]

theorem frame_untouched_refl (e : ActiveEncoder) : frame_untouched e e := by
  simp [frame_untouched]

theorem frame_untouched_trans {a b c : ActiveEncoder} (h1 : frame_untouched a b)
    (h2 : frame_untouched b c) : frame_untouched a c := by
  obtain ⟨s1, p1, q1, r1, t1, u1, v1, w1⟩ := h1
  obtain ⟨s2, p2, q2, r2, t2, u2, v2, w2⟩ := h2
  refine ⟨?_, p2.trans p1, q2.trans q1, r2.trans r1, t2.trans t1, u2.trans u1, v2.trans v1,
    w2.trans w1⟩
  rw [s2, s1]

theorem build_candidate_untouched (lib : EncoderLib) (e : ActiveEncoder) (is_last : Bool)
    (fh : FrameHeader) (sig : List (List Int)) (buf : BitBuffer) (e' : ActiveEncoder)
    (r : Option BitBuffer) (h : build_candidate lib e is_last fh sig buf = some (e', r)) :
    frame_untouched e e' ∧ (r ≠ none → e'.state = e.state) := by
  have k := build_candidate_keeps lib e is_last fh sig buf e' r h
  refine ⟨⟨k.1, ?_, ?_, ?_, ?_, ?_, ?_, ?_⟩, k.2.1⟩ <;> rw [k.2.2]

/-- The tail of a frame, seen from the encoder `e` the frame was started on. -/
theorem write_frame_outcome (lib : EncoderLib) (client : EncoderClient) (e a : ActiveEncoder)
    (which : Nat) (b : BitBuffer) (hu : frame_untouched e a) (hs : a.state = e.state)
    (hb : ∃ (x x' : ActiveEncoder) (is_last : Bool) (assignment : Nat)
      (sig : List (List Int)) (buf : BitBuffer),
      build_candidate lib x is_last (frame_header_of x assignment) sig buf = some (x', some b) ∧
        x.blocksize = e.blocksize ∧
        x.guts.current_frame_number = e.guts.current_frame_number) :
    frame_outcome lib client e (write_frame lib client a which b).1
      (write_frame lib client a which b).2.1 (write_frame lib client a which b).2.2 := by
  obtain ⟨s1, p1, q1, r1, t1, u1, v1, w1⟩ := hu
  have hbs : a.blocksize = e.blocksize := by
    have := congrArg EncoderSettings.blocksize s1
    simpa using this
  obtain ⟨x, x', il, asg, sig, buf, hx, hxb, hxn⟩ := hb
  have k := write_frame_spec lib client a which b
  obtain ⟨k1, k2, k3, k4, k5, k6⟩ := k
  refine ⟨?_, k4.trans p1, k2.trans q1, k3.trans r1, ?_, ?_⟩
  · rw [k1, s1]
  · intro hok
    obtain ⟨m1, m2, m3, m4, m5, padded, m6, m7, m8⟩ := k5 hok
    refine ⟨m1.trans hs, ?_, m3, m4, ?_, padded.buffer, padded.bytes, ?_, ?_, ?_⟩
    · rw [m2, w1]
    · rw [m5, u1, hbs]
    · rw [m7, hbs, w1]
    · rw [← hbs, ← w1]; exact m8
    · exact ⟨x, x', il, asg, sig, buf, b, padded, hx, m6, by rw [hxb, hxn]⟩
  · intro hok
    obtain ⟨m1, m2, m3, m4, m5⟩ := k6 hok
    refine ⟨m1.trans w1, m2.trans v1, m3.trans t1, m4.trans u1, ?_⟩
    rcases m5 with m5 | ⟨padded, m6, m7, m8⟩
    · exact Or.inl m5
    · refine Or.inr ⟨padded.buffer, padded.bytes, ?_, ?_, ?_⟩
      · rw [m7, hbs, w1]
      · rw [← hbs, ← w1]; exact m8
      · exact ⟨x, x', il, asg, sig, buf, b, padded, hx, m6, by rw [hxb, hxn]⟩

/-- A frame that fails before anything is written. -/
theorem failed_frame_outcome (lib : EncoderLib) (client : EncoderClient) (e a : ActiveEncoder)
    (hu : frame_untouched e a) : frame_outcome lib client e false a [] := by
  obtain ⟨s1, p1, q1, r1, t1, u1, v1, w1⟩ := hu
  exact ⟨s1, p1, q1, r1, by simp, fun _ => ⟨w1, v1, t1, u1, Or.inl rfl⟩⟩

theorem frame_untouched_set_frame (a : ActiveEncoder) (f : BitBuffer) :
    frame_untouched a { a with guts := { a.guts with frame := f } } := by
  simp [frame_untouched]

theorem frame_untouched_set_mid_side (a : ActiveEncoder) (f : BitBuffer) :
    frame_untouched a { a with guts := { a.guts with frame_mid_side := f } } := by
  simp [frame_untouched]

theorem frame_untouched_set_left_side (a : ActiveEncoder) (f : BitBuffer) :
    frame_untouched a { a with guts := { a.guts with frame_left_side := f } } := by
  simp [frame_untouched]

theorem frame_untouched_set_right_side (a : ActiveEncoder) (f : BitBuffer) :
    frame_untouched a { a with guts := { a.guts with frame_right_side := f } } := by
  simp [frame_untouched]

theorem frame_untouched_blocksize {e a : ActiveEncoder} (h : frame_untouched e a) :
    a.blocksize = e.blocksize := by
  have := congrArg EncoderSettings.blocksize h.1
  simpa using this

theorem frame_outcome_of_eq {lib : EncoderLib} {client : EncoderClient} {e : ActiveEncoder}
    {r : Bool × ActiveEncoder × List EncoderCall} {ok : Bool} {e' : ActiveEncoder}
    {calls : List EncoderCall} (hr : r = (ok, e', calls))
    (k : frame_outcome lib client e r.1 r.2.1 r.2.2) : frame_outcome lib client e ok e' calls := by
  subst hr
  exact k

/-- `encoder_process_frame_`, whenever it returns, has the outcome described by
`frame_outcome`. -/
theorem encoder_process_frame_outcome (lib : EncoderLib) (client : EncoderClient)
    (e : ActiveEncoder) (is_last : Bool) (ok : Bool) (e' : ActiveEncoder)
    (calls : List EncoderCall)
    (h : encoder_process_frame_ lib client e is_last = some (ok, e', calls)) :
    frame_outcome lib client e ok e' calls := by
  unfold encoder_process_frame_ at h
  split at h
  · cases h
  · rename_i e0 hb0
    simp only [Option.some.injEq, Prod.mk.injEq] at h
    obtain ⟨rfl, rfl, rfl⟩ := h
    exact failed_frame_outcome lib client e e0 (build_candidate_untouched _ _ _ _ _ _ _ _ hb0).1
  · rename_i e0 frame hb0
    have u0 := build_candidate_untouched _ _ _ _ _ _ _ _ hb0
    have u1 : frame_untouched e { e0 with guts := { e0.guts with frame := frame } } :=
      frame_untouched_trans u0.1 (frame_untouched_set_frame e0 frame)
    have s1 : ({ e0 with guts := { e0.guts with frame := frame } } : ActiveEncoder).state =
        e.state := u0.2 (by simp)
    have b0 : ∃ (x x' : ActiveEncoder) (il : Bool) (assignment : Nat)
        (sig : List (List Int)) (buf : BitBuffer),
        build_candidate lib x il (frame_header_of x assignment) sig buf = some (x', some frame) ∧
          x.blocksize = e.blocksize ∧
          x.guts.current_frame_number = e.guts.current_frame_number :=
      ⟨e, e0, is_last, _, _, _, hb0, rfl, rfl⟩
    dsimp only at h
    split_ifs at h
    · split at h
      · cases h
      · rename_i e2 hb2
        simp only [Option.some.injEq, Prod.mk.injEq] at h
        obtain ⟨rfl, rfl, rfl⟩ := h
        exact failed_frame_outcome lib client e e2
          (frame_untouched_trans u1 (build_candidate_untouched _ _ _ _ _ _ _ _ hb2).1)
      · rename_i e2 fms hb2
        have u2 := build_candidate_untouched _ _ _ _ _ _ _ _ hb2
        have u3 : frame_untouched e { e2 with guts := { e2.guts with frame_mid_side := fms } } :=
          frame_untouched_trans (frame_untouched_trans u1 u2.1)
            (frame_untouched_set_mid_side e2 fms)
        have s3 : ({ e2 with guts := { e2.guts with frame_mid_side := fms } } :
            ActiveEncoder).state = e.state := (u2.2 (by simp)).trans s1
        have b2 : ∃ (x x' : ActiveEncoder) (il : Bool) (assignment : Nat)
            (sig : List (List Int)) (buf : BitBuffer),
            build_candidate lib x il (frame_header_of x assignment) sig buf =
                some (x', some fms) ∧
              x.blocksize = e.blocksize ∧
              x.guts.current_frame_number = e.guts.current_frame_number :=
          ⟨_, e2, is_last, _, _, _, hb2, frame_untouched_blocksize u1, u1.2.2.2.2.2.2.2⟩
        split at h
        · cases h
        · rename_i e4 hb4
          simp only [Option.some.injEq, Prod.mk.injEq] at h
          obtain ⟨rfl, rfl, rfl⟩ := h
          exact failed_frame_outcome lib client e e4
            (frame_untouched_trans u3 (build_candidate_untouched _ _ _ _ _ _ _ _ hb4).1)
        · rename_i e4 fls hb4
          have u4 := build_candidate_untouched _ _ _ _ _ _ _ _ hb4
          have u5 : frame_untouched e
              { e4 with guts := { e4.guts with frame_left_side := fls } } :=
            frame_untouched_trans (frame_untouched_trans u3 u4.1)
              (frame_untouched_set_left_side e4 fls)
          have s5 : ({ e4 with guts := { e4.guts with frame_left_side := fls } } :
              ActiveEncoder).state = e.state := (u4.2 (by simp)).trans s3
          have b4 : ∃ (x x' : ActiveEncoder) (il : Bool) (assignment : Nat)
              (sig : List (List Int)) (buf : BitBuffer),
              build_candidate lib x il (frame_header_of x assignment) sig buf =
                  some (x', some fls) ∧
                x.blocksize = e.blocksize ∧
                x.guts.current_frame_number = e.guts.current_frame_number :=
            ⟨_, e4, is_last, _, _, _, hb4, frame_untouched_blocksize u3, u3.2.2.2.2.2.2.2⟩
          split at h
          · cases h
          · rename_i e6 hb6
            simp only [Option.some.injEq, Prod.mk.injEq] at h
            obtain ⟨rfl, rfl, rfl⟩ := h
            exact failed_frame_outcome lib client e e6
              (frame_untouched_trans u5 (build_candidate_untouched _ _ _ _ _ _ _ _ hb6).1)
          · rename_i e6 frs hb6
            have u6 := build_candidate_untouched _ _ _ _ _ _ _ _ hb6
            have u7 : frame_untouched e
                { e6 with guts := { e6.guts with frame_right_side := frs } } :=
              frame_untouched_trans (frame_untouched_trans u5 u6.1)
                (frame_untouched_set_right_side e6 frs)
            have s7 : ({ e6 with guts := { e6.guts with frame_right_side := frs } } :
                ActiveEncoder).state = e.state := (u6.2 (by simp)).trans s5
            have b6 : ∃ (x x' : ActiveEncoder) (il : Bool) (assignment : Nat)
                (sig : List (List Int)) (buf : BitBuffer),
                build_candidate lib x il (frame_header_of x assignment) sig buf =
                    some (x', some frs) ∧
                  x.blocksize = e.blocksize ∧
                  x.guts.current_frame_number = e.guts.current_frame_number :=
              ⟨_, e6, is_last, _, _, _, hb6, frame_untouched_blocksize u5, u5.2.2.2.2.2.2.2⟩
            simp only [Option.some.injEq] at h
            refine frame_outcome_of_eq h (write_frame_outcome lib client e _ _ _ u7 s7 ?_)
            split_ifs <;> assumption
    · simp only [Option.some.injEq] at h
      exact frame_outcome_of_eq h (write_frame_outcome lib client e _ 0 frame u1 s1 b0)

/-! ## Stream encoder: the frame loops end -/

theorem foldlM_option_some {σ : Type} (body : σ → Nat → Option σ)
    (hb : ∀ s x, ∃ t, body s x = some t) (l : List Nat) :
    ∀ s : σ, ∃ t, l.foldlM body s = some t := by
  induction l with
  | nil => intro s; exact ⟨s, rfl⟩
  | cons x rest ih =>
      intro s
      obtain ⟨t, ht⟩ := hb s x
      obtain ⟨u, hu⟩ := ih t
      exact ⟨u, by simp [List.foldlM, ht, hu]⟩

theorem for_inclusive_some {σ : Type} (lo hi : Nat) (body : Nat → σ → Option σ) (s : σ)
    (hhi : hi < 2 ^ 32 - 1) (hb : ∀ x s, ∃ t, body x s = some t) :
    ∃ t, for_inclusive lo hi body s = some t := by
  unfold for_inclusive
  have hne : ¬ (lo ≤ hi ∧ hi = 2 ^ 32 - 1) := by omega
  rw [if_neg hne]
  exact foldlM_option_some (fun s x => body x s) (fun s x => hb x s) _ s

theorem limit_loop_some : ∀ (fuel b limit : Nat), 0 < b → b < 2 ^ fuel →
    ∃ n, limit_loop fuel b limit = some n := by
  intro fuel
  induction fuel with
  | zero => intro b limit h0 h1; simp at h1; omega
  | succ k ih =>
      intro b limit h0 h1
      unfold limit_loop
      by_cases hm : b % 2 = 0
      · rw [if_pos hm]
        apply ih
        · omega
        · rw [pow_succ] at h1; omega
      · rw [if_neg hm]
        exact ⟨limit, rfl⟩

theorem max_partition_order_of_some (e : EncoderSettings) (is_last : Bool)
    (h0 : 0 < e.blocksize) (h1 : e.blocksize < 2 ^ 32) :
    ∃ n, max_partition_order_of e is_last = some n := by
  unfold max_partition_order_of
  by_cases hl : is_last = true
  · simp [hl]
  · simp only [hl, Bool.false_eq_true, if_false]
    obtain ⟨n, hn⟩ := limit_loop_some 33 e.blocksize 0 h0 (by omega)
    rw [hn]
    exact ⟨_, rfl⟩

theorem for_inclusive_ne_none {σ : Type} (lo hi : Nat) (body : Nat → σ → Option σ) (s : σ)
    (hhi : hi < 2 ^ 32 - 1) (hb : ∀ x s, ∃ t, body x s = some t) :
    for_inclusive lo hi body s ≠ none := by
  obtain ⟨t, ht⟩ := for_inclusive_some lo hi body s hhi hb
  simp [ht]

theorem lpc_order_step_some (lib : EncoderLib) (signal : List Int) (lp_coeff : List (List ℚ))
    (lpc_error : List ℚ) (blocksize bits_per_sample mpo : Nat) (qlp_range : Nat × Nat)
    (lpc_order : Nat) (s : SubframeSearch) (hq : qlp_range.2 < 2 ^ 32 - 1) :
    ∃ t, lpc_order_step lib signal lp_coeff lpc_error blocksize bits_per_sample mpo qlp_range
      lpc_order s = some t := by
  unfold lpc_order_step
  dsimp only
  split_ifs
  · exact ⟨_, rfl⟩
  · apply for_inclusive_some _ _ _ _ hq
    intro q u
    exact ⟨_, rfl⟩

theorem lpc_search_some (lib : EncoderLib) (e : EncoderSettings) (fh : FrameHeader)
    (signal : List Int) (mpo : Nat) (s : SubframeSearch)
    (hl : search_loops_end lib e) (hb0 : 0 < fh.blocksize) (hb1 : fh.blocksize < 2 ^ 32)
    (hbps : fh.bits_per_sample = e.bits_per_sample) :
    ∃ t, lpc_search lib e fh signal mpo s = some t := by
  obtain ⟨_, l2, l3, l4, l5⟩ := hl
  unfold lpc_search
  dsimp only
  by_cases c1 : e.max_lpc_order > 0
  · rw [if_pos c1]
    by_cases c2 : (if e.max_lpc_order ≥ fh.blocksize then (fh.blocksize + 2 ^ 32 - 1) % 2 ^ 32
        else e.max_lpc_order) > 0
    · rw [if_pos c2]
      apply for_inclusive_some
      · split_ifs
        · omega
        · omega
        · exact l2 _ _ _ _
        · exact l2 _ _ _ _
      · intro x t
        apply lpc_order_step_some
        split_ifs with c3
        · have := l3 c3
          rw [hbps]
          show (32 + 2 ^ 32 - e.bits_per_sample - 1) % 2 ^ 32 < 2 ^ 32 - 1
          omega
        · exact l4
    · rw [if_neg c2]
      exact ⟨_, rfl⟩
  · rw [if_neg c1]
    exact ⟨_, rfl⟩

theorem subframe_search_some (lib : EncoderLib) (e : EncoderSettings) (fh : FrameHeader)
    (signal : List Int) (mpo : Nat) (s : SubframeSearch)
    (hl : search_loops_end lib e) (hb0 : 0 < fh.blocksize) (hb1 : fh.blocksize < 2 ^ 32)
    (hbps : fh.bits_per_sample = e.bits_per_sample) :
    ∃ t, subframe_search lib e fh signal mpo s = some t := by
  unfold subframe_search
  dsimp only
  by_cases c1 : fh.blocksize ≥ FLAC__MAX_FIXED_ORDER
  · rw [if_pos c1]
    by_cases c2 : (lib.fixed_compute_best_predictor signal
        (fh.blocksize - FLAC__MAX_FIXED_ORDER)).2.getD 1 0 = 0
    · rw [if_pos c2]
      split_ifs <;> exact ⟨_, rfl⟩
    · rw [if_neg c2]
      split
      · rename_i heq
        refine absurd heq (for_inclusive_ne_none _ _ _ _ ?_ ?_)
        · split_ifs
          · simp [FLAC__MAX_FIXED_ORDER]
          · exact hl.1 _ _
        · intro x t
          exact ⟨_, rfl⟩
      · exact lpc_search_some lib e fh signal mpo _ hl hb0 hb1 hbps
  · rw [if_neg c1]
    exact ⟨_, rfl⟩

theorem add_best_subframe_some (lib : EncoderLib) (s : SubframeSearch) (signal : List Int)
    (fh : FrameHeader) (frame : BitBuffer) (hw : writers_never_fail lib) :
    ∃ b, add_best_subframe lib s signal fh frame = some b := by
  obtain ⟨_, _, w3, w4, w5, w6, _⟩ := hw
  unfold add_best_subframe
  split
  · exact Option.ne_none_iff_exists'.mp (w3 _ _ _)
  · exact Option.ne_none_iff_exists'.mp (w4 _ _ _ _ _)
  · exact Option.ne_none_iff_exists'.mp (w5 _ _ _ _ _)
  · exact Option.ne_none_iff_exists'.mp (w6 _ _ _ _)

theorem subframes_channel_loop_some (lib : EncoderLib) (fh : FrameHeader)
    (sig : List (List Int)) (mpo : Nat) (hw : writers_never_fail lib)
    (hb0 : 0 < fh.blocksize) (hb1 : fh.blocksize < 2 ^ 32) (l : List Nat) :
    ∀ (e : ActiveEncoder) (frame : BitBuffer),
      search_loops_end lib e.toEncoderSettings → fh.bits_per_sample = e.bits_per_sample →
      ∃ e' frame', subframes_channel_loop lib fh sig mpo l e frame = some (true, e', frame') := by
  induction l with
  | nil => intro e frame _ _; exact ⟨e, frame, rfl⟩
  | cons c rest ih =>
      intro e frame hl hbps
      unfold subframes_channel_loop
      dsimp only
      obtain ⟨s, hs⟩ := subframe_search_some lib e.toEncoderSettings fh (sig.getD c []) mpo
        { best_subframe := e.guts.best_subframe
          candidate_subframe := e.guts.candidate_subframe
          residual := e.guts.residual
          best_residual := e.guts.best_residual
          best_bits := 0 } hl hb0 hb1 hbps
      rw [hs]
      dsimp only
      obtain ⟨b, hb⟩ := add_best_subframe_some lib s (sig.getD c []) fh frame hw
      rw [hb]
      dsimp only
      exact ih _ _ hl hbps

theorem build_candidate_some (lib : EncoderLib) (e : ActiveEncoder) (is_last : Bool)
    (assignment : Nat) (sig : List (List Int)) (buf : BitBuffer)
    (hw : writers_never_fail lib) (hl : search_loops_end lib e.toEncoderSettings)
    (hb0 : 0 < e.blocksize) (hb1 : e.blocksize < 2 ^ 32) :
    ∃ e' b, build_candidate lib e is_last (frame_header_of e assignment) sig buf =
      some (e', some b) := by
  unfold build_candidate
  obtain ⟨b0, h0⟩ := Option.ne_none_iff_exists'.mp (hw.1 buf)
  rw [h0]
  dsimp only
  obtain ⟨b1, h1⟩ := Option.ne_none_iff_exists'.mp
    (hw.2.1 (frame_header_of e assignment) e.streamable_subset is_last b0)
  rw [h1]
  dsimp only
  unfold encoder_process_subframes_
  obtain ⟨n, hn⟩ := max_partition_order_of_some e.toEncoderSettings is_last hb0 hb1
  rw [hn]
  dsimp only
  obtain ⟨e', f', hf⟩ := subframes_channel_loop_some lib (frame_header_of e assignment) sig n hw
    hb0 hb1 (List.range e.channels) e b1 hl rfl
  rw [hf]
  exact ⟨e', f', rfl⟩

theorem search_loops_end_of_untouched {lib : EncoderLib} {e a : ActiveEncoder}
    (h : frame_untouched e a) (hl : search_loops_end lib e.toEncoderSettings) :
    search_loops_end lib a.toEncoderSettings := by
  rw [h.1]
  exact hl

theorem write_frame_ok (lib : EncoderLib) (client : EncoderClient) (a : ActiveEncoder)
    (which : Nat) (b : BitBuffer) (hw : writers_never_fail lib)
    (hc : ∀ b n s f, client.write_callback b n s f = .OK) :
    ∃ e' calls, write_frame lib client a which b = (true, e', calls) := by
  unfold write_frame
  obtain ⟨p, hp⟩ := Option.ne_none_iff_exists'.mp (hw.2.2.2.2.2.2 b)
  rw [hp]
  dsimp only
  rw [if_neg (by simp [hc])]
  exact ⟨_, _, rfl⟩

/-- With writers that never fail, a client that accepts every write and candidate searches
that end, `encoder_process_frame_` returns `true`. -/
theorem encoder_process_frame_some (lib : EncoderLib) (client : EncoderClient)
    (e : ActiveEncoder) (is_last : Bool) (hw : writers_never_fail lib)
    (hc : ∀ b n s f, client.write_callback b n s f = .OK)
    (hl : search_loops_end lib e.toEncoderSettings)
    (hb0 : 0 < e.blocksize) (hb1 : e.blocksize < 2 ^ 32) :
    ∃ e' calls, encoder_process_frame_ lib client e is_last = some (true, e', calls) := by
  unfold encoder_process_frame_
  obtain ⟨e0, frame, h0⟩ := build_candidate_some lib e is_last
    FLAC__CHANNEL_ASSIGNMENT_INDEPENDENT e.guts.integer_signal e.guts.frame hw hl hb0 hb1
  have u0 := (build_candidate_untouched _ _ _ _ _ _ _ _ h0).1
  have u1 : frame_untouched e { e0 with guts := { e0.guts with frame := frame } } :=
    frame_untouched_trans u0 (frame_untouched_set_frame e0 frame)
  rw [h0]
  dsimp only
  split_ifs
  · obtain ⟨e2, fms, h2⟩ := build_candidate_some lib
      { e0 with guts := { e0.guts with frame := frame } } is_last
      FLAC__CHANNEL_ASSIGNMENT_MID_SIDE
      [e0.guts.integer_signal_mid_side.getD 0 [], e0.guts.integer_signal_mid_side.getD 1 []]
      e0.guts.frame_mid_side hw (search_loops_end_of_untouched u1 hl)
      (by rw [frame_untouched_blocksize u1]; exact hb0)
      (by rw [frame_untouched_blocksize u1]; exact hb1)
    have u2 := (build_candidate_untouched _ _ _ _ _ _ _ _ h2).1
    have u3 : frame_untouched e { e2 with guts := { e2.guts with frame_mid_side := fms } } :=
      frame_untouched_trans (frame_untouched_trans u1 u2) (frame_untouched_set_mid_side e2 fms)
    rw [h2]
    dsimp only
    obtain ⟨e4, fls, h4⟩ := build_candidate_some lib
      { e2 with guts := { e2.guts with frame_mid_side := fms } } is_last
      FLAC__CHANNEL_ASSIGNMENT_LEFT_SIDE
      [e0.guts.integer_signal.getD 0 [], e0.guts.integer_signal_mid_side.getD 1 []]
      e2.guts.frame_left_side hw (search_loops_end_of_untouched u3 hl)
      (by rw [frame_untouched_blocksize u3]; exact hb0)
      (by rw [frame_untouched_blocksize u3]; exact hb1)
    have u4 := (build_candidate_untouched _ _ _ _ _ _ _ _ h4).1
    have u5 : frame_untouched e { e4 with guts := { e4.guts with frame_left_side := fls } } :=
      frame_untouched_trans (frame_untouched_trans u3 u4) (frame_untouched_set_left_side e4 fls)
    rw [h4]
    dsimp only
    obtain ⟨e6, frs, h6⟩ := build_candidate_some lib
      { e4 with guts := { e4.guts with frame_left_side := fls } } is_last
      FLAC__CHANNEL_ASSIGNMENT_RIGHT_SIDE
      [e0.guts.integer_signal_mid_side.getD 1 [], e0.guts.integer_signal.getD 1 []]
      e4.guts.frame_right_side hw (search_loops_end_of_untouched u5 hl)
      (by rw [frame_untouched_blocksize u5]; exact hb0)
      (by rw [frame_untouched_blocksize u5]; exact hb1)
    rw [h6]
    dsimp only
    obtain ⟨e', calls, hwf⟩ := write_frame_ok lib client
      { e6 with guts := { e6.guts with frame_right_side := frs } }
      (if frs.total_bits <
          (if fls.total_bits <
              (if fms.total_bits < frame.total_bits then (1, fms) else (0, frame)).2.total_bits then
            (2, fls)
          else if fms.total_bits < frame.total_bits then (1, fms) else (0, frame)).2.total_bits then
        (3, frs)
      else if fls.total_bits <
          (if fms.total_bits < frame.total_bits then (1, fms) else (0, frame)).2.total_bits then
        (2, fls)
      else if fms.total_bits < frame.total_bits then (1, fms) else (0, frame)).1
      (if frs.total_bits <
          (if fls.total_bits <
              (if fms.total_bits < frame.total_bits then (1, fms) else (0, frame)).2.total_bits then
            (2, fls)
          else if fms.total_bits < frame.total_bits then (1, fms) else (0, frame)).2.total_bits then
        (3, frs)
      else if fls.total_bits <
          (if fms.total_bits < frame.total_bits then (1, fms) else (0, frame)).2.total_bits then
        (2, fls)
      else if fms.total_bits < frame.total_bits then (1, fms) else (0, frame)).2 hw hc
    exact ⟨e', calls, congrArg some hwf⟩
  · obtain ⟨e', calls, hwf⟩ := write_frame_ok lib client
      { e0 with guts := { e0.guts with frame := frame } } 0 frame hw hc
    exact ⟨e', calls, congrArg some hwf⟩

/-! ## Stream encoder: filling a block -/

theorem store_sample_keeps (e : ActiveEncoder) (buf : Buffers) (i j : Nat) :
    (store_sample e buf i j).toEncoderSettings = e.toEncoderSettings ∧
      (store_sample e buf i j).guts.current_frame_number = e.guts.current_frame_number ∧
      (store_sample e buf i j).guts.metadata = e.guts.metadata ∧
      (store_sample e buf i j).guts.current_sample_number =
        (e.guts.current_sample_number + 1) % 2 ^ 32 := by
  unfold store_sample
  dsimp only
  split_ifs <;> simp

/-- The inner loop of `FLAC__encoder_process` started at `i`, `j` with enough fuel stores
`min (blocksize - i) (samples - j)` samples and leaves settings, frame number and metadata
alone. -/
theorem fill_loop_spec (buf : Buffers) (samples : Nat) :
    ∀ (fuel i j : Nat) (e : ActiveEncoder), samples - j ≤ fuel →
      e.guts.current_sample_number + min (e.blocksize - i) (samples - j) < 2 ^ 32 →
      (fill_loop buf samples fuel i j e).1 = i + min (e.blocksize - i) (samples - j) ∧
        (fill_loop buf samples fuel i j e).2.1 = j + min (e.blocksize - i) (samples - j) ∧
        (fill_loop buf samples fuel i j e).2.2.toEncoderSettings = e.toEncoderSettings ∧
        (fill_loop buf samples fuel i j e).2.2.guts.current_frame_number =
          e.guts.current_frame_number ∧
        (fill_loop buf samples fuel i j e).2.2.guts.metadata = e.guts.metadata ∧
        (fill_loop buf samples fuel i j e).2.2.guts.current_sample_number =
          e.guts.current_sample_number + min (e.blocksize - i) (samples - j) := by
  intro fuel
  induction fuel with
  | zero =>
      intro i j e hf _
      have hm : min (e.blocksize - i) (samples - j) = 0 := by omega
      simp [fill_loop, hm]
  | succ fuel ih =>
      intro i j e hf hc
      unfold fill_loop
      split_ifs with h
      · obtain ⟨hs, hn, hm, hcs⟩ := store_sample_keeps e buf i j
        have hbs : (store_sample e buf i j).blocksize = e.blocksize := by
          have := congrArg EncoderSettings.blocksize hs
          exact this
        have hd : min (e.blocksize - i) (samples - j) =
            min (e.blocksize - (i + 1)) (samples - (j + 1)) + 1 := by omega
        have hcs1 : (store_sample e buf i j).guts.current_sample_number =
            e.guts.current_sample_number + 1 := by
          rw [hcs]; omega
        have := ih (i + 1) (j + 1) (store_sample e buf i j) (by omega)
          (by rw [hbs, hcs1]; omega)
        rw [hbs, hcs1, hs, hn, hm] at this
        rw [hd]
        refine ⟨by omega, by omega, this.2.2.1, this.2.2.2.1, this.2.2.2.2.1, by omega⟩
      · have hm : min (e.blocksize - i) (samples - j) = 0 := by omega
        simp [hm]

/-! ## Stream encoder: `FLAC__encoder_process` with writes that succeed -/

theorem settings_of_kept_state {s t : EncoderSettings} (h : t = { s with state := t.state })
    (hs : t.state = s.state) : t = s := by
  rw [h, hs]

/-- With writers that never fail, a client that accepts every write and searches that end,
the outer loop of `FLAC__encoder_process` returns `true`, having written one full block for
every `blocksize` samples gathered, and keeps the remainder in the block. -/
theorem process_loop_total (lib : EncoderLib) (client : EncoderClient) (buf : Buffers)
    (samples : Nat) (hw : writers_never_fail lib)
    (hc : ∀ b n s f, client.write_callback b n s f = .OK) :
    ∀ (fuel j : Nat) (e : ActiveEncoder) (calls : List EncoderCall),
      samples - j < fuel → j ≤ samples → search_loops_end lib e.toEncoderSettings →
      0 < e.blocksize → e.blocksize < 2 ^ 32 → e.guts.current_sample_number < e.blocksize →
      e.guts.current_frame_number < 2 ^ 32 →
      e.guts.metadata.encoding.total_samples < 2 ^ 64 →
      ∃ e' new, process_loop lib client buf samples fuel j e calls =
          some (true, e', calls ++ new) ∧
        e'.toEncoderSettings = e.toEncoderSettings ∧
        e'.guts.current_sample_number =
          (e.guts.current_sample_number + (samples - j)) % e.blocksize ∧
        e'.guts.current_frame_number =
          (e.guts.current_frame_number +
            (e.guts.current_sample_number + (samples - j)) / e.blocksize) % 2 ^ 32 ∧
        e'.guts.metadata.encoding.total_samples =
          (e.guts.metadata.encoding.total_samples +
            (e.guts.current_sample_number + (samples - j)) / e.blocksize * e.blocksize) %
              2 ^ 64 ∧
        written_samples new =
          List.replicate ((e.guts.current_sample_number + (samples - j)) / e.blocksize)
            e.blocksize ∧
        ∀ call ∈ new, ∃ b n s f, call = .write b n s f := by
  intro fuel
  induction fuel with
  | zero =>
      intro j e calls hf
      omega
  | succ fuel ih =>
      intro j e calls hf hj hl hb0 hb1 hcs hn0 ht0
      have hfill := fill_loop_spec buf samples (samples - j) e.guts.current_sample_number j e
        (le_refl _) (by omega)
      unfold process_loop
      dsimp only
      generalize fill_loop buf samples (samples - j) e.guts.current_sample_number j e = F
        at hfill ⊢
      obtain ⟨i', j', f⟩ := F
      dsimp only at hfill ⊢
      obtain ⟨hi, hj', hfs, hfn, hfm, hfc⟩ := hfill
      have hfb : f.blocksize = e.blocksize := congrArg EncoderSettings.blocksize hfs
      by_cases hfull : i' = f.blocksize
      · rw [if_pos hfull]
        obtain ⟨e1, c, hframe⟩ := encoder_process_frame_some lib client f false hw hc
          (by rw [hfs]; exact hl) (by omega) (by omega)
        have hout := encoder_process_frame_outcome lib client f false true e1 c hframe
        rw [hframe]
        dsimp only
        obtain ⟨hs1, -, -, -, hok, -⟩ := hout
        obtain ⟨hst, hn1, hc1, -, ht1, b, n, hcalls, -, -⟩ := hok rfl
        have hs1' : e1.toEncoderSettings = e.toEncoderSettings := by
          rw [settings_of_kept_state hs1 hst, hfs]
        have hb1' : e1.blocksize = e.blocksize := congrArg EncoderSettings.blocksize hs1'
        have hd : min (e.blocksize - e.guts.current_sample_number) (samples - j) =
            e.blocksize - e.guts.current_sample_number := by omega
        have hsum : e.guts.current_sample_number + (samples - j) =
            (samples - j') + e.blocksize := by omega
        have hq : (e.guts.current_sample_number + (samples - j)) / e.blocksize =
            (samples - j') / e.blocksize + 1 := by
          rw [hsum, Nat.add_div_right _ hb0]
        have hr : (e.guts.current_sample_number + (samples - j)) % e.blocksize =
            (samples - j') % e.blocksize := by
          rw [hsum, Nat.add_mod_right]
        by_cases hmore : j' < samples
        · rw [if_pos hmore]
          obtain ⟨e', new, hrun, h1, h2, h3, h4, h5, h6⟩ := ih j' e1 (calls ++ c)
            (by omega) (by omega) (by rw [hs1']; exact hl) (by omega) (by omega) (by omega)
            (by omega) (by omega)
          rw [hc1, hb1', Nat.zero_add] at h2 h3 h4 h5
          refine ⟨e', c ++ new, by rw [hrun, List.append_assoc], h1.trans hs1', ?_, ?_, ?_,
            ?_, ?_⟩
          · rw [h2, hr]
          · rw [h3, hn1, hq, hfn]
            omega
          · rw [h4, ht1, hq, hfm, hfb, Nat.add_mul, Nat.one_mul]
            omega
          · rw [hcalls, hq, List.replicate_succ, hfb]
            simp [written_samples, h5]
          · intro call hcall
            rcases List.mem_append.mp hcall with hin | hin
            · rw [hcalls] at hin
              exact ⟨b, n, f.blocksize, f.guts.current_frame_number, by simpa using hin⟩
            · exact h6 call hin
        · rw [if_neg hmore]
          have hz : samples - j' = 0 := by omega
          rw [hz, Nat.zero_div, Nat.zero_add] at hq
          rw [hz, Nat.zero_mod] at hr
          refine ⟨e1, c, rfl, hs1', ?_, ?_, ?_, ?_, ?_⟩
          · rw [hr, hc1]
          · rw [hq, hn1, hfn]
          · rw [hq, ht1, hfm, hfb, Nat.one_mul]
          · rw [hcalls, hq, hfb]
            simp [written_samples]
          · intro call hcall
            rw [hcalls] at hcall
            exact ⟨b, n, f.blocksize, f.guts.current_frame_number, by simpa using hcall⟩
      · rw [if_neg hfull]
        have hd : min (e.blocksize - e.guts.current_sample_number) (samples - j) =
            samples - j := by omega
        have hlt : e.guts.current_sample_number + (samples - j) < e.blocksize := by omega
        rw [if_neg (by omega)]
        refine ⟨f, [], by rw [List.append_nil], hfs, ?_, ?_, ?_, ?_, ?_⟩
        · rw [Nat.mod_eq_of_lt hlt, hfc, hd]
        · rw [Nat.div_eq_of_lt hlt, hfn]
          omega
        · rw [Nat.div_eq_of_lt hlt, hfm]
          omega
        · rw [Nat.div_eq_of_lt hlt]
          simp [written_samples]
        · intro call hcall
          cases hcall

/-! ## Stream encoder: the log of write calls -/

theorem written_samples_append (xs ys : List EncoderCall) :
    written_samples (xs ++ ys) = written_samples xs ++ written_samples ys := by
  induction xs with
  | nil => simp [written_samples]
  | cons x xs ih =>
      cases x with
      | write b n s c => simp [written_samples, ih]
      | metadata m => simp [written_samples, ih]

theorem fill_loop_keeps (buf : Buffers) (samples : Nat) :
    ∀ (fuel i j : Nat) (e : ActiveEncoder),
      (fill_loop buf samples fuel i j e).2.2.toEncoderSettings = e.toEncoderSettings ∧
        (fill_loop buf samples fuel i j e).2.2.guts.current_frame_number =
          e.guts.current_frame_number ∧
        (fill_loop buf samples fuel i j e).2.2.guts.metadata = e.guts.metadata := by
  intro fuel
  induction fuel with
  | zero =>
      intro i j e
      simp [fill_loop]
  | succ fuel ih =>
      intro i j e
      unfold fill_loop
      split_ifs with h
      · obtain ⟨hs, hn, hm, -⟩ := store_sample_keeps e buf i j
        obtain ⟨h1, h2, h3⟩ := ih (i + 1) (j + 1) (store_sample e buf i j)
        exact ⟨h1.trans hs, h2.trans hn, h3.trans hm⟩
      · exact ⟨rfl, rfl, rfl⟩

theorem block_count_step (c s n bs : Nat) :
    (c + (s + n)) / bs = (c + s) / bs + ((c + s) % bs + n) / bs ∧
      (c + (s + n)) % bs = ((c + s) % bs + n) % bs := by
  rcases Nat.eq_zero_or_pos bs with h | h
  · subst h
    simp
    omega
  · have hd := Nat.div_add_mod (c + s) bs
    have he : c + (s + n) = ((c + s) % bs + n) + bs * ((c + s) / bs) := by omega
    rw [he, Nat.add_mul_div_left _ _ h, Nat.add_mul_mod_self_left]
    constructor
    · omega
    · rfl

/-- With writers that never fail, a client that accepts every write and searches that end,
a sequence of `FLAC__encoder_process` calls returns `true` throughout and has written one
full block for every `blocksize` samples received. -/
theorem encoder_process_all_total (lib : EncoderLib) (client : EncoderClient)
    (hw : writers_never_fail lib) (hc : ∀ b n s f, client.write_callback b n s f = .OK) :
    ∀ (chunks : List (Buffers × Nat)) (e : ActiveEncoder),
      search_loops_end lib e.toEncoderSettings →
      0 < e.blocksize → e.blocksize < 2 ^ 32 → e.guts.current_sample_number < e.blocksize →
      e.guts.current_frame_number < 2 ^ 32 →
      e.guts.metadata.encoding.total_samples < 2 ^ 64 →
      ∃ e' log, encoder_process_all lib client chunks e = some (true, e', log) ∧
        e'.toEncoderSettings = e.toEncoderSettings ∧
        e'.guts.current_sample_number =
          (e.guts.current_sample_number + (chunks.map Prod.snd).sum) % e.blocksize ∧
        e'.guts.current_frame_number < 2 ^ 32 ∧
        e'.guts.metadata.encoding.total_samples =
          (e.guts.metadata.encoding.total_samples +
            (e.guts.current_sample_number + (chunks.map Prod.snd).sum) / e.blocksize *
              e.blocksize) % 2 ^ 64 ∧
        written_samples log =
          List.replicate ((e.guts.current_sample_number + (chunks.map Prod.snd).sum) /
            e.blocksize) e.blocksize ∧
        ∀ call ∈ log, ∃ b n s f, call = .write b n s f := by
  intro chunks
  induction chunks with
  | nil =>
      intro e hl hb0 hb1 hcs hn ht
      refine ⟨e, [], rfl, rfl, ?_, hn, ?_, ?_, ?_⟩
      · simp [Nat.mod_eq_of_lt hcs]
      · simp [Nat.div_eq_of_lt hcs]
        omega
      · simp [Nat.div_eq_of_lt hcs, written_samples]
      · intro call hcall
        cases hcall
  | cons chunk rest ih =>
      intro e hl hb0 hb1 hcs hn ht
      obtain ⟨e1, c, hrun, h1, h2, h3, h4, h5, h6⟩ := process_loop_total lib client chunk.1
        chunk.2 hw hc (chunk.2 + 2) 0 e [] (by omega) (Nat.zero_le _) hl hb0 hb1 hcs hn ht
      have hbs : e1.blocksize = e.blocksize := congrArg EncoderSettings.blocksize h1
      simp only [Nat.sub_zero, List.nil_append] at hrun h2 h3 h4 h5
      obtain ⟨e', log, hrest, k1, k2, k3, k4, k5, k6⟩ := ih e1 (by rw [h1]; exact hl)
        (by omega) (by omega) (by rw [h2, hbs]; exact Nat.mod_lt _ hb0) (by rw [h3]; omega)
        (by rw [h4]; omega)
      obtain ⟨hq, hr⟩ := block_count_step e.guts.current_sample_number chunk.2
        (rest.map Prod.snd).sum e.blocksize
      rw [h2, hbs] at k2 k4 k5
      refine ⟨e', c ++ log, ?_, k1.trans h1, ?_, k3, ?_, ?_, ?_⟩
      · unfold encoder_process_all FLAC__encoder_process
        rw [hrun]
        dsimp only
        rw [hrest]
      · rw [k2, List.map_cons, List.sum_cons, hr]
      · rw [k4, h4, List.map_cons, List.sum_cons, hq, Nat.add_mul]
        omega
      · rw [written_samples_append, h5, k5, List.map_cons, List.sum_cons, hq,
          List.replicate_add]
      · intro call hcall
        rcases List.mem_append.mp hcall with hin | hin
        · exact h6 call hin
        · exact k6 call hin

theorem resize_signal_loop_counters (lib : EncoderLib) (n : Nat) (b c k : Nat)
    (l : List Nat) :
    ∀ (ok : Bool) (e : ActiveEncoder),
      (e.blocksize = b ∧ e.guts.current_sample_number = c ∧
        e.guts.current_frame_number = k) →
      ((resize_signal_loop lib n l ok e).2.blocksize = b ∧
        (resize_signal_loop lib n l ok e).2.guts.current_sample_number = c ∧
        (resize_signal_loop lib n l ok e).2.guts.current_frame_number = k) := by
  induction l with
  | nil => intro ok e h; simpa [resize_signal_loop] using h
  | cons i rest ih =>
      intro ok e h
      unfold resize_signal_loop
      dsimp only
      split_ifs
      · exact h
      all_goals
        cases hm : lib.malloc_int32 (2 * i) n <;> apply ih <;> exact h

theorem resize_mid_side_loop_counters (lib : EncoderLib) (n base : Nat) (b c k : Nat)
    (l : List Nat) :
    ∀ (ok : Bool) (e : ActiveEncoder),
      (e.blocksize = b ∧ e.guts.current_sample_number = c ∧
        e.guts.current_frame_number = k) →
      ((resize_mid_side_loop lib n base l ok e).2.blocksize = b ∧
        (resize_mid_side_loop lib n base l ok e).2.guts.current_sample_number = c ∧
        (resize_mid_side_loop lib n base l ok e).2.guts.current_frame_number = k) := by
  induction l with
  | nil => intro ok e h; simpa [resize_mid_side_loop] using h
  | cons i rest ih =>
      intro ok e h
      unfold resize_mid_side_loop
      dsimp only
      split_ifs
      · exact h
      all_goals
        cases hm : lib.malloc_int32 (base + 2 * i) n <;> apply ih <;> exact h

theorem resize_residual_loop_counters (lib : EncoderLib) (n base : Nat) (b c k : Nat)
    (l : List Nat) :
    ∀ (ok : Bool) (e : ActiveEncoder),
      (e.blocksize = b ∧ e.guts.current_sample_number = c ∧
        e.guts.current_frame_number = k) →
      ((resize_residual_loop lib n base l ok e).2.blocksize = b ∧
        (resize_residual_loop lib n base l ok e).2.guts.current_sample_number = c ∧
        (resize_residual_loop lib n base l ok e).2.guts.current_frame_number = k) := by
  induction l with
  | nil => intro ok e h; simpa [resize_residual_loop] using h
  | cons i rest ih =>
      intro ok e h
      unfold resize_residual_loop
      cases hm : lib.malloc_int32 (base + i) n <;> apply ih <;> exact h

theorem encoder_resize_buffers_counters (lib : EncoderLib) (e : ActiveEncoder) (n : Nat) :
    (encoder_resize_buffers_ lib e n).2.blocksize = e.blocksize ∧
      (encoder_resize_buffers_ lib e n).2.guts.current_sample_number =
        e.guts.current_sample_number ∧
      (encoder_resize_buffers_ lib e n).2.guts.current_frame_number =
        e.guts.current_frame_number := by
  unfold encoder_resize_buffers_
  dsimp only
  have h1 := resize_signal_loop_counters lib n e.blocksize e.guts.current_sample_number
    e.guts.current_frame_number (List.range e.channels) true e ⟨rfl, rfl, rfl⟩
  have h2 := resize_mid_side_loop_counters lib n (2 * e.channels) e.blocksize
    e.guts.current_sample_number e.guts.current_frame_number (List.range 2) true
    (resize_signal_loop lib n (List.range e.channels) true e).2 h1
  have h3 := resize_residual_loop_counters lib n (2 * e.channels + 4) e.blocksize
    e.guts.current_sample_number e.guts.current_frame_number (List.range 2) true
    (resize_mid_side_loop lib n (2 * e.channels) (List.range 2) true
      (resize_signal_loop lib n (List.range e.channels) true e).2).2 h2
  split_ifs
  all_goals first
    | exact ⟨rfl, rfl, rfl⟩
    | exact h1
    | exact h2
    | exact h3

/-- An `FLAC__encoder_init` that ends in state `OK` passed the blocksize check and went
through the allocation and header part. -/
theorem init_ok_reaches_guts (lib : EncoderLib) (client : EncoderClient) (e : Encoder)
    (hs : (FLAC__encoder_init lib client e).1.state = .OK) :
    ∃ e2 : Encoder, e2.state = .OK ∧ FLAC__MIN_BLOCK_SIZE ≤ e2.blocksize ∧
      e2.blocksize ≤ FLAC__MAX_BLOCK_SIZE ∧
      FLAC__encoder_init lib client e = encoder_init_guts lib client e2 := by
  by_cases h1 : e.channels = 0 ∨ e.channels > FLAC__MAX_CHANNELS
  · exfalso
    unfold FLAC__encoder_init FLAC__encoder_init_with at hs
    dsimp only at hs
    rw [if_pos h1] at hs
    cases hs
  by_cases h2 : e.do_mid_side_stereo = true ∧ e.channels ≠ 2
  · exfalso
    unfold FLAC__encoder_init FLAC__encoder_init_with at hs
    dsimp only at hs
    rw [if_neg h1, if_pos h2] at hs
    cases hs
  by_cases h3 : e.do_mid_side_stereo = true ∧ e.bits_per_sample > 16
  · exfalso
    unfold FLAC__encoder_init FLAC__encoder_init_with at hs
    dsimp only at hs
    rw [if_neg h1, if_neg h2, if_pos h3] at hs
    cases hs
  by_cases h4 : e.bits_per_sample = 0 ∨ e.bits_per_sample > FLAC__MAX_BITS_PER_SAMPLE
  · exfalso
    unfold FLAC__encoder_init FLAC__encoder_init_with at hs
    dsimp only at hs
    rw [if_neg h1, if_neg h2, if_neg h3, if_pos h4] at hs
    cases hs
  by_cases h5 : e.sample_rate = 0 ∨ e.sample_rate > FLAC__MAX_SAMPLE_RATE
  · exfalso
    unfold FLAC__encoder_init FLAC__encoder_init_with at hs
    dsimp only at hs
    rw [if_neg h1, if_neg h2, if_neg h3, if_neg h4, if_pos h5] at hs
    cases hs
  by_cases h6 : e.blocksize < FLAC__MIN_BLOCK_SIZE ∨ e.blocksize > FLAC__MAX_BLOCK_SIZE
  · exfalso
    unfold FLAC__encoder_init FLAC__encoder_init_with at hs
    dsimp only at hs
    rw [if_neg h1, if_neg h2, if_neg h3, if_neg h4, if_neg h5, if_pos h6] at hs
    cases hs
  by_cases h7 : e.blocksize < e.max_lpc_order
  · exfalso
    unfold FLAC__encoder_init FLAC__encoder_init_with at hs
    dsimp only at hs
    rw [if_neg h1, if_neg h2, if_neg h3, if_neg h4, if_neg h5, if_neg h6, if_pos h7] at hs
    cases hs
  by_cases h8 : e.qlp_coeff_precision ≠ 0 ∧
      (e.qlp_coeff_precision < FLAC__MIN_QLP_COEFF_PRECISION ∨
        (e.qlp_coeff_precision + e.bits_per_sample) % 2 ^ 32 ≥ 32)
  · exfalso
    unfold FLAC__encoder_init FLAC__encoder_init_with at hs
    dsimp only at hs
    rw [if_neg h1, if_neg h2, if_neg h3, if_neg h4, if_neg h5, if_neg h6, if_neg h7,
      if_pos h8] at hs
    cases hs
  by_cases h9 : e.streamable_subset = true ∧
      ((e.bits_per_sample ≠ 8 ∧ e.bits_per_sample ≠ 12 ∧ e.bits_per_sample ≠ 16 ∧
          e.bits_per_sample ≠ 20 ∧ e.bits_per_sample ≠ 24) ∨ e.sample_rate > 655350)
  · exfalso
    unfold FLAC__encoder_init FLAC__encoder_init_with at hs
    dsimp only at hs
    rw [if_neg h1, if_neg h2, if_neg h3, if_neg h4, if_neg h5, if_neg h6, if_neg h7,
      if_neg h8] at hs
    split_ifs at hs
    all_goals first
      | cases hs
      | (rcases h9 with ⟨hsub, hb | hr⟩ <;> simp_all)
  · obtain ⟨e2, k1, -, -, -, k5, k6⟩ := init_passes_checks lib client e h1 h2 h3 h4 h5 h6 h7
      h8 h9
    refine ⟨e2, k1, ?_, ?_, k6⟩
    · rw [k5]
      omega
    · rw [k5]
      omega

theorem resize_signal_loop_failed (lib : EncoderLib) (n : Nat) (l : List Nat) :
    ∀ (ok : Bool) (e : ActiveEncoder),
      (ok = false → e.state = .MEMORY_ALLOCATION_ERROR) →
      (resize_signal_loop lib n l ok e).1 = false →
        (resize_signal_loop lib n l ok e).2.state = .MEMORY_ALLOCATION_ERROR := by
  induction l with
  | nil => intro ok e h; simpa [resize_signal_loop] using h
  | cons i rest ih =>
      intro ok e h
      unfold resize_signal_loop
      dsimp only
      split_ifs with hok
      · intro _
        exact h hok
      all_goals
        cases hm : lib.malloc_int32 (2 * i) n <;> apply ih <;> intro hh <;>
          first | rfl | cases hh

theorem resize_mid_side_loop_failed (lib : EncoderLib) (n base : Nat) (l : List Nat) :
    ∀ (ok : Bool) (e : ActiveEncoder),
      (ok = false → e.state = .MEMORY_ALLOCATION_ERROR) →
      (resize_mid_side_loop lib n base l ok e).1 = false →
        (resize_mid_side_loop lib n base l ok e).2.state = .MEMORY_ALLOCATION_ERROR := by
  induction l with
  | nil => intro ok e h; simpa [resize_mid_side_loop] using h
  | cons i rest ih =>
      intro ok e h
      unfold resize_mid_side_loop
      dsimp only
      split_ifs with hok
      · intro _
        exact h hok
      all_goals
        cases hm : lib.malloc_int32 (base + 2 * i) n <;> apply ih <;> intro hh <;>
          first | rfl | cases hh

theorem resize_residual_loop_failed (lib : EncoderLib) (n base : Nat) (l : List Nat) :
    ∀ (ok : Bool) (e : ActiveEncoder),
      (ok = false → e.state = .MEMORY_ALLOCATION_ERROR) →
      (resize_residual_loop lib n base l ok e).1 = false →
        (resize_residual_loop lib n base l ok e).2.state = .MEMORY_ALLOCATION_ERROR := by
  induction l with
  | nil => intro ok e h; simpa [resize_residual_loop] using h
  | cons i rest ih =>
      intro ok e h
      unfold resize_residual_loop
      cases hm : lib.malloc_int32 (base + i) n
      · apply ih
        intro _
        rfl
      · apply ih
        exact h

/-- When `encoder_resize_buffers_` returns `false` the state is
`MEMORY_ALLOCATION_ERROR`. -/
theorem encoder_resize_buffers_failed (lib : EncoderLib) (e : ActiveEncoder) (n : Nat)
    (h : (encoder_resize_buffers_ lib e n).1 = false) :
    (encoder_resize_buffers_ lib e n).2.state = .MEMORY_ALLOCATION_ERROR := by
  unfold encoder_resize_buffers_ at h ⊢
  dsimp only at h ⊢
  have h1 := resize_signal_loop_failed lib n (List.range e.channels) true e
    (fun k => by cases k)
  have h2 := resize_mid_side_loop_failed lib n (2 * e.channels) (List.range 2) true
    (resize_signal_loop lib n (List.range e.channels) true e).2 (fun k => by cases k)
  have h3a := resize_residual_loop_failed lib n (2 * e.channels + 4) (List.range 2) true
    (resize_mid_side_loop lib n (2 * e.channels) (List.range 2) true
      (resize_signal_loop lib n (List.range e.channels) true e).2).2 (fun k => by cases k)
  split_ifs at h ⊢
  all_goals first
    | exact absurd h (by decide)
    | (apply h1; simp_all)
    | (apply h2; simp_all)
    | (apply h3a; simp_all)

/-- What a successful `FLAC__encoder_init` leaves behind: an allocated private part with
both counters and the sample total at zero, and exactly one write call, made with
`samples = 0` and `current_frame = 0` on the buffer that holds the stream sync code followed
by the metadata block. -/
theorem encoder_init_guts_ok (lib : EncoderLib) (client : EncoderClient) (e r : Encoder)
    (calls : List EncoderCall) (h : encoder_init_guts lib client e = (r, calls))
    (hs : r.state = .OK) :
    ∃ a : ActiveEncoder, r = a.toEncoder ∧ a.blocksize = e.blocksize ∧
      a.guts.current_sample_number = 0 ∧ a.guts.current_frame_number = 0 ∧
      a.guts.metadata.encoding.total_samples = 0 ∧
      ∃ buffer b0 b1 b2, lib.bitbuffer_clear buffer = some b0 ∧
        lib.bitbuffer_write_raw_uint32 b0 FLAC__STREAM_SYNC FLAC__STREAM_SYNC_LEN = some b1 ∧
        lib.add_metadata_block (initial_metadata lib a.toEncoderSettings) b1 = some b2 ∧
        calls = [.write b2.buffer b2.bytes 0 0] ∧
        client.write_callback b2.buffer b2.bytes 0 0 = .OK := by
  have hc : ∀ (x : ActiveEncoder) (n : Nat) (R : Bool × ActiveEncoder),
      encoder_resize_buffers_ lib x n = R →
      R.2.blocksize = x.blocksize ∧
        R.2.guts.current_sample_number = x.guts.current_sample_number ∧
        R.2.guts.current_frame_number = x.guts.current_frame_number ∧
        (R.1 = false → R.2.state = .MEMORY_ALLOCATION_ERROR) := by
    intro x n R hR
    subst hR
    obtain ⟨k1, k2, k3⟩ := encoder_resize_buffers_counters lib x n
    exact ⟨k1, k2, k3, encoder_resize_buffers_failed lib x n⟩
  unfold encoder_init_guts at h
  split at h
  · cases h
    cases hs
  · rename_i fresh hg
    dsimp only at h
    generalize hR : encoder_resize_buffers_ lib _ _ = R at h
    obtain ⟨c1, c2, c3, c4⟩ := hc _ _ _ hR
    dsimp only at c1 c2 c3
    split_ifs at h with hfail
    · cases h
      have hm := c4 hfail
      have hs' : R.2.state = .OK := hs
      rw [hm] at hs'
      cases hs'
    · split at h
      · cases h
        cases hs
      · rename_i b0 hb0
        split at h
        · cases h
          cases hs
        · rename_i b1 hb1
          split at h
          · cases h
            cases hs
          · rename_i b2 hb2
            split_ifs at h with hcb
            · cases h
              cases hs
            · cases h
              refine ⟨_, rfl, c1, c2, c3, rfl, _, b0, b1, b2, hb0, hb1, hb2, ?_, ?_⟩
              · simp [c3]
              · simpa [c3] using hcb

/-- With writers that never fail, a client that accepts every write and searches that end,
`FLAC__encoder_finish` returns: it writes the samples left in the block as one last frame
and passes the metadata, with the sample total counting that frame, to the metadata
callback. -/
theorem encoder_finish_total (lib : EncoderLib) (client : EncoderClient) (a : ActiveEncoder)
    (hw : writers_never_fail lib) (hc : ∀ b n s f, client.write_callback b n s f = .OK)
    (hl : search_loops_end lib a.toEncoderSettings) (hu : a.state ≠ .UNINITIALIZED)
    (hcs : a.guts.current_sample_number < 2 ^ 32)
    (ht : a.guts.metadata.encoding.total_samples < 2 ^ 64) :
    ∃ r frames m, FLAC__encoder_finish lib client a.toEncoder =
        some (r, frames ++ [.metadata m]) ∧
      r.state = .UNINITIALIZED ∧
      m.encoding.total_samples =
        (a.guts.metadata.encoding.total_samples + a.guts.current_sample_number) % 2 ^ 64 ∧
      written_samples frames =
        (if a.guts.current_sample_number = 0 then [] else [a.guts.current_sample_number]) ∧
      ∀ call ∈ frames, ∃ b n s f, call = .write b n s f := by
  unfold FLAC__encoder_finish
  simp only [ActiveEncoder.toEncoder]
  rw [if_neg hu]
  by_cases h0 : a.guts.current_sample_number = 0
  · rw [if_neg (by simpa using h0)]
    refine ⟨_, [], _, rfl, rfl, ?_, ?_, ?_⟩
    · show a.guts.metadata.encoding.total_samples = _
      rw [h0]
      omega
    · simp [h0, written_samples]
    · intro call hcall
      cases hcall
  · rw [if_pos h0]
    obtain ⟨e1, c, hframe⟩ := encoder_process_frame_some lib client
      { a with blocksize := a.guts.current_sample_number } true hw hc hl (by
        show 0 < a.guts.current_sample_number
        omega) hcs
    have hout := encoder_process_frame_outcome lib client _ true true e1 c hframe
    obtain ⟨-, -, -, -, hok, -⟩ := hout
    obtain ⟨-, -, -, -, ht1, b, n, hcalls, -, -⟩ := hok rfl
    rw [hframe]
    refine ⟨_, c, _, rfl, rfl, ht1, ?_, ?_⟩
    · rw [hcalls, if_neg h0]
      rfl
    · intro call hcall
      rw [hcalls] at hcall
      exact ⟨b, n, _, _, by simpa using hcall⟩

/-! ## Stream encoder: write ordering and the sample total -/

theorem toEncoder_injective {a b : ActiveEncoder} (h : a.toEncoder = b.toEncoder) : a = b := by
  cases a
  cases b
  simp only [ActiveEncoder.toEncoder, Encoder.mk.injEq, Option.some.injEq] at h
  obtain ⟨h1, h2⟩ := h
  subst h1 h2
  rfl

/-- The facts about a successfully initialized encoder used by the session theorems. -/
theorem init_success (lib : EncoderLib) (client : EncoderClient) (e : Encoder)
    (a : ActiveEncoder) (calls0 : List EncoderCall)
    (hinit : FLAC__encoder_init lib client e = (a.toEncoder, calls0)) (hok : a.state = .OK) :
    FLAC__MIN_BLOCK_SIZE ≤ a.blocksize ∧ a.blocksize ≤ FLAC__MAX_BLOCK_SIZE ∧
      a.guts.current_sample_number = 0 ∧ a.guts.current_frame_number = 0 ∧
      a.guts.metadata.encoding.total_samples = 0 ∧
      ∃ buffer b0 b1 b2, lib.bitbuffer_clear buffer = some b0 ∧
        lib.bitbuffer_write_raw_uint32 b0 FLAC__STREAM_SYNC FLAC__STREAM_SYNC_LEN = some b1 ∧
        lib.add_metadata_block (initial_metadata lib a.toEncoderSettings) b1 = some b2 ∧
        calls0 = [.write b2.buffer b2.bytes 0 0] ∧
        client.write_callback b2.buffer b2.bytes 0 0 = .OK := by
  obtain ⟨e2, -, k2, k3, k4⟩ := init_ok_reaches_guts lib client e (by rw [hinit]; exact hok)
  obtain ⟨a', m1, m2, m3, m4, m5, m6⟩ := encoder_init_guts_ok lib client e2 a.toEncoder calls0
    (by rw [← k4, hinit]) hok
  have ha := toEncoder_injective m1
  subst ha
  refine ⟨?_, ?_, m3, m4, m5, m6⟩
  · rw [m2]
    exact k2
  · rw [m2]
    exact k3

/-- C10: after a successful `FLAC__encoder_init`, when the library writers do not fail, the
candidate searches end and the client accepts every write, any sequence of
`FLAC__encoder_process` calls with `n` samples in total (`n` a `uint64`) followed by
`FLAC__encoder_finish` returns; its calls are frame writes followed by one metadata call;
the metadata passed has `total_samples = n`; the `samples` arguments of the frame writes are
`n / blocksize` times `blocksize`, followed by `n % blocksize` when that is not zero, and
their sum is `n`. -/
theorem encoder_total_samples (lib : EncoderLib) (client : EncoderClient) (e : Encoder)
    (a : ActiveEncoder) (calls0 : List EncoderCall) (chunks : List (Buffers × Nat))
    (hinit : FLAC__encoder_init lib client e = (a.toEncoder, calls0)) (hok : a.state = .OK)
    (hw : writers_never_fail lib) (hc : ∀ b n s f, client.write_callback b n s f = .OK)
    (hl : search_loops_end lib a.toEncoderSettings)
    (hn : (chunks.map Prod.snd).sum < 2 ^ 64) :
    ∃ r frames m, encoder_session lib client a chunks = some (r, frames ++ [.metadata m]) ∧
      (∀ call ∈ frames, ∃ b n s f, call = .write b n s f) ∧
      m.encoding.total_samples = (chunks.map Prod.snd).sum ∧
      written_samples frames =
        List.replicate ((chunks.map Prod.snd).sum / a.blocksize) a.blocksize ++
          (if (chunks.map Prod.snd).sum % a.blocksize = 0 then []
           else [(chunks.map Prod.snd).sum % a.blocksize]) ∧
      (written_samples frames).sum = (chunks.map Prod.snd).sum := by
  obtain ⟨hb0, hb1, hcs, hfn, hts, -⟩ := init_success lib client e a calls0 hinit hok
  unfold FLAC__MIN_BLOCK_SIZE at hb0
  unfold FLAC__MAX_BLOCK_SIZE at hb1
  obtain ⟨e1, log, hall, k1, k2, k3, k4, k5, k6⟩ := encoder_process_all_total lib client hw hc
    chunks a hl (by omega) (by omega) (by omega) (by omega) (by omega)
  rw [hcs, Nat.zero_add] at k2 k4 k5
  rw [hts, Nat.zero_add] at k4
  have hbs : e1.blocksize = a.blocksize := congrArg EncoderSettings.blocksize k1
  have hst : e1.state = a.state := congrArg EncoderSettings.state k1
  have hdm := Nat.div_add_mod (chunks.map Prod.snd).sum a.blocksize
  have hmod : (chunks.map Prod.snd).sum % a.blocksize < a.blocksize :=
    Nat.mod_lt _ (by omega)
  have hmul : (chunks.map Prod.snd).sum / a.blocksize * a.blocksize =
      a.blocksize * ((chunks.map Prod.snd).sum / a.blocksize) := Nat.mul_comm _ _
  obtain ⟨r, frames, m, hfin, -, m2, m3, m4⟩ := encoder_finish_total lib client e1 hw hc
    (by rw [k1]; exact hl) (by rw [hst, hok]; decide) (by rw [k2]; omega)
    (by rw [k4]; omega)
  refine ⟨r, log ++ frames, m, ?_, ?_, ?_, ?_, ?_⟩
  · unfold encoder_session
    rw [hall]
    dsimp only
    rw [hfin, List.append_assoc]
  · intro call hcall
    rcases List.mem_append.mp hcall with hin | hin
    · exact k6 call hin
    · exact m4 call hin
  · rw [m2, k4, k2, hmul]
    omega
  · rw [written_samples_append, k5, m3, k2]
  · rw [written_samples_append, k5, m3, k2, List.sum_append, List.sum_replicate,
      smul_eq_mul, hmul]
    split_ifs with h0
    · simp only [List.sum_nil]
      omega
    · simp only [List.sum_cons, List.sum_nil]
      omega

/-- Witness for C10: the example session, fed 20 samples with blocksize 16. -/
theorem encoder_total_samples_witness :
    ∃ r frames m, encoder_session example_lib example_encoder_client example_initialized
        example_chunks = some (r, frames ++ [.metadata m]) ∧
      (∀ call ∈ frames, ∃ b n s f, call = .write b n s f) ∧
      m.encoding.total_samples = (example_chunks.map Prod.snd).sum ∧
      written_samples frames =
        List.replicate ((example_chunks.map Prod.snd).sum / example_initialized.blocksize)
            example_initialized.blocksize ++
          (if (example_chunks.map Prod.snd).sum % example_initialized.blocksize = 0 then []
           else [(example_chunks.map Prod.snd).sum % example_initialized.blocksize]) ∧
      (written_samples frames).sum = (example_chunks.map Prod.snd).sum :=
  encoder_total_samples example_lib example_encoder_client (example_encoder 16 0)
    example_initialized
    (FLAC__encoder_init example_lib example_encoder_client (example_encoder 16 0)).2
    example_chunks (by decide) (by decide)
    ⟨fun _ => by simp [example_lib], fun _ _ _ _ => by simp [example_lib],
      fun _ _ _ => by simp [example_lib], fun _ _ _ _ _ => by simp [example_lib],
      fun _ _ _ _ _ => by simp [example_lib], fun _ _ _ _ => by simp [example_lib],
      fun _ => by simp [example_lib]⟩
    (fun _ _ _ _ => rfl)
    ⟨fun _ _ => by simp [example_lib], fun _ _ _ _ => by simp [example_lib],
      by decide, by decide, by decide⟩
    (by decide)

/-! ## Stream encoder: invariants of a session -/

/-- An invariant of the encoder and the log of client calls that is kept by storing samples
and by every frame is kept by the outer loop of `FLAC__encoder_process`. -/
theorem process_loop_invariant (lib : EncoderLib) (client : EncoderClient)
    (I : ActiveEncoder → List EncoderCall → Prop)
    (hfill : ∀ buf samples fuel i j e log, I e log → I (fill_loop buf samples fuel i j e).2.2 log)
    (hframe : ∀ e log is_last ok e' c, I e log →
      encoder_process_frame_ lib client e is_last = some (ok, e', c) → I e' (log ++ c))
    (buf : Buffers) (samples : Nat) :
    ∀ (fuel j : Nat) (e : ActiveEncoder) (calls : List EncoderCall) (ok : Bool)
      (e' : ActiveEncoder) (out : List EncoderCall),
      process_loop lib client buf samples fuel j e calls = some (ok, e', out) →
      I e calls → I e' out := by
  intro fuel
  induction fuel with
  | zero =>
      intro j e calls ok e' out h
      simp [process_loop] at h
  | succ fuel ih =>
      intro j e calls ok e' out h hI
      have hf := hfill buf samples (samples - j) e.guts.current_sample_number j e calls hI
      unfold process_loop at h
      dsimp only at h
      generalize fill_loop buf samples (samples - j) e.guts.current_sample_number j e = F
        at hf h
      obtain ⟨i', j', f⟩ := F
      dsimp only at hf h
      split_ifs at h with hfull hmore hmore
      · split at h
        · cases h
        · rename_i e1 c hfr
          cases h
          exact hframe f calls false false e' c hf hfr
        · rename_i e1 c hfr
          exact ih j' e1 (calls ++ c) ok e' out h (hframe f calls false true e1 c hf hfr)
      · split at h
        · cases h
        · rename_i e1 c hfr
          cases h
          exact hframe f calls false false e' c hf hfr
        · rename_i e1 c hfr
          cases h
          exact hframe f calls false true e' c hf hfr
      · exact ih j' f calls ok e' out h hf
      · cases h
        exact hf

/-- The same for a sequence of `FLAC__encoder_process` calls; `before` is the log of the
calls made earlier. -/
theorem encoder_process_all_invariant (lib : EncoderLib) (client : EncoderClient)
    (I : ActiveEncoder → List EncoderCall → Prop)
    (hfill : ∀ buf samples fuel i j e log, I e log → I (fill_loop buf samples fuel i j e).2.2 log)
    (hframe : ∀ e log is_last ok e' c, I e log →
      encoder_process_frame_ lib client e is_last = some (ok, e', c) → I e' (log ++ c)) :
    ∀ (chunks : List (Buffers × Nat)) (e : ActiveEncoder) (before : List EncoderCall)
      (ok : Bool) (e' : ActiveEncoder) (log : List EncoderCall),
      encoder_process_all lib client chunks e = some (ok, e', log) →
      I e before → I e' (before ++ log) := by
  intro chunks
  induction chunks with
  | nil =>
      intro e before ok e' log h hI
      simp only [encoder_process_all, Option.some.injEq, Prod.mk.injEq] at h
      obtain ⟨-, he, hlog⟩ := h
      subst he hlog
      simpa using hI
  | cons chunk rest ih =>
      intro e before ok e' log h hI
      unfold encoder_process_all FLAC__encoder_process at h
      have step : ∀ (k : Bool) (e1 : ActiveEncoder) (c : List EncoderCall),
          process_loop lib client chunk.1 chunk.2 (chunk.2 + 2) 0 e [] = some (k, e1, c) →
          I e1 (before ++ c) := by
        intro k e1 c hrun
        have hmove : ∀ (fuel j : Nat) (x : ActiveEncoder) (calls : List EncoderCall) (k : Bool)
            (x' : ActiveEncoder) (out : List EncoderCall),
            process_loop lib client chunk.1 chunk.2 fuel j x calls = some (k, x', out) →
            I x (before ++ calls) → I x' (before ++ out) :=
          process_loop_invariant lib client (fun x l => I x (before ++ l))
            (fun b s fu i j x l hx => hfill b s fu i j x (before ++ l) hx)
            (fun x l il k x' c hx hfr => by
              show I x' (before ++ (l ++ c))
              rw [← List.append_assoc]
              exact hframe x (before ++ l) il k x' c hx hfr)
            chunk.1 chunk.2
        exact hmove (chunk.2 + 2) 0 e [] k e1 c hrun (by simpa using hI)
      split at h
      · cases h
      · rename_i e1 c hrun
        cases h
        exact step false e' log hrun
      · rename_i e1 c hrun
        split at h
        · cases h
        · rename_i r hrest
          cases h
          have h1 := step true e1 c hrun
          have h2 := ih e1 (before ++ c) r.1 r.2.1 r.2.2 hrest h1
          rw [List.append_assoc] at h2
          exact h2

/-- The same for a whole session: when it returns, its log is that of the frames, for which
the invariant holds with the encoder whose metadata is passed to the metadata callback,
followed by that one metadata call (or by nothing, if the encoder was found
`UNINITIALIZED`). -/
theorem encoder_session_invariant (lib : EncoderLib) (client : EncoderClient)
    (I : ActiveEncoder → List EncoderCall → Prop)
    (hfill : ∀ buf samples fuel i j e log, I e log → I (fill_loop buf samples fuel i j e).2.2 log)
    (hframe : ∀ e log is_last ok e' c, I e log →
      encoder_process_frame_ lib client e is_last = some (ok, e', c) → I e' (log ++ c))
    (hsize : ∀ e log n, I e log → I { e with blocksize := n } log)
    (a : ActiveEncoder) (chunks : List (Buffers × Nat)) (result : Encoder × List EncoderCall)
    (hrun : encoder_session lib client a chunks = some result) (hI : I a []) :
    ∃ e' log, I e' log ∧
      (result.2 = log ++ [.metadata e'.guts.metadata] ∨ result.2 = log) := by
  unfold encoder_session at hrun
  split at hrun
  · cases hrun
  · rename_i r hall
    have h1 := encoder_process_all_invariant lib client I hfill hframe chunks a [] r.1 r.2.1
      r.2.2 hall hI
    rw [List.nil_append] at h1
    split at hrun
    · cases hrun
    · rename_i t hfin
      cases hrun
      unfold FLAC__encoder_finish at hfin
      simp only [ActiveEncoder.toEncoder] at hfin
      split_ifs at hfin with hu hcs
      · cases hfin
        exact ⟨r.2.1, r.2.2, h1, Or.inr (by simp)⟩
      · split at hfin
        · cases hfin
        · rename_i a1 calls hf
          cases hfin
          split at hf
          · cases hf
          · rename_i res hfr
            cases hf
            have h2 := hframe _ r.2.2 true res.1 res.2.1 res.2.2
              (hsize r.2.1 r.2.2 r.2.1.guts.current_sample_number h1) hfr
            exact ⟨res.2.1, r.2.2 ++ res.2.2, h2, Or.inl (by simp)⟩
      · cases hfin
        exact ⟨r.2.1, r.2.2, h1, Or.inl rfl⟩

/-! ## Stream encoder: frame size statistics -/

/-- A frame that returns either failed before the chosen buffer was padded, with no call
made, or ends with `write_frame` on an encoder that frame construction left untouched. -/
theorem encoder_process_frame_shape (lib : EncoderLib) (client : EncoderClient)
    (e : ActiveEncoder) (is_last : Bool) (ok : Bool) (e' : ActiveEncoder)
    (calls : List EncoderCall)
    (h : encoder_process_frame_ lib client e is_last = some (ok, e', calls)) :
    (ok = false ∧ calls = [] ∧ frame_untouched e e') ∨
      ∃ a which b, frame_untouched e a ∧ write_frame lib client a which b = (ok, e', calls) := by
  unfold encoder_process_frame_ at h
  split at h
  · cases h
  · rename_i e0 hb0
    simp only [Option.some.injEq, Prod.mk.injEq] at h
    obtain ⟨rfl, rfl, rfl⟩ := h
    exact Or.inl ⟨rfl, rfl, (build_candidate_untouched _ _ _ _ _ _ _ _ hb0).1⟩
  · rename_i e0 frame hb0
    have u0 := build_candidate_untouched _ _ _ _ _ _ _ _ hb0
    have u1 : frame_untouched e { e0 with guts := { e0.guts with frame := frame } } :=
      frame_untouched_trans u0.1 (frame_untouched_set_frame e0 frame)
    dsimp only at h
    split_ifs at h
    · split at h
      · cases h
      · rename_i e2 hb2
        simp only [Option.some.injEq, Prod.mk.injEq] at h
        obtain ⟨rfl, rfl, rfl⟩ := h
        exact Or.inl ⟨rfl, rfl,
          frame_untouched_trans u1 (build_candidate_untouched _ _ _ _ _ _ _ _ hb2).1⟩
      · rename_i e2 fms hb2
        have u2 := build_candidate_untouched _ _ _ _ _ _ _ _ hb2
        have u3 : frame_untouched e { e2 with guts := { e2.guts with frame_mid_side := fms } } :=
          frame_untouched_trans (frame_untouched_trans u1 u2.1)
            (frame_untouched_set_mid_side e2 fms)
        split at h
        · cases h
        · rename_i e4 hb4
          simp only [Option.some.injEq, Prod.mk.injEq] at h
          obtain ⟨rfl, rfl, rfl⟩ := h
          exact Or.inl ⟨rfl, rfl,
            frame_untouched_trans u3 (build_candidate_untouched _ _ _ _ _ _ _ _ hb4).1⟩
        · rename_i e4 fls hb4
          have u4 := build_candidate_untouched _ _ _ _ _ _ _ _ hb4
          have u5 : frame_untouched e
              { e4 with guts := { e4.guts with frame_left_side := fls } } :=
            frame_untouched_trans (frame_untouched_trans u3 u4.1)
              (frame_untouched_set_left_side e4 fls)
          split at h
          · cases h
          · rename_i e6 hb6
            simp only [Option.some.injEq, Prod.mk.injEq] at h
            obtain ⟨rfl, rfl, rfl⟩ := h
            exact Or.inl ⟨rfl, rfl,
              frame_untouched_trans u5 (build_candidate_untouched _ _ _ _ _ _ _ _ hb6).1⟩
          · rename_i e6 frs hb6
            have u6 := build_candidate_untouched _ _ _ _ _ _ _ _ hb6
            have u7 : frame_untouched e
                { e6 with guts := { e6.guts with frame_right_side := frs } } :=
              frame_untouched_trans (frame_untouched_trans u5 u6.1)
                (frame_untouched_set_right_side e6 frs)
            simp only [Option.some.injEq] at h
            exact Or.inr ⟨_, _, _, u7, h⟩
    · simp only [Option.some.injEq] at h
      exact Or.inr ⟨_, _, _, u1, h⟩

/-- The statistics update at the end of `write_frame`: an accepted frame of `bytes` bytes
lowers `min_framesize` to `bytes` if that is smaller and raises `max_framesize` to `bytes`
if that is larger. -/
theorem write_frame_sizes (lib : EncoderLib) (client : EncoderClient) (a : ActiveEncoder)
    (which : Nat) (b : BitBuffer) (h : (write_frame lib client a which b).1 = true) :
    ∃ buffer bytes samples current_frame,
      (write_frame lib client a which b).2.2 = [.write buffer bytes samples current_frame] ∧
      client.write_callback buffer bytes samples current_frame = .OK ∧
      (write_frame lib client a which b).2.1.guts.metadata.encoding.min_framesize =
        min a.guts.metadata.encoding.min_framesize bytes ∧
      (write_frame lib client a which b).2.1.guts.metadata.encoding.max_framesize =
        max a.guts.metadata.encoding.max_framesize bytes := by
  unfold write_frame at h ⊢
  cases hp : lib.bitbuffer_zero_pad_to_byte_boundary b with
  | none =>
      rw [hp] at h
      simp at h
  | some padded =>
      rw [hp] at h
      dsimp only at h ⊢
      by_cases hw : client.write_callback padded.buffer padded.bytes a.blocksize
          a.guts.current_frame_number = .OK
      · refine ⟨padded.buffer, padded.bytes, a.blocksize, a.guts.current_frame_number, ?_, hw,
          ?_, ?_⟩
        · simp [hw]
        · simp only [hw, ne_eq, not_true_eq_false, if_false]
          split_ifs <;> (dsimp only at *; omega)
        · simp only [hw, ne_eq, not_true_eq_false, if_false]
          split_ifs <;> (dsimp only at *; omega)
      · simp [hw] at h

theorem accepted_bytes_append (client : EncoderClient) (xs ys : List EncoderCall) :
    accepted_bytes client (xs ++ ys) = accepted_bytes client xs ++ accepted_bytes client ys := by
  induction xs with
  | nil => simp [accepted_bytes]
  | cons x xs ih =>
      cases x with
      | write b n s c =>
          simp only [List.cons_append, accepted_bytes]
          split_ifs <;> simp [ih]
      | metadata m => simp [accepted_bytes, ih]

theorem foldl_min_le (l : List Nat) : ∀ s : Nat,
    List.foldl min s l ≤ s ∧ (∀ b ∈ l, List.foldl min s l ≤ b) ∧
      (List.foldl min s l = s ∨ List.foldl min s l ∈ l) := by
  induction l with
  | nil => intro s; simp
  | cons x rest ih =>
      intro s
      obtain ⟨h1, h2, h3⟩ := ih (min s x)
      simp only [List.foldl_cons, List.mem_cons]
      refine ⟨by omega, ?_, ?_⟩
      · intro b hb
        rcases hb with hb | hb
        · subst hb
          omega
        · exact h2 b hb
      · rcases h3 with h3 | h3
        · rw [h3]
          by_cases hx : s ≤ x
          · left
            omega
          · right
            left
            omega
        · exact Or.inr (Or.inr h3)

theorem le_foldl_max (l : List Nat) : ∀ s : Nat,
    s ≤ List.foldl max s l ∧ (∀ b ∈ l, b ≤ List.foldl max s l) ∧
      (List.foldl max s l = s ∨ List.foldl max s l ∈ l) := by
  induction l with
  | nil => intro s; simp
  | cons x rest ih =>
      intro s
      obtain ⟨h1, h2, h3⟩ := ih (max s x)
      simp only [List.foldl_cons, List.mem_cons]
      refine ⟨by omega, ?_, ?_⟩
      · intro b hb
        rcases hb with hb | hb
        · subst hb
          omega
        · exact h2 b hb
      · rcases h3 with h3 | h3
        · rw [h3]
          by_cases hx : x ≤ s
          · left
            omega
          · right
            left
            omega
        · exact Or.inr (Or.inr h3)

/-- A log of write calls followed by one metadata call splits at a metadata call in one way
only. -/
theorem metadata_call_unique (log : List EncoderCall)
    (hlog : ∀ call ∈ log, ∃ b n s f, call = .write b n s f) :
    ∀ (pre post : List EncoderCall) (m m' : EncoderMetaData),
      log ++ [.metadata m'] = pre ++ .metadata m :: post → pre = log ∧ m = m' := by
  induction log with
  | nil =>
      intro pre post m m' h
      cases pre with
      | nil =>
          simp only [List.nil_append, List.cons.injEq, EncoderCall.metadata.injEq] at h
          exact ⟨rfl, h.1.symm⟩
      | cons x pre =>
          cases pre <;> cases h
  | cons x rest ih =>
      intro pre post m m' h
      obtain ⟨b, n, s, f, hx⟩ := hlog x (List.mem_cons_self _ _)
      subst hx
      cases pre with
      | nil => cases h
      | cons y pre =>
          simp only [List.cons_append, List.cons.injEq] at h
          obtain ⟨hy, hrest⟩ := h
          obtain ⟨k1, k2⟩ := ih (fun call hc => hlog call (List.mem_cons_of_mem _ hc)) pre post
            m m' hrest
          exact ⟨by rw [← hy, k1], k2⟩

theorem no_metadata_call (log : List EncoderCall)
    (hlog : ∀ call ∈ log, ∃ b n s f, call = .write b n s f) (pre post : List EncoderCall)
    (m : EncoderMetaData) : log ≠ pre ++ .metadata m :: post := by
  intro h
  obtain ⟨b, n, s, f, hx⟩ := hlog (.metadata m) (by rw [h]; simp)
  cases hx

/-- The frame size statistics follow the accepted frames: a frame keeps, for any starting
values, `min_framesize` the fold of `min` and `max_framesize` the fold of `max` over the byte
lengths of the frames accepted so far, and adds only write calls to the log. -/
theorem frame_keeps_sizes (lib : EncoderLib) (client : EncoderClient) (lo hi : Nat)
    (e : ActiveEncoder) (log : List EncoderCall) (is_last ok : Bool) (e' : ActiveEncoder)
    (c : List EncoderCall)
    (hI : (∀ call ∈ log, ∃ b n s f, call = .write b n s f) ∧
      e.guts.metadata.encoding.min_framesize =
        List.foldl min lo (accepted_bytes client log) ∧
      e.guts.metadata.encoding.max_framesize =
        List.foldl max hi (accepted_bytes client log))
    (h : encoder_process_frame_ lib client e is_last = some (ok, e', c)) :
    (∀ call ∈ log ++ c, ∃ b n s f, call = .write b n s f) ∧
      e'.guts.metadata.encoding.min_framesize =
        List.foldl min lo (accepted_bytes client (log ++ c)) ∧
      e'.guts.metadata.encoding.max_framesize =
        List.foldl max hi (accepted_bytes client (log ++ c)) := by
  obtain ⟨h1, h2, h3⟩ := hI
  rcases encoder_process_frame_shape lib client e is_last ok e' c h with
    ⟨-, hc, hu⟩ | ⟨a, which, b, hu, hw⟩
  · subst hc
    rw [List.append_nil, hu.2.2.2.2.2.1]
    exact ⟨h1, h2, h3⟩
  · have hm : a.guts.metadata = e.guts.metadata := hu.2.2.2.2.2.1
    cases ok with
    | true =>
        obtain ⟨buffer, bytes, s, f, k1, k2, k3, k4⟩ := write_frame_sizes lib client a which b
          (by rw [hw])
        rw [hw] at k1 k3 k4
        dsimp only at k1 k3 k4
        subst k1
        refine ⟨?_, ?_, ?_⟩
        · intro call hcall
          rcases List.mem_append.mp hcall with hin | hin
          · exact h1 call hin
          · exact ⟨buffer, bytes, s, f, by simpa using hin⟩
        · rw [k3, hm, h2, accepted_bytes_append]
          simp [accepted_bytes, k2]
        · rw [k4, hm, h3, accepted_bytes_append]
          simp [accepted_bytes, k2]
    | false =>
        obtain ⟨-, -, -, -, -, k⟩ := write_frame_spec lib client a which b
        obtain ⟨-, -, -, k4, k5⟩ := k (by rw [hw])
        rw [hw] at k4 k5
        dsimp only at k4 k5
        rw [k4, hm]
        rcases k5 with k5 | ⟨padded, -, k5, k6⟩
        · subst k5
          rw [List.append_nil]
          exact ⟨h1, h2, h3⟩
        · subst k5
          refine ⟨?_, ?_, ?_⟩
          · intro call hcall
            rcases List.mem_append.mp hcall with hin | hin
            · exact h1 call hin
            · exact ⟨_, _, _, _, by simpa using hin⟩
          · rw [h2, accepted_bytes_append]
            simp [accepted_bytes, k6]
          · rw [h3, accepted_bytes_append]
            simp [accepted_bytes, k6]

/-- The metadata a successful `FLAC__encoder_init` leaves in the encoder: the block it wrote,
with `min_framesize` replaced by the largest 24 bit value. -/
theorem encoder_init_guts_metadata (lib : EncoderLib) (client : EncoderClient) (e r : Encoder)
    (calls : List EncoderCall) (h : encoder_init_guts lib client e = (r, calls))
    (hs : r.state = .OK) :
    ∃ a : ActiveEncoder, r = a.toEncoder ∧
      a.guts.metadata.encoding.min_framesize =
        2 ^ FLAC__STREAM_METADATA_ENCODING_MIN_FRAME_SIZE_LEN - 1 ∧
      a.guts.metadata.encoding.max_framesize = 0 := by
  unfold encoder_init_guts at h
  split at h
  · cases h
    cases hs
  · rename_i fresh hg
    dsimp only at h
    generalize hR : encoder_resize_buffers_ lib _ _ = R at h
    have c4 : R.1 = false → R.2.state = .MEMORY_ALLOCATION_ERROR := by
      subst hR
      exact encoder_resize_buffers_failed lib _ _
    split_ifs at h with hfail
    · cases h
      have hm := c4 hfail
      have hs' : R.2.state = .OK := hs
      rw [hm] at hs'
      cases hs'
    · split at h
      · cases h
        cases hs
      · rename_i b0 hb0
        split at h
        · cases h
          cases hs
        · rename_i b1 hb1
          split at h
          · cases h
            cases hs
          · rename_i b2 hb2
            split_ifs at h with hcb
            · cases h
              cases hs
            · cases h
              exact ⟨_, rfl, rfl, rfl⟩

/-- C11: the metadata block `FLAC__encoder_init` writes has `min_framesize` and
`max_framesize` 0; after a successful init the encoder holds `min_framesize = 2^24 - 1` and
`max_framesize = 0`; and in every session that returns, when at least one frame was accepted
by the client and no accepted frame is longer than `2^24 - 1` bytes, the metadata passed to
the metadata callback has `min_framesize` the least and `max_framesize` the greatest byte
length among the accepted frames, so `min_framesize ≤ max_framesize`. -/
theorem encoder_frame_size_statistics (lib : EncoderLib) (client : EncoderClient)
    (e : Encoder) (a : ActiveEncoder) (calls0 : List EncoderCall)
    (chunks : List (Buffers × Nat)) (result : Encoder × List EncoderCall)
    (hinit : FLAC__encoder_init lib client e = (a.toEncoder, calls0)) (hok : a.state = .OK)
    (hrun : encoder_session lib client a chunks = some result) :
    (∃ b1 b2, lib.add_metadata_block (initial_metadata lib a.toEncoderSettings) b1 = some b2 ∧
        calls0 = [.write b2.buffer b2.bytes 0 0] ∧
        (initial_metadata lib a.toEncoderSettings).encoding.min_framesize = 0 ∧
        (initial_metadata lib a.toEncoderSettings).encoding.max_framesize = 0) ∧
      a.guts.metadata.encoding.min_framesize = 2 ^ 24 - 1 ∧
      a.guts.metadata.encoding.max_framesize = 0 ∧
      ∀ pre m post, result.2 = pre ++ .metadata m :: post →
        accepted_bytes client pre ≠ [] →
        (∀ b ∈ accepted_bytes client pre, b ≤ 2 ^ 24 - 1) →
          m.encoding.min_framesize ∈ accepted_bytes client pre ∧
            (∀ b ∈ accepted_bytes client pre, m.encoding.min_framesize ≤ b) ∧
            m.encoding.max_framesize ∈ accepted_bytes client pre ∧
            (∀ b ∈ accepted_bytes client pre, b ≤ m.encoding.max_framesize) ∧
            m.encoding.min_framesize ≤ m.encoding.max_framesize := by
  obtain ⟨-, -, -, -, -, buffer, b0, b1, b2, -, -, h2, h3, -⟩ :=
    init_success lib client e a calls0 hinit hok
  obtain ⟨e2, -, -, -, k4⟩ := init_ok_reaches_guts lib client e (by rw [hinit]; exact hok)
  obtain ⟨a', m1, m2, m3⟩ := encoder_init_guts_metadata lib client e2 a.toEncoder calls0
    (by rw [← k4, hinit]) hok
  have ha := toEncoder_injective m1
  subst ha
  have m2' : a.guts.metadata.encoding.min_framesize = 2 ^ 24 - 1 := m2
  refine ⟨⟨b1, b2, h2, h3, rfl, rfl⟩, m2', m3, ?_⟩
  obtain ⟨e', log, ⟨i1, i2, i3⟩, hres⟩ := encoder_session_invariant lib client
    (fun x l => (∀ call ∈ l, ∃ b n s f, call = .write b n s f) ∧
      x.guts.metadata.encoding.min_framesize =
        List.foldl min (2 ^ 24 - 1) (accepted_bytes client l) ∧
      x.guts.metadata.encoding.max_framesize = List.foldl max 0 (accepted_bytes client l))
    (fun buf samples fuel i j x l hx => by
      obtain ⟨-, -, hm⟩ := fill_loop_keeps buf samples fuel i j x
      rw [hm]
      exact hx)
    (fun x l il k x' c hx hfr => frame_keeps_sizes lib client _ _ x l il k x' c hx hfr)
    (fun x l n hx => hx) a chunks result hrun
    ⟨fun call hc => (by cases hc), (by simpa [accepted_bytes] using m2'),
      (by simpa [accepted_bytes] using m3)⟩
  intro pre m post hsplit hne hle
  rcases hres with hres | hres
  · rw [hres] at hsplit
    obtain ⟨hpre, hm⟩ := metadata_call_unique log i1 pre post m _ hsplit
    subst hpre hm
    obtain ⟨n1, n2, n3⟩ := foldl_min_le (accepted_bytes client pre) (2 ^ 24 - 1)
    obtain ⟨x1, x2, x3⟩ := le_foldl_max (accepted_bytes client pre) 0
    rw [i2, i3]
    obtain ⟨w, hw⟩ := List.exists_mem_of_ne_nil _ hne
    have hmin : List.foldl min (2 ^ 24 - 1) (accepted_bytes client pre) ∈
        accepted_bytes client pre := by
      rcases n3 with n3 | n3
      · have := n2 w hw
        have := hle w hw
        have hw' : w = List.foldl min (2 ^ 24 - 1) (accepted_bytes client pre) := by omega
        rw [← hw']
        exact hw
      · exact n3
    have hmax : List.foldl max 0 (accepted_bytes client pre) ∈ accepted_bytes client pre := by
      rcases x3 with x3 | x3
      · have := x2 w hw
        have hw' : w = List.foldl max 0 (accepted_bytes client pre) := by omega
        rw [← hw']
        exact hw
      · exact x3
    exact ⟨hmin, n2, hmax, x2, x2 _ hmin⟩
  · rw [hres] at hsplit
    exact absurd hsplit (no_metadata_call log i1 pre post m)

/-- Witness for C11: in the example session the frames of 22 and 10 bytes give
`min_framesize = 10` and `max_framesize = 22`. -/
theorem encoder_frame_size_statistics_witness :
    (∃ b1 b2, example_lib.add_metadata_block
          (initial_metadata example_lib example_initialized.toEncoderSettings) b1 = some b2 ∧
        (FLAC__encoder_init example_lib example_encoder_client (example_encoder 16 0)).2 =
          [.write b2.buffer b2.bytes 0 0] ∧
        (initial_metadata example_lib
          example_initialized.toEncoderSettings).encoding.min_framesize = 0 ∧
        (initial_metadata example_lib
          example_initialized.toEncoderSettings).encoding.max_framesize = 0) ∧
      example_initialized.guts.metadata.encoding.min_framesize = 2 ^ 24 - 1 ∧
      example_initialized.guts.metadata.encoding.max_framesize = 0 ∧
      ∀ pre m post, example_session_result.2 = pre ++ .metadata m :: post →
        accepted_bytes example_encoder_client pre ≠ [] →
        (∀ b ∈ accepted_bytes example_encoder_client pre, b ≤ 2 ^ 24 - 1) →
          m.encoding.min_framesize ∈ accepted_bytes example_encoder_client pre ∧
            (∀ b ∈ accepted_bytes example_encoder_client pre, m.encoding.min_framesize ≤ b) ∧
            m.encoding.max_framesize ∈ accepted_bytes example_encoder_client pre ∧
            (∀ b ∈ accepted_bytes example_encoder_client pre, b ≤ m.encoding.max_framesize) ∧
            m.encoding.min_framesize ≤ m.encoding.max_framesize :=
  encoder_frame_size_statistics example_lib example_encoder_client (example_encoder 16 0)
    example_initialized
    (FLAC__encoder_init example_lib example_encoder_client (example_encoder 16 0)).2
    example_chunks example_session_result (by decide) (by decide) (by decide)

/-! ## Stream encoder: the side channel test -/

theorem to_int32_of_range (x : Int) (h1 : -(2 ^ 31) ≤ x) (h2 : x < 2 ^ 31) : to_int32 x = x := by
  unfold to_int32
  rw [Int.emod_eq_of_lt (by omega) (by omega)]
  omega

theorem side_bounds (bps : Nat) (h1 : 1 ≤ bps) (h2 : bps ≤ 32) :
    to_int32 (-(2 ^ (bps - 1))) = -(2 ^ (bps - 1)) ∧
      to_int32 (2 ^ (bps - 1) - 1) = 2 ^ (bps - 1) - 1 := by
  have hp : (2 : Int) ^ (bps - 1) ≤ 2 ^ 31 :=
    pow_le_pow_right₀ (by norm_num) (by omega)
  have hp0 : (0 : Int) < 2 ^ (bps - 1) := by positivity
  constructor
  · exact to_int32_of_range _ (by omega) (by omega)
  · exact to_int32_of_range _ (by omega) (by omega)

/-- One stored sample of a stereo stream with mid-side enabled leaves the flag
`current_frame_can_do_mid_side` set exactly when it was set and `left - right` lies in the
signed `bits_per_sample` bit range. -/
theorem store_sample_flag (e : ActiveEncoder) (buf : Buffers) (i j : Nat)
    (hms : e.do_mid_side_stereo = true) (hch : e.channels = 2)
    (h1 : 1 ≤ e.bits_per_sample) (h2 : e.bits_per_sample ≤ 32) :
    (store_sample e buf i j).guts.current_frame_can_do_mid_side = true ↔
      e.guts.current_frame_can_do_mid_side = true ∧
        -(2 ^ (e.bits_per_sample - 1)) ≤ (buf.getD 0 []).getD j 0 - (buf.getD 1 []).getD j 0 ∧
        (buf.getD 0 []).getD j 0 - (buf.getD 1 []).getD j 0 ≤ 2 ^ (e.bits_per_sample - 1) - 1 := by
  obtain ⟨k1, k2⟩ := side_bounds e.bits_per_sample h1 h2
  unfold store_sample
  dsimp only
  rw [k1, k2]
  simp only [hms, hch, beq_self_eq_true, Bool.and_self, true_and]
  by_cases hf : e.guts.current_frame_can_do_mid_side = true
  · rw [if_pos hf]
    split_ifs with hs
    · simp only [hf, true_and]
      constructor
      · intro h
        cases h
      · intro h
        omega
    · simp only [hf, true_and]
      constructor
      · intro _
        omega
      · intro _
        trivial
  · rw [if_neg hf]
    simp [hf]

/-- After the inner loop of `FLAC__encoder_process` on a stereo stream with mid-side enabled
the flag is set exactly when it was set before and every sample stored by the loop has
`left - right` in the signed `bits_per_sample` bit range. -/
theorem fill_loop_flag (buf : Buffers) (samples : Nat) :
    ∀ (fuel i j : Nat) (e : ActiveEncoder), samples - j ≤ fuel →
      e.do_mid_side_stereo = true → e.channels = 2 →
      1 ≤ e.bits_per_sample → e.bits_per_sample ≤ 32 →
      ((fill_loop buf samples fuel i j e).2.2.guts.current_frame_can_do_mid_side = true ↔
        e.guts.current_frame_can_do_mid_side = true ∧
          ∀ k, k < min (e.blocksize - i) (samples - j) →
            -(2 ^ (e.bits_per_sample - 1)) ≤
                (buf.getD 0 []).getD (j + k) 0 - (buf.getD 1 []).getD (j + k) 0 ∧
              (buf.getD 0 []).getD (j + k) 0 - (buf.getD 1 []).getD (j + k) 0 ≤
                2 ^ (e.bits_per_sample - 1) - 1) := by
  intro fuel
  induction fuel with
  | zero =>
      intro i j e hf _ _ _ _
      have hm : min (e.blocksize - i) (samples - j) = 0 := by omega
      simp [fill_loop, hm]
  | succ fuel ih =>
      intro i j e hf hms hch h1 h2
      unfold fill_loop
      split_ifs with h
      · obtain ⟨hs, -, -, -⟩ := store_sample_keeps e buf i j
        have hbs : (store_sample e buf i j).blocksize = e.blocksize :=
          congrArg EncoderSettings.blocksize hs
        have hbp : (store_sample e buf i j).bits_per_sample = e.bits_per_sample :=
          congrArg EncoderSettings.bits_per_sample hs
        have hms' : (store_sample e buf i j).do_mid_side_stereo = true :=
          (congrArg EncoderSettings.do_mid_side_stereo hs).trans hms
        have hch' : (store_sample e buf i j).channels = 2 :=
          (congrArg EncoderSettings.channels hs).trans hch
        have step := ih (i + 1) (j + 1) (store_sample e buf i j) (by omega) hms' hch'
          (by rw [hbp]; exact h1) (by rw [hbp]; exact h2)
        rw [hbs, hbp, store_sample_flag e buf i j hms hch h1 h2] at step
        rw [step]
        have hd : min (e.blocksize - i) (samples - j) =
            min (e.blocksize - (i + 1)) (samples - (j + 1)) + 1 := by omega
        constructor
        · rintro ⟨⟨hflag, h0⟩, hrest⟩
          refine ⟨hflag, ?_⟩
          intro k hk
          cases k with
          | zero => exact h0
          | succ k =>
              have := hrest k (by omega)
              rw [show j + (k + 1) = j + 1 + k by omega]
              exact this
        · rintro ⟨hflag, hall⟩
          refine ⟨⟨hflag, hall 0 (by omega)⟩, ?_⟩
          intro k hk
          have := hall (k + 1) (by omega)
          rw [show j + (k + 1) = j + 1 + k by omega] at this
          exact this
      · have hm : min (e.blocksize - i) (samples - j) = 0 := by omega
        simp [hm]

/-- Which candidates a frame that was written went through: with the flag or
`do_mid_side_stereo` off only the independent one, whose padded bytes are written; otherwise
all four, and the padded bytes of one of them are written. -/
theorem encoder_process_frame_candidates (lib : EncoderLib) (client : EncoderClient)
    (e : ActiveEncoder) (is_last : Bool) (e' : ActiveEncoder) (calls : List EncoderCall)
    (h : encoder_process_frame_ lib client e is_last = some (true, e', calls)) :
    ∃ e0 frame, build_candidate lib e is_last
        (frame_header_of e FLAC__CHANNEL_ASSIGNMENT_INDEPENDENT) e.guts.integer_signal
        e.guts.frame = some (e0, some frame) ∧
      ((¬ (e.do_mid_side_stereo = true ∧ e.guts.current_frame_can_do_mid_side = true) ∧
          ∃ padded, lib.bitbuffer_zero_pad_to_byte_boundary frame = some padded ∧
            calls = [.write padded.buffer padded.bytes e.blocksize
              e.guts.current_frame_number]) ∨
        ((e.do_mid_side_stereo = true ∧ e.guts.current_frame_can_do_mid_side = true) ∧
          ∃ e1 e2 fms e3 e4 fls e5 e6 frs,
            build_candidate lib e1 is_last
                (frame_header_of e1 FLAC__CHANNEL_ASSIGNMENT_MID_SIDE)
                [e.guts.integer_signal_mid_side.getD 0 [],
                  e.guts.integer_signal_mid_side.getD 1 []]
                e1.guts.frame_mid_side = some (e2, some fms) ∧
              build_candidate lib e3 is_last
                (frame_header_of e3 FLAC__CHANNEL_ASSIGNMENT_LEFT_SIDE)
                [e.guts.integer_signal.getD 0 [], e.guts.integer_signal_mid_side.getD 1 []]
                e3.guts.frame_left_side = some (e4, some fls) ∧
              build_candidate lib e5 is_last
                (frame_header_of e5 FLAC__CHANNEL_ASSIGNMENT_RIGHT_SIDE)
                [e.guts.integer_signal_mid_side.getD 1 [], e.guts.integer_signal.getD 1 []]
                e5.guts.frame_right_side = some (e6, some frs) ∧
              ∃ b ∈ [frame, fms, fls, frs], ∃ padded,
                lib.bitbuffer_zero_pad_to_byte_boundary b = some padded ∧
                  calls = [.write padded.buffer padded.bytes e.blocksize
                    e.guts.current_frame_number])) := by
  have written : ∀ (a : ActiveEncoder) (which : Nat) (b : BitBuffer),
      frame_untouched e a → write_frame lib client a which b = (true, e', calls) →
      ∃ padded, lib.bitbuffer_zero_pad_to_byte_boundary b = some padded ∧
        calls = [.write padded.buffer padded.bytes e.blocksize e.guts.current_frame_number] := by
    intro a which b hu hw
    obtain ⟨-, -, -, -, k, -⟩ := write_frame_spec lib client a which b
    obtain ⟨-, -, -, -, -, padded, k1, k2, -⟩ := k (by rw [hw])
    rw [hw] at k2
    have k2' : calls = [.write padded.buffer padded.bytes a.blocksize
        a.guts.current_frame_number] := k2
    refine ⟨padded, k1, ?_⟩
    rw [k2', frame_untouched_blocksize hu, hu.2.2.2.2.2.2.2]
  unfold encoder_process_frame_ at h
  split at h
  · cases h
  · cases h
  · rename_i e0 frame hb0
    refine ⟨e0, frame, hb0, ?_⟩
    have u0 := build_candidate_untouched _ _ _ _ _ _ _ _ hb0
    have u1 : frame_untouched e { e0 with guts := { e0.guts with frame := frame } } :=
      frame_untouched_trans u0.1 (frame_untouched_set_frame e0 frame)
    have hdo : e0.do_mid_side_stereo = e.do_mid_side_stereo := by
      have := congrArg EncoderSettings.do_mid_side_stereo u0.1.1
      simpa using this
    have hfl : e0.guts.current_frame_can_do_mid_side =
        e.guts.current_frame_can_do_mid_side := u0.1.2.2.2.2.1
    have hsig : e0.guts.integer_signal = e.guts.integer_signal := u0.1.2.2.1
    have hmsig : e0.guts.integer_signal_mid_side = e.guts.integer_signal_mid_side :=
      u0.1.2.2.2.1
    dsimp only at h
    split_ifs at h with hcond
    · rw [hdo, hfl] at hcond
      right
      refine ⟨hcond, ?_⟩
      split at h
      · cases h
      · cases h
      · rename_i e2 fms hb2
        have u2 := build_candidate_untouched _ _ _ _ _ _ _ _ hb2
        have u3 : frame_untouched e { e2 with guts := { e2.guts with frame_mid_side := fms } } :=
          frame_untouched_trans (frame_untouched_trans u1 u2.1)
            (frame_untouched_set_mid_side e2 fms)
        split at h
        · cases h
        · cases h
        · rename_i e4 fls hb4
          have u4 := build_candidate_untouched _ _ _ _ _ _ _ _ hb4
          have u5 : frame_untouched e
              { e4 with guts := { e4.guts with frame_left_side := fls } } :=
            frame_untouched_trans (frame_untouched_trans u3 u4.1)
              (frame_untouched_set_left_side e4 fls)
          split at h
          · cases h
          · cases h
          · rename_i e6 frs hb6
            have u6 := build_candidate_untouched _ _ _ _ _ _ _ _ hb6
            have u7 : frame_untouched e
                { e6 with guts := { e6.guts with frame_right_side := frs } } :=
              frame_untouched_trans (frame_untouched_trans u5 u6.1)
                (frame_untouched_set_right_side e6 frs)
            simp only [Option.some.injEq] at h
            rw [hsig, hmsig] at hb2 hb4 hb6
            refine ⟨_, e2, fms, _, e4, fls, _, e6, frs, hb2, hb4, hb6, _, ?_,
              written _ _ _ u7 h⟩
            split_ifs <;> simp
    · rw [hdo, hfl] at hcond
      left
      simp only [Option.some.injEq] at h
      exact ⟨hcond, written _ _ _ u1 h⟩

/-- C12 (counterexample): a 16 bit stereo block whose differences `left - right` all lie in
the 17 bit range `[-2^16, 2^16 - 1]` (the first is 40000) still loses its side candidates:
the flag is cleared while the block is stored, and after the frame the mid-side bit buffer is
as allocated, never built. -/
theorem side_range_seventeen_bits :
    (∀ k < 16, -(2 ^ 16 : Int) ≤
        (example_wide_block.getD 0 []).getD k 0 - (example_wide_block.getD 1 []).getD k 0 ∧
      (example_wide_block.getD 0 []).getD k 0 - (example_wide_block.getD 1 []).getD k 0 ≤
        2 ^ 16 - 1) ∧
      example_stereo.bits_per_sample = 16 ∧
      example_stereo.guts.current_frame_can_do_mid_side = true ∧
      (fill_loop example_wide_block 16 16 0 0
        example_stereo).2.2.guts.current_frame_can_do_mid_side = false ∧
      (FLAC__encoder_process example_lib example_encoder_client example_stereo
        example_wide_block 16).map (fun r => (r.1, r.2.1.guts.frame_mid_side)) =
        some (true, example_bitbuffer) := by
  decide

/-- C12 (amended): for a stereo stream with mid-side enabled, the samples stored by one pass
of the inner loop of `FLAC__encoder_process` leave the flag
`current_frame_can_do_mid_side` set exactly when it was set and every stored sample has
`left - right` in the signed `bits_per_sample` bit range `[-2^(bps-1), 2^(bps-1) - 1]`; a
frame that is written went through the independent candidate only when the flag is off and
through all four candidates when it is on; and after the frame the flag is set again. -/
theorem side_channel_disqualification (lib : EncoderLib) (client : EncoderClient)
    (e x : ActiveEncoder) (buf : Buffers) (samples j : Nat) (is_last : Bool)
    (hms : e.do_mid_side_stereo = true) (hch : e.channels = 2)
    (h1 : 1 ≤ e.bits_per_sample) (h2 : e.bits_per_sample ≤ 32)
    (hx : x.do_mid_side_stereo = true) :
    ((fill_loop buf samples (samples - j) e.guts.current_sample_number j
          e).2.2.guts.current_frame_can_do_mid_side = true ↔
        e.guts.current_frame_can_do_mid_side = true ∧
          ∀ k, k < min (e.blocksize - e.guts.current_sample_number) (samples - j) →
            -(2 ^ (e.bits_per_sample - 1)) ≤
                (buf.getD 0 []).getD (j + k) 0 - (buf.getD 1 []).getD (j + k) 0 ∧
              (buf.getD 0 []).getD (j + k) 0 - (buf.getD 1 []).getD (j + k) 0 ≤
                2 ^ (e.bits_per_sample - 1) - 1) ∧
      ∀ e' calls, encoder_process_frame_ lib client x is_last = some (true, e', calls) →
        e'.guts.current_frame_can_do_mid_side = true ∧
        ∃ e0 frame, build_candidate lib x is_last
            (frame_header_of x FLAC__CHANNEL_ASSIGNMENT_INDEPENDENT) x.guts.integer_signal
            x.guts.frame = some (e0, some frame) ∧
          ((x.guts.current_frame_can_do_mid_side = false ∧
              ∃ padded, lib.bitbuffer_zero_pad_to_byte_boundary frame = some padded ∧
                calls = [.write padded.buffer padded.bytes x.blocksize
                  x.guts.current_frame_number]) ∨
            (x.guts.current_frame_can_do_mid_side = true ∧
              ∃ e1 e2 fms e3 e4 fls e5 e6 frs,
                build_candidate lib e1 is_last
                    (frame_header_of e1 FLAC__CHANNEL_ASSIGNMENT_MID_SIDE)
                    [x.guts.integer_signal_mid_side.getD 0 [],
                      x.guts.integer_signal_mid_side.getD 1 []]
                    e1.guts.frame_mid_side = some (e2, some fms) ∧
                  build_candidate lib e3 is_last
                    (frame_header_of e3 FLAC__CHANNEL_ASSIGNMENT_LEFT_SIDE)
                    [x.guts.integer_signal.getD 0 [],
                      x.guts.integer_signal_mid_side.getD 1 []]
                    e3.guts.frame_left_side = some (e4, some fls) ∧
                  build_candidate lib e5 is_last
                    (frame_header_of e5 FLAC__CHANNEL_ASSIGNMENT_RIGHT_SIDE)
                    [x.guts.integer_signal_mid_side.getD 1 [],
                      x.guts.integer_signal.getD 1 []]
                    e5.guts.frame_right_side = some (e6, some frs) ∧
                  ∃ b ∈ [frame, fms, fls, frs], ∃ padded,
                    lib.bitbuffer_zero_pad_to_byte_boundary b = some padded ∧
                      calls = [.write padded.buffer padded.bytes x.blocksize
                        x.guts.current_frame_number])) := by
  refine ⟨fill_loop_flag buf samples (samples - j) e.guts.current_sample_number j e
    (le_refl _) hms hch h1 h2, ?_⟩
  intro e' calls hframe
  have hout := encoder_process_frame_outcome lib client x is_last true e' calls hframe
  obtain ⟨-, -, -, hflag, -⟩ := hout.2.2.2.2.1 rfl
  refine ⟨hflag, ?_⟩
  obtain ⟨e0, frame, hb, hcases⟩ := encoder_process_frame_candidates lib client x is_last e'
    calls hframe
  refine ⟨e0, frame, hb, ?_⟩
  rcases hcases with ⟨hoff, hw⟩ | ⟨hon, hw⟩
  · left
    refine ⟨?_, hw⟩
    cases hf : x.guts.current_frame_can_do_mid_side with
    | false => rfl
    | true => exact absurd ⟨hx, hf⟩ hoff
  · right
    exact ⟨hon.2, hw⟩

/-- Witness for C12 (amended): the wide example block clears the flag of the stereo example
encoder. -/
theorem side_channel_disqualification_witness :
    ¬ ((fill_loop example_wide_block 16 (16 - 0) example_stereo.guts.current_sample_number 0
        example_stereo).2.2.guts.current_frame_can_do_mid_side = true) :=
  fun h => absurd
    (((side_channel_disqualification example_lib example_encoder_client example_stereo
      example_stereo example_wide_block 16 0 false (by decide) (by decide) (by decide)
      (by decide) (by decide)).1.mp h).2 0 (by decide)).2 (by decide)

/-! ## Stream encoder: mid and side samples -/

theorem shift_right_one (x : Int) : x >>> 1 = x / 2 := by
  cases x with
  | ofNat m =>
      show (m : ℤ) >>> ((1 : ℕ) : ℤ) = (m : ℤ) / 2
      rw [Int.shiftRight_coe_nat, Nat.shiftRight_eq_div_pow]
      norm_num
  | negSucc m =>
      show Int.negSucc m >>> ((1 : ℕ) : ℤ) = Int.negSucc m / 2
      rw [Int.shiftRight_negSucc, Nat.shiftRight_eq_div_pow]
      simp only [Int.negSucc_eq, pow_one]
      omega

/-- What `store_sample` stores for a stereo sample while the frame can still do mid-side and
the difference is in range: the two input samples, `(left + right) >> 1` and
`left - right`, at index `i` of the four buffers. -/
theorem store_sample_stereo (e : ActiveEncoder) (buf : Buffers) (i j : Nat)
    (hms : e.do_mid_side_stereo = true) (hch : e.channels = 2)
    (h1 : 1 ≤ e.bits_per_sample) (h2 : e.bits_per_sample ≤ 32)
    (hflag : e.guts.current_frame_can_do_mid_side = true)
    (hlo : -(2 ^ (e.bits_per_sample - 1)) ≤ (buf.getD 0 []).getD j 0 - (buf.getD 1 []).getD j 0)
    (hhi : (buf.getD 0 []).getD j 0 - (buf.getD 1 []).getD j 0 ≤ 2 ^ (e.bits_per_sample - 1) - 1)
    (l r : List Int) (sig : List (List Int)) (hsig : e.guts.integer_signal = l :: r :: sig)
    (m s : List Int) (ms : List (List Int))
    (hmid : e.guts.integer_signal_mid_side = m :: s :: ms)
    (hl : i < l.length) (hr : i < r.length) (hm : i < m.length) (hs : i < s.length) :
    ((store_sample e buf i j).guts.integer_signal.getD 0 []).getD i 0 =
        (buf.getD 0 []).getD j 0 ∧
      ((store_sample e buf i j).guts.integer_signal.getD 1 []).getD i 0 =
        (buf.getD 1 []).getD j 0 ∧
      ((store_sample e buf i j).guts.integer_signal_mid_side.getD 0 []).getD i 0 =
        ((buf.getD 0 []).getD j 0 + (buf.getD 1 []).getD j 0) / 2 ∧
      ((store_sample e buf i j).guts.integer_signal_mid_side.getD 1 []).getD i 0 =
        (buf.getD 0 []).getD j 0 - (buf.getD 1 []).getD j 0 := by
  obtain ⟨k1, k2⟩ := side_bounds e.bits_per_sample h1 h2
  have hrange : List.range 2 = [0, 1] := rfl
  unfold store_sample
  dsimp only
  rw [k1, k2, hch, hrange]
  simp only [hms, beq_self_eq_true, Bool.and_self, true_and, hflag, if_true]
  rw [if_neg (by omega)]
  simp only [hsig, hmid, List.foldl_cons, List.foldl_nil]
  simp [hl, hr, hm, hs]
  exact shift_right_one _

/-- C13: for a stereo sample pair stored while the frame can still do mid-side (the flag is
set and `left - right` passes the range test), the mid-side buffers hold at the sample's
index `mid = (left + right) / 2` rounded toward minus infinity
(`2 * mid ≤ left + right < 2 * mid + 2`) and `side = left - right`; for samples of at most
16 bits (the left one in range, the right one then is within one bit of it) the sum and the
difference are `int32` values, so nothing overflows. -/
theorem mid_side_definition (e : ActiveEncoder) (buf : Buffers) (i j : Nat)
    (hms : e.do_mid_side_stereo = true) (hch : e.channels = 2)
    (h1 : 1 ≤ e.bits_per_sample) (h2 : e.bits_per_sample ≤ 16)
    (hflag : e.guts.current_frame_can_do_mid_side = true)
    (hleft : -(2 ^ (e.bits_per_sample - 1)) ≤ (buf.getD 0 []).getD j 0 ∧
      (buf.getD 0 []).getD j 0 ≤ 2 ^ (e.bits_per_sample - 1) - 1)
    (hlo : -(2 ^ (e.bits_per_sample - 1)) ≤ (buf.getD 0 []).getD j 0 - (buf.getD 1 []).getD j 0)
    (hhi : (buf.getD 0 []).getD j 0 - (buf.getD 1 []).getD j 0 ≤ 2 ^ (e.bits_per_sample - 1) - 1)
    (l r : List Int) (sig : List (List Int)) (hsig : e.guts.integer_signal = l :: r :: sig)
    (m s : List Int) (ms : List (List Int))
    (hmid : e.guts.integer_signal_mid_side = m :: s :: ms)
    (hl : i < l.length) (hr : i < r.length) (hm : i < m.length) (hs : i < s.length) :
    ((store_sample e buf i j).guts.integer_signal_mid_side.getD 0 []).getD i 0 =
        ((buf.getD 0 []).getD j 0 + (buf.getD 1 []).getD j 0) / 2 ∧
      2 * ((store_sample e buf i j).guts.integer_signal_mid_side.getD 0 []).getD i 0 ≤
        (buf.getD 0 []).getD j 0 + (buf.getD 1 []).getD j 0 ∧
      (buf.getD 0 []).getD j 0 + (buf.getD 1 []).getD j 0 <
        2 * ((store_sample e buf i j).guts.integer_signal_mid_side.getD 0 []).getD i 0 + 2 ∧
      ((store_sample e buf i j).guts.integer_signal_mid_side.getD 1 []).getD i 0 =
        (buf.getD 0 []).getD j 0 - (buf.getD 1 []).getD j 0 ∧
      to_int32 ((buf.getD 0 []).getD j 0 + (buf.getD 1 []).getD j 0) =
        (buf.getD 0 []).getD j 0 + (buf.getD 1 []).getD j 0 ∧
      to_int32 ((buf.getD 0 []).getD j 0 - (buf.getD 1 []).getD j 0) =
        (buf.getD 0 []).getD j 0 - (buf.getD 1 []).getD j 0 := by
  obtain ⟨-, -, k3, k4⟩ := store_sample_stereo e buf i j hms hch h1 (by omega) hflag hlo hhi
    l r sig hsig m s ms hmid hl hr hm hs
  have hp : (2 : Int) ^ (e.bits_per_sample - 1) ≤ 2 ^ 15 :=
    pow_le_pow_right₀ (by norm_num) (by omega)
  refine ⟨k3, ?_, ?_, k4, ?_, ?_⟩
  · rw [k3]
    omega
  · rw [k3]
    omega
  · exact to_int32_of_range _ (by omega) (by omega)
  · exact to_int32_of_range _ (by omega) (by omega)

/-- Witness for C13: the first sample of the narrow example block, `left = 5` and
`right = 2`. -/
theorem mid_side_definition_witness :
    ((store_sample example_stereo example_narrow_block 0 0).guts.integer_signal_mid_side.getD
        0 []).getD 0 0 =
        ((example_narrow_block.getD 0 []).getD 0 0 +
          (example_narrow_block.getD 1 []).getD 0 0) / 2 :=
  (mid_side_definition example_stereo example_narrow_block 0 0 (by decide) (by decide)
    (by decide) (by decide) (by decide) (by decide) (by decide) (by decide)
    (List.replicate 16 0) (List.replicate 16 0) [] (by decide)
    (List.replicate 16 0) (List.replicate 16 0) [] (by decide)
    (by decide) (by decide) (by decide) (by decide)).1

/-- C14: for two stereo sample pairs of at most 16 bits stored by `FLAC__encoder_process`
while the frame can do mid-side, the stored `(mid, side)` give back the stored
`left = ((2 * mid + side % 2) + side) / 2` and `right = ((2 * mid + side % 2) - side) / 2`;
`(left, side)` gives `right = left - side` and `(side, right)` gives `left = side + right`;
and two pairs with the same stored `(mid, side)` are the same pair. -/
theorem mid_side_reversible (e : ActiveEncoder) (buf buf' : Buffers) (i j j' : Nat)
    (hms : e.do_mid_side_stereo = true) (hch : e.channels = 2)
    (h1 : 1 ≤ e.bits_per_sample) (h2 : e.bits_per_sample ≤ 16)
    (hflag : e.guts.current_frame_can_do_mid_side = true)
    (hlo : -(2 ^ (e.bits_per_sample - 1)) ≤ (buf.getD 0 []).getD j 0 - (buf.getD 1 []).getD j 0)
    (hhi : (buf.getD 0 []).getD j 0 - (buf.getD 1 []).getD j 0 ≤ 2 ^ (e.bits_per_sample - 1) - 1)
    (hlo' : -(2 ^ (e.bits_per_sample - 1)) ≤
      (buf'.getD 0 []).getD j' 0 - (buf'.getD 1 []).getD j' 0)
    (hhi' : (buf'.getD 0 []).getD j' 0 - (buf'.getD 1 []).getD j' 0 ≤
      2 ^ (e.bits_per_sample - 1) - 1)
    (l r : List Int) (sig : List (List Int)) (hsig : e.guts.integer_signal = l :: r :: sig)
    (m s : List Int) (ms : List (List Int))
    (hmid : e.guts.integer_signal_mid_side = m :: s :: ms)
    (hl : i < l.length) (hr : i < r.length) (hm : i < m.length) (hs : i < s.length) :
    (((store_sample e buf i j).guts.integer_signal.getD 0 []).getD i 0 =
        ((2 * ((store_sample e buf i j).guts.integer_signal_mid_side.getD 0 []).getD i 0 +
            ((store_sample e buf i j).guts.integer_signal_mid_side.getD 1 []).getD i 0 % 2) +
          ((store_sample e buf i j).guts.integer_signal_mid_side.getD 1 []).getD i 0) / 2 ∧
      ((store_sample e buf i j).guts.integer_signal.getD 1 []).getD i 0 =
        ((2 * ((store_sample e buf i j).guts.integer_signal_mid_side.getD 0 []).getD i 0 +
            ((store_sample e buf i j).guts.integer_signal_mid_side.getD 1 []).getD i 0 % 2) -
          ((store_sample e buf i j).guts.integer_signal_mid_side.getD 1 []).getD i 0) / 2 ∧
      ((store_sample e buf i j).guts.integer_signal.getD 1 []).getD i 0 =
        ((store_sample e buf i j).guts.integer_signal.getD 0 []).getD i 0 -
          ((store_sample e buf i j).guts.integer_signal_mid_side.getD 1 []).getD i 0 ∧
      ((store_sample e buf i j).guts.integer_signal.getD 0 []).getD i 0 =
        ((store_sample e buf i j).guts.integer_signal_mid_side.getD 1 []).getD i 0 +
          ((store_sample e buf i j).guts.integer_signal.getD 1 []).getD i 0) ∧
      (((store_sample e buf i j).guts.integer_signal_mid_side.getD 0 []).getD i 0 =
          ((store_sample e buf' i j').guts.integer_signal_mid_side.getD 0 []).getD i 0 →
        ((store_sample e buf i j).guts.integer_signal_mid_side.getD 1 []).getD i 0 =
          ((store_sample e buf' i j').guts.integer_signal_mid_side.getD 1 []).getD i 0 →
        (buf.getD 0 []).getD j 0 = (buf'.getD 0 []).getD j' 0 ∧
          (buf.getD 1 []).getD j 0 = (buf'.getD 1 []).getD j' 0) := by
  obtain ⟨k1, k2, k3, k4⟩ := store_sample_stereo e buf i j hms hch h1 (by omega) hflag hlo hhi
    l r sig hsig m s ms hmid hl hr hm hs
  obtain ⟨-, -, n3, n4⟩ := store_sample_stereo e buf' i j' hms hch h1 (by omega) hflag hlo'
    hhi' l r sig hsig m s ms hmid hl hr hm hs
  rw [k1, k2, k3, k4, n3, n4]
  refine ⟨⟨?_, ?_, ?_, ?_⟩, ?_⟩
  · omega
  · omega
  · omega
  · omega
  · intro hM hS
    omega

/-- Witness for C14: the first two samples of the narrow example block have different
`(mid, side)`. -/
theorem mid_side_reversible_witness :
    ((store_sample example_stereo example_narrow_block 0 0).guts.integer_signal.getD 0
        []).getD 0 0 =
      ((2 * ((store_sample example_stereo example_narrow_block 0
              0).guts.integer_signal_mid_side.getD 0 []).getD 0 0 +
          ((store_sample example_stereo example_narrow_block 0
              0).guts.integer_signal_mid_side.getD 1 []).getD 0 0 % 2) +
        ((store_sample example_stereo example_narrow_block 0
            0).guts.integer_signal_mid_side.getD 1 []).getD 0 0) / 2 :=
  (mid_side_reversible example_stereo example_narrow_block example_narrow_block 0 0 1
    (by decide) (by decide) (by decide) (by decide) (by decide) (by decide) (by decide)
    (by decide) (by decide)
    (List.replicate 16 0) (List.replicate 16 0) [] (by decide)
    (List.replicate 16 0) (List.replicate 16 0) [] (by decide)
    (by decide) (by decide) (by decide) (by decide)).1.1

/-! ## Metadata objects: `FLAC__metadata_object_new` -/

/-- C15 (counterexample): for a block type outside the five cases of the `switch` (such as
the cue sheet type, value 5), `FLAC__metadata_object_new` returns the null pointer although
the allocation succeeds. -/
theorem metadata_object_new_other_type :
    example_heap.malloc_ok 0 example_heap.sizeof_StreamMetaData = true ∧
      FLAC__metadata_object_new example_heap (.OTHER 5) = none := by
  decide

/-- C15 (amended): when the allocation succeeds, `FLAC__metadata_object_new` creates for each
of the types STREAMINFO, PADDING, APPLICATION, SEEKTABLE and VORBIS_COMMENT an object with
that type, `is_last = false`, an all-zero body and the length of the serialized empty body
(34, 0, 4, 0, 8); for every other type it returns the null pointer. -/
theorem metadata_object_new_spec (heap : Heap) (type : FLAC__MetaDataType)
    (hm : heap.malloc_ok 0 heap.sizeof_StreamMetaData = true) :
    ((∀ code, type ≠ .OTHER code) →
      ∃ o, FLAC__metadata_object_new heap type = some o ∧ o.type = type ∧
        o.is_last = false ∧ o.length = empty_body_length type ∧
        o.stream_info = zero_object.stream_info ∧ o.application = zero_object.application ∧
        o.seek_table = zero_object.seek_table ∧
        o.vorbis_comment = zero_object.vorbis_comment) ∧
      ((∃ code, type = .OTHER code) → FLAC__metadata_object_new heap type = none) := by
  unfold FLAC__metadata_object_new
  rw [if_pos hm]
  cases type with
  | OTHER code =>
      refine ⟨fun h => absurd rfl (h code), fun _ => rfl⟩
  | STREAMINFO =>
      exact ⟨fun _ => ⟨_, rfl, rfl, rfl, rfl, rfl, rfl, rfl, rfl⟩, fun ⟨c, h⟩ => by cases h⟩
  | PADDING =>
      exact ⟨fun _ => ⟨_, rfl, rfl, rfl, rfl, rfl, rfl, rfl, rfl⟩, fun ⟨c, h⟩ => by cases h⟩
  | APPLICATION =>
      exact ⟨fun _ => ⟨_, rfl, rfl, rfl, rfl, rfl, rfl, rfl, rfl⟩, fun ⟨c, h⟩ => by cases h⟩
  | SEEKTABLE =>
      exact ⟨fun _ => ⟨_, rfl, rfl, rfl, rfl, rfl, rfl, rfl, rfl⟩, fun ⟨c, h⟩ => by cases h⟩
  | VORBIS_COMMENT =>
      exact ⟨fun _ => ⟨_, rfl, rfl, rfl, rfl, rfl, rfl, rfl, rfl⟩, fun ⟨c, h⟩ => by cases h⟩

/-- Witness for C15 (amended): a new SEEKTABLE object on the example heap. -/
theorem metadata_object_new_spec_witness :
    ∃ o, FLAC__metadata_object_new example_heap .SEEKTABLE = some o ∧ o.type = .SEEKTABLE ∧
      o.is_last = false ∧ o.length = empty_body_length .SEEKTABLE ∧
      o.stream_info = zero_object.stream_info ∧ o.application = zero_object.application ∧
      o.seek_table = zero_object.seek_table ∧
      o.vorbis_comment = zero_object.vorbis_comment :=
  (metadata_object_new_spec example_heap .SEEKTABLE (by decide)).1
    (fun code h => by cases h)

/-- C16: on a heap where the allocation succeeds, the VORBIS_COMMENT object returned by
`FLAC__metadata_object_new` has a vendor string of length 0 with a null pointer (and zero
comments): the vendor string is not set. -/
theorem metadata_object_new_vendor_string :
    (FLAC__metadata_object_new example_heap .VORBIS_COMMENT).map
        (fun o => (o.vorbis_comment.vendor_string, o.vorbis_comment.num_comments,
          o.vorbis_comment.comments)) =
      some ({ length := 0, entry := none }, 0, none) := by
  decide

/-! ## Metadata objects: seek tables -/

theorem seektable_calculate_length_spec (o : FLAC__StreamMetaData) :
    (seektable_calculate_length_ o).length = (o.seek_table.num_points * 18) % 2 ^ 32 ∧
      (seektable_calculate_length_ o).seek_table = o.seek_table :=
  ⟨rfl, rfl⟩

/-- A successful `FLAC__metadata_object_seektable_resize_points` either recomputed the
length from the new number of points or returned the object as it was. -/
theorem seektable_resize_points_length (heap : Heap) (o : FLAC__StreamMetaData) (n : Nat)
    (h : (FLAC__metadata_object_seektable_resize_points heap o n).1 = true) :
    (FLAC__metadata_object_seektable_resize_points heap o n).2.length =
        ((FLAC__metadata_object_seektable_resize_points heap o n).2.seek_table.num_points *
          18) % 2 ^ 32 ∨
      (FLAC__metadata_object_seektable_resize_points heap o n).2 = o := by
  revert h
  unfold FLAC__metadata_object_seektable_resize_points
  dsimp only
  cases hp : o.seek_table.points with
  | none =>
      dsimp only
      by_cases hn : n = 0
      · rw [if_pos hn]
        intro _
        exact Or.inr rfl
      · rw [if_neg hn]
        cases hnew : seekpoint_array_new_ heap 0 n with
        | none =>
            intro h
            cases h
        | some array =>
            intro _
            exact Or.inl rfl
  | some old =>
      dsimp only
      by_cases h0 : (n * heap.sizeof_SeekPoint) % 2 ^ 32 = 0
      · rw [if_pos h0]
        intro _
        exact Or.inl rfl
      · rw [if_neg h0]
        by_cases hre : heap.realloc_ok ((n * heap.sizeof_SeekPoint) % 2 ^ 32) = true
        · rw [if_pos hre]
          intro _
          exact Or.inl rfl
        · rw [if_neg hre]
          intro h
          cases h

/-- C18: a new SEEKTABLE object has `length = 18 * num_points`, and every successful
`FLAC__metadata_object_seektable_resize_points`, `_insert_point` and `_delete_point` on an
object with `length = 18 * num_points` gives an object with `length = 18 * num_points`
again, the byte size of the serialized table (which fits the `unsigned` length). -/
theorem seektable_length_invariant (heap : Heap) (o : FLAC__StreamMetaData)
    (op : SeekTableOp) (hinv : o.length = 18 * o.seek_table.num_points)
    (hok : (op.apply heap o).1 = true)
    (hfit : 18 * (op.apply heap o).2.seek_table.num_points < 2 ^ 32) :
    (∀ fresh, FLAC__metadata_object_new heap .SEEKTABLE = some fresh →
        fresh.length = 18 * fresh.seek_table.num_points) ∧
      (op.apply heap o).2.length = 18 * (op.apply heap o).2.seek_table.num_points := by
  constructor
  · intro fresh hfresh
    unfold FLAC__metadata_object_new at hfresh
    split_ifs at hfresh
    cases hfresh
    rfl
  · cases op with
    | resize_points n =>
        simp only [SeekTableOp.apply] at hok hfit ⊢
        rcases seektable_resize_points_length heap o n hok with h | h
        · rw [h]
          omega
        · rw [h]
          exact hinv
    | insert_point k p =>
        simp only [SeekTableOp.apply] at hok hfit ⊢
        unfold FLAC__metadata_object_seektable_insert_point at hok hfit ⊢
        dsimp only at hok hfit ⊢
        by_cases hr : (FLAC__metadata_object_seektable_resize_points heap o
            ((o.seek_table.num_points + 1) % 2 ^ 32)).1 = false
        · rw [if_pos hr] at hok
          cases hok
        · rw [if_neg hr] at hfit ⊢
          dsimp only at hfit ⊢
          generalize FLAC__metadata_object_seektable_set_point _ k p = y at hfit ⊢
          simp only [seektable_calculate_length_,
            FLAC__STREAM_METADATA_SEEKPOINT_LENGTH] at hfit ⊢
          omega
    | delete_point k =>
        simp only [SeekTableOp.apply] at hok hfit ⊢
        unfold FLAC__metadata_object_seektable_delete_point at hok hfit ⊢
        dsimp only at hok hfit ⊢
        rcases seektable_resize_points_length heap _ _ hok with h | h
        · rw [h]
          omega
        · rw [h]
          exact hinv

/-- Witness for C18: growing the empty example table to three points gives length 54. -/
theorem seektable_length_invariant_witness :
    (∀ fresh, FLAC__metadata_object_new example_heap .SEEKTABLE = some fresh →
        fresh.length = 18 * fresh.seek_table.num_points) ∧
      ((SeekTableOp.resize_points 3).apply example_heap example_seektable).2.length =
        18 * ((SeekTableOp.resize_points 3).apply example_heap
          example_seektable).2.seek_table.num_points :=
  seektable_length_invariant example_heap example_seektable (.resize_points 3) (by decide)
    (by decide) (by decide)

theorem foldl_set_range (α : Type) (x : α) :
    ∀ (count lo : Nat) (l : List α),
      ((List.range' lo count).foldl (fun a i => a.set i x) l).length = l.length ∧
        ∀ i, ((List.range' lo count).foldl (fun a i => a.set i x) l)[i]? =
          if lo ≤ i ∧ i < lo + count ∧ i < l.length then some x else l[i]? := by
  intro count
  induction count with
  | zero =>
      intro lo l
      refine ⟨rfl, fun i => ?_⟩
      rw [if_neg (by omega)]
      rfl
  | succ count ih =>
      intro lo l
      rw [List.range'_succ, List.foldl_cons]
      obtain ⟨h1, h2⟩ := ih (lo + 1) (l.set lo x)
      refine ⟨by rw [h1, List.length_set], fun i => ?_⟩
      rw [h2, List.length_set, List.getElem?_set]
      by_cases hi : lo = i
      · subst hi
        by_cases hlen : lo < l.length
        · rw [if_neg (by omega), if_pos rfl, if_pos hlen, if_pos (by omega)]
        · rw [if_neg (by omega), if_pos rfl, if_neg hlen, if_neg (by omega)]
          exact (List.getElem?_eq_none (by omega)).symm
      · rw [if_neg hi]
        by_cases hc : lo + 1 ≤ i ∧ i < lo + 1 + count ∧ i < l.length
        · rw [if_pos hc, if_pos (by omega)]
        · rw [if_neg hc, if_neg (by omega)]

/-- C20: on a well formed seek table whose old and new sizes in bytes fit an `unsigned`, a
successful `FLAC__metadata_object_seektable_resize_points(o, n)` leaves `num_points = n` and
a well formed table (no array when `n = 0`, an array of `n` points otherwise); the first
`min(old_num_points, n)` points are unchanged and every point at an index from
`old_num_points` up to `n - 1` is the placeholder. -/
theorem seektable_resize_points_spec (heap : Heap) (o : FLAC__StreamMetaData) (n : Nat)
    (hwf : seek_table_well_formed o.seek_table) (hsz : 0 < heap.sizeof_SeekPoint)
    (hold : o.seek_table.num_points * heap.sizeof_SeekPoint < 2 ^ 32)
    (hnew : n * heap.sizeof_SeekPoint < 2 ^ 32)
    (hok : (FLAC__metadata_object_seektable_resize_points heap o n).1 = true) :
    (FLAC__metadata_object_seektable_resize_points heap o n).2.seek_table.num_points = n ∧
      seek_table_well_formed
        (FLAC__metadata_object_seektable_resize_points heap o n).2.seek_table ∧
      (∀ i, i < min o.seek_table.num_points n →
        ((FLAC__metadata_object_seektable_resize_points heap o
            n).2.seek_table.points.getD [])[i]? = (o.seek_table.points.getD [])[i]?) ∧
      (∀ i, o.seek_table.num_points ≤ i → i < n →
        ((FLAC__metadata_object_seektable_resize_points heap o
            n).2.seek_table.points.getD [])[i]? = some placeholder_point) := by
  revert hok
  unfold seek_table_well_formed at hwf ⊢
  unfold FLAC__metadata_object_seektable_resize_points
  dsimp only
  cases hp : o.seek_table.points with
  | none =>
      rw [hp] at hwf
      dsimp only at hwf ⊢
      by_cases hn : n = 0
      · rw [if_pos hn]
        intro _
        dsimp only
        rw [hp]
        refine ⟨by omega, hwf, fun i hi => rfl, fun i h1 h2 => by omega⟩
      · rw [if_neg hn]
        unfold seekpoint_array_new_ set_placeholders
        by_cases hm : heap.malloc_ok 0 ((n * heap.sizeof_SeekPoint) % 2 ^ 64) = true
        · rw [if_pos hm]
          intro _
          obtain ⟨k1, k2⟩ := foldl_set_range StreamMetaData_SeekPoint placeholder_point (n - 0)
            0 (List.replicate n heap.stale_point)
          simp only [seektable_calculate_length_, Option.getD_some]
          rw [List.length_replicate] at k1 k2
          refine ⟨trivial, ⟨k1, by omega⟩, fun i hi => by omega, fun i _ h2 => ?_⟩
          rw [k2, if_pos (by omega)]
        · rw [if_neg hm]
          intro h
          cases h
  | some old =>
      rw [hp] at hwf
      dsimp only at hwf ⊢
      obtain ⟨hlen, hpos⟩ := hwf
      rw [Nat.mod_eq_of_lt hold, Nat.mod_eq_of_lt hnew]
      by_cases hn : n = 0
      · subst hn
        simp only [Nat.zero_mul, if_true]
        intro _
        simp only [seektable_calculate_length_]
        rw [if_neg (by omega)]
        exact ⟨trivial, trivial, fun i hi => by omega, fun i h1 h2 => by omega⟩
      · have hnz : n * heap.sizeof_SeekPoint ≠ 0 := by
          have := Nat.mul_pos (Nat.pos_of_ne_zero hn) hsz
          omega
        rw [if_neg hnz, Nat.mul_div_cancel _ hsz]
        by_cases hre : heap.realloc_ok (n * heap.sizeof_SeekPoint) = true
        · rw [if_pos hre]
          intro _
          simp only [seektable_calculate_length_]
          by_cases hgrow : n * heap.sizeof_SeekPoint >
              o.seek_table.num_points * heap.sizeof_SeekPoint
          · rw [if_pos hgrow]
            have hlt : o.seek_table.num_points < n := Nat.lt_of_mul_lt_mul_right hgrow
            unfold set_placeholders
            obtain ⟨k1, k2⟩ := foldl_set_range StreamMetaData_SeekPoint placeholder_point
              (n - o.seek_table.num_points) o.seek_table.num_points
              (List.take n old ++ List.replicate (n - old.length) heap.stale_point)
            have hl : (List.take n old ++
                List.replicate (n - old.length) heap.stale_point).length = n := by
              rw [List.length_append, List.length_take, List.length_replicate]
              omega
            rw [hl] at k1 k2
            simp only [Option.map_some', Option.getD_some]
            refine ⟨trivial, ⟨k1, by omega⟩, fun i hi => ?_, fun i h1 h2 => ?_⟩
            · rw [k2, if_neg (by omega), List.getElem?_append_left (by
                rw [List.length_take]; omega), List.getElem?_take_of_lt (by omega)]
            · rw [k2, if_pos (by omega)]
          · rw [if_neg hgrow]
            have hle : n ≤ o.seek_table.num_points := by
              by_contra hc
              exact hgrow (Nat.mul_lt_mul_of_pos_right (by omega) hsz)
            have hz : n - old.length = 0 := by omega
            simp only [hz, List.replicate_zero, List.append_nil, Option.getD_some]
            refine ⟨trivial, ⟨by rw [List.length_take]; omega, by omega⟩, fun i hi => ?_,
              fun i h1 h2 => by omega⟩
            rw [List.getElem?_take_of_lt (by omega)]
        · rw [if_neg hre]
          intro h
          cases h

/-- Witness for C20: growing the empty example table to two points. -/
theorem seektable_resize_points_spec_witness :
    (FLAC__metadata_object_seektable_resize_points example_heap example_seektable
        2).2.seek_table.num_points = 2 ∧
      seek_table_well_formed
        (FLAC__metadata_object_seektable_resize_points example_heap example_seektable
          2).2.seek_table ∧
      (∀ i, i < min example_seektable.seek_table.num_points 2 →
        ((FLAC__metadata_object_seektable_resize_points example_heap example_seektable
            2).2.seek_table.points.getD [])[i]? =
          (example_seektable.seek_table.points.getD [])[i]?) ∧
      (∀ i, example_seektable.seek_table.num_points ≤ i → i < 2 →
        ((FLAC__metadata_object_seektable_resize_points example_heap example_seektable
            2).2.seek_table.points.getD [])[i]? = some placeholder_point) :=
  seektable_resize_points_spec example_heap example_seektable 2 rfl (by decide) (by decide)
    (by decide) (by decide)

/-! ## Metadata objects: VORBIS_COMMENT lengths -/

theorem length_fold (a : Nat → Nat) (l : List Nat) :
    ∀ init : Nat, init < 2 ^ 32 →
      l.foldl (fun length i => ((length + 4) % 2 ^ 32 + a i) % 2 ^ 32) init =
        (init + (l.map (fun i => 4 + a i)).sum) % 2 ^ 32 := by
  induction l with
  | nil =>
      intro init h
      simp only [List.foldl_nil, List.map_nil, List.sum_nil]
      omega
  | cons x rest ih =>
      intro init h
      rw [List.foldl_cons, ih _ (Nat.mod_lt _ (by norm_num)), List.map_cons, List.sum_cons]
      omega

/-- `vorbiscomment_calculate_length_` stores the serialized size of the body, as an
`unsigned`, and changes nothing else of the body. -/
theorem vorbiscomment_calculate_length_spec (o : FLAC__StreamMetaData) :
    (vorbiscomment_calculate_length_ o).length =
        vorbis_comment_serialized_size o.vorbis_comment % 2 ^ 32 ∧
      (vorbiscomment_calculate_length_ o).vorbis_comment = o.vorbis_comment := by
  refine ⟨?_, rfl⟩
  unfold vorbiscomment_calculate_length_ vorbis_comment_serialized_size
  simp only [FLAC__STREAM_METADATA_VORBIS_COMMENT_ENTRY_LENGTH_LEN,
    FLAC__STREAM_METADATA_VORBIS_COMMENT_NUM_COMMENTS_LEN]
  simp only [Nat.reduceDiv]
  rw [length_fold _ _ _ (Nat.mod_lt _ (by norm_num))]
  omega

theorem vorbiscomment_set_entry_length (heap : Heap) (o : FLAC__StreamMetaData)
    (dest : EntrySlot) (src : StreamMetaData_VorbisComment_Entry) (copy : Bool)
    (h : (vorbiscomment_set_entry_ heap o dest src copy).1 = true) :
    (vorbiscomment_set_entry_ heap o dest src copy).2.length =
      vorbis_comment_serialized_size
        (vorbiscomment_set_entry_ heap o dest src copy).2.vorbis_comment % 2 ^ 32 := by
  revert h
  unfold vorbiscomment_set_entry_
  dsimp only
  cases copy with
  | true =>
      simp only [if_true]
      by_cases hc : (copy_vcentry_ heap 0 (dest.read o) src).1 = false
      · rw [if_pos hc]
        intro h
        cases h
      · rw [if_neg hc]
        intro _
        obtain ⟨k1, k2⟩ := vorbiscomment_calculate_length_spec
          (dest.store o (copy_vcentry_ heap 0 (dest.read o) src).2)
        rw [k1, k2]
  | false =>
      intro _
      obtain ⟨k1, k2⟩ := vorbiscomment_calculate_length_spec (dest.store o src)
      simp only [Bool.false_eq_true, if_false]
      rw [k1, k2]

theorem vorbiscomment_resize_comments_length (heap : Heap) (o : FLAC__StreamMetaData)
    (n : Nat)
    (h : (FLAC__metadata_object_vorbiscomment_resize_comments heap o n).1 = true) :
    (FLAC__metadata_object_vorbiscomment_resize_comments heap o n).2.length =
        vorbis_comment_serialized_size
          (FLAC__metadata_object_vorbiscomment_resize_comments heap o
            n).2.vorbis_comment % 2 ^ 32 ∨
      ((FLAC__metadata_object_vorbiscomment_resize_comments heap o n).2 = o ∧
        o.vorbis_comment.comments = none) := by
  revert h
  unfold FLAC__metadata_object_vorbiscomment_resize_comments
  dsimp only
  cases hp : o.vorbis_comment.comments with
  | none =>
      dsimp only
      by_cases hn : n = 0
      · rw [if_pos hn]
        intro _
        exact Or.inr ⟨rfl, rfl⟩
      · rw [if_neg hn]
        cases hnew : vorbiscomment_entry_array_new_ heap 0 n with
        | none =>
            intro h
            cases h
        | some array =>
            intro _
            left
            obtain ⟨k1, k2⟩ := vorbiscomment_calculate_length_spec
              { o with
                  vorbis_comment := { o.vorbis_comment with
                    num_comments := n, comments := some array } }
            dsimp only
            rw [k1, k2]
  | some old =>
      dsimp only
      by_cases h0 : (n * heap.sizeof_VorbisComment_Entry) % 2 ^ 32 = 0
      · rw [if_pos h0]
        intro _
        left
        dsimp only
        rw [(vorbiscomment_calculate_length_spec _).1, (vorbiscomment_calculate_length_spec _).2]
      · rw [if_neg h0]
        by_cases hre : heap.realloc_ok ((n * heap.sizeof_VorbisComment_Entry) % 2 ^ 32) = true
        · rw [if_pos hre]
          intro _
          left
          dsimp only
          rw [(vorbiscomment_calculate_length_spec _).1,
            (vorbiscomment_calculate_length_spec _).2]
        · rw [if_neg hre]
          intro h
          cases h

/-- C19: a new VORBIS_COMMENT object has `length` equal to the serialized size of its body,
`4 + vendor_string.length + 4 + Σ (4 + comment.length)`, and every successful
`set_vendor_string`, `resize_comments`, `set_comment`, `insert_comment` and `delete_comment`
on an object with that property gives an object with that property again (the size fitting
the `unsigned` length). -/
theorem vorbiscomment_length_invariant (heap : Heap) (o : FLAC__StreamMetaData)
    (op : VorbisCommentOp)
    (hinv : o.length = vorbis_comment_serialized_size o.vorbis_comment)
    (hok : (op.apply heap o).1 = true)
    (hfit : vorbis_comment_serialized_size (op.apply heap o).2.vorbis_comment < 2 ^ 32) :
    (∀ fresh, FLAC__metadata_object_new heap .VORBIS_COMMENT = some fresh →
        fresh.length = vorbis_comment_serialized_size fresh.vorbis_comment) ∧
      (op.apply heap o).2.length =
        vorbis_comment_serialized_size (op.apply heap o).2.vorbis_comment := by
  constructor
  · intro fresh hfresh
    unfold FLAC__metadata_object_new at hfresh
    split_ifs at hfresh
    cases hfresh
    rfl
  · cases op with
    | set_vendor_string e c =>
        simp only [VorbisCommentOp.apply,
          FLAC__metadata_object_vorbiscomment_set_vendor_string] at hok hfit ⊢
        rw [vorbiscomment_set_entry_length heap o _ e c hok]
        exact Nat.mod_eq_of_lt hfit
    | set_comment k e c =>
        simp only [VorbisCommentOp.apply,
          FLAC__metadata_object_vorbiscomment_set_comment] at hok hfit ⊢
        rw [vorbiscomment_set_entry_length heap o _ e c hok]
        exact Nat.mod_eq_of_lt hfit
    | resize_comments n =>
        simp only [VorbisCommentOp.apply] at hok hfit ⊢
        rcases vorbiscomment_resize_comments_length heap o n hok with h | ⟨h, -⟩
        · rw [h]
          exact Nat.mod_eq_of_lt hfit
        · rw [h]
          exact hinv
    | insert_comment k e c =>
        simp only [VorbisCommentOp.apply] at hok hfit ⊢
        unfold FLAC__metadata_object_vorbiscomment_insert_comment at hok hfit ⊢
        dsimp only at hok hfit ⊢
        by_cases hr : (FLAC__metadata_object_vorbiscomment_resize_comments heap o
            ((o.vorbis_comment.num_comments + 1) % 2 ^ 32)).1 = false
        · rw [if_pos hr] at hok
          cases hok
        · rw [if_neg hr] at hok hfit ⊢
          unfold FLAC__metadata_object_vorbiscomment_set_comment at hok hfit ⊢
          rw [vorbiscomment_set_entry_length heap _ _ e c hok]
          exact Nat.mod_eq_of_lt hfit
    | delete_comment k =>
        simp only [VorbisCommentOp.apply] at hok hfit ⊢
        unfold FLAC__metadata_object_vorbiscomment_delete_comment at hok hfit ⊢
        dsimp only at hok hfit ⊢
        rcases vorbiscomment_resize_comments_length heap _ _ hok with h | ⟨h, hnone⟩
        · rw [h]
          exact Nat.mod_eq_of_lt hfit
        · have hc0 : o.vorbis_comment.comments = none := by simpa using hnone
          rw [h, hinv]
          unfold vorbis_comment_serialized_size
          simp [hc0]

/-- Witness for C19: inserting a three byte comment into the empty example object gives
length 15. -/
theorem vorbiscomment_length_invariant_witness :
    (∀ fresh, FLAC__metadata_object_new example_heap .VORBIS_COMMENT = some fresh →
        fresh.length = vorbis_comment_serialized_size fresh.vorbis_comment) ∧
      ((VorbisCommentOp.insert_comment 0 { length := 3, entry := some [97, 61, 98] }
          true).apply example_heap example_vorbis_comment).2.length =
        vorbis_comment_serialized_size
          ((VorbisCommentOp.insert_comment 0 { length := 3, entry := some [97, 61, 98] }
            true).apply example_heap example_vorbis_comment).2.vorbis_comment :=
  vorbiscomment_length_invariant example_heap example_vorbis_comment
    (.insert_comment 0 { length := 3, entry := some [97, 61, 98] } true) (by decide)
    (by decide) (by decide)

/-! ## Metadata objects: inserting a seek point -/

/-- C21: for every object of type SEEKTABLE and every `point_num`, the second assertion of
`FLAC__metadata_object_seektable_insert_point`, `object->type ==
FLAC__METADATA_TYPE_VORBIS_COMMENT`, is false, so not all assertions of the function hold. -/
theorem seektable_insert_point_assertion (o : FLAC__StreamMetaData) (point_num : Nat) :
    (FLAC__metadata_object_seektable_insert_point_asserts { o with type := .SEEKTABLE }
      point_num).getD 1 true = false ∧
    (FLAC__metadata_object_seektable_insert_point_asserts { o with type := .SEEKTABLE }
      point_num).all id = false := by
  constructor <;> simp [FLAC__metadata_object_seektable_insert_point_asserts]


/-! ## Metadata objects: inserting and deleting comments -/

theorem getD_set {α : Type} (a : List α) (i j : Nat) (x d : α) :
    (a.set i x).getD j d = if i = j ∧ j < a.length then x else a.getD j d := by
  rw [List.getD_eq_getElem?_getD, List.getD_eq_getElem?_getD, List.getElem?_set]
  by_cases h : i = j
  · subst h
    by_cases hl : i < a.length
    · simp [hl]
    · simp [hl]
      rw [List.getElem?_eq_none (by omega)]
      rfl
  · simp [h]

theorem set_range_zero {α : Type} (z s : α) (old : List α) (count : Nat) :
    (List.range' old.length count).foldl (fun a i => a.set i z)
        (old ++ List.replicate count s) = old ++ List.replicate count z := by
  obtain ⟨h1, h2⟩ := foldl_set_range α z count old.length (old ++ List.replicate count s)
  apply List.ext_getElem?
  intro i
  rw [h2 i, List.length_append, List.length_replicate]
  by_cases hi : i < old.length
  · rw [if_neg (by omega), List.getElem?_append_left hi, List.getElem?_append_left hi]
  · rw [List.getElem?_append_right (by omega), List.getElem?_append_right (by omega),
      List.getElem?_replicate, List.getElem?_replicate]
    by_cases hc : i - old.length < count
    · rw [if_pos (by omega), if_pos hc]
    · rw [if_neg (by omega), if_neg hc, if_neg hc]

/-- What a successful `FLAC__metadata_object_vorbiscomment_resize_comments` leaves: the
object itself when there was no array and none is asked for, otherwise the first entries of
the old array followed by zeroed entries, and the recomputed length. -/
theorem vorbiscomment_resize_comments_array (heap : Heap) (o : FLAC__StreamMetaData) (n : Nat)
    (hwf : vorbis_comment_well_formed o.vorbis_comment)
    (hsz : 0 < heap.sizeof_VorbisComment_Entry)
    (hold : o.vorbis_comment.num_comments * heap.sizeof_VorbisComment_Entry < 2 ^ 32)
    (hnew : n * heap.sizeof_VorbisComment_Entry < 2 ^ 32)
    (hok : (FLAC__metadata_object_vorbiscomment_resize_comments heap o n).1 = true) :
    (FLAC__metadata_object_vorbiscomment_resize_comments heap o n).2 =
      if o.vorbis_comment.comments = none ∧ n = 0 then o
      else vorbiscomment_calculate_length_
        { o with
            vorbis_comment := { o.vorbis_comment with
              num_comments := n
              comments :=
                if n = 0 then none
                else some ((o.vorbis_comment.comments.getD []).take n ++
                  List.replicate (n - o.vorbis_comment.num_comments) zero_entry) } } := by
  revert hok
  unfold vorbis_comment_well_formed at hwf
  unfold FLAC__metadata_object_vorbiscomment_resize_comments
  dsimp only
  cases hp : o.vorbis_comment.comments with
  | none =>
      rw [hp] at hwf
      dsimp only at hwf ⊢
      by_cases hn : n = 0
      · rw [if_pos hn, if_pos (⟨rfl, hn⟩ : (none : Option (List StreamMetaData_VorbisComment_Entry)) = none ∧ n = 0)]
        intro _
        rfl
      · rw [if_neg hn,
          if_neg (fun h => hn h.2 : ¬ ((none : Option (List StreamMetaData_VorbisComment_Entry)) = none ∧ n = 0))]
        unfold vorbiscomment_entry_array_new_
        by_cases hm : heap.malloc_ok 0 ((n * heap.sizeof_VorbisComment_Entry) % 2 ^ 64) = true
        · rw [if_pos hm]
          intro _
          dsimp only
          rw [if_neg hn, hwf, Option.getD_none, List.take_nil, List.nil_append, Nat.sub_zero]
        · rw [if_neg hm]
          intro h
          cases h
  | some old =>
      rw [hp] at hwf
      dsimp only at hwf ⊢
      obtain ⟨hlen, hpos⟩ := hwf
      have hc : ¬ (some old = none ∧ n = 0) := fun h => by cases h.1
      rw [Nat.mod_eq_of_lt hold, Nat.mod_eq_of_lt hnew, if_neg hc, Option.getD_some]
      by_cases hn : n = 0
      · subst hn
        rw [Nat.zero_mul, if_pos rfl]
        intro _
        dsimp only
        rw [if_neg (Nat.not_lt_zero _), if_pos rfl]
      · have hne : n * heap.sizeof_VorbisComment_Entry ≠ 0 :=
          Nat.pos_iff_ne_zero.mp (Nat.mul_pos (Nat.pos_of_ne_zero hn) hsz)
        rw [if_neg hne, if_neg hn]
        by_cases hr : heap.realloc_ok (n * heap.sizeof_VorbisComment_Entry) = true
        · rw [if_pos hr]
          intro _
          dsimp only
          rw [Nat.mul_div_cancel _ hsz]
          by_cases hgrow : n * heap.sizeof_VorbisComment_Entry >
              o.vorbis_comment.num_comments * heap.sizeof_VorbisComment_Entry
          · have hlt : o.vorbis_comment.num_comments < n := Nat.lt_of_mul_lt_mul_right hgrow
            rw [if_pos hgrow, ← Nat.sub_mul, Nat.mul_div_cancel _ hsz, Option.map_some',
              List.take_of_length_le (by omega), hlen, ← hlen, set_range_zero]
          · have hle : n ≤ o.vorbis_comment.num_comments := by
              by_contra hc
              exact hgrow (Nat.mul_lt_mul_of_pos_right (by omega) hsz)
            rw [if_neg hgrow, show n - old.length = 0 by omega,
              show n - o.vorbis_comment.num_comments = 0 by omega]
            rfl
        · rw [if_neg hr]
          intro h
          cases h

/-- The forward move: the loop ends at `k` and has shifted the elements `k .. i-1` one place
up. -/
theorem move_forward_loop_spec {α : Type} (dflt : α) (k : Nat) :
    ∀ (fuel i : Nat) (a : List α), k ≤ i → i - k ≤ fuel → i < a.length →
      (move_forward_loop dflt (k : Int) fuel (i : Int) a).1 = (k : Int) ∧
      (move_forward_loop dflt (k : Int) fuel (i : Int) a).2.length = a.length ∧
      ∀ j, (move_forward_loop dflt (k : Int) fuel (i : Int) a).2.getD j dflt =
        if k < j ∧ j ≤ i then a.getD (j - 1) dflt else a.getD j dflt := by
  intro fuel
  induction fuel with
  | zero =>
      intro i a hk hf hi
      have : i = k := by omega
      subst this
      refine ⟨rfl, rfl, fun j => ?_⟩
      rw [if_neg (by omega)]
      rfl
  | succ fuel ih =>
      intro i a hk hf hi
      unfold move_forward_loop
      by_cases hgt : (i : Int) > (k : Int)
      · rw [if_pos hgt]
        have hik : k < i := by omega
        have e1 : (i : Int) - 1 = ((i - 1 : Nat) : Int) := by omega
        rw [e1, Int.toNat_natCast, Int.toNat_natCast]
        obtain ⟨h1, h2, h3⟩ := ih (i - 1) (a.set i (a.getD (i - 1) dflt)) (by omega) (by omega)
          (by rw [List.length_set]; omega)
        refine ⟨h1, by rw [h2, List.length_set], fun j => ?_⟩
        rw [h3 j, getD_set, getD_set]
        by_cases c1 : k < j ∧ j ≤ i - 1
        · rw [if_pos c1, if_neg (by omega), if_pos (by omega)]
        · rw [if_neg c1]
          by_cases c2 : i = j
          · subst c2
            rw [if_pos ⟨rfl, hi⟩, if_pos (by omega)]
          · rw [if_neg (by omega), if_neg (by omega)]
      · rw [if_neg hgt]
        have : i = k := by omega
        subst this
        refine ⟨rfl, rfl, fun j => ?_⟩
        rw [if_neg (by omega)]

/-- The backward move: the elements `k+1 .. last` are shifted one place down. -/
theorem move_backward_loop_spec {α : Type} (dflt : α) (k : Nat) :
    ∀ (m : Nat) (a : List α), k + m < a.length →
      ((List.range' k m).foldl (fun a i => a.set i (a.getD (i + 1) dflt)) a).length = a.length ∧
      ∀ j, ((List.range' k m).foldl (fun a i => a.set i (a.getD (i + 1) dflt)) a).getD j dflt =
        if k ≤ j ∧ j < k + m then a.getD (j + 1) dflt else a.getD j dflt := by
  intro m
  induction m with
  | zero =>
      intro a _
      refine ⟨rfl, fun j => ?_⟩
      rw [if_neg (by omega)]
      rfl
  | succ m ih =>
      intro a hlen
      rw [List.range'_concat, List.foldl_append]
      obtain ⟨h1, h2⟩ := ih a (by omega)
      simp only [List.foldl_cons, List.foldl_nil, Nat.one_mul]
      refine ⟨by rw [List.length_set, h1], fun j => ?_⟩
      rw [getD_set, h1, h2 j, h2 (k + m + 1)]
      by_cases c : k + m = j
      · subst c
        rw [if_pos ⟨rfl, by omega⟩, if_neg (by omega), if_pos (by omega)]
      · rw [if_neg (by omega)]
        by_cases c2 : k ≤ j ∧ j < k + m
        · rw [if_pos c2, if_pos (by omega)]
        · rw [if_neg c2, if_neg (by omega)]

theorem ext_getD {α : Type} (d : α) (l1 l2 : List α) (hlen : l1.length = l2.length)
    (h : ∀ j, j < l1.length → l1.getD j d = l2.getD j d) : l1 = l2 := by
  apply List.ext_getElem hlen
  intro j h1 h2
  have := h j h1
  rw [List.getD_eq_getElem _ _ h1, List.getD_eq_getElem _ _ h2] at this
  exact this

theorem getD_take_cons_drop {α : Type} (old : List α) (k j : Nat) (x d : α)
    (hk : k ≤ old.length) :
    (old.take k ++ [x] ++ old.drop k).getD j d =
      if j < k then old.getD j d else if j = k then x else old.getD (j - 1) d := by
  simp only [List.getD_eq_getElem?_getD]
  rw [List.append_assoc]
  by_cases h1 : j < k
  · rw [if_pos h1, List.getElem?_append_left (by rw [List.length_take]; omega),
      List.getElem?_take_of_lt h1]
  · rw [if_neg h1, List.getElem?_append_right (by rw [List.length_take]; omega),
      List.length_take, Nat.min_eq_left hk]
    by_cases h2 : j = k
    · subst h2
      rw [if_pos rfl, Nat.sub_self, List.singleton_append, List.getElem?_cons_zero]
      rfl
    · rw [if_neg h2]
      obtain ⟨t, ht⟩ : ∃ t, j - k = t + 1 := ⟨j - k - 1, by omega⟩
      rw [ht, List.singleton_append, List.getElem?_cons_succ, List.getElem?_drop,
        show k + t = j - 1 by omega]

/-- The list the insert loop, the zeroing of slot `k` and the store of `x` leave. -/
theorem insert_loop_list {α : Type} (z x : α) (old : List α) (k : Nat) (hk : k ≤ old.length) :
    ((move_forward_loop z (k : Int) (old.length + 1) (old.length : Int) (old ++ [z])).2.set
        (move_forward_loop z (k : Int) (old.length + 1) (old.length : Int)
          (old ++ [z])).1.toNat z).set k x =
      old.take k ++ [x] ++ old.drop k := by
  obtain ⟨h1, h2, h3⟩ := move_forward_loop_spec z k (old.length + 1) old.length (old ++ [z]) hk
    (by omega) (by rw [List.length_append, List.length_singleton]; omega)
  rw [h1, Int.toNat_natCast]
  apply ext_getD z
  · simp only [List.length_set, h2, List.length_append, List.length_take, List.length_drop,
      List.length_singleton, Nat.min_eq_left hk]
    omega
  · intro j hj
    rw [List.length_set, List.length_set, h2, List.length_append, List.length_singleton] at hj
    rw [getD_set, getD_set, List.length_set, h2, h3 j, getD_take_cons_drop _ _ _ _ _ hk]
    by_cases c1 : j < k
    · rw [if_neg (by omega), if_neg (by omega), if_neg (by omega), if_pos c1,
        List.getD_append _ _ _ _ (by omega)]
    · by_cases c2 : j = k
      · subst c2
        rw [if_pos ⟨rfl, by rw [List.length_append, List.length_singleton]; omega⟩,
          if_neg c1, if_pos rfl]
      · rw [if_neg (by omega), if_neg (by omega), if_pos (by omega), if_neg c1, if_neg c2,
          List.getD_append _ _ _ _ (by omega)]

theorem well_formed_length (v : StreamMetaData_VorbisComment)
    (hwf : vorbis_comment_well_formed v) : (v.comments.getD []).length = v.num_comments := by
  unfold vorbis_comment_well_formed at hwf
  cases hp : v.comments with
  | none =>
      rw [hp] at hwf
      exact hwf.symm
  | some array =>
      rw [hp] at hwf
      exact hwf.1

/-- A successful `FLAC__metadata_object_vorbiscomment_set_comment` with `copy` set stores a
copy of the entry in slot `k`. -/
theorem vorbiscomment_set_comment_copy (heap : Heap) (a : FLAC__StreamMetaData) (k : Nat)
    (e : StreamMetaData_VorbisComment_Entry) (arr : List StreamMetaData_VorbisComment_Entry)
    (harr : a.vorbis_comment.comments = some arr)
    (hok : (FLAC__metadata_object_vorbiscomment_set_comment heap a k e true).1 = true) :
    (FLAC__metadata_object_vorbiscomment_set_comment heap a k e true).2 =
      vorbiscomment_calculate_length_
        { a with
            vorbis_comment := { a.vorbis_comment with
              comments := some (arr.set k
                { length := e.length, entry := e.entry.map (fun x => x.take e.length) }) } } := by
  revert hok
  unfold FLAC__metadata_object_vorbiscomment_set_comment vorbiscomment_set_entry_
  simp only [if_true]
  unfold copy_vcentry_ EntrySlot.store
  dsimp only
  rw [harr]
  cases he : e.entry with
  | none =>
      dsimp only
      intro _
      rfl
  | some x =>
      dsimp only
      by_cases hm : heap.malloc_ok 0 e.length = true
      · rw [if_pos hm]
        intro _
        rfl
      · rw [if_neg hm]
        intro h
        cases h

/-- What a successful `FLAC__metadata_object_vorbiscomment_insert_comment` with `copy` set
leaves: the old comments with a copy of the entry put in at `comment_num`. -/
theorem vorbiscomment_insert_comment_array (heap : Heap) (o : FLAC__StreamMetaData) (k : Nat)
    (e : StreamMetaData_VorbisComment_Entry)
    (hwf : vorbis_comment_well_formed o.vorbis_comment)
    (hsz : 0 < heap.sizeof_VorbisComment_Entry)
    (hfit : (o.vorbis_comment.num_comments + 1) * heap.sizeof_VorbisComment_Entry < 2 ^ 32)
    (hint : o.vorbis_comment.num_comments + 1 < 2 ^ 31)
    (hk : k ≤ o.vorbis_comment.num_comments)
    (hok : (FLAC__metadata_object_vorbiscomment_insert_comment heap o k e true).1 = true) :
    (FLAC__metadata_object_vorbiscomment_insert_comment heap o k e true).2 =
      vorbiscomment_calculate_length_
        { o with
            vorbis_comment := { o.vorbis_comment with
              num_comments := o.vorbis_comment.num_comments + 1
              comments := some ((o.vorbis_comment.comments.getD []).take k ++
                [{ length := e.length, entry := e.entry.map (fun x => x.take e.length) }] ++
                (o.vorbis_comment.comments.getD []).drop k) } } := by
  have hn32 : o.vorbis_comment.num_comments + 1 < 2 ^ 32 := by omega
  have hold : o.vorbis_comment.num_comments * heap.sizeof_VorbisComment_Entry < 2 ^ 32 :=
    lt_of_le_of_lt (Nat.mul_le_mul_right _ (Nat.le_succ _)) hfit
  have hlen := well_formed_length _ hwf
  revert hok
  unfold FLAC__metadata_object_vorbiscomment_insert_comment
  dsimp only
  rw [Nat.mod_eq_of_lt hn32]
  by_cases hr : (FLAC__metadata_object_vorbiscomment_resize_comments heap o
      (o.vorbis_comment.num_comments + 1)).1 = false
  · rw [if_pos hr]
    intro h
    cases h
  · rw [if_neg hr]
    have hres := vorbiscomment_resize_comments_array heap o
      (o.vorbis_comment.num_comments + 1) hwf hsz hold hfit (by simpa using hr)
    rw [if_neg (fun h => Nat.succ_ne_zero _ h.2), if_neg (Nat.succ_ne_zero _),
      List.take_of_length_le (by omega),
      show o.vorbis_comment.num_comments + 1 - o.vorbis_comment.num_comments = 1 by omega]
      at hres
    rw [List.replicate_one] at hres
    rw [hres]
    have e1 : to_int32 (k : Int) = (k : Int) := to_int32_of_range _ (by omega) (by omega)
    have e2 : to_int32 ((o.vorbis_comment.num_comments + 1 : Nat) : Int) - 1 =
        (o.vorbis_comment.num_comments : Int) := by
      rw [to_int32_of_range _ (by omega) (by omega)]
      omega
    have hl := insert_loop_list zero_entry
      { length := e.length, entry := e.entry.map (fun x => x.take e.length) }
      (o.vorbis_comment.comments.getD []) k (by omega)
    rw [hlen] at hl
    intro hok
    rw [vorbiscomment_set_comment_copy heap _ k e _ rfl hok]
    unfold vorbiscomment_calculate_length_
    dsimp only
    rw [e1, e2, hl]

/-- The list the delete loop, the zeroing of the last slot and the shrinking leave. -/
theorem delete_loop_list {α : Type} (z : α) (old : List α) (k : Nat) (hk : k < old.length) :
    ((move_backward_loop z k (old.length - 1) old).set (old.length - 1) z).take
        (old.length - 1) = old.eraseIdx k := by
  unfold move_backward_loop
  obtain ⟨h1, h2⟩ := move_backward_loop_spec z k (old.length - 1 - k) old (by omega)
  apply ext_getD z
  · rw [List.length_take, List.length_set, h1, List.length_eraseIdx, if_pos hk]
    omega
  · intro j hj
    rw [List.length_take, List.length_set, h1] at hj
    simp only [List.getD_eq_getElem?_getD] at h2 ⊢
    rw [List.getElem?_take_of_lt (by omega), List.getElem?_set, if_neg (by omega), h2 j,
      List.getElem?_eraseIdx]
    by_cases c : j < k
    · rw [if_neg (by omega), if_pos c]
    · rw [if_pos (by omega), if_neg c]

/-- What a successful `FLAC__metadata_object_vorbiscomment_delete_comment` leaves: the old
comments without the one at `comment_num`, and no array when none is left. -/
theorem vorbiscomment_delete_comment_array (heap : Heap) (o : FLAC__StreamMetaData) (k : Nat)
    (hwf : vorbis_comment_well_formed o.vorbis_comment)
    (hsz : 0 < heap.sizeof_VorbisComment_Entry)
    (hfit : o.vorbis_comment.num_comments * heap.sizeof_VorbisComment_Entry < 2 ^ 32)
    (hk : k < o.vorbis_comment.num_comments)
    (hok : (FLAC__metadata_object_vorbiscomment_delete_comment heap o k).1 = true) :
    (FLAC__metadata_object_vorbiscomment_delete_comment heap o k).2 =
      vorbiscomment_calculate_length_
        { o with
            vorbis_comment := { o.vorbis_comment with
              num_comments := o.vorbis_comment.num_comments - 1
              comments :=
                if o.vorbis_comment.num_comments - 1 = 0 then none
                else some ((o.vorbis_comment.comments.getD []).eraseIdx k) } } := by
  have hn32 : o.vorbis_comment.num_comments < 2 ^ 32 :=
    lt_of_le_of_lt (Nat.le_mul_of_pos_right _ hsz) hfit
  have hlast : (o.vorbis_comment.num_comments + 2 ^ 32 - 1) % 2 ^ 32 =
      o.vorbis_comment.num_comments - 1 := by omega
  have hlen := well_formed_length _ hwf
  obtain ⟨old, hold⟩ : ∃ old, o.vorbis_comment.comments = some old := by
    unfold vorbis_comment_well_formed at hwf
    cases hp : o.vorbis_comment.comments with
    | none =>
        rw [hp] at hwf
        dsimp only at hwf
        omega
    | some old => exact ⟨old, rfl⟩
  rw [hold, Option.getD_some] at hlen ⊢
  revert hok
  unfold FLAC__metadata_object_vorbiscomment_delete_comment
  dsimp only
  rw [hlast, hold, Option.map_some']
  have hi : (if k < o.vorbis_comment.num_comments - 1 then o.vorbis_comment.num_comments - 1
      else k) = o.vorbis_comment.num_comments - 1 := by
    split_ifs <;> omega
  rw [hi]
  intro hok
  have hlen1 : ((move_backward_loop zero_entry k (o.vorbis_comment.num_comments - 1) old).set
      (o.vorbis_comment.num_comments - 1) zero_entry).length = o.vorbis_comment.num_comments := by
    unfold move_backward_loop
    rw [List.length_set, (move_backward_loop_spec zero_entry k _ old (by omega)).1, hlen]
  have hres := vorbiscomment_resize_comments_array heap _ _ ?_ hsz ?_ ?_ hok
  · rw [hres]
    have hl := delete_loop_list zero_entry old k (by omega)
    rw [hlen] at hl
    dsimp only
    rw [if_neg (fun h => by cases h.1), Option.getD_some, hl,
      Nat.sub_eq_zero_of_le (Nat.sub_le _ _), List.replicate_zero, List.append_nil]
  · exact ⟨hlen1, Nat.lt_of_le_of_lt (Nat.zero_le _) hk⟩
  · exact hfit
  · exact lt_of_le_of_lt (Nat.mul_le_mul_right _ (Nat.sub_le _ _)) hfit

theorem eraseIdx_take_cons_drop {α : Type} (old : List α) (k : Nat) (x : α)
    (hk : k ≤ old.length) : (old.take k ++ [x] ++ old.drop k).eraseIdx k = old := by
  have hl : (old.take k).length = k := by rw [List.length_take]; omega
  rw [List.append_assoc, List.eraseIdx_append_of_length_le (by omega), hl, Nat.sub_self]
  simp

theorem well_formed_comments (v : StreamMetaData_VorbisComment)
    (hwf : vorbis_comment_well_formed v) :
    v.comments = if v.num_comments = 0 then none else some (v.comments.getD []) := by
  unfold vorbis_comment_well_formed at hwf
  cases hp : v.comments with
  | none =>
      rw [hp] at hwf
      dsimp only at hwf
      rw [if_pos hwf]
  | some array =>
      rw [hp] at hwf
      dsimp only at hwf
      rw [if_neg (by omega)]
      rfl

theorem calculate_length_fixed (o : FLAC__StreamMetaData)
    (h : o.length = vorbis_comment_serialized_size o.vorbis_comment % 2 ^ 32) :
    vorbiscomment_calculate_length_ o = o := by
  have h1 := (vorbiscomment_calculate_length_spec o).1
  have h2 : vorbiscomment_calculate_length_ o =
      { o with length := (vorbiscomment_calculate_length_ o).length } := rfl
  rw [h2, h1, ← h]

/-- C23: on a well formed VORBIS_COMMENT object, when the entry array sizes fit an `unsigned`
and the counts an `int`, deleting comment `i` right after a successful insert (with `copy`
set) of an entry at `i <= num_comments` gives back the vendor string, the number of comments
and the comment array of the object, with the length of that body, so the object itself when
its length was the length of its body; and a successful delete of comment `i < num_comments`
keeps the vendor string, leaves one comment fewer and the other comments in their order. -/
theorem vorbiscomment_delete_undoes_insert (heap : Heap) (o : FLAC__StreamMetaData) (i : Nat)
    (e : StreamMetaData_VorbisComment_Entry)
    (hwf : vorbis_comment_well_formed o.vorbis_comment)
    (hsz : 0 < heap.sizeof_VorbisComment_Entry)
    (hfit : (o.vorbis_comment.num_comments + 1) * heap.sizeof_VorbisComment_Entry < 2 ^ 32)
    (hint : o.vorbis_comment.num_comments + 1 < 2 ^ 31) :
    (i ≤ o.vorbis_comment.num_comments →
      (FLAC__metadata_object_vorbiscomment_insert_comment heap o i e true).1 = true →
      (FLAC__metadata_object_vorbiscomment_delete_comment heap
        (FLAC__metadata_object_vorbiscomment_insert_comment heap o i e true).2 i).1 = true →
      (FLAC__metadata_object_vorbiscomment_delete_comment heap
          (FLAC__metadata_object_vorbiscomment_insert_comment heap o i e true).2
          i).2.vorbis_comment = o.vorbis_comment ∧
        (FLAC__metadata_object_vorbiscomment_delete_comment heap
          (FLAC__metadata_object_vorbiscomment_insert_comment heap o i e true).2 i).2.length =
          vorbis_comment_serialized_size o.vorbis_comment % 2 ^ 32 ∧
        (o.length = vorbis_comment_serialized_size o.vorbis_comment % 2 ^ 32 →
          (FLAC__metadata_object_vorbiscomment_delete_comment heap
            (FLAC__metadata_object_vorbiscomment_insert_comment heap o i e true).2 i).2 = o)) ∧
    (i < o.vorbis_comment.num_comments →
      (FLAC__metadata_object_vorbiscomment_delete_comment heap o i).1 = true →
      (FLAC__metadata_object_vorbiscomment_delete_comment heap o
          i).2.vorbis_comment.vendor_string = o.vorbis_comment.vendor_string ∧
        (FLAC__metadata_object_vorbiscomment_delete_comment heap o
          i).2.vorbis_comment.num_comments = o.vorbis_comment.num_comments - 1 ∧
        (FLAC__metadata_object_vorbiscomment_delete_comment heap o
          i).2.vorbis_comment.comments.getD [] =
          (o.vorbis_comment.comments.getD []).eraseIdx i) := by
  have hlen := well_formed_length _ hwf
  have hold : o.vorbis_comment.num_comments * heap.sizeof_VorbisComment_Entry < 2 ^ 32 :=
    lt_of_le_of_lt (Nat.mul_le_mul_right _ (Nat.le_succ _)) hfit
  constructor
  · intro hi hins hdel
    have h1 := vorbiscomment_insert_comment_array heap o i e hwf hsz hfit hint hi hins
    have hcm := well_formed_comments _ hwf
    generalize ({ length := e.length, entry := e.entry.map (fun x => x.take e.length) } :
      StreamMetaData_VorbisComment_Entry) = x at h1
    generalize o.vorbis_comment.comments.getD [] = old at h1 hcm hlen
    rw [h1] at hdel ⊢
    have h2 := vorbiscomment_delete_comment_array heap _ i ?_ hsz ?_ ?_ hdel
    · rw [h2]
      have hv : vorbiscomment_calculate_length_
          { vorbiscomment_calculate_length_
              { o with
                  vorbis_comment := { o.vorbis_comment with
                    num_comments := o.vorbis_comment.num_comments + 1
                    comments := some (old.take i ++ [x] ++ old.drop i) } } with
            vorbis_comment :=
              { vendor_string := o.vorbis_comment.vendor_string
                num_comments := o.vorbis_comment.num_comments + 1 - 1
                comments :=
                  if o.vorbis_comment.num_comments + 1 - 1 = 0 then none
                  else some ((old.take i ++ [x] ++ old.drop i).eraseIdx i) } } =
          vorbiscomment_calculate_length_ o := by
        rw [eraseIdx_take_cons_drop _ _ _ (by omega), Nat.add_sub_cancel, ← hcm]
        cases o
        rfl
      refine ⟨?_, ?_, ?_⟩
      · exact (congrArg FLAC__StreamMetaData.vorbis_comment hv).trans
          (vorbiscomment_calculate_length_spec o).2
      · exact (congrArg FLAC__StreamMetaData.length hv).trans
          (vorbiscomment_calculate_length_spec o).1
      · intro hl
        exact hv.trans (calculate_length_fixed o hl)
    · refine ⟨?_, Nat.succ_pos _⟩
      show (old.take i ++ [x] ++ old.drop i).length = o.vorbis_comment.num_comments + 1
      simp only [List.length_append, List.length_take, List.length_drop,
        List.length_singleton]
      omega
    · exact hfit
    · exact Nat.lt_succ_of_le hi
  · intro hi hdel
    rw [vorbiscomment_delete_comment_array heap o i hwf hsz hold hi hdel]
    refine ⟨rfl, rfl, ?_⟩
    show Option.getD (if o.vorbis_comment.num_comments - 1 = 0 then none
      else some ((o.vorbis_comment.comments.getD []).eraseIdx i)) [] = _
    by_cases h0 : o.vorbis_comment.num_comments - 1 = 0
    · rw [if_pos h0, Option.getD_none]
      symm
      apply List.eq_nil_of_length_eq_zero
      rw [List.length_eraseIdx, if_pos (by omega)]
      omega
    · rw [if_neg h0, Option.getD_some]

/-- Witness for C23: insert and delete at index 1 of the example object with two comments,
and the delete of its comment 1. -/
theorem vorbiscomment_delete_undoes_insert_witness :
    (FLAC__metadata_object_vorbiscomment_delete_comment example_heap
        (FLAC__metadata_object_vorbiscomment_insert_comment example_heap example_comments 1
          example_entry true).2 1).2 = example_comments ∧
      (FLAC__metadata_object_vorbiscomment_delete_comment example_heap example_comments
        1).2.vorbis_comment.comments.getD [] =
        (example_comments.vorbis_comment.comments.getD []).eraseIdx 1 :=
  have h := vorbiscomment_delete_undoes_insert example_heap example_comments 1 example_entry
    ⟨rfl, (by decide)⟩ (by decide) (by decide) (by decide)
  ⟨(h.1 (by decide) (by decide) (by decide)).2.2 (by decide),
    (h.2 (by decide) (by decide)).2.2⟩

/-- C24: the ten bytes of the extended number `2^32`, which does not fit the 32 bit result,
are accepted: `read_sane_extended` returns true and stores 0. -/
theorem read_sane_extended_too_large :
    read_sane_extended example_extended 10 false 7 = some (true, 0) ∧
      sane_extended_value example_extended = 2 ^ 32 := by
  constructor
  · decide
  · norm_num [sane_extended_value, example_extended, List.range, List.range.loop]

/-! ## Stream encoder: the Rice cost -/

/-- C31 (counterexample): for the residual 0 and parameter 0 the cost `RICE_BITS` is 2 bits
while the zigzag Rice code has 1 bit. -/
theorem rice_bits_zero : RICE_BITS 0 0 = 2 ∧ rice_code_bits 0 0 = 1 := by
  decide

/-- C31 (amended): for a residual `v` strictly inside the 32 bit range and a parameter
`p <= 31`, `RICE_BITS(v, p)` is `2 + p + (|v| >> p)`: a sign bit, `|v| >> p` zero bits, a
stop bit and `p` raw bits.  For `v >= 0` that is the length of the zigzag Rice code with
parameter `p + 1`, and for `v < 0` it is that length or one bit more. -/
theorem rice_bits_sign_magnitude (v : Int) (p : Nat) (hv1 : -(2 ^ 31) < v) (hv2 : v < 2 ^ 31)
    (hp : p ≤ 31) :
    RICE_BITS v p = 2 + p + (v.natAbs >>> p) ∧
      (0 ≤ v → RICE_BITS v p = rice_code_bits v (p + 1)) ∧
      (v < 0 → rice_code_bits v (p + 1) ≤ RICE_BITS v p ∧
        RICE_BITS v p ≤ rice_code_bits v (p + 1) + 1) := by
  have ha : v.natAbs < 2 ^ 31 := by omega
  have hdiv : v.natAbs / 2 ^ p ≤ v.natAbs := Nat.div_le_self _ _
  have h1 : RICE_BITS v p = 2 + p + (v.natAbs >>> p) := by
    unfold RICE_BITS abs_unsigned
    rw [Nat.mod_eq_of_lt (by omega : v.natAbs < 2 ^ 32), Nat.shiftRight_eq_div_pow,
      Nat.mod_eq_of_lt (by omega)]
  have hpos : 0 < 2 ^ p := Nat.two_pow_pos p
  refine ⟨h1, ?_, ?_⟩
  · intro hv
    have hz : zigzag v = 2 * v.natAbs := by
      unfold zigzag
      rw [if_neg (by omega)]
      omega
    rw [h1]
    unfold rice_code_bits
    rw [hz, Nat.shiftRight_eq_div_pow, Nat.shiftRight_eq_div_pow, pow_succ, Nat.mul_comm (2 ^ p) 2,
      Nat.mul_div_mul_left _ _ (by norm_num : 0 < 2)]
    omega
  · intro hv
    have hz : zigzag v = 2 * v.natAbs - 1 := by
      unfold zigzag
      rw [if_pos hv]
      omega
    have hhalf : (2 * v.natAbs - 1) / 2 = v.natAbs - 1 := by omega
    have hq : (2 * v.natAbs - 1) / 2 ^ (p + 1) = (v.natAbs - 1) / 2 ^ p := by
      rw [pow_succ, Nat.mul_comm (2 ^ p) 2, ← Nat.div_div_eq_div_mul, hhalf]
    have hle : (v.natAbs - 1) / 2 ^ p ≤ v.natAbs / 2 ^ p := Nat.div_le_div_right (by omega)
    have hge : v.natAbs / 2 ^ p ≤ (v.natAbs - 1) / 2 ^ p + 1 := by
      rw [← Nat.add_div_right _ hpos]
      exact Nat.div_le_div_right (by omega)
    rw [h1]
    unfold rice_code_bits
    rw [hz, Nat.shiftRight_eq_div_pow, Nat.shiftRight_eq_div_pow, hq]
    omega

/-- Witness for C31: the residual -4 with parameter 2 costs 5 bits. -/
theorem rice_bits_sign_magnitude_witness :
    RICE_BITS (-4) 2 = 2 + 2 + ((-4 : Int).natAbs >>> 2) ∧
      ((0 : Int) ≤ -4 → RICE_BITS (-4) 2 = rice_code_bits (-4) (2 + 1)) ∧
      ((-4 : Int) < 0 → rice_code_bits (-4) (2 + 1) ≤ RICE_BITS (-4) 2 ∧
        RICE_BITS (-4) 2 ≤ rice_code_bits (-4) (2 + 1) + 1) :=
  rice_bits_sign_magnitude (-4) 2 (by decide) (by decide) (by decide)

/-! ## Stream encoder: the automatic coefficient precision -/

/-- C37: with 28 bits per sample and `qlp_coeff_precision = 0`, `FLAC__encoder_init`
succeeds and leaves the precision 3, which is below the minimum 5 that the same function
requires of an explicit value. -/
theorem init_automatic_precision_invalid :
    (FLAC__encoder_init example_lib example_encoder_client (example_encoder 28 0)).1.state =
        .OK ∧
      (FLAC__encoder_init example_lib example_encoder_client
        (example_encoder 28 0)).1.qlp_coeff_precision = 3 ∧
      (3 : Nat) < FLAC__MIN_QLP_COEFF_PRECISION := by
  decide

/-! ## Stream encoder: the Rice parameter of a partition -/

theorem lt_of_and_two_pow_eq_zero (mean i : Nat) (h1 : mean < 2 ^ (i + 1))
    (h2 : mean &&& 2 ^ i = 0) : mean < 2 ^ i := by
  rw [Nat.and_two_pow] at h2
  have hb : mean.testBit i = false := by
    cases hc : mean.testBit i with
    | false => rfl
    | true =>
        rw [hc] at h2
        simp at h2
  rw [Nat.testBit_to_div_mod] at hb
  have hlt : mean / 2 ^ i < 2 := by
    apply Nat.div_lt_of_lt_mul
    rw [← pow_succ]
    exact h1
  have h0 : mean / 2 ^ i = 0 := by
    have := of_decide_eq_false hb
    generalize mean / 2 ^ i = q at hlt this
    omega
  exact (Nat.div_eq_zero_iff (Nat.two_pow_pos i)).mp h0

theorem two_pow_le_of_and_ne_zero (mean i : Nat) (h : mean &&& 2 ^ i ≠ 0) : 2 ^ i ≤ mean := by
  have hle : mean &&& 2 ^ i ≤ mean := Nat.and_le_left
  rw [Nat.and_two_pow] at h hle
  cases hc : mean.testBit i with
  | false =>
      rw [hc] at h
      simp at h
  | true =>
      rw [hc] at hle
      simpa using hle

/-- The bit scan stops at the highest set bit of `mean`, and at 32 when `mean` is 0. -/
theorem leading_zero_scan_spec (mean : Nat) :
    ∀ (fuel j : Nat), j ≤ 32 → 32 - j < fuel → mean < 2 ^ (32 - j) →
      (mean = 0 ∧ leading_zero_scan mean fuel j (2 ^ 31 >>> j) = 32) ∨
        (leading_zero_scan mean fuel j (2 ^ 31 >>> j) ≤ 31 ∧
          2 ^ (31 - leading_zero_scan mean fuel j (2 ^ 31 >>> j)) ≤ mean ∧
          mean < 2 ^ (32 - leading_zero_scan mean fuel j (2 ^ 31 >>> j))) := by
  intro fuel
  induction fuel with
  | zero =>
      intro j _ h _
      omega
  | succ fuel ih =>
      intro j hj hf hm
      unfold leading_zero_scan
      by_cases h32 : j < 32
      · rw [if_pos h32]
        have hz : 2 ^ 31 >>> j = 2 ^ (31 - j) := by
          rw [Nat.shiftRight_eq_div_pow, Nat.pow_div (by omega) (by norm_num)]
        by_cases hbit : mean &&& (2 ^ 31 >>> j) ≠ 0
        · rw [if_pos hbit]
          right
          rw [hz] at hbit
          exact ⟨by omega, two_pow_le_of_and_ne_zero _ _ hbit, hm⟩
        · rw [if_neg hbit]
          have hnext : (2 ^ 31 >>> j) >>> 1 = 2 ^ 31 >>> (j + 1) := by
            rw [Nat.shiftRight_add]
          rw [hnext]
          apply ih (j + 1) (by omega) (by omega)
          rw [hz] at hbit
          have := lt_of_and_two_pow_eq_zero mean (31 - j)
            (by rw [show 31 - j + 1 = 32 - j by omega]; exact hm) (not_not.mp hbit)
          rw [show 32 - (j + 1) = 31 - j by omega]
          exact this
      · rw [if_neg h32]
        have : j = 32 := by omega
        subst this
        left
        exact ⟨by simpa using hm, rfl⟩

/-- The parameter derived from a partition mean is the position of its highest set bit, that
is `floor(log2(mean))`, and 0 for the mean 0; it is never more than 15. -/
theorem parameter_of_mean_spec (mean : Nat) (h : mean < 2 ^ 32) :
    parameter_of_mean mean =
      if mean = 0 then 0
      else min (Nat.log 2 mean)
        (2 ^ FLAC__ENTROPY_CODING_METHOD_PARTITIONED_RICE_PARAMETER_LEN - 1) := by
  unfold parameter_of_mean
  dsimp only
  have hs := leading_zero_scan_spec mean 33 0 (by omega) (by omega) (by simpa using h)
  have hmax : 2 ^ FLAC__ENTROPY_CODING_METHOD_PARTITIONED_RICE_PARAMETER_LEN - 1 = 15 := rfl
  rw [show (0x80000000 : Nat) = 2 ^ 31 >>> 0 by norm_num, hmax]
  rcases hs with ⟨h0, hr⟩ | ⟨h1, h2, h3⟩
  · rw [hr, if_pos h0]
    rfl
  · generalize leading_zero_scan mean 33 0 (2 ^ 31 >>> 0) = r at h1 h2 h3
    have hne : mean ≠ 0 := by
      have := Nat.two_pow_pos (31 - r)
      omega
    have hlog : Nat.log 2 mean = 31 - r :=
      Nat.log_eq_of_pow_le_of_lt_pow h2 (by rw [show 31 - r + 1 = 32 - r by omega]; exact h3)
    have hp : (if r > 31 then 0 else 32 - r - 1) = 31 - r := by
      rw [if_neg (by omega)]
      omega
    rw [if_neg hne, hp, hlog]
    by_cases hc : 31 - r > 15
    · rw [if_pos hc, Nat.min_eq_right (by omega)]
    · rw [if_neg hc, Nat.min_eq_left (by omega)]

theorem partition_start_succ (bs po p i : Nat) (h : po < bs >>> p) :
    partition_start bs po p i + partition_size bs po p i = partition_start bs po p (i + 1) := by
  unfold partition_start partition_size
  rw [if_neg (Nat.succ_ne_zero i), Nat.add_mul, Nat.one_mul]
  by_cases h0 : i = 0
  · subst h0
    rw [if_pos rfl, if_pos rfl, Nat.zero_mul]
    omega
  · rw [if_neg h0, if_neg h0]
    have : bs >>> p ≤ i * (bs >>> p) := Nat.le_mul_of_pos_left _ (Nat.pos_of_ne_zero h0)
    omega

/-- The partition loop, started at partition `i` and at the first residual of that
partition, handles the partitions one after the other. -/
theorem partition_loop_spec (residual : List Int) (rs po p : Nat)
    (hacc : po < ((rs + po) % 2 ^ 32) >>> p) :
    ∀ (count i bits : Nat) (parameters : List Nat),
      partition_loop residual rs po p count i
          (partition_start ((rs + po) % 2 ^ 32) po p i) bits parameters =
        some (parameters ++ (List.range' i count).map
            (partition_parameter residual ((rs + po) % 2 ^ 32) po p),
          (List.range' i count).foldl
            (fun b t => partition_bits residual (partition_start ((rs + po) % 2 ^ 32) po p t)
              (partition_size ((rs + po) % 2 ^ 32) po p t)
              (partition_parameter residual ((rs + po) % 2 ^ 32) po p t) b) bits) := by
  intro count
  induction count with
  | zero =>
      intro i bits parameters
      simp [partition_loop]
  | succ count ih =>
      intro i bits parameters
      unfold partition_loop
      dsimp only
      rw [if_neg (fun h => by omega)]
      have hsz : (if i = 0 then ((rs + po) % 2 ^ 32) >>> p - po else ((rs + po) % 2 ^ 32) >>> p) =
          partition_size ((rs + po) % 2 ^ 32) po p i := rfl
      rw [hsz, partition_start_succ _ _ _ _ hacc, ih]
      rw [List.range'_succ, List.map_cons, List.foldl_cons, List.append_assoc]
      rfl

theorem mean_fold_lt (residual : List Int) (k : Nat) :
    ∀ (l : List Nat) (init : Nat), init < 2 ^ 32 →
      l.foldl (fun m j => (m + abs_unsigned (residual.getD (k + j) 0)) % 2 ^ 32) init <
        2 ^ 32 := by
  intro l
  induction l with
  | nil => intro init h; exact h
  | cons x rest ih =>
      intro init _
      rw [List.foldl_cons]
      exact ih _ (Nat.mod_lt _ (by norm_num))

theorem partition_mean_lt (residual : List Int) (k n : Nat) (hn : n < 2 ^ 32) :
    partition_mean residual k n < 2 ^ 32 := by
  unfold partition_mean
  refine lt_of_le_of_lt (Nat.div_le_self _ _) (mean_fold_lt residual k _ _ ?_)
  rw [Nat.shiftRight_eq_div_pow]
  exact lt_of_le_of_lt (Nat.div_le_self _ _) hn

/-- What `encoder_set_partitioned_rice_` returns for a partition order from 1 to 31 and a
blocksize in the `unsigned` range: it rejects the order exactly when partition 0 would be
empty, and otherwise gives the parameter of every partition and the sum of their costs. -/
theorem set_partitioned_rice_spec (residual : List Int) (rs po rp p : Nat) (hp1 : 1 ≤ p)
    (hp2 : p < 32) (hbs : rs + po < 2 ^ 32) :
    ((rs + po) >>> p ≤ po → encoder_set_partitioned_rice_ residual rs po rp p = none) ∧
      (po < (rs + po) >>> p →
        encoder_set_partitioned_rice_ residual rs po rp p =
          some ((List.range (2 ^ p)).map (partition_parameter residual (rs + po) po p),
            (List.range (2 ^ p)).foldl
              (fun b t => partition_bits residual (partition_start (rs + po) po p t)
                (partition_size (rs + po) po p t)
                (partition_parameter residual (rs + po) po p t) b) (2 + 3))) := by
  have hpow : 2 ^ p % 2 ^ 32 = 2 ^ p :=
    Nat.mod_eq_of_lt (Nat.pow_lt_pow_right (by norm_num) hp2)
  have hmod : (rs + po) % 2 ^ 32 = rs + po := Nat.mod_eq_of_lt hbs
  constructor
  · intro hrej
    unfold encoder_set_partitioned_rice_
    dsimp only
    rw [if_neg (by omega), hpow]
    obtain ⟨c, hc⟩ : ∃ c, 2 ^ p = c + 1 := ⟨2 ^ p - 1, by have := Nat.two_pow_pos p; omega⟩
    rw [hc]
    unfold partition_loop
    dsimp only
    rw [hmod, if_pos ⟨rfl, hrej⟩]
  · intro hacc
    unfold encoder_set_partitioned_rice_
    dsimp only
    rw [if_neg (by omega), hpow]
    have h := partition_loop_spec residual rs po p (by rw [hmod]; exact hacc) (2 ^ p) 0 (2 + 3) []
    rw [hmod] at h
    rw [show partition_start (rs + po) po p 0 = 0 from rfl] at h
    rw [h, List.nil_append, List.range_eq_range']

/-- C29: in `encoder_set_partitioned_rice_` with a partition order `p` from 1 to 31, a
blocksize `residual_samples + predictor_order` in the `unsigned` range and `2^p` dividing
it, the call is rejected exactly when `(blocksize >> p) <= predictor_order`; when it is
accepted, partition 0 has `(blocksize >> p) - predictor_order` residuals and every other
partition `blocksize >> p`, partition 0 starts at residual 0, every partition starts where
the one before it ends, the last one ends at `residual_samples`, and the parameters and the
bit total returned are those of these partitions: 5 bits, and for each partition in turn the
parameter field and `RICE_BITS` of each of its residuals. -/
theorem partition_coverage (residual : List Int) (rs po rp p : Nat) (hp1 : 1 ≤ p)
    (hp2 : p < 32) (hbs : rs + po < 2 ^ 32) (hdiv : 2 ^ p ∣ rs + po) :
    (encoder_set_partitioned_rice_ residual rs po rp p = none ↔ (rs + po) >>> p ≤ po) ∧
      (po < (rs + po) >>> p →
        encoder_set_partitioned_rice_ residual rs po rp p =
          some ((List.range (2 ^ p)).map (partition_parameter residual (rs + po) po p),
            (List.range (2 ^ p)).foldl
              (fun b t => partition_bits residual (partition_start (rs + po) po p t)
                (partition_size (rs + po) po p t)
                (partition_parameter residual (rs + po) po p t) b) (2 + 3)) ∧
        partition_size (rs + po) po p 0 = (rs + po) >>> p - po ∧
        (∀ i, 0 < i → partition_size (rs + po) po p i = (rs + po) >>> p) ∧
        partition_start (rs + po) po p 0 = 0 ∧
        (∀ i, partition_start (rs + po) po p (i + 1) =
          partition_start (rs + po) po p i + partition_size (rs + po) po p i) ∧
        partition_start (rs + po) po p (2 ^ p) = rs) := by
  obtain ⟨h1, h2⟩ := set_partitioned_rice_spec residual rs po rp p hp1 hp2 hbs
  refine ⟨⟨fun hn => ?_, h1⟩, fun hacc => ⟨h2 hacc, rfl, fun i hi => ?_, rfl,
    fun i => (partition_start_succ _ _ _ _ hacc).symm, ?_⟩⟩
  · by_contra hc
    rw [h2 (by omega)] at hn
    cases hn
  · unfold partition_size
    rw [if_neg (by omega)]
  · unfold partition_start
    rw [if_neg (by have := Nat.two_pow_pos p; omega), Nat.shiftRight_eq_div_pow,
      Nat.mul_div_cancel' hdiv]
    omega

/-- Witness for C29: six residuals, predictor order 2 and partition order 1 (two partitions
of 2 and 4 residuals). -/
theorem partition_coverage_witness :
    encoder_set_partitioned_rice_ example_residual 6 2 0 1 ≠ none ∧
      partition_start (6 + 2) 2 1 (2 ^ 1) = 6 :=
  have h := partition_coverage example_residual 6 2 0 1 (by decide) (by decide) (by decide)
    (by decide)
  ⟨fun hn => absurd (h.1.mp hn) (by decide), (h.2 (by decide)).2.2.2.2.2⟩

/-- C30 (counterexample): two partitions of one residual each, both of magnitude 3: the
mean is 3 and the parameter chosen is 1, while `ceil(log2(3))` is 2. -/
theorem rice_parameter_not_ceiling :
    encoder_set_partitioned_rice_ [3, 3] 2 0 0 1 = some ([1, 1], 21) ∧
      partition_mean [3, 3] 0 1 = 3 ∧ Nat.clog 2 3 = 2 := by
  refine ⟨by decide, by decide, ?_⟩
  simp [Nat.clog]

/-- C30 (amended): for a partition order from 1 to 31 that `encoder_set_partitioned_rice_`
accepts (blocksize in the `unsigned` range), the parameter returned for each partition is
`floor(log2(m))` clamped to at most `2^PARAMETER_LEN - 1 = 15`, and 0 when `m` is 0, where
`m` is the mean the code computes: the sum of the magnitudes of the residuals of the
partition plus half their number, divided by their number. -/
theorem rice_parameter_estimate (residual : List Int) (rs po rp p : Nat) (hp1 : 1 ≤ p)
    (hp2 : p < 32) (hbs : rs + po < 2 ^ 32) (hacc : po < (rs + po) >>> p) :
    ∃ parameters bits,
      encoder_set_partitioned_rice_ residual rs po rp p = some (parameters, bits) ∧
        parameters.length = 2 ^ p ∧
        ∀ i, i < 2 ^ p →
          parameters.getD i 0 =
            if partition_mean residual (partition_start (rs + po) po p i)
                (partition_size (rs + po) po p i) = 0 then 0
            else min (Nat.log 2 (partition_mean residual (partition_start (rs + po) po p i)
                (partition_size (rs + po) po p i)))
              (2 ^ FLAC__ENTROPY_CODING_METHOD_PARTITIONED_RICE_PARAMETER_LEN - 1) := by
  refine ⟨_, _, (set_partitioned_rice_spec residual rs po rp p hp1 hp2 hbs).2 hacc, ?_, ?_⟩
  · rw [List.length_map, List.length_range]
  · intro i hi
    rw [List.getD_eq_getElem _ _ (by rw [List.length_map, List.length_range]; exact hi),
      List.getElem_map, List.getElem_range]
    unfold partition_parameter
    apply parameter_of_mean_spec
    apply partition_mean_lt
    have hle : (rs + po) >>> p ≤ rs + po := by
      rw [Nat.shiftRight_eq_div_pow]
      exact Nat.div_le_self _ _
    unfold partition_size
    split_ifs <;> omega

/-- Witness for C30: the six example residuals in two partitions. -/
theorem rice_parameter_estimate_witness :
    ∃ parameters bits,
      encoder_set_partitioned_rice_ example_residual 6 2 0 1 = some (parameters, bits) ∧
        parameters.length = 2 ^ 1 ∧
        ∀ i, i < 2 ^ 1 →
          parameters.getD i 0 =
            if partition_mean example_residual (partition_start (6 + 2) 2 1 i)
                (partition_size (6 + 2) 2 1 i) = 0 then 0
            else min (Nat.log 2 (partition_mean example_residual
                (partition_start (6 + 2) 2 1 i) (partition_size (6 + 2) 2 1 i)))
              (2 ^ FLAC__ENTROPY_CODING_METHOD_PARTITIONED_RICE_PARAMETER_LEN - 1) :=
  rice_parameter_estimate example_residual 6 2 0 1 (by decide) (by decide) (by decide)
    (by decide)

/-! ## Stream encoder: the partition order -/

/-- The counting loop ends for every `b` from 1 on that fits the fuel, at the exponent of
the largest power of two dividing `b`. -/
theorem limit_loop_spec :
    ∀ (fuel b limit : Nat), 0 < b → b < 2 ^ fuel →
      ∃ t, limit_loop fuel b limit = some (limit + t) ∧ 2 ^ t ∣ b ∧ ¬ 2 ^ (t + 1) ∣ b := by
  intro fuel
  induction fuel with
  | zero =>
      intro b limit h1 h2
      simp at h2
      omega
  | succ fuel ih =>
      intro b limit h1 h2
      unfold limit_loop
      by_cases hb : b % 2 = 0
      · rw [if_pos hb]
        obtain ⟨c, hc⟩ : ∃ c, b = 2 * c := ⟨b / 2, by omega⟩
        subst hc
        rw [Nat.mul_div_cancel_left _ (by norm_num : 0 < 2)]
        obtain ⟨t, k1, k2, k3⟩ := ih c (limit + 1) (by omega)
          (by rw [pow_succ] at h2; omega)
        refine ⟨t + 1, by rw [k1]; congr 1; omega, ?_, ?_⟩
        · rw [pow_succ, Nat.mul_comm]
          exact Nat.mul_dvd_mul_left 2 k2
        · intro hd
          apply k3
          rw [pow_succ (2 : Nat) (t + 1), Nat.mul_comm] at hd
          exact Nat.dvd_of_mul_dvd_mul_left (by norm_num) hd
      · rw [if_neg hb]
        refine ⟨0, rfl, by simp, ?_⟩
        intro hd
        simp at hd
        omega

theorem resize_signal_loop_level (lib : EncoderLib) (n : Nat) (l : List Nat) :
    ∀ (ok : Bool) (e : ActiveEncoder),
      (resize_signal_loop lib n l ok e).2.rice_optimization_level =
        e.rice_optimization_level := by
  induction l with
  | nil => intro ok e; rfl
  | cons i rest ih =>
      intro ok e
      unfold resize_signal_loop
      dsimp only
      split_ifs
      · rfl
      all_goals
        cases hm : lib.malloc_int32 (2 * i) n <;> rw [ih]

theorem resize_mid_side_loop_level (lib : EncoderLib) (n base : Nat) (l : List Nat) :
    ∀ (ok : Bool) (e : ActiveEncoder),
      (resize_mid_side_loop lib n base l ok e).2.rice_optimization_level =
        e.rice_optimization_level := by
  induction l with
  | nil => intro ok e; rfl
  | cons i rest ih =>
      intro ok e
      unfold resize_mid_side_loop
      dsimp only
      split_ifs
      · rfl
      all_goals
        cases hm : lib.malloc_int32 (base + 2 * i) n <;> rw [ih]

theorem resize_residual_loop_level (lib : EncoderLib) (n base : Nat) (l : List Nat) :
    ∀ (ok : Bool) (e : ActiveEncoder),
      (resize_residual_loop lib n base l ok e).2.rice_optimization_level =
        e.rice_optimization_level := by
  induction l with
  | nil => intro ok e; rfl
  | cons i rest ih =>
      intro ok e
      unfold resize_residual_loop
      cases hm : lib.malloc_int32 (base + i) n <;> rw [ih]

theorem encoder_resize_buffers_level (lib : EncoderLib) (e : ActiveEncoder) (n : Nat) :
    (encoder_resize_buffers_ lib e n).2.rice_optimization_level =
      e.rice_optimization_level := by
  unfold encoder_resize_buffers_
  dsimp only
  split_ifs
  all_goals
    simp only [resize_residual_loop_level, resize_mid_side_loop_level,
      resize_signal_loop_level]

theorem encoder_init_guts_level (lib : EncoderLib) (client : EncoderClient) (e : Encoder) :
    (encoder_init_guts lib client e).1.rice_optimization_level =
      e.rice_optimization_level := by
  unfold encoder_init_guts
  cases lib.malloc_guts with
  | none => rfl
  | some fresh =>
      dsimp only
      split_ifs
      · exact encoder_resize_buffers_level lib _ _
      · split
        · exact encoder_resize_buffers_level lib _ _
        · split
          · exact encoder_resize_buffers_level lib _ _
          · split
            · exact encoder_resize_buffers_level lib _ _
            · split_ifs
              · exact encoder_resize_buffers_level lib _ _
              · exact encoder_resize_buffers_level lib _ _

/-- An `FLAC__encoder_init` that ends in state `OK` found none of its parameter checks
failing. -/
theorem init_ok_passes_checks (lib : EncoderLib) (client : EncoderClient) (e : Encoder)
    (hs : (FLAC__encoder_init lib client e).1.state = .OK) :
    ¬ (e.channels = 0 ∨ e.channels > FLAC__MAX_CHANNELS) ∧
      ¬ (e.do_mid_side_stereo = true ∧ e.channels ≠ 2) ∧
      ¬ (e.do_mid_side_stereo = true ∧ e.bits_per_sample > 16) ∧
      ¬ (e.bits_per_sample = 0 ∨ e.bits_per_sample > FLAC__MAX_BITS_PER_SAMPLE) ∧
      ¬ (e.sample_rate = 0 ∨ e.sample_rate > FLAC__MAX_SAMPLE_RATE) ∧
      ¬ (e.blocksize < FLAC__MIN_BLOCK_SIZE ∨ e.blocksize > FLAC__MAX_BLOCK_SIZE) ∧
      ¬ e.blocksize < e.max_lpc_order ∧
      ¬ (e.qlp_coeff_precision ≠ 0 ∧
        (e.qlp_coeff_precision < FLAC__MIN_QLP_COEFF_PRECISION ∨
          (e.qlp_coeff_precision + e.bits_per_sample) % 2 ^ 32 ≥ 32)) ∧
      ¬ (e.streamable_subset = true ∧
        ((e.bits_per_sample ≠ 8 ∧ e.bits_per_sample ≠ 12 ∧ e.bits_per_sample ≠ 16 ∧
            e.bits_per_sample ≠ 20 ∧ e.bits_per_sample ≠ 24) ∨ e.sample_rate > 655350)) := by
  by_cases h1 : e.channels = 0 ∨ e.channels > FLAC__MAX_CHANNELS
  · exfalso
    unfold FLAC__encoder_init FLAC__encoder_init_with at hs
    dsimp only at hs
    rw [if_pos h1] at hs
    cases hs
  by_cases h2 : e.do_mid_side_stereo = true ∧ e.channels ≠ 2
  · exfalso
    unfold FLAC__encoder_init FLAC__encoder_init_with at hs
    dsimp only at hs
    rw [if_neg h1, if_pos h2] at hs
    cases hs
  by_cases h3 : e.do_mid_side_stereo = true ∧ e.bits_per_sample > 16
  · exfalso
    unfold FLAC__encoder_init FLAC__encoder_init_with at hs
    dsimp only at hs
    rw [if_neg h1, if_neg h2, if_pos h3] at hs
    cases hs
  by_cases h4 : e.bits_per_sample = 0 ∨ e.bits_per_sample > FLAC__MAX_BITS_PER_SAMPLE
  · exfalso
    unfold FLAC__encoder_init FLAC__encoder_init_with at hs
    dsimp only at hs
    rw [if_neg h1, if_neg h2, if_neg h3, if_pos h4] at hs
    cases hs
  by_cases h5 : e.sample_rate = 0 ∨ e.sample_rate > FLAC__MAX_SAMPLE_RATE
  · exfalso
    unfold FLAC__encoder_init FLAC__encoder_init_with at hs
    dsimp only at hs
    rw [if_neg h1, if_neg h2, if_neg h3, if_neg h4, if_pos h5] at hs
    cases hs
  by_cases h6 : e.blocksize < FLAC__MIN_BLOCK_SIZE ∨ e.blocksize > FLAC__MAX_BLOCK_SIZE
  · exfalso
    unfold FLAC__encoder_init FLAC__encoder_init_with at hs
    dsimp only at hs
    rw [if_neg h1, if_neg h2, if_neg h3, if_neg h4, if_neg h5, if_pos h6] at hs
    cases hs
  by_cases h7 : e.blocksize < e.max_lpc_order
  · exfalso
    unfold FLAC__encoder_init FLAC__encoder_init_with at hs
    dsimp only at hs
    rw [if_neg h1, if_neg h2, if_neg h3, if_neg h4, if_neg h5, if_neg h6, if_pos h7] at hs
    cases hs
  by_cases h8 : e.qlp_coeff_precision ≠ 0 ∧
      (e.qlp_coeff_precision < FLAC__MIN_QLP_COEFF_PRECISION ∨
        (e.qlp_coeff_precision + e.bits_per_sample) % 2 ^ 32 ≥ 32)
  · exfalso
    unfold FLAC__encoder_init FLAC__encoder_init_with at hs
    dsimp only at hs
    rw [if_neg h1, if_neg h2, if_neg h3, if_neg h4, if_neg h5, if_neg h6, if_neg h7,
      if_pos h8] at hs
    cases hs
  by_cases h9 : e.streamable_subset = true ∧
      ((e.bits_per_sample ≠ 8 ∧ e.bits_per_sample ≠ 12 ∧ e.bits_per_sample ≠ 16 ∧
          e.bits_per_sample ≠ 20 ∧ e.bits_per_sample ≠ 24) ∨ e.sample_rate > 655350)
  · exfalso
    unfold FLAC__encoder_init FLAC__encoder_init_with at hs
    dsimp only at hs
    rw [if_neg h1, if_neg h2, if_neg h3, if_neg h4, if_neg h5, if_neg h6, if_neg h7,
      if_neg h8] at hs
    split_ifs at hs
    all_goals first
      | cases hs
      | (rcases h9 with ⟨hsub, hb | hr⟩ <;> simp_all)
  · exact ⟨h1, h2, h3, h4, h5, h6, h7, h8, h9⟩

/-- Settings that pass every parameter check reach the allocation part of
`FLAC__encoder_init` with the level limited and with the precision given or chosen. -/
theorem init_passes_checks_settings (lib : EncoderLib) (client : EncoderClient) (e : Encoder)
    (h1 : ¬ (e.channels = 0 ∨ e.channels > FLAC__MAX_CHANNELS))
    (h2 : ¬ (e.do_mid_side_stereo = true ∧ e.channels ≠ 2))
    (h3 : ¬ (e.do_mid_side_stereo = true ∧ e.bits_per_sample > 16))
    (h4 : ¬ (e.bits_per_sample = 0 ∨ e.bits_per_sample > FLAC__MAX_BITS_PER_SAMPLE))
    (h5 : ¬ (e.sample_rate = 0 ∨ e.sample_rate > FLAC__MAX_SAMPLE_RATE))
    (h6 : ¬ (e.blocksize < FLAC__MIN_BLOCK_SIZE ∨ e.blocksize > FLAC__MAX_BLOCK_SIZE))
    (h7 : ¬ e.blocksize < e.max_lpc_order)
    (h8 : ¬ (e.qlp_coeff_precision ≠ 0 ∧
      (e.qlp_coeff_precision < FLAC__MIN_QLP_COEFF_PRECISION ∨
        (e.qlp_coeff_precision + e.bits_per_sample) % 2 ^ 32 ≥ 32)))
    (h9 : ¬ (e.streamable_subset = true ∧
      ((e.bits_per_sample ≠ 8 ∧ e.bits_per_sample ≠ 12 ∧ e.bits_per_sample ≠ 16 ∧
          e.bits_per_sample ≠ 20 ∧ e.bits_per_sample ≠ 24) ∨ e.sample_rate > 655350))) :
    ∃ e' : Encoder,
      e'.rice_optimization_level ≤
        2 ^ FLAC__ENTROPY_CODING_METHOD_PARTITIONED_RICE_ORDER_LEN - 1 ∧
      FLAC__encoder_init lib client e = encoder_init_guts lib client e' := by
  unfold FLAC__encoder_init FLAC__encoder_init_with
  dsimp only
  rw [if_neg h1, if_neg h2, if_neg h3, if_neg h4, if_neg h5, if_neg h6, if_neg h7, if_neg h8]
  split_ifs
  all_goals first
    | (refine ⟨_, ?_, rfl⟩; dsimp only; exact le_refl _)
    | (refine ⟨_, ?_, rfl⟩; dsimp only
       simp only [FLAC__ENTROPY_CODING_METHOD_PARTITIONED_RICE_ORDER_LEN] at *; omega)
    | (exfalso; simp_all)

/-- After a successful `FLAC__encoder_init` the level is at most `2^ORDER_LEN - 1`. -/
theorem init_rice_optimization_level (lib : EncoderLib) (client : EncoderClient)
    (e : Encoder) (hs : (FLAC__encoder_init lib client e).1.state = .OK) :
    (FLAC__encoder_init lib client e).1.rice_optimization_level ≤
      2 ^ FLAC__ENTROPY_CODING_METHOD_PARTITIONED_RICE_ORDER_LEN - 1 := by
  obtain ⟨h1, h2, h3, h4, h5, h6, h7, h8, h9⟩ := init_ok_passes_checks lib client e hs
  obtain ⟨e', k1, k2⟩ := init_passes_checks_settings lib client e h1 h2 h3 h4 h5 h6 h7 h8 h9
  rw [k2, encoder_init_guts_level]
  exact k1

/-- C27: for settings with a blocksize from 1 up to the `unsigned` range, the counting loop
ends, and for a frame that is not the last the maximum partition order is
`min(rice_optimization_level, t)` where `2^t` is the largest power of two dividing the
blocksize, so `2^max_partition_order` divides the blocksize; for the last frame it is 0; and
after a successful `FLAC__encoder_init` the level is at most `2^ORDER_LEN - 1`. -/
theorem partition_order_cap (lib : EncoderLib) (client : EncoderClient) (e : Encoder)
    (s : EncoderSettings) (h1 : 1 ≤ s.blocksize) (h2 : s.blocksize < 2 ^ 32) :
    (∃ t, 2 ^ t ∣ s.blocksize ∧ ¬ 2 ^ (t + 1) ∣ s.blocksize ∧
        max_partition_order_of s false = some (min s.rice_optimization_level t) ∧
        2 ^ min s.rice_optimization_level t ∣ s.blocksize) ∧
      max_partition_order_of s true = some 0 ∧
      ((FLAC__encoder_init lib client e).1.state = .OK →
        (FLAC__encoder_init lib client e).1.rice_optimization_level ≤
          2 ^ FLAC__ENTROPY_CODING_METHOD_PARTITIONED_RICE_ORDER_LEN - 1) := by
  refine ⟨?_, rfl, init_rice_optimization_level lib client e⟩
  obtain ⟨t, k1, k2, k3⟩ := limit_loop_spec 33 s.blocksize 0 h1
    (lt_trans h2 (by norm_num))
  refine ⟨t, k2, k3, ?_, dvd_trans (pow_dvd_pow 2 (min_le_right _ _)) k2⟩
  unfold max_partition_order_of
  rw [k1, Nat.zero_add]
  rfl

/-- Witness for C27: the example settings with blocksize 16 and level 0. -/
theorem partition_order_cap_witness :
    (∃ t, 2 ^ t ∣ (example_encoder 16 0).blocksize ∧
        ¬ 2 ^ (t + 1) ∣ (example_encoder 16 0).blocksize ∧
        max_partition_order_of (example_encoder 16 0).toEncoderSettings false =
          some (min (example_encoder 16 0).rice_optimization_level t) ∧
        2 ^ min (example_encoder 16 0).rice_optimization_level t ∣
          (example_encoder 16 0).blocksize) ∧
      max_partition_order_of (example_encoder 16 0).toEncoderSettings true = some 0 ∧
      ((FLAC__encoder_init example_lib example_encoder_client (example_encoder 16 0)).1.state =
          .OK →
        (FLAC__encoder_init example_lib example_encoder_client
          (example_encoder 16 0)).1.rice_optimization_level ≤
          2 ^ FLAC__ENTROPY_CODING_METHOD_PARTITIONED_RICE_ORDER_LEN - 1) :=
  partition_order_cap example_lib example_encoder_client (example_encoder 16 0)
    (example_encoder 16 0).toEncoderSettings (by decide) (by decide)

/-- One step of the partition order search keeps the state the best of the orders seen, and
the search stops at the first rejected order. -/
theorem best_partition_loop_spec (residual : List Int) (rs po rp m : Nat)
    (hnz : ∀ q, q ≤ m → ∀ r, encoder_set_partitioned_rice_ residual rs po rp q = some r →
      r.2 ≠ 0) :
    ∀ (count o : Nat) (best : Nat × Nat × List Nat), o + count = m + 1 →
      best_partition_so_far residual rs po rp o best →
      ∃ n, o ≤ n ∧ n ≤ m + 1 ∧
        (n ≤ m → encoder_set_partitioned_rice_ residual rs po rp n = none) ∧
        best_partition_so_far residual rs po rp n
          (best_partition_loop residual rs po rp count o best) := by
  intro count
  induction count with
  | zero =>
      intro o best ho hinv
      exact ⟨o, le_refl _, by omega, fun h => by omega, hinv⟩
  | succ count ih =>
      intro o best ho hinv
      unfold best_partition_loop
      cases hR : encoder_set_partitioned_rice_ residual rs po rp o with
      | none => exact ⟨o, le_refl _, by omega, fun _ => hR, hinv⟩
      | some r =>
          obtain ⟨parameters, bits⟩ := r
          dsimp only
          obtain ⟨i1, i2, i3, i4, i5⟩ := hinv
          have hb : bits ≠ 0 := hnz o (by omega) _ hR
          have hstep : best_partition_so_far residual rs po rp (o + 1)
              (if best.1 = 0 ∨ bits < best.1 then (bits, o, parameters) else best) := by
            by_cases hc : best.1 = 0 ∨ bits < best.1
            · rw [if_pos hc]
              have hlt : bits < best.1 := by
                rcases hc with hc | hc
                · exact absurd hc i3
                · exact hc
              refine ⟨Nat.lt_succ_self o, hR, hb, fun q hq => ?_, fun q hq => ?_⟩
              · by_cases hqo : q = o
                · subst hqo
                  exact ⟨_, hR, le_refl _⟩
                · obtain ⟨r, k1, k2⟩ := i4 q (by omega)
                  exact ⟨r, k1, le_trans (le_of_lt hlt) k2⟩
              · obtain ⟨r, k1, k2⟩ := i4 q hq
                exact ⟨r, k1, lt_of_lt_of_le hlt k2⟩
            · rw [if_neg hc]
              refine ⟨Nat.lt_succ_of_lt i1, i2, i3, fun q hq => ?_, i5⟩
              by_cases hqo : q = o
              · subst hqo
                exact ⟨_, hR, by
                  show best.1 ≤ bits
                  by_contra hlt
                  exact hc (Or.inr (by omega))⟩
              · exact i4 q (by omega)
          obtain ⟨n, k1, k2, k3, k4⟩ := ih (o + 1) _ (by omega) hstep
          exact ⟨n, by omega, k2, k3, k4⟩

/-- C28: when no bit count computed for an order up to `max_partition_order` is 0 (the
`unsigned` sum has not wrapped to 0), `encoder_find_best_partition_order_` has searched the
orders `0 .. n-1`, where `n >= 1` is the first order that `encoder_set_partitioned_rice_`
rejects or `max_partition_order + 1`; all of these are accepted, the value returned is the
bit count of the order stored in `*best_partition_order`, the parameters stored are the ones
computed for that order, no searched order has fewer bits, and every order below the stored
one has more. -/
theorem find_best_partition_order_spec (residual : List Int) (rs po rp m : Nat)
    (hnz : ∀ q, q ≤ m → ∀ r, encoder_set_partitioned_rice_ residual rs po rp q = some r →
      r.2 ≠ 0) :
    ∃ n, 1 ≤ n ∧ n ≤ m + 1 ∧
      (n ≤ m → encoder_set_partitioned_rice_ residual rs po rp n = none) ∧
      (encoder_find_best_partition_order_ residual rs po rp m).2.1 < n ∧
      encoder_set_partitioned_rice_ residual rs po rp
          (encoder_find_best_partition_order_ residual rs po rp m).2.1 =
        some ((encoder_find_best_partition_order_ residual rs po rp m).2.2,
          (encoder_find_best_partition_order_ residual rs po rp m).1) ∧
      (∀ q, q < n → ∃ r, encoder_set_partitioned_rice_ residual rs po rp q = some r ∧
        (encoder_find_best_partition_order_ residual rs po rp m).1 ≤ r.2) ∧
      (∀ q, q < (encoder_find_best_partition_order_ residual rs po rp m).2.1 →
        ∃ r, encoder_set_partitioned_rice_ residual rs po rp q = some r ∧
          (encoder_find_best_partition_order_ residual rs po rp m).1 < r.2) := by
  unfold encoder_find_best_partition_order_
  have h0 : ∃ r, encoder_set_partitioned_rice_ residual rs po rp 0 = some r := by
    unfold encoder_set_partitioned_rice_
    exact ⟨_, rfl⟩
  obtain ⟨⟨parameters, bits⟩, hR⟩ := h0
  have hstart : best_partition_loop residual rs po rp (m + 1) 0 (0, 0, []) =
      best_partition_loop residual rs po rp m 1 (bits, 0, parameters) := by
    conv_lhs => unfold best_partition_loop
    rw [hR]
    dsimp only
    rw [if_pos (Or.inl rfl)]
  rw [hstart]
  have hinv : best_partition_so_far residual rs po rp 1 (bits, 0, parameters) := by
    refine ⟨Nat.lt_succ_self 0, hR, hnz 0 (Nat.zero_le _) _ hR, fun q hq => ?_,
      fun q hq => absurd hq (Nat.not_lt_zero _)⟩
    have : q = 0 := by omega
    subst this
    exact ⟨_, hR, le_refl _⟩
  obtain ⟨n, k1, k2, k3, k4, k5, k6, k7, k8⟩ :=
    best_partition_loop_spec residual rs po rp m hnz m 1 _ (by omega) hinv
  exact ⟨n, k1, k2, k3, k4, k5, k7, k8⟩

/-- Witness for C28: the six example residuals with predictor order 2, orders 0 to 2 (order
2 is rejected). -/
theorem find_best_partition_order_spec_witness :
    ∃ n, 1 ≤ n ∧ n ≤ 2 + 1 ∧
      (n ≤ 2 → encoder_set_partitioned_rice_ example_residual 6 2 0 n = none) ∧
      (encoder_find_best_partition_order_ example_residual 6 2 0 2).2.1 < n ∧
      encoder_set_partitioned_rice_ example_residual 6 2 0
          (encoder_find_best_partition_order_ example_residual 6 2 0 2).2.1 =
        some ((encoder_find_best_partition_order_ example_residual 6 2 0 2).2.2,
          (encoder_find_best_partition_order_ example_residual 6 2 0 2).1) ∧
      (∀ q, q < n → ∃ r, encoder_set_partitioned_rice_ example_residual 6 2 0 q = some r ∧
        (encoder_find_best_partition_order_ example_residual 6 2 0 2).1 ≤ r.2) ∧
      (∀ q, q < (encoder_find_best_partition_order_ example_residual 6 2 0 2).2.1 →
        ∃ r, encoder_set_partitioned_rice_ example_residual 6 2 0 q = some r ∧
          (encoder_find_best_partition_order_ example_residual 6 2 0 2).1 < r.2) :=
  find_best_partition_order_spec example_residual 6 2 0 2 (by
    intro q hq r hr
    have hq3 : q = 0 ∨ q = 1 ∨ q = 2 := by omega
    have hx : r = (encoder_set_partitioned_rice_ example_residual 6 2 0 q).getD ([], 1) := by
      rw [hr]
      rfl
    rw [hx]
    rcases hq3 with h | h | h <;> subst h <;> decide)

/-- For sample sizes up to 26 bits the automatic precision passes the test of an explicit
one. -/
theorem default_qlp_coeff_precision_valid (bits_per_sample blocksize : Nat)
    (h1 : 1 ≤ bits_per_sample) (h2 : bits_per_sample ≤ 26) :
    5 ≤ default_qlp_coeff_precision bits_per_sample blocksize ∧
      default_qlp_coeff_precision bits_per_sample blocksize + bits_per_sample < 32 ∧
      default_qlp_coeff_precision bits_per_sample blocksize ≤ 15 := by
  unfold default_qlp_coeff_precision
  dsimp only
  split_ifs <;> omega

/-! ## Stream encoder: the candidate search of one channel -/

theorem foldlM_option_invariant {σ : Type} (I : σ → Prop) (body : σ → Nat → Option σ)
    (hb : ∀ s x t, I s → body s x = some t → I t) (l : List Nat) :
    ∀ s t : σ, I s → l.foldlM body s = some t → I t := by
  induction l with
  | nil =>
      intro s t hs h
      simp only [List.foldlM_nil, Option.pure_def, Option.some.injEq] at h
      rw [← h]
      exact hs
  | cons x rest ih =>
      intro s t hs h
      rw [List.foldlM_cons] at h
      cases hx : body s x with
      | none =>
          rw [hx] at h
          cases h
      | some u =>
          rw [hx] at h
          exact ih u t (hb s x u hs hx) h

theorem for_inclusive_invariant {σ : Type} (I : σ → Prop) (lo hi : Nat)
    (body : Nat → σ → Option σ) (hb : ∀ x s t, I s → body x s = some t → I t) (s t : σ)
    (hs : I s) (h : for_inclusive lo hi body s = some t) : I t := by
  unfold for_inclusive at h
  split_ifs at h
  exact foldlM_option_invariant I (fun s x => body x s) (fun s x t => hb x s t) _ s t hs h

theorem other_residual_ne (b : Nat) : other_residual b ≠ b := by
  unfold other_residual
  split_ifs <;> omega

theorem other_residual_lt (b : Nat) : other_residual b < 2 := by
  unfold other_residual
  split_ifs <;> omega

/-- An invariant of the two candidate steps is an invariant of the LPC part of the
search. -/
theorem lpc_search_invariant (I : SubframeSearch → Prop) (lib : EncoderLib)
    (e : EncoderSettings) (fh : FrameHeader) (signal : List Int) (mpo : Nat)
    (hq : ∀ lp_coeff order rp precision s, I s →
      I (qlp_precision_step lib signal lp_coeff fh.blocksize fh.bits_per_sample order rp mpo
        precision s))
    (s t : SubframeSearch) (hs : I s) (h : lpc_search lib e fh signal mpo s = some t) :
    I t := by
  unfold lpc_search at h
  dsimp only at h
  split_ifs at h
  all_goals first
    | (simp only [Option.some.injEq] at h; rw [← h]; exact hs)
    | (refine for_inclusive_invariant I _ _ _ ?_ s t hs h
       intro x u v hu hstep
       unfold lpc_order_step at hstep
       dsimp only at hstep
       split_ifs at hstep
       · simp only [Option.some.injEq] at hstep
         rw [← hstep]
         exact hu
       · refine for_inclusive_invariant I _ _ _ ?_ u v hu hstep
         intro p a b ha hab
         simp only [Option.some.injEq] at hab
         rw [← hab]
         exact hq _ _ _ _ _ ha)

/-- An invariant of the two candidate steps that holds for the verbatim baseline and
for the constant candidate is an invariant of the whole search of a channel. -/
theorem subframe_search_invariant (I : SubframeSearch → Prop) (lib : EncoderLib)
    (e : EncoderSettings) (fh : FrameHeader) (signal : List Int) (mpo : Nat)
    (hf : ∀ bits order s, I s →
      I (fixed_order_step lib signal bits fh.blocksize fh.bits_per_sample mpo order s))
    (hq : ∀ lp_coeff order rp precision s, I s →
      I (qlp_precision_step lib signal lp_coeff fh.blocksize fh.bits_per_sample order rp mpo
        precision s))
    (s0 t : SubframeSearch)
    (hs : I { s0 with
      best_subframe := (encoder_evaluate_verbatim_subframe_ fh.blocksize
        fh.bits_per_sample).2
      best_bits := (encoder_evaluate_verbatim_subframe_ fh.blocksize fh.bits_per_sample).1 })
    (hnc : (lib.fixed_compute_best_predictor signal
      (fh.blocksize - FLAC__MAX_FIXED_ORDER)).2.getD 1 0 ≠ 0 ∨
        fh.blocksize < FLAC__MAX_FIXED_ORDER ∨ signal_is_constant signal = false)
    (h : subframe_search lib e fh signal mpo s0 = some t) : I t := by
  unfold subframe_search at h
  dsimp only at h
  by_cases c1 : fh.blocksize ≥ FLAC__MAX_FIXED_ORDER
  · rw [if_pos c1] at h
    by_cases c2 : (lib.fixed_compute_best_predictor signal
        (fh.blocksize - FLAC__MAX_FIXED_ORDER)).2.getD 1 0 = 0
    · rw [if_pos c2] at h
      have c3 : signal_is_constant signal = false := by
        rcases hnc with h1 | h1 | h1
        · exact absurd c2 h1
        · omega
        · exact h1
      rw [c3] at h
      simp only [Bool.false_eq_true, if_false, Option.some.injEq] at h
      rw [← h]
      exact hs
    · rw [if_neg c2] at h
      split at h
      · cases h
      · rename_i s2 hfix
        have h2 : I s2 := by
          refine for_inclusive_invariant I _ _ _ ?_ _ s2 hs hfix
          intro x u v hu huv
          simp only [Option.some.injEq] at huv
          rw [← huv]
          exact hf _ _ _ hu
        exact lpc_search_invariant I lib e fh signal mpo hq s2 t h2 h
  · rw [if_neg c1] at h
    simp only [Option.some.injEq] at h
    rw [← h]
    exact hs

theorem evaluated_of_other_array (lib : EncoderLib) (signal : List Int) (bs bps mpo : Nat)
    (s : SubframeSearch) (x : List Int) (c : SubframeHeader)
    (h : residual_arrays_in_place s ∧ best_is_evaluated lib signal bs bps mpo s) :
    residual_arrays_in_place
        { s with residual := s.residual.set (other_residual s.best_residual) x,
                 candidate_subframe := c } ∧
      best_is_evaluated lib signal bs bps mpo
        { s with residual := s.residual.set (other_residual s.best_residual) x,
                 candidate_subframe := c } := by
  obtain ⟨⟨h1, h2⟩, h3, h4⟩ := h
  have hget : (s.residual.set (other_residual s.best_residual) x).getD s.best_residual [] =
      s.residual.getD s.best_residual [] := by
    rw [getD_set, if_neg (fun hc => other_residual_ne _ hc.1)]
  refine ⟨⟨by rw [List.length_set]; exact h1, h2⟩, h3, ?_⟩
  dsimp only
  rw [hget]
  exact h4

theorem promoted_array (s : SubframeSearch) (x : List Int)
    (h : residual_arrays_in_place s) :
    (s.residual.set (other_residual s.best_residual) x).getD (other_residual s.best_residual)
      [] = x := by
  rw [getD_set, if_pos ⟨rfl, by rw [h.1]; exact other_residual_lt _⟩]

theorem fixed_order_step_evaluated (lib : EncoderLib) (signal : List Int) (bits : List ℚ)
    (bs bps mpo order : Nat) (s : SubframeSearch)
    (h : residual_arrays_in_place s ∧ best_is_evaluated lib signal bs bps mpo s) :
    residual_arrays_in_place (fixed_order_step lib signal bits bs bps mpo order s) ∧
      best_is_evaluated lib signal bs bps mpo
        (fixed_order_step lib signal bits bs bps mpo order s) := by
  unfold fixed_order_step
  dsimp only
  split_ifs with c1 c2
  · exact h
  · unfold encoder_promote_candidate_subframe_
    refine ⟨⟨by rw [List.length_set]; exact h.1.1, other_residual_lt _⟩,
      le_trans (le_of_lt c2) h.2.1,
      Or.inr (Or.inl ⟨s.residual.getD (other_residual s.best_residual) [], order,
        rice_parameter_of_bits (bits.getD order 0), ?_⟩)⟩
    dsimp only
    rw [promoted_array s _ h.1]
  · exact evaluated_of_other_array lib signal bs bps mpo s _ _ h

theorem qlp_precision_step_evaluated (lib : EncoderLib) (signal : List Int)
    (lp_coeff : List ℚ) (bs bps order rp mpo precision : Nat) (s : SubframeSearch)
    (h : residual_arrays_in_place s ∧ best_is_evaluated lib signal bs bps mpo s) :
    residual_arrays_in_place
        (qlp_precision_step lib signal lp_coeff bs bps order rp mpo precision s) ∧
      best_is_evaluated lib signal bs bps mpo
        (qlp_precision_step lib signal lp_coeff bs bps order rp mpo precision s) := by
  unfold qlp_precision_step
  dsimp only
  cases hr : (encoder_evaluate_lpc_subframe_ lib signal
      (s.residual.getD (other_residual s.best_residual) []) lp_coeff bs bps order precision rp
      mpo).2 with
  | none =>
      dsimp only
      have h0 : (encoder_evaluate_lpc_subframe_ lib signal
          (s.residual.getD (other_residual s.best_residual) []) lp_coeff bs bps order
          precision rp mpo).1 = 0 := by
        revert hr
        unfold encoder_evaluate_lpc_subframe_
        dsimp only
        split_ifs
        · intro _
          rfl
        · intro hc
          cases hc
      rw [h0, if_neg (fun hc => absurd hc.1 (Nat.lt_irrefl 0))]
      exact h
  | some w =>
      dsimp only
      split_ifs with c
      · unfold encoder_promote_candidate_subframe_
        refine ⟨⟨by rw [List.length_set]; exact h.1.1, other_residual_lt _⟩,
          le_trans (le_of_lt c.2) h.2.1,
          Or.inr (Or.inr ⟨s.residual.getD (other_residual s.best_residual) [], lp_coeff, order,
            precision, rp, ?_⟩)⟩
        dsimp only
        rw [promoted_array s _ h.1, ← hr]
      · exact evaluated_of_other_array lib signal bs bps mpo s _ _ h

theorem fixed_order_step_strict (lib : EncoderLib) (signal : List Int) (bits : List ℚ)
    (bs bps mpo order : Nat) (s : SubframeSearch) :
    ((fixed_order_step lib signal bits bs bps mpo order s).best_subframe = s.best_subframe ∧
        (fixed_order_step lib signal bits bs bps mpo order s).best_residual =
          s.best_residual ∧
        (fixed_order_step lib signal bits bs bps mpo order s).best_bits = s.best_bits) ∨
      (fixed_order_step lib signal bits bs bps mpo order s).best_bits < s.best_bits := by
  unfold fixed_order_step
  dsimp only
  split_ifs with c1 c2
  · exact Or.inl ⟨rfl, rfl, rfl⟩
  · exact Or.inr c2
  · exact Or.inl ⟨rfl, rfl, rfl⟩

theorem qlp_precision_step_strict (lib : EncoderLib) (signal : List Int)
    (lp_coeff : List ℚ) (bs bps order rp mpo precision : Nat) (s : SubframeSearch) :
    ((qlp_precision_step lib signal lp_coeff bs bps order rp mpo precision s).best_subframe =
          s.best_subframe ∧
        (qlp_precision_step lib signal lp_coeff bs bps order rp mpo precision s).best_residual =
          s.best_residual ∧
        (qlp_precision_step lib signal lp_coeff bs bps order rp mpo precision s).best_bits =
          s.best_bits) ∨
      (qlp_precision_step lib signal lp_coeff bs bps order rp mpo precision s).best_bits <
        s.best_bits := by
  unfold qlp_precision_step
  dsimp only
  cases (encoder_evaluate_lpc_subframe_ lib signal
      (s.residual.getD (other_residual s.best_residual) []) lp_coeff bs bps order precision rp
      mpo).2 with
  | none =>
      dsimp only
      split_ifs with c
      · exact Or.inr c.2
      · exact Or.inl ⟨rfl, rfl, rfl⟩
  | some w =>
      dsimp only
      split_ifs with c
      · exact Or.inr c.2
      · exact Or.inl ⟨rfl, rfl, rfl⟩

/-- The search of a channel keeps the residual arrays in place, and its best subframe is
accounted for or is the constant one with an estimate below the verbatim one. -/
theorem subframe_search_accounted (lib : EncoderLib) (e : EncoderSettings)
    (fh : FrameHeader) (signal : List Int) (mpo : Nat) (s0 s : SubframeSearch)
    (hshape : residual_arrays_in_place s0)
    (h : subframe_search lib e fh signal mpo s0 = some s) :
    residual_arrays_in_place s ∧
      best_is_evaluated lib signal fh.blocksize fh.bits_per_sample mpo s ∨
      residual_arrays_in_place s ∧
        s.best_bits ≤ (8 + fh.blocksize * fh.bits_per_sample) % 2 ^ 32 ∧
        ∃ v, s.best_subframe = .CONSTANT v := by
  by_cases hc : (lib.fixed_compute_best_predictor signal
      (fh.blocksize - FLAC__MAX_FIXED_ORDER)).2.getD 1 0 ≠ 0 ∨
        fh.blocksize < FLAC__MAX_FIXED_ORDER ∨ signal_is_constant signal = false
  · left
    exact subframe_search_invariant
      (fun t => residual_arrays_in_place t ∧
        best_is_evaluated lib signal fh.blocksize fh.bits_per_sample mpo t)
      lib e fh signal mpo
      (fun bits order t ht => fixed_order_step_evaluated lib signal bits _ _ mpo order t ht)
      (fun lp order rp p t ht => qlp_precision_step_evaluated lib signal lp _ _ order rp mpo p
        t ht)
      s0 s ⟨hshape, le_refl _, Or.inl rfl⟩ hc h
  · have c1 : fh.blocksize ≥ FLAC__MAX_FIXED_ORDER := by
      by_contra hlt
      exact hc (Or.inr (Or.inl (by omega)))
    have c2 : (lib.fixed_compute_best_predictor signal
        (fh.blocksize - FLAC__MAX_FIXED_ORDER)).2.getD 1 0 = 0 := by
      by_contra hne
      exact hc (Or.inl hne)
    have c3 : signal_is_constant signal = true := by
      cases hb : signal_is_constant signal with
      | true => rfl
      | false => exact absurd (Or.inr (Or.inr hb)) hc
    unfold subframe_search at h
    dsimp only at h
    rw [if_pos c1, if_pos c2, c3] at h
    simp only [if_true] at h
    split_ifs at h with c4
    · right
      simp only [Option.some.injEq] at h
      rw [← h]
      unfold encoder_promote_candidate_subframe_ encoder_evaluate_constant_subframe_
      exact ⟨⟨hshape.1, other_residual_lt _⟩, le_of_lt c4, _, rfl⟩
    · left
      simp only [Option.some.injEq] at h
      rw [← h]
      exact ⟨hshape, le_refl _, Or.inl rfl⟩

/-- The channel loop hands the residual arrays from one channel to the next in place. -/
theorem subframes_channel_loop_arrays (lib : EncoderLib) (fh : FrameHeader)
    (sig : List (List Int)) (mpo : Nat) (l : List Nat) :
    ∀ (e : ActiveEncoder) (frame : BitBuffer) (r : Bool × ActiveEncoder × BitBuffer),
      e.guts.residual.length = 2 ∧ e.guts.best_residual < 2 →
      subframes_channel_loop lib fh sig mpo l e frame = some r →
      r.2.1.guts.residual.length = 2 ∧ r.2.1.guts.best_residual < 2 := by
  induction l with
  | nil =>
      intro e frame r he h
      unfold subframes_channel_loop at h
      simp only [Option.some.injEq] at h
      rw [← h]
      exact he
  | cons c rest ih =>
      intro e frame r he h
      unfold subframes_channel_loop at h
      dsimp only at h
      cases hs : subframe_search lib e.toEncoderSettings fh (sig.getD c []) mpo
          { best_subframe := e.guts.best_subframe
            candidate_subframe := e.guts.candidate_subframe
            residual := e.guts.residual
            best_residual := e.guts.best_residual
            best_bits := 0 } with
      | none =>
          rw [hs] at h
          cases h
      | some s =>
          rw [hs] at h
          dsimp only at h
          have hk : residual_arrays_in_place s := by
            have hk0 := subframe_search_accounted lib e.toEncoderSettings fh (sig.getD c [])
              mpo _ s ?_ hs
            · rcases hk0 with k | k
              · exact k.1
              · exact k.1
            · exact he
          cases hadd : add_best_subframe lib s (sig.getD c []) fh frame with
          | none =>
              rw [hadd] at h
              simp only [Option.some.injEq] at h
              rw [← h]
              exact hk
          | some frame1 =>
              rw [hadd] at h
              refine ih _ _ r ?_ h
              exact hk


/-- C35: for one channel, started with the two residual arrays in place (as every channel
of every frame finds them, the search leaving them so), the search of
`encoder_process_subframes_` ends with an estimate that is at most the verbatim estimate
`8 + blocksize * bits_per_sample`; when the best subframe is FIXED, some call of
`encoder_evaluate_fixed_subframe_` on this signal with that order returned exactly this
estimate, this subframe and the residual now in `residual[best_residual]`, and likewise for
LPC with `encoder_evaluate_lpc_subframe_`; each fixed or LPC candidate step either keeps the
best subframe, its array index and its estimate, or lowers the estimate strictly; and the
channel loop leaves the residual arrays in place for the next channel and the next frame. -/
theorem subframe_search_bookkeeping (lib : EncoderLib) (e : EncoderSettings)
    (fh : FrameHeader) (signal : List Int) (mpo : Nat) (s0 s : SubframeSearch)
    (hshape : residual_arrays_in_place s0)
    (h : subframe_search lib e fh signal mpo s0 = some s) :
    residual_arrays_in_place s ∧
      s.best_bits ≤ (8 + fh.blocksize * fh.bits_per_sample) % 2 ^ 32 ∧
      (∀ order warmup rice, s.best_subframe = .FIXED order warmup rice →
        ∃ prior rice_parameter,
          encoder_evaluate_fixed_subframe_ lib signal prior fh.blocksize fh.bits_per_sample
              order rice_parameter mpo =
            (s.best_bits, s.residual.getD s.best_residual [], s.best_subframe)) ∧
      (∀ order precision level coeff warmup rice,
        s.best_subframe = .LPC order precision level coeff warmup rice →
        ∃ prior lp_coeff rice_parameter,
          encoder_evaluate_lpc_subframe_ lib signal prior lp_coeff fh.blocksize
              fh.bits_per_sample order precision rice_parameter mpo =
            (s.best_bits, some (s.residual.getD s.best_residual [], s.best_subframe))) ∧
      (∀ bits order t,
        ((fixed_order_step lib signal bits fh.blocksize fh.bits_per_sample mpo order
              t).best_subframe = t.best_subframe ∧
            (fixed_order_step lib signal bits fh.blocksize fh.bits_per_sample mpo order
              t).best_residual = t.best_residual ∧
            (fixed_order_step lib signal bits fh.blocksize fh.bits_per_sample mpo order
              t).best_bits = t.best_bits) ∨
          (fixed_order_step lib signal bits fh.blocksize fh.bits_per_sample mpo order
            t).best_bits < t.best_bits) ∧
      (∀ lp_coeff order rp precision t,
        ((qlp_precision_step lib signal lp_coeff fh.blocksize fh.bits_per_sample order rp mpo
              precision t).best_subframe = t.best_subframe ∧
            (qlp_precision_step lib signal lp_coeff fh.blocksize fh.bits_per_sample order rp mpo
              precision t).best_residual = t.best_residual ∧
            (qlp_precision_step lib signal lp_coeff fh.blocksize fh.bits_per_sample order rp mpo
              precision t).best_bits = t.best_bits) ∨
          (qlp_precision_step lib signal lp_coeff fh.blocksize fh.bits_per_sample order rp mpo
            precision t).best_bits < t.best_bits) ∧
      (∀ (sig : List (List Int)) (l : List Nat) (a : ActiveEncoder) (frame : BitBuffer)
          (r : Bool × ActiveEncoder × BitBuffer),
        a.guts.residual.length = 2 ∧ a.guts.best_residual < 2 →
        subframes_channel_loop lib fh sig mpo l a frame = some r →
        r.2.1.guts.residual.length = 2 ∧ r.2.1.guts.best_residual < 2) := by
  have key := subframe_search_accounted lib e fh signal mpo s0 s hshape h
  refine ⟨?_, ?_, ?_, ?_,
    fun bits order t => fixed_order_step_strict lib signal bits _ _ mpo order t,
    fun lp order rp p t => qlp_precision_step_strict lib signal lp _ _ order rp mpo p t,
    fun sig l a frame r => subframes_channel_loop_arrays lib fh sig mpo l a frame r⟩
  · rcases key with k | k
    · exact k.1
    · exact k.1
  · rcases key with k | k
    · exact k.2.1
    · exact k.2.1
  · intro order warmup rice hbest
    rcases key with ⟨-, -, k⟩ | ⟨-, -, v, k⟩
    · rcases k with k | ⟨prior, order1, rp, k⟩ | ⟨prior, lp, order1, p, rp, k⟩
      · rw [hbest] at k
        cases k
      · have k3 := congrArg (fun x => x.2.2) k
        unfold encoder_evaluate_fixed_subframe_ at k3
        dsimp only at k3
        rw [hbest] at k3
        injection k3 with k4
        subst k4
        exact ⟨prior, rp, k⟩
      · exfalso
        revert k
        unfold encoder_evaluate_lpc_subframe_
        dsimp only
        split_ifs
        · intro k
          have := congrArg (fun x => x.2) k
          cases this
        · intro k
          have k3 := congrArg (fun x => x.2.map (fun y => y.2)) k
          dsimp only [Option.map_some'] at k3
          rw [hbest] at k3
          cases k3
    · rw [hbest] at k
      cases k
  · intro order precision level coeff warmup rice hbest
    rcases key with ⟨-, -, k⟩ | ⟨-, -, v, k⟩
    · rcases k with k | ⟨prior, order1, rp, k⟩ | ⟨prior, lp, order1, p, rp, k⟩
      · rw [hbest] at k
        cases k
      · exfalso
        have k3 := congrArg (fun x => x.2.2) k
        unfold encoder_evaluate_fixed_subframe_ at k3
        dsimp only at k3
        rw [hbest] at k3
        cases k3
      · have k0 := k
        revert k
        unfold encoder_evaluate_lpc_subframe_
        dsimp only
        split_ifs
        · intro k
          have := congrArg (fun x => x.2) k
          cases this
        · intro k
          have k3 := congrArg (fun x => x.2.map (fun y => y.2)) k
          dsimp only [Option.map_some'] at k3
          rw [hbest] at k3
          simp only [Option.some.injEq, SubframeHeader.LPC.injEq] at k3
          obtain ⟨q1, q2, -⟩ := k3
          subst q1 q2
          exact ⟨prior, lp, rp, k0⟩
    · rw [hbest] at k
      cases k

/-- Witness for C35: the search on the example block ends with the fixed subframe of order 1
as the best one. -/
theorem subframe_search_bookkeeping_witness :
    residual_arrays_in_place example_search_result ∧
      example_search_result.best_bits ≤ (8 + 16 * 16) % 2 ^ 32 ∧
      (∃ warmup rice, example_search_result.best_subframe = .FIXED 2 warmup rice) ∧
      ∃ prior rice_parameter,
        encoder_evaluate_fixed_subframe_ example_fixed_lib example_signal prior 16 16 2
            rice_parameter 0 =
          (example_search_result.best_bits,
            example_search_result.residual.getD example_search_result.best_residual [],
            example_search_result.best_subframe) :=
  have h := subframe_search_bookkeeping example_fixed_lib
    example_initialized.toEncoderSettings (example_frame_header 16) example_signal 0
    example_search example_search_result ⟨rfl, (by decide)⟩ (by decide)
  ⟨h.1, h.2.1, ⟨_, _, rfl⟩, h.2.2.1 2 _ _ rfl⟩


/-! ## Stream encoder: the constant subframe -/

theorem fixed_order_step_not_constant (lib : EncoderLib) (signal : List Int) (bits : List ℚ)
    (bs bps mpo order : Nat) (s : SubframeSearch) (h : ∀ v, s.best_subframe ≠ .CONSTANT v) :
    ∀ v, (fixed_order_step lib signal bits bs bps mpo order s).best_subframe ≠
      .CONSTANT v := by
  unfold fixed_order_step
  dsimp only
  split_ifs
  · exact h
  · intro v hv
    unfold encoder_promote_candidate_subframe_ encoder_evaluate_fixed_subframe_ at hv
    cases hv
  · exact h

theorem qlp_precision_step_not_constant (lib : EncoderLib) (signal : List Int)
    (lp_coeff : List ℚ) (bs bps order rp mpo precision : Nat) (s : SubframeSearch)
    (h : ∀ v, s.best_subframe ≠ .CONSTANT v) :
    ∀ v, (qlp_precision_step lib signal lp_coeff bs bps order rp mpo precision
      s).best_subframe ≠ .CONSTANT v := by
  unfold qlp_precision_step encoder_evaluate_lpc_subframe_
  dsimp only
  split_ifs
  all_goals first
    | exact h
    | (intro v hv
       unfold encoder_promote_candidate_subframe_ at hv
       cases hv)
    | (exfalso; omega)

/-- C26: assume that when the fixed predictor routine reports 0.0 expected bits for order 1
the samples of the block from index 4 on are all equal.  Then, when the search of
`encoder_process_subframes_` for a channel ends with a constant subframe as the best one,
the block has at least 4 samples, every one of its `blocksize` samples (the warmup samples
0..3 included) equals the value of the subframe, that value is sample 0, and the estimate is
`8 + bits_per_sample`. -/
theorem constant_subframe_spec (lib : EncoderLib) (e : EncoderSettings) (fh : FrameHeader)
    (signal : List Int) (mpo : Nat) (s0 s : SubframeSearch)
    (hpred : (lib.fixed_compute_best_predictor signal
        (fh.blocksize - FLAC__MAX_FIXED_ORDER)).2.getD 1 0 = 0 →
      ∀ i j, FLAC__MAX_FIXED_ORDER ≤ i → i < fh.blocksize → FLAC__MAX_FIXED_ORDER ≤ j →
        j < fh.blocksize → signal.getD i 0 = signal.getD j 0)
    (h : subframe_search lib e fh signal mpo s0 = some s) (v : Int)
    (hc : s.best_subframe = .CONSTANT v) :
    FLAC__MAX_FIXED_ORDER ≤ fh.blocksize ∧ v = signal.getD 0 0 ∧
      (∀ i, i < fh.blocksize → signal.getD i 0 = v) ∧
      s.best_bits = (8 + fh.bits_per_sample) % 2 ^ 32 := by
  by_cases hnc : (lib.fixed_compute_best_predictor signal
      (fh.blocksize - FLAC__MAX_FIXED_ORDER)).2.getD 1 0 ≠ 0 ∨
        fh.blocksize < FLAC__MAX_FIXED_ORDER ∨ signal_is_constant signal = false
  · exfalso
    have hn := subframe_search_invariant (fun t => ∀ v, t.best_subframe ≠ .CONSTANT v)
      lib e fh signal mpo
      (fun bits order t ht => fixed_order_step_not_constant lib signal bits _ _ mpo order t ht)
      (fun lp order rp p t ht => qlp_precision_step_not_constant lib signal lp _ _ order rp mpo
        p t ht)
      s0 s (fun v hv => by cases hv) hnc h
    exact hn v hc
  · have c1 : fh.blocksize ≥ FLAC__MAX_FIXED_ORDER := by
      by_contra hlt
      exact hnc (Or.inr (Or.inl (by omega)))
    have c2 : (lib.fixed_compute_best_predictor signal
        (fh.blocksize - FLAC__MAX_FIXED_ORDER)).2.getD 1 0 = 0 := by
      by_contra hne
      exact hnc (Or.inl hne)
    have c3 : signal_is_constant signal = true := by
      cases hb : signal_is_constant signal with
      | true => rfl
      | false => exact absurd (Or.inr (Or.inr hb)) hnc
    have hwarm : ∀ i, 1 ≤ i → i ≤ 4 → signal.getD 0 0 = signal.getD i 0 := by
      intro i h1 h4
      unfold signal_is_constant at c3
      rw [List.all_eq_true] at c3
      have := c3 i (by
        rw [List.mem_range']
        exact ⟨i - 1, by unfold FLAC__MAX_FIXED_ORDER; omega, by omega⟩)
      simpa using this
    unfold subframe_search at h
    dsimp only at h
    rw [if_pos c1, if_pos c2, c3] at h
    simp only [if_true] at h
    split_ifs at h with c4
    · simp only [Option.some.injEq] at h
      rw [← h] at hc ⊢
      unfold encoder_promote_candidate_subframe_ encoder_evaluate_constant_subframe_ at hc ⊢
      dsimp only at hc ⊢
      injection hc with hv
      refine ⟨c1, hv.symm, fun i hi => ?_, rfl⟩
      rw [← hv]
      by_cases h4 : i ≤ 4
      · by_cases h0 : i = 0
        · rw [h0]
        · exact (hwarm i (by omega) h4).symm
      · have hm : FLAC__MAX_FIXED_ORDER = 4 := rfl
        rw [hpred c2 i 4 (by omega) hi (by omega) (by omega)]
        exact (hwarm 4 (by omega) (by omega)).symm
    · simp only [Option.some.injEq] at h
      rw [← h] at hc
      unfold encoder_evaluate_verbatim_subframe_ at hc
      cases hc

/-- Witness for C26: the block of 16 samples of value 5. -/
theorem constant_subframe_spec_witness :
    FLAC__MAX_FIXED_ORDER ≤ (example_frame_header 16).blocksize ∧
      (5 : Int) = example_constant_signal.getD 0 0 ∧
      (∀ i, i < (example_frame_header 16).blocksize → example_constant_signal.getD i 0 = 5) ∧
      example_constant_result.best_bits =
        (8 + (example_frame_header 16).bits_per_sample) % 2 ^ 32 :=
  constant_subframe_spec example_lib example_initialized.toEncoderSettings
    (example_frame_header 16) example_constant_signal 0 example_search
    example_constant_result
    (fun _ i j _ hi _ hj => by
      have hi' : i < 16 := hi
      have hj' : j < 16 := hj
      interval_cases i <;> interval_cases j <;> rfl)
    (by decide) 5 (by decide)

/-- C34: the last frame of a session has blocksize 4 and holds the samples 5, 5, 5, 5 in both
sessions; it is written as a constant subframe when the previous block left a 5 at index 4
of the channel array and as a verbatim subframe when it left a 1 there: the warmup
comparison reads the sample at index 4, which is not part of the block, and the fixed
predictor routine is called on a range of length `blocksize - 4 = 0`. -/
theorem constant_check_reads_past_block :
    (example_tail_session 5).bind (fun r => r.2[1]?) =
        some (.write [3, 3, 3, 3, 3, 3, 4, 4, 4] 9 4 1) ∧
      (example_tail_session 1).bind (fun r => r.2[1]?) =
        some (.write [3, 3, 3, 3, 3, 3, 7, 7, 7, 7] 10 4 1) ∧
      (subframe_search example_lib example_initialized.toEncoderSettings
        (example_frame_header 4) [5, 5, 5, 5, 5] 0 example_search).map
          (fun s => s.best_subframe) = some (.CONSTANT 5) ∧
      (subframe_search example_lib example_initialized.toEncoderSettings
        (example_frame_header 4) [5, 5, 5, 5, 1] 0 example_search).map
          (fun s => s.best_subframe) = some .VERBATIM ∧
      (example_frame_header 4).blocksize - FLAC__MAX_FIXED_ORDER = 0 := by
  decide

/-! ## Stream encoder: the smallest candidate frame -/

theorem smallest_of_four_spec (a b c d : BitBuffer) :
    [a, b, c, d][(smallest_of_four a b c d).1]? = some (smallest_of_four a b c d).2 ∧
      (∀ x ∈ [a, b, c, d], (smallest_of_four a b c d).2.total_bits ≤ x.total_bits) ∧
      (∀ j, j < (smallest_of_four a b c d).1 → ∀ x, [a, b, c, d][j]? = some x →
        (smallest_of_four a b c d).2.total_bits < x.total_bits) := by
  unfold smallest_of_four
  dsimp only
  split_ifs with h1 h2 h3 h3 h2 h3 h3
  all_goals
    refine ⟨rfl, ?_, ?_⟩
    · intro x hx
      simp only [List.mem_cons, List.mem_singleton, List.not_mem_nil, or_false] at hx
      rcases hx with hx | hx | hx | hx <;> subst hx <;> dsimp only at * <;> omega
    · intro j hj x hx
      dsimp only at hj
      interval_cases j <;> simp only [List.getElem?_cons_zero, List.getElem?_cons_succ,
        Option.some.injEq] at hx <;> subst hx <;> dsimp only at * <;> omega

/-- C25: a call of `encoder_process_frame_` that writes a frame hands exactly one buffer to
the write callback: the padded independent candidate when mid-side coding is off or the
block is disqualified, and otherwise the padded candidate at position `k` of the list
independent, mid-side, left-side, right-side of the four candidates it built, whose bit
length is at most that of each of the four and strictly less than that of every candidate
before it in the list. -/
theorem encoder_process_frame_smallest (lib : EncoderLib) (client : EncoderClient)
    (e : ActiveEncoder) (is_last : Bool) (e' : ActiveEncoder) (calls : List EncoderCall)
    (h : encoder_process_frame_ lib client e is_last = some (true, e', calls)) :
    ∃ e0 frame, build_candidate lib e is_last
        (frame_header_of e FLAC__CHANNEL_ASSIGNMENT_INDEPENDENT) e.guts.integer_signal
        e.guts.frame = some (e0, some frame) ∧
      ((¬ (e.do_mid_side_stereo = true ∧ e.guts.current_frame_can_do_mid_side = true) ∧
          ∃ padded, lib.bitbuffer_zero_pad_to_byte_boundary frame = some padded ∧
            calls = [.write padded.buffer padded.bytes e.blocksize
              e.guts.current_frame_number]) ∨
        ((e.do_mid_side_stereo = true ∧ e.guts.current_frame_can_do_mid_side = true) ∧
          ∃ e1 e2 fms e3 e4 fls e5 e6 frs,
            build_candidate lib e1 is_last
                (frame_header_of e1 FLAC__CHANNEL_ASSIGNMENT_MID_SIDE)
                [e.guts.integer_signal_mid_side.getD 0 [],
                  e.guts.integer_signal_mid_side.getD 1 []]
                e1.guts.frame_mid_side = some (e2, some fms) ∧
              build_candidate lib e3 is_last
                (frame_header_of e3 FLAC__CHANNEL_ASSIGNMENT_LEFT_SIDE)
                [e.guts.integer_signal.getD 0 [], e.guts.integer_signal_mid_side.getD 1 []]
                e3.guts.frame_left_side = some (e4, some fls) ∧
              build_candidate lib e5 is_last
                (frame_header_of e5 FLAC__CHANNEL_ASSIGNMENT_RIGHT_SIDE)
                [e.guts.integer_signal_mid_side.getD 1 [], e.guts.integer_signal.getD 1 []]
                e5.guts.frame_right_side = some (e6, some frs) ∧
              ∃ (k : Nat) (b padded : BitBuffer), [frame, fms, fls, frs][k]? = some b ∧
                (∀ x ∈ [frame, fms, fls, frs], b.total_bits ≤ x.total_bits) ∧
                (∀ j : Nat, j < k → ∀ x : BitBuffer, [frame, fms, fls, frs][j]? = some x →
                  b.total_bits < x.total_bits) ∧
                lib.bitbuffer_zero_pad_to_byte_boundary b = some padded ∧
                  calls = [.write padded.buffer padded.bytes e.blocksize
                    e.guts.current_frame_number])) := by
  have written : ∀ (a : ActiveEncoder) (which : Nat) (b : BitBuffer),
      frame_untouched e a → write_frame lib client a which b = (true, e', calls) →
      ∃ padded, lib.bitbuffer_zero_pad_to_byte_boundary b = some padded ∧
        calls = [.write padded.buffer padded.bytes e.blocksize e.guts.current_frame_number] := by
    intro a which b hu hw
    obtain ⟨-, -, -, -, k, -⟩ := write_frame_spec lib client a which b
    obtain ⟨-, -, -, -, -, padded, k1, k2, -⟩ := k (by rw [hw])
    rw [hw] at k2
    have k2' : calls = [.write padded.buffer padded.bytes a.blocksize
        a.guts.current_frame_number] := k2
    refine ⟨padded, k1, ?_⟩
    rw [k2', frame_untouched_blocksize hu, hu.2.2.2.2.2.2.2]
  unfold encoder_process_frame_ at h
  split at h
  · cases h
  · cases h
  · rename_i e0 frame hb0
    refine ⟨e0, frame, hb0, ?_⟩
    have u0 := build_candidate_untouched _ _ _ _ _ _ _ _ hb0
    have u1 : frame_untouched e { e0 with guts := { e0.guts with frame := frame } } :=
      frame_untouched_trans u0.1 (frame_untouched_set_frame e0 frame)
    have hdo : e0.do_mid_side_stereo = e.do_mid_side_stereo := by
      have := congrArg EncoderSettings.do_mid_side_stereo u0.1.1
      simpa using this
    have hfl : e0.guts.current_frame_can_do_mid_side =
        e.guts.current_frame_can_do_mid_side := u0.1.2.2.2.2.1
    have hsig : e0.guts.integer_signal = e.guts.integer_signal := u0.1.2.2.1
    have hmsig : e0.guts.integer_signal_mid_side = e.guts.integer_signal_mid_side :=
      u0.1.2.2.2.1
    dsimp only at h
    split_ifs at h with hcond
    · rw [hdo, hfl] at hcond
      right
      refine ⟨hcond, ?_⟩
      split at h
      · cases h
      · cases h
      · rename_i e2 fms hb2
        have u2 := build_candidate_untouched _ _ _ _ _ _ _ _ hb2
        have u3 : frame_untouched e { e2 with guts := { e2.guts with frame_mid_side := fms } } :=
          frame_untouched_trans (frame_untouched_trans u1 u2.1)
            (frame_untouched_set_mid_side e2 fms)
        split at h
        · cases h
        · cases h
        · rename_i e4 fls hb4
          have u4 := build_candidate_untouched _ _ _ _ _ _ _ _ hb4
          have u5 : frame_untouched e
              { e4 with guts := { e4.guts with frame_left_side := fls } } :=
            frame_untouched_trans (frame_untouched_trans u3 u4.1)
              (frame_untouched_set_left_side e4 fls)
          split at h
          · cases h
          · cases h
          · rename_i e6 frs hb6
            have u6 := build_candidate_untouched _ _ _ _ _ _ _ _ hb6
            have u7 : frame_untouched e
                { e6 with guts := { e6.guts with frame_right_side := frs } } :=
              frame_untouched_trans (frame_untouched_trans u5 u6.1)
                (frame_untouched_set_right_side e6 frs)
            simp only [Option.some.injEq] at h
            rw [hsig, hmsig] at hb2 hb4 hb6
            have hsm : write_frame lib client
                { e6 with guts := { e6.guts with frame_right_side := frs } }
                (smallest_of_four frame fms fls frs).1 (smallest_of_four frame fms fls frs).2 =
                (true, e', calls) := h
            obtain ⟨padded, hp1, hp2⟩ := written _ _ _ u7 hsm
            obtain ⟨q1, q2, q3⟩ := smallest_of_four_spec frame fms fls frs
            exact ⟨_, e2, fms, _, e4, fls, _, e6, frs, hb2, hb4, hb6, _, _, padded, q1, q2,
              q3, hp1, hp2⟩
    · rw [hdo, hfl] at hcond
      left
      simp only [Option.some.injEq] at h
      exact ⟨hcond, written _ _ _ u1 h⟩

/-- Witness for C25: one frame of the stereo example encoder, which builds all four
candidates and writes one buffer. -/
theorem encoder_process_frame_smallest_witness :
    ∃ padded : BitBuffer,
      example_stereo_frame.2.2 =
        [.write padded.buffer padded.bytes example_stereo.blocksize
          example_stereo.guts.current_frame_number] := by
  obtain ⟨e0, frame, -, hcase⟩ := encoder_process_frame_smallest example_lib
    example_encoder_client example_stereo false example_stereo_frame.2.1
    example_stereo_frame.2.2 (by decide)
  rcases hcase with ⟨-, padded, -, hc⟩ | ⟨-, _, _, _, _, _, _, _, _, _, -, -, -, _, _, padded,
    -, -, -, -, hc⟩
  · exact ⟨padded, hc⟩
  · exact ⟨padded, hc⟩

/-! ## File decoder: finishing before a STREAMINFO block was seen -/

/-- C2: a decoder is initialized with MD5 checking on (every library call succeeds and the
block `malloc` returns holds zero bytes) and finished before any STREAMINFO block has been
delivered.  The stored sum is all zero, and `FLAC__file_decoder_finish` returns `false`: it
compares the stored sum, which nothing has set, with the computed one and makes no test for
zero.  The same happens when a frame has been decoded and no STREAMINFO block was seen. -/
theorem file_decoder_finish_without_streaminfo :
    (FLAC__file_decoder_init (some example_zeroed_private) false true true true
        example_new_decoder).state = .OK ∧
      (FLAC__file_decoder_init (some example_zeroed_private) false true true true
        example_new_decoder).check_md5 = true ∧
      (FLAC__file_decoder_init (some example_zeroed_private) false true true true
        example_new_decoder).guts.map (fun g => g.stored_md5sum) = some zero_md5sum ∧
      (FLAC__file_decoder_finish example_md5_of_empty
        (FLAC__file_decoder_init (some example_zeroed_private) false true true true
          example_new_decoder)).1 = false ∧
      (FLAC__file_decoder_finish example_md5
        (dispatch example_decoder_client example_md5
          { example_decoder with guts := { example_decoder.guts with
              stored_md5sum := zero_md5sum } }
          [.write (example_frame 0) [List.replicate 16 5]]).1.toFileDecoder).1 = false := by
  decide

/-! ## Stream encoder: frame numbers of the writes -/

namespace Pointers

theorem read_some_le {mem : Memory} {a : Nat} {b : Block} (h : read mem a = some b) :
    0 < a ∧ a ≤ mem.length := by
  unfold read at h
  split_ifs at h with h0
  refine ⟨by omega, ?_⟩
  by_contra hlt
  rw [List.getD_eq_getElem?_getD, List.getElem?_eq_none (by omega)] at h
  cases h

theorem read_append_of_le (mem new : Memory) (a : Nat) (h : a ≤ mem.length) :
    read (mem ++ new) a = read mem a := by
  unfold read
  split_ifs with h0
  · rfl
  · rw [List.getD_append _ _ _ _ (by omega)]

theorem read_append_of_some {mem : Memory} (new : Memory) {a : Nat} {b : Block}
    (h : read mem a = some b) : read (mem ++ new) a = some b := by
  rw [read_append_of_le mem new a (read_some_le h).2, h]

theorem read_extended {mem mem' : Memory} (hp : mem <+: mem') {a : Nat} {b : Block}
    (h : read mem a = some b) : read mem' a = some b := by
  obtain ⟨t, rfl⟩ := hp
  exact read_append_of_some t h

theorem read_append_new (mem : Memory) (x : Option Block) (t : Memory) :
    read (mem ++ x :: t) (mem.length + 1) = x := by
  unfold read
  rw [if_neg (by omega), List.getD_append_right _ _ _ _ (by omega)]
  simp

theorem length_write (mem : Memory) (a : Nat) (b : Block) :
    (write mem a b).length = mem.length := by
  unfold write
  split_ifs <;> simp

theorem read_write_same (mem : Memory) (a : Nat) (b : Block) (h0 : 0 < a)
    (h : a ≤ mem.length) : read (write mem a b) a = some b := by
  unfold read write
  rw [if_neg (by omega), if_neg (by omega), List.getD_eq_getElem?_getD,
    List.getElem?_set_self (by omega)]
  rfl

theorem read_write_ne (mem : Memory) (a a' : Nat) (b : Block) (h : a' ≠ a) :
    read (write mem a b) a' = read mem a' := by
  unfold read write
  by_cases h0 : a' = 0
  · rw [if_pos h0, if_pos h0]
  · rw [if_neg h0, if_neg h0]
    split_ifs with ha
    · rfl
    · rw [List.getD_eq_getElem?_getD, List.getD_eq_getElem?_getD,
        List.getElem?_set_ne (by omega)]

theorem prefix_write {p mem : Memory} (hp : p <+: mem) (a : Nat) (b : Block)
    (h : p.length < a) : p <+: write mem a b := by
  obtain ⟨t, rfl⟩ := hp
  unfold write
  rw [if_neg (by omega), List.set_append_right _ _ (by omega)]
  exact List.prefix_append _ _

theorem prefix_malloc {p mem : Memory} (hp : p <+: mem) (heap : Heap) (request size : Nat)
    (contents : Block) : p <+: (malloc heap request size contents mem).2 := by
  unfold malloc
  split_ifs
  · exact hp.trans (List.prefix_append _ _)
  · exact hp

theorem load_bytes_extended {mem mem' : Memory} (hp : mem <+: mem') {a : Nat}
    {r : Option (List Nat)} (h : load_bytes mem a = some r) : load_bytes mem' a = some r := by
  unfold load_bytes at h ⊢
  split_ifs at h ⊢ with h0
  · exact h
  · cases hr : read mem a with
    | none => rw [hr] at h; cases h
    | some b =>
        rw [hr] at h
        rw [read_extended hp hr]
        exact h

theorem load_points_extended {mem mem' : Memory} (hp : mem <+: mem') {a : Nat}
    {r : Option (List StreamMetaData_SeekPoint)} (h : load_points mem a = some r) :
    load_points mem' a = some r := by
  unfold load_points at h ⊢
  split_ifs at h ⊢ with h0
  · exact h
  · cases hr : read mem a with
    | none => rw [hr] at h; cases h
    | some b =>
        rw [hr] at h
        rw [read_extended hp hr]
        exact h

theorem load_entry_extended {mem mem' : Memory} (hp : mem <+: mem') {e : VorbisComment_Entry}
    {v : StreamMetaData_VorbisComment_Entry} (h : load_entry mem e = some v) :
    load_entry mem' e = some v := by
  unfold load_entry at h ⊢
  cases hb : load_bytes mem e.entry with
  | none => rw [hb] at h; cases h
  | some r =>
      rw [hb] at h
      rw [load_bytes_extended hp hb]
      exact h

theorem load_entry_write (mem : Memory) (a : Nat) (b : Block) (e : VorbisComment_Entry)
    (h : e.entry ≠ a) : load_entry (write mem a b) e = load_entry mem e := by
  unfold load_entry load_bytes
  rw [read_write_ne mem a e.entry b h]

theorem load_entry_list_iff (mem : Memory) :
    ∀ (l : List VorbisComment_Entry) (vs : List StreamMetaData_VorbisComment_Entry),
      load_entry_list mem l = some vs ↔
        List.Forall₂ (fun e v => load_entry mem e = some v) l vs := by
  intro l
  induction l with
  | nil =>
      intro vs
      simp [load_entry_list, eq_comm]
  | cons e rest ih =>
      intro vs
      unfold load_entry_list
      cases he : load_entry mem e with
      | none =>
          simp only
          constructor
          · intro h; cases h
          · intro h
            cases h with
            | cons h1 _ => rw [he] at h1; cases h1
      | some v =>
          cases hr : load_entry_list mem rest with
          | none =>
              simp only
              constructor
              · intro h; cases h
              · intro h
                cases h with
                | cons h1 h2 =>
                    rw [(ih _).mpr h2] at hr
                    cases hr
          | some ws =>
              simp only
              constructor
              · intro h
                cases h
                exact List.Forall₂.cons he ((ih _).mp hr)
              · intro h
                cases h with
                | cons h1 h2 =>
                    rw [he] at h1
                    cases h1
                    rw [(ih _).mpr h2] at hr
                    cases hr
                    rfl

theorem load_entries_extended {mem mem' : Memory} (hp : mem <+: mem') {a : Nat}
    {r : Option (List StreamMetaData_VorbisComment_Entry)} (h : load_entries mem a = some r) :
    load_entries mem' a = some r := by
  unfold load_entries at h ⊢
  split_ifs at h ⊢ with h0
  · exact h
  · cases hr : read mem a with
    | none => rw [hr] at h; cases h
    | some b =>
        rw [hr] at h
        rw [read_extended hp hr]
        cases b with
        | entries x =>
            dsimp only at h ⊢
            cases hl : load_entry_list mem x with
            | none => rw [hl] at h; cases h
            | some vs =>
                rw [hl] at h
                have h2 := (load_entry_list_iff mem x vs).mp hl
                rw [(load_entry_list_iff mem' x vs).mpr
                  (h2.imp (fun _ _ k => load_entry_extended hp k))]
                exact h
        | object _ => cases h
        | bytes _ => cases h
        | points _ => cases h

theorem load_extended {mem mem' : Memory} (hp : mem <+: mem') {a : Nat}
    {o : FLAC__StreamMetaData} (h : load mem a = some o) : load mem' a = some o := by
  unfold load at h ⊢
  cases hr : read mem a with
  | none => rw [hr] at h; cases h
  | some b =>
      rw [hr] at h
      rw [read_extended hp hr]
      cases b with
      | object x =>
          dsimp only at h ⊢
          cases ht : x.type with
          | STREAMINFO => rw [ht] at h; exact h
          | PADDING => rw [ht] at h; exact h
          | OTHER c => rw [ht] at h; exact h
          | APPLICATION =>
              rw [ht] at h
              dsimp only at h ⊢
              cases hb : load_bytes mem x.application.data with
              | none => rw [hb] at h; cases h
              | some r =>
                  rw [hb] at h
                  rw [load_bytes_extended hp hb]
                  exact h
          | SEEKTABLE =>
              rw [ht] at h
              dsimp only at h ⊢
              cases hb : load_points mem x.seek_table.points with
              | none => rw [hb] at h; cases h
              | some r =>
                  rw [hb] at h
                  rw [load_points_extended hp hb]
                  exact h
          | VORBIS_COMMENT =>
              rw [ht] at h
              dsimp only at h ⊢
              cases hv : load_entry mem x.vorbis_comment.vendor_string with
              | none => rw [hv] at h; cases h
              | some v =>
                  cases hc : load_entries mem x.vorbis_comment.comments with
                  | none => rw [hv, hc] at h; cases h
                  | some c =>
                      rw [hv, hc] at h
                      rw [load_entry_extended hp hv, load_entries_extended hp hc]
                      exact h
      | bytes _ => cases h
      | points _ => cases h
      | entries _ => cases h

/-- Copying an entry whose bytes are in memory: the copy has the same length and bytes, and
its bytes, if any, lie in a block that did not exist before. -/
theorem copy_vcentry_of_loaded (heap : Heap) (hm : ∀ r n, heap.malloc_ok r n = true)
    (request : Nat) (mem : Memory) (dst e : VorbisComment_Entry)
    (v : StreamMetaData_VorbisComment_Entry) (h : load_entry mem e = some v)
    (hwf : entry_well_formed v) :
    ∃ e' mem', copy_vcentry_ heap request mem dst e = some (true, e', mem') ∧ mem <+: mem' ∧
      load_entry mem' e' = some v ∧ (e'.entry = 0 ∨ mem.length < e'.entry) := by
  unfold load_entry load_bytes at h
  unfold copy_vcentry_
  by_cases h0 : e.entry = 0
  · rw [if_pos h0] at h
    rw [if_pos h0]
    refine ⟨_, _, rfl, List.prefix_refl _, ?_, Or.inl rfl⟩
    unfold load_entry load_bytes
    rw [if_pos rfl]
    exact h
  · rw [if_neg h0] at h
    rw [if_neg h0]
    cases hr : read mem e.entry with
    | none => rw [hr] at h; cases h
    | some b =>
        rw [hr] at h
        cases b with
        | bytes x =>
            simp only [Option.map_some', Option.some.injEq] at h
            subst h
            unfold entry_well_formed at hwf
            dsimp only at hwf ⊢
            unfold malloc
            rw [if_neg (by omega), if_pos (hm _ _)]
            dsimp only
            rw [if_neg (by omega)]
            refine ⟨_, _, rfl, List.prefix_append _ _, ?_, Or.inr (by dsimp only; omega)⟩
            unfold load_entry load_bytes
            dsimp only
            rw [if_neg (by omega), read_append_new, ← hwf, List.take_length]
            rfl
        | object _ => cases h
        | points _ => cases h
        | entries _ => cases h

/-- The loop of `vorbiscomment_entry_array_copy_` from an index on, when no allocation fails
and the entries to copy are in memory: it fills the rest of the new array with copies whose
bytes lie in new blocks, and changes nothing below the new array. -/
theorem copy_entries_loop_spec (heap : Heap) (hm : ∀ r n, heap.malloc_ok r n = true)
    (request ra n : Nat) (base : Memory) (hra : ra = base.length + 1) :
    ∀ (srest : List VorbisComment_Entry) (vrest : List StreamMetaData_VorbisComment_Entry)
      (sdone done : List VorbisComment_Entry)
      (vdone : List StreamMetaData_VorbisComment_Entry) (mem : Memory),
      base <+: mem → done.length = sdone.length →
      read mem ra = some (.entries (done ++ List.replicate srest.length zero_entry)) →
      List.Forall₂ (fun e v => load_entry base e = some v) srest vrest →
      (∀ v ∈ vrest, entry_well_formed v) →
      List.Forall₂ (fun e v => load_entry mem e = some v ∧ (e.entry = 0 ∨ ra < e.entry))
        done vdone →
      ∃ done' mem',
        copy_entries_loop heap request (sdone ++ srest) ra n
            (List.range' sdone.length srest.length) mem = some (ra, mem') ∧
          base <+: mem' ∧ read mem' ra = some (.entries done') ∧
          List.Forall₂ (fun e v => load_entry mem' e = some v ∧ (e.entry = 0 ∨ ra < e.entry))
            done' (vdone ++ vrest) := by
  intro srest
  induction srest with
  | nil =>
      intro vrest sdone done vdone mem hp hlen hread hsrc hwf hdone
      cases hsrc
      refine ⟨done, mem, ?_, hp, ?_, ?_⟩
      · simp [copy_entries_loop]
      · simpa using hread
      · simpa using hdone
  | cons s srest ih =>
      intro vrest sdone done vdone mem hp hlen hread hsrc hwf hdone
      cases hsrc with
      | cons hs hrest =>
          rename_i v vrest
          have hle := read_some_le hread
          obtain ⟨e', mem1, hc, hp1, hl1, hf1⟩ :=
            copy_vcentry_of_loaded heap hm (request + 1 + sdone.length) mem zero_entry s v
              (load_entry_extended hp hs) (hwf v (List.mem_cons_self _ _))
          have hlen1 : mem.length ≤ mem1.length := hp1.length_le
          have hfresh : e'.entry = 0 ∨ ra < e'.entry := by
            rcases hf1 with k | k
            · exact Or.inl k
            · exact Or.inr (by omega)
          have hne : ∀ e : VorbisComment_Entry, (e.entry = 0 ∨ ra < e.entry) → e.entry ≠ ra := by
            intro e k
            rcases k with k | k <;> omega
          have hget1 : (done ++ List.replicate (s :: srest).length zero_entry).getD
              sdone.length zero_entry = zero_entry := by
            rw [List.getD_append_right _ _ _ _ (by omega), hlen, Nat.sub_self]
            rfl
          have hget2 : (sdone ++ s :: srest).getD sdone.length zero_entry = s := by
            rw [List.getD_append_right _ _ _ _ (le_refl _), Nat.sub_self]
            rfl
          have hset : (done ++ List.replicate (s :: srest).length zero_entry).set sdone.length e' =
              (done ++ [e']) ++ List.replicate srest.length zero_entry := by
            rw [List.set_append_right _ _ (by omega), hlen, Nat.sub_self, List.length_cons,
              List.replicate_succ, List.set_cons_zero, List.append_assoc, List.singleton_append]
          obtain ⟨done', mem', k1, k2, k3, k4⟩ :=
            ih vrest (sdone ++ [s]) (done ++ [e']) (vdone ++ [v])
              (write mem1 ra (.entries ((done ++ [e']) ++ List.replicate srest.length zero_entry)))
              (prefix_write (hp.trans hp1) ra _ (by omega))
              (by simp [hlen])
              (read_write_same mem1 ra _ hle.1 (by omega))
              hrest (fun w hw => hwf w (List.mem_cons_of_mem _ hw))
              (List.rel_append
                (hdone.imp (fun a b k =>
                  ⟨by rw [load_entry_write _ _ _ _ (hne a k.2)]; exact load_entry_extended hp1 k.1,
                    k.2⟩))
                (List.Forall₂.cons
                  ⟨by rw [load_entry_write _ _ _ _ (hne e' hfresh)]; exact hl1, hfresh⟩
                  List.Forall₂.nil))
          refine ⟨done', mem', ?_, k2, k3, ?_⟩
          · rw [List.length_cons, List.range'_succ]
            unfold copy_entries_loop
            rw [hread]
            dsimp only
            rw [hget1, hget2, hc]
            dsimp only
            rw [if_pos rfl, hset]
            rw [List.length_append, List.length_singleton, List.append_assoc,
              List.singleton_append] at k1
            exact k1
          · rw [List.append_assoc, List.singleton_append] at k4
            exact k4

theorem write_append_new (mem : Memory) (x : Option Block) (t : Memory) (b : Block) :
    write (mem ++ x :: t) (mem.length + 1) b = mem ++ some b :: t := by
  unfold write
  rw [if_neg (by omega), List.set_append_right _ _ (by omega)]
  simp

theorem load_bytes_write (mem : Memory) (a p : Nat) (b : Block) (h : p ≠ a) :
    load_bytes (write mem a b) p = load_bytes mem p := by
  unfold load_bytes
  rw [read_write_ne mem a p b h]

theorem load_points_write (mem : Memory) (a p : Nat) (b : Block) (h : p ≠ a) :
    load_points (write mem a b) p = load_points mem p := by
  unfold load_points
  rw [read_write_ne mem a p b h]

/-- `FLAC__metadata_object_new` for one of the five handled types, when the allocation
succeeds: the object is a new block. -/
theorem object_new_ok (heap : Heap) (hm : ∀ r n, heap.malloc_ok r n = true) (mem : Memory)
    (type : FLAC__MetaDataType) (ht : ∀ c, type ≠ .OTHER c) :
    ∃ fresh, FLAC__metadata_object_new heap mem type =
      (mem.length + 1, mem ++ [some (.object fresh)]) := by
  unfold FLAC__metadata_object_new malloc
  dsimp only
  rw [if_pos (hm _ _)]
  dsimp only
  rw [if_neg (by omega)]
  cases type with
  | STREAMINFO => exact ⟨_, by dsimp only; rw [write_append_new]⟩
  | PADDING => exact ⟨_, rfl⟩
  | APPLICATION => exact ⟨_, by dsimp only; rw [write_append_new]⟩
  | SEEKTABLE => exact ⟨_, rfl⟩
  | VORBIS_COMMENT => exact ⟨_, by dsimp only; rw [write_append_new]⟩
  | OTHER c => exact absurd rfl (ht c)

/-- Copying bytes that are in memory: the copy holds the same bytes in a block that did not
exist before. -/
theorem copy_bytes_of_loaded (heap : Heap) (hm : ∀ r n, heap.malloc_ok r n = true)
    (request : Nat) (mem : Memory) (dst src bytes : Nat) (d : Option (List Nat))
    (h : load_bytes mem src = some d)
    (hsz : ∀ x, d = some x → 0 < bytes ∧ x.length = bytes) :
    ∃ p mem', copy_bytes_ heap request mem dst src bytes = some (true, p, mem') ∧
      mem <+: mem' ∧ load_bytes mem' p = some d ∧ (p = 0 ∨ mem.length < p) := by
  unfold load_bytes at h
  unfold copy_bytes_
  by_cases h0 : src = 0
  · rw [if_pos h0] at h
    rw [if_neg (by simp [h0])]
    refine ⟨0, mem, rfl, List.prefix_refl _, ?_, Or.inl rfl⟩
    unfold load_bytes
    rw [if_pos rfl]
    exact h
  · rw [if_neg h0] at h
    cases hr : read mem src with
    | none => rw [hr] at h; cases h
    | some b =>
        rw [hr] at h
        cases b with
        | bytes x =>
            simp only [Option.some.injEq] at h
            subst h
            obtain ⟨k1, k2⟩ := hsz x rfl
            rw [if_pos ⟨k1, h0⟩]
            dsimp only
            unfold malloc
            rw [if_neg (by omega), if_pos (hm _ _)]
            dsimp only
            rw [if_neg (by omega)]
            refine ⟨_, _, rfl, List.prefix_append _ _, ?_, Or.inr (by omega)⟩
            unfold load_bytes
            rw [if_neg (by omega), read_append_new, ← k2, List.take_length]
        | object _ => cases h
        | points _ => cases h
        | entries _ => cases h

/-- Copying seek points that are in memory: the copy holds the same points in a block that
did not exist before. -/
theorem copy_points_of_loaded (heap : Heap) (hm : ∀ r n, heap.malloc_ok r n = true)
    (request : Nat) (mem : Memory) (dst src bytes : Nat)
    (d : Option (List StreamMetaData_SeekPoint)) (h : load_points mem src = some d)
    (hs : 0 < heap.sizeof_SeekPoint)
    (hsz : ∀ x, d = some x → 0 < bytes ∧ x.length * heap.sizeof_SeekPoint = bytes) :
    ∃ p mem', copy_bytes_ heap request mem dst src bytes = some (true, p, mem') ∧
      mem <+: mem' ∧ load_points mem' p = some d ∧ (p = 0 ∨ mem.length < p) := by
  unfold load_points at h
  unfold copy_bytes_
  by_cases h0 : src = 0
  · rw [if_pos h0] at h
    rw [if_neg (by simp [h0])]
    refine ⟨0, mem, rfl, List.prefix_refl _, ?_, Or.inl rfl⟩
    unfold load_points
    rw [if_pos rfl]
    exact h
  · rw [if_neg h0] at h
    cases hr : read mem src with
    | none => rw [hr] at h; cases h
    | some b =>
        rw [hr] at h
        cases b with
        | points x =>
            simp only [Option.some.injEq] at h
            subst h
            obtain ⟨k1, k2⟩ := hsz x rfl
            rw [if_pos ⟨k1, h0⟩]
            dsimp only
            unfold malloc
            have hmod : bytes % heap.sizeof_SeekPoint = 0 := by
              rw [← k2]
              exact Nat.mul_mod_left _ _
            have hdiv : bytes / heap.sizeof_SeekPoint = x.length := by
              rw [← k2]
              exact Nat.mul_div_cancel _ hs
            rw [if_neg (by omega), if_pos (hm _ _)]
            dsimp only
            rw [if_neg (by omega)]
            refine ⟨_, _, rfl, List.prefix_append _ _, ?_, Or.inr (by omega)⟩
            unfold load_points
            rw [if_neg (by omega), read_append_new, hdiv, List.take_length]
        | object _ => cases h
        | bytes _ => cases h
        | entries _ => cases h

/-- Copying a comment array that is in memory: the new array and the bytes of its entries
lie in blocks that did not exist before, and the entries hold the same lengths and bytes. -/
theorem entry_array_copy_of_loaded (heap : Heap) (hm : ∀ r n, heap.malloc_ok r n = true)
    (request : Nat) (mem : Memory) (object_array n : Nat)
    (arr : List StreamMetaData_VorbisComment_Entry)
    (h : load_entries mem object_array = some (some arr)) (hn : arr.length = n)
    (hwf : ∀ v ∈ arr, entry_well_formed v) :
    ∃ done' mem',
      vorbiscomment_entry_array_copy_ heap request mem object_array n =
          some (mem.length + 1, mem') ∧
        mem <+: mem' ∧ read mem' (mem.length + 1) = some (.entries done') ∧
        List.Forall₂
          (fun e v => load_entry mem' e = some v ∧ (e.entry = 0 ∨ mem.length + 1 < e.entry))
          done' arr := by
  unfold load_entries at h
  split_ifs at h with h0
  · cases h
  · cases hr : read mem object_array with
    | none => rw [hr] at h; cases h
    | some b =>
        rw [hr] at h
        cases b with
        | entries source =>
            dsimp only at h
            cases hl : load_entry_list mem source with
            | none => rw [hl] at h; cases h
            | some vs =>
                rw [hl] at h
                simp only [Option.map_some', Option.some.injEq] at h
                subst h
                have hf := (load_entry_list_iff mem source vs).mp hl
                have hlen : source.length = n := by rw [hf.length_eq, hn]
                subst hlen
                obtain ⟨done', mem', k1, k2, k3, k4⟩ :=
                  copy_entries_loop_spec heap hm request (mem.length + 1) source.length mem rfl source
                    vs []
                    [] [] (mem ++ [some (.entries (List.replicate source.length zero_entry))])
                    (List.prefix_append _ _) rfl
                    (by rw [read_append_new]; rfl)
                    hf hwf List.Forall₂.nil
                refine ⟨done', mem', ?_, k2, k3, ?_⟩
                · unfold vorbiscomment_entry_array_copy_ vorbiscomment_entry_array_new_ malloc
                  dsimp only
                  rw [if_pos (hm _ _)]
                  dsimp only
                  rw [if_neg (by omega), read_append_of_some _ hr]
                  dsimp only
                  rw [if_neg (by omega), List.range_eq_range']
                  simpa using k1
                · simpa using k4
        | object _ => cases h
        | bytes _ => cases h
        | points _ => cases h

theorem forall_two_mem_left {α β : Type} {R : α → β → Prop} :
    ∀ {l : List α} {vs : List β}, List.Forall₂ R l vs → ∀ a ∈ l, ∃ b, R a b := by
  intro l vs h
  induction h with
  | nil => intro a ha; cases ha
  | cons h1 _ ih =>
      intro a ha
      rcases List.mem_cons.mp ha with k | k
      · subst k
        exact ⟨_, h1⟩
      · exact ih a k

/-- C17: let `object` point to a metadata object whose value, with the contents of every
array of its body, is `o`, let `o` be well formed (one of the five handled types, arrays of
the sizes the counters say) and let no allocation fail.  Then `FLAC__metadata_object_copy`
returns a pointer `copy` to an object with the same value: the same type, `is_last` and
length, the same stream info, application id and data bytes, number of points and seek
points, vendor string and, for every comment, the same length and bytes.  The copy is deep:
the object returned and every array of its body (application data, seek points, vendor
string, comment array, the bytes of every comment) are blocks that did not exist before the
call, so none of them is shared with `o`.  The memory that existed before the call is
unchanged, and `object` still has the value `o`. -/
theorem metadata_object_copy_spec (heap : Heap) (mem : Memory) (object : Nat)
    (o : FLAC__StreamMetaData) (hload : load mem object = some o)
    (hwf : object_well_formed heap o) (hm : ∀ r n, heap.malloc_ok r n = true) :
    ∃ copy mem', FLAC__metadata_object_copy heap mem object = some (copy, mem') ∧
      load mem' copy = some o ∧ (∃ new, mem' = mem ++ new) ∧ load mem' object = some o ∧
      copy ∈ blocks_of mem' copy ∧ ∀ a ∈ blocks_of mem' copy, mem.length < a := by
  have hload0 := hload
  unfold load at hload
  cases hr : read mem object with
  | none => rw [hr] at hload; cases hload
  | some b =>
      rw [hr] at hload
      cases b with
      | bytes _ => cases hload
      | points _ => cases hload
      | entries _ => cases hload
      | object oa =>
          obtain ⟨type, is_last, length, si, ⟨id, data⟩, ⟨np, points⟩, ⟨⟨vl, ve⟩, nc, comments⟩⟩ :=
            oa
          have hex : ∀ mem' : Memory, mem <+: mem' → ∃ new, mem' = mem ++ new :=
            fun mem' h => h.imp (fun _ k => k.symm)
          cases type with
          | OTHER c =>
              simp only [Option.some.injEq] at hload
              subst hload
              exact absurd hwf (by simp [object_well_formed])
          | STREAMINFO =>
              obtain ⟨fresh, hnew⟩ := object_new_ok heap hm mem .STREAMINFO
                (by intro c h; cases h)
              simp only [Option.some.injEq] at hload
              unfold FLAC__metadata_object_copy
              rw [hr]
              dsimp only
              rw [hnew]
              dsimp only
              rw [if_neg (by omega), read_append_new]
              dsimp only
              rw [write_append_new]
              refine ⟨_, _, rfl, ?_, ⟨_, rfl⟩, load_extended (List.prefix_append _ _) hload0, ?_, ?_⟩
              · unfold load
                rw [read_append_new]
                dsimp only
                rw [hload]
              · unfold blocks_of
                rw [read_append_new]
                simp
              · unfold blocks_of
                rw [read_append_new]
                simp
          | PADDING =>
              obtain ⟨fresh, hnew⟩ := object_new_ok heap hm mem .PADDING
                (by intro c h; cases h)
              simp only [Option.some.injEq] at hload
              unfold FLAC__metadata_object_copy
              rw [hr]
              dsimp only
              rw [hnew]
              dsimp only
              rw [if_neg (by omega), read_append_new]
              dsimp only
              rw [write_append_new]
              refine ⟨_, _, rfl, ?_, ⟨_, rfl⟩, load_extended (List.prefix_append _ _) hload0, ?_, ?_⟩
              · unfold load
                rw [read_append_new]
                dsimp only
                rw [hload]
              · unfold blocks_of
                rw [read_append_new]
                simp
              · unfold blocks_of
                rw [read_append_new]
                simp
          | APPLICATION =>
              obtain ⟨fresh, hnew⟩ := object_new_ok heap hm mem .APPLICATION
                (by intro c h; cases h)
              dsimp only at hload
              cases hb : load_bytes mem data with
              | none => rw [hb] at hload; cases hload
              | some d =>
                  rw [hb] at hload
                  simp only [Option.map_some', Option.some.injEq] at hload
                  subst hload
                  unfold object_well_formed at hwf
                  dsimp only at hwf
                  obtain ⟨p, m1, hc, hp1, hl1, hf1⟩ :=
                    copy_bytes_of_loaded heap hm 1 (mem ++ [some (.object fresh)])
                      fresh.application.data data
                      (unsigned_sub length (FLAC__STREAM_METADATA_APPLICATION_ID_LEN / 8))
                      d (load_bytes_extended (List.prefix_append _ _) hb)
                      (by
                        intro x hx
                        subst hx
                        dsimp only at hwf
                        unfold unsigned_sub FLAC__STREAM_METADATA_APPLICATION_ID_LEN
                        rw [if_pos (by omega)]
                        omega)
                  have hlen1 := hp1.length_le
                  rw [List.length_append, List.length_singleton] at hlen1 hf1
                  unfold FLAC__metadata_object_copy
                  rw [hr]
                  dsimp only
                  rw [hnew]
                  dsimp only
                  rw [if_neg (by omega), read_append_new]
                  dsimp only
                  rw [hc]
                  dsimp only
                  rw [if_pos rfl]
                  refine ⟨_, _, rfl, ?_,
                    hex _ (prefix_write ((List.prefix_append _ _).trans hp1) _ _ (by omega)),
                    load_extended (prefix_write ((List.prefix_append _ _).trans hp1) _ _ (by omega))
                      hload0, ?_, ?_⟩
                  · unfold load
                    rw [read_write_same _ _ _ (by omega) (by omega)]
                    dsimp only
                    rw [load_bytes_write _ _ _ _ (by omega), hl1]
                    rfl
                  · unfold blocks_of
                    rw [read_write_same _ _ _ (by omega) (by omega)]
                    simp
                  · unfold blocks_of
                    rw [read_write_same _ _ _ (by omega) (by omega)]
                    intro a ha
                    simp only [List.mem_cons, List.mem_filter, List.mem_singleton,
                      List.not_mem_nil, or_false, decide_eq_true_eq] at ha
                    rcases ha with ha | ⟨ha, h0⟩
                    · omega
                    · omega
          | SEEKTABLE =>
              obtain ⟨fresh, hnew⟩ := object_new_ok heap hm mem .SEEKTABLE
                (by intro c h; cases h)
              dsimp only at hload
              cases hb : load_points mem points with
              | none => rw [hb] at hload; cases hload
              | some d =>
                  rw [hb] at hload
                  simp only [Option.map_some', Option.some.injEq] at hload
                  subst hload
                  unfold object_well_formed seek_table_well_formed at hwf
                  dsimp only at hwf
                  obtain ⟨hw1, hw2, hw3⟩ := hwf
                  obtain ⟨p, m1, hc, hp1, hl1, hf1⟩ :=
                    copy_points_of_loaded heap hm 1 (mem ++ [some (.object fresh)])
                      fresh.seek_table.points points
                      ((np * heap.sizeof_SeekPoint) % 2 ^ 32)
                      d (load_points_extended (List.prefix_append _ _) hb) hw2
                      (by
                        intro x hx
                        subst hx
                        dsimp only at hw1
                        rw [Nat.mod_eq_of_lt hw3, hw1.1]
                        exact ⟨Nat.mul_pos hw1.2 hw2, rfl⟩)
                  have hlen1 := hp1.length_le
                  rw [List.length_append, List.length_singleton] at hlen1 hf1
                  unfold FLAC__metadata_object_copy
                  rw [hr]
                  dsimp only
                  rw [hnew]
                  dsimp only
                  rw [if_neg (by omega), read_append_new]
                  dsimp only
                  rw [hc]
                  dsimp only
                  rw [if_pos rfl]
                  refine ⟨_, _, rfl, ?_,
                    hex _ (prefix_write ((List.prefix_append _ _).trans hp1) _ _ (by omega)),
                    load_extended (prefix_write ((List.prefix_append _ _).trans hp1) _ _ (by omega))
                      hload0, ?_, ?_⟩
                  · unfold load
                    rw [read_write_same _ _ _ (by omega) (by omega)]
                    dsimp only
                    rw [load_points_write _ _ _ _ (by omega), hl1]
                    rfl
                  · unfold blocks_of
                    rw [read_write_same _ _ _ (by omega) (by omega)]
                    simp
                  · unfold blocks_of
                    rw [read_write_same _ _ _ (by omega) (by omega)]
                    intro a ha
                    simp only [List.mem_cons, List.mem_filter, List.mem_singleton,
                      List.not_mem_nil, or_false, decide_eq_true_eq] at ha
                    rcases ha with ha | ⟨ha, h0⟩
                    · omega
                    · omega
          | VORBIS_COMMENT =>
              obtain ⟨fresh, hnew⟩ := object_new_ok heap hm mem .VORBIS_COMMENT
                (by intro c h; cases h)
              dsimp only at hload
              cases hv : load_entry mem { length := vl, entry := ve } with
              | none => rw [hv] at hload; cases hload
              | some v =>
                  cases hcm : load_entries mem comments with
                  | none => rw [hv, hcm] at hload; cases hload
                  | some c =>
                      rw [hv, hcm] at hload
                      simp only [Option.some.injEq] at hload
                      subst hload
                      unfold object_well_formed at hwf
                      dsimp only at hwf
                      obtain ⟨hw1, hw2⟩ := hwf
                      obtain ⟨e', m1, hcv, hp1, hl1, hf1⟩ :=
                        copy_vcentry_of_loaded heap hm 1 (mem ++ [some (.object fresh)])
                          fresh.vorbis_comment.vendor_string { length := vl, entry := ve } v
                          (load_entry_extended (List.prefix_append _ _) hv) hw1
                      have hlen1 := hp1.length_le
                      rw [List.length_append, List.length_singleton] at hlen1 hf1
                      have hne1 : e'.entry ≠ mem.length + 1 := by omega
                      unfold FLAC__metadata_object_copy
                      rw [hr]
                      dsimp only
                      rw [hnew]
                      dsimp only
                      rw [if_neg (by omega), read_append_new]
                      dsimp only
                      rw [hcv]
                      dsimp only
                      rw [if_neg (by decide)]
                      cases c with
                      | none =>
                          dsimp only at hw2
                          rw [if_pos hw2]
                          refine ⟨_, _, rfl, ?_,
                            hex _ (prefix_write ((List.prefix_append _ _).trans hp1) _ _
                              (by omega)),
                            load_extended (prefix_write ((List.prefix_append _ _).trans hp1) _ _
                              (by omega)) hload0, ?_, ?_⟩
                          · unfold load
                            rw [read_write_same _ _ _ (by omega) (by omega)]
                            dsimp only
                            rw [load_entry_write _ _ _ _ hne1, hl1]
                            unfold load_entries
                            rw [if_pos rfl]
                          · unfold blocks_of
                            rw [read_write_same _ _ _ (by omega) (by omega)]
                            simp
                          · unfold blocks_of
                            rw [read_write_same _ _ _ (by omega) (by omega)]
                            dsimp only
                            have hz : read (write m1 (mem.length + 1)
                                (.object
                                  { type := .VORBIS_COMMENT, is_last := is_last, length := length,
                                    stream_info := fresh.stream_info,
                                    application := fresh.application,
                                    seek_table := fresh.seek_table,
                                    vorbis_comment :=
                                      { vendor_string := e', num_comments := nc,
                                        comments := 0 } })) 0 = none := by
                              unfold read
                              rw [if_pos rfl]
                            rw [hz]
                            intro a ha
                            simp only [List.mem_cons, List.mem_filter, List.map_nil,
                              List.not_mem_nil, or_false, decide_eq_true_eq, ne_eq,
                              decide_not, Bool.not_eq_true', decide_eq_false_iff_not] at ha
                            rcases ha with ha | ⟨ha, h0⟩
                            · omega
                            · rcases ha with ha | ha <;> omega
                      | some arr =>
                          dsimp only at hw2
                          obtain ⟨hw3, hw4, hw5⟩ := hw2
                          rw [if_neg (by omega)]
                          obtain ⟨done', m2, hac, hp2, hrd, hfa⟩ :=
                            entry_array_copy_of_loaded heap hm 2 m1 comments nc arr
                              (load_entries_extended ((List.prefix_append _ _).trans hp1) hcm)
                              hw3 hw5
                          have hlen2 := hp2.length_le
                          have hra := (read_some_le hrd).2
                          rw [hac]
                          dsimp only
                          rw [if_neg (by omega)]
                          refine ⟨_, _, rfl, ?_,
                            hex _ (prefix_write (((List.prefix_append _ _).trans hp1).trans hp2) _
                              _ (by omega)),
                            load_extended (prefix_write
                              (((List.prefix_append _ _).trans hp1).trans hp2) _ _ (by omega))
                              hload0, ?_, ?_⟩
                          · unfold load
                            rw [read_write_same _ _ _ (by omega) (by omega)]
                            dsimp only
                            rw [load_entry_write _ _ _ _ hne1, load_entry_extended hp2 hl1]
                            unfold load_entries
                            rw [if_neg (by omega), read_write_ne _ _ _ _ (by omega), hrd]
                            dsimp only
                            rw [(load_entry_list_iff _ _ _).mpr
                              (hfa.imp (fun e w k => by
                                rw [load_entry_write _ _ _ _ (by rcases k.2 with q | q <;> omega)]
                                exact k.1))]
                            rfl
                          · unfold blocks_of
                            rw [read_write_same _ _ _ (by omega) (by omega)]
                            simp
                          · unfold blocks_of
                            rw [read_write_same _ _ _ (by omega) (by omega)]
                            dsimp only
                            rw [read_write_ne _ _ _ _ (by omega), hrd]
                            intro a ha
                            simp only [List.mem_cons, List.mem_filter, List.mem_map,
                              decide_eq_true_eq, ne_eq, decide_not, Bool.not_eq_true',
                              decide_eq_false_iff_not] at ha
                            rcases ha with ha | ⟨ha, h0⟩
                            · omega
                            · rcases ha with ha | ha | ⟨e, he, hea⟩
                              · omega
                              · omega
                              · obtain ⟨w, -, hw⟩ := forall_two_mem_left hfa e he
                                omega

/-- Witness for C17: the copy of the example comments object, which lies in the blocks 1 to
5 of the example memory. -/
theorem metadata_object_copy_spec_witness :
    ∃ copy mem', FLAC__metadata_object_copy example_heap example_memory 1 = some (copy, mem') ∧
      load mem' copy = some example_comments ∧ (∃ new, mem' = example_memory ++ new) ∧
      load mem' 1 = some example_comments ∧
      copy ∈ blocks_of mem' copy ∧ ∀ a ∈ blocks_of mem' copy, example_memory.length < a :=
  metadata_object_copy_spec example_heap example_memory 1 example_comments (by decide)
    ⟨rfl, rfl, (by decide), (by
      intro e he
      simp only [List.mem_cons, List.mem_singleton, List.not_mem_nil, or_false] at he
      rcases he with he | he <;> subst he <;> rfl)⟩
    (fun _ _ => rfl)

end Pointers

/-! ## File decoder: the bounds of a seek -/

/-- The search for sample 5 on the example stream of 100 samples: the first estimate lies
below the first frame and is raised to its offset, `50 - 8`. -/
theorem example_long_seek :
    (FLAC__file_decoder_seek_absolute example_decoder_client example_md5 example_long_env
        example_long_decoder 5).seeks = [42] ∧
      (FLAC__file_decoder_seek_absolute example_decoder_client example_md5 example_long_env
        example_long_decoder 5).result = some true := by
  decide

/-! ## File decoder: callbacks while seeking -/

/-- C39: while the file decoder is `SEEKING`, a decoded frame that does not contain the
target sample (`target < F` or `F + blocksize <= target` for its first sample `F`) is not
passed to the client: `write_callback_` returns `CONTINUE`, makes no client call and only
records the frame as the last frame.  A metadata block and an error status are not passed to
the client either; the error callback changes nothing, and the metadata callback changes
nothing but, for a STREAMINFO block, the stored stream info and MD5 sum (and `check_md5`,
which it switches off when that sum is all zero). -/
theorem no_client_calls_while_seeking (client : FileDecoderClient) (md5 : MD5Lib)
    (d : ActiveDecoder) (hs : d.state = .SEEKING) :
    (∀ (frame : Frame) (buffer : Buffers),
      (d.guts.target_sample < frame.header.number ∨
        frame.header.number + frame.header.blocksize ≤ d.guts.target_sample) →
      write_callback_ client md5 d frame buffer =
        (.CONTINUE, { d with guts := { d.guts with last_frame := frame } }, [])) ∧
    (∀ m : StreamMetaData,
      (metadata_callback_ d m).2 = [] ∧ (metadata_callback_ d m).1.state = .SEEKING ∧
        (m.type = .STREAMINFO →
          (metadata_callback_ d m).1.guts =
              { d.guts with stream_info := m.stream_info,
                            stored_md5sum := m.stream_info.md5sum.take 16 } ∧
            (metadata_callback_ d m).1.check_md5 =
              (d.check_md5 && memcmp16 m.stream_info.md5sum zero_md5sum)) ∧
        (m.type ≠ .STREAMINFO → (metadata_callback_ d m).1 = d)) ∧
    (∀ status : Nat, error_callback_ d status = (d, [])) := by
  refine ⟨?_, ?_, ?_⟩
  · intro frame buffer hout
    have hmod := Nat.mod_le (frame.header.number + frame.header.blocksize) (2 ^ 64)
    unfold write_callback_
    rw [if_pos hs]
    dsimp only
    rw [if_neg (by omega)]
  · intro m
    unfold metadata_callback_
    by_cases ht : m.type = .STREAMINFO
    · simp only [ht, if_true]
      rw [memcmp16_take_left]
      cases hz : memcmp16 m.stream_info.md5sum zero_md5sum <;> simp [hs]
    · simp [ht, hs]
  · intro status
    unfold error_callback_
    rw [if_neg (by simp [hs])]

/-- Witness for C39: the example decoder seeking sample 5 is given the frame of the samples
16 to 31, a STREAMINFO block and an error status. -/
theorem no_client_calls_while_seeking_witness :
    write_callback_ example_decoder_client example_md5 example_seeking_decoder (example_frame 16)
        [List.replicate 16 5] =
      (.CONTINUE,
        { example_seeking_decoder with
            guts := { example_seeking_decoder.guts with last_frame := example_frame 16 } }, []) ∧
    (metadata_callback_ example_seeking_decoder
      (example_stream_info_block 100 (List.replicate 16 9))).2 = [] ∧
    error_callback_ example_seeking_decoder 3 = (example_seeking_decoder, []) :=
  ⟨(no_client_calls_while_seeking example_decoder_client example_md5 example_seeking_decoder
      rfl).1 (example_frame 16) [List.replicate 16 5] (Or.inl (by decide)),
   ((no_client_calls_while_seeking example_decoder_client example_md5 example_seeking_decoder
      rfl).2.1 (example_stream_info_block 100 (List.replicate 16 9))).1,
   (no_client_calls_while_seeking example_decoder_client example_md5 example_seeking_decoder
      rfl).2.2 3⟩

/-! ## Stream encoder: interleaved input -/

/-- C33: the mono example encoder is given two wide samples.  From the per-channel array
`[1, 2]` `FLAC__encoder_process` stores the samples 1 and 2.  From the interleaved buffer
`[1, 2, 3, 4]` `FLAC__encoder_process_interleaved` stores `buf[0]` and `buf[2]`, the samples
1 and 3: `k` is incremented by the channel loop and once more by the sample loop, so wide
sample `j` of channel `ch` is read from `buf[j * (channels + 1) + ch]`.  From the interleaved
buffer of `2 * 1` samples `[1, 2]` the second read, of `buf[2]`, lies outside the buffer. -/
theorem process_interleaved_skips_samples :
    (FLAC__encoder_process example_lib example_encoder_client example_initialized
        [[1, 2]] 2).map (fun r => (r.1, (r.2.1.guts.integer_signal.getD 0 []).take 2)) =
      some (true, [1, 2]) ∧
    (FLAC__encoder_process_interleaved example_lib example_encoder_client example_initialized
        [1, 2, 3, 4] 2).map (fun r => (r.1, (r.2.1.guts.integer_signal.getD 0 []).take 2)) =
      some (true, [1, 3]) ∧
    FLAC__encoder_process_interleaved example_lib example_encoder_client example_initialized
        [1, 2] 2 = none := by
  decide

/-! ## Command line encoder: filling the seek table -/

/-- The loop of `write_callback` over a template that is sorted from index `i` on: the points
from `i` on whose sample lies in the frame are filled, all other points are as before, and
`first_seek_point_to_check` advances to the first point beyond the frame. -/
theorem seek_point_loop_spec (blocksize first last offset n : Nat) (hn : n < 2 ^ 32) :
    ∀ (fuel i ftc : Nat) (points : List StreamMetaData_SeekPoint),
      n - i < fuel → i ≤ n → ftc < 2 ^ 32 → points.length = n →
      (∀ a b pa pb, i ≤ a → a ≤ b → points[a]? = some pa → points[b]? = some pb →
        pa.sample_number ≤ pb.sample_number) →
      ∃ m points', i ≤ m ∧ m ≤ n ∧
        seek_point_loop blocksize first last offset n fuel i ftc points =
          some ((ftc + (m - i)) % 2 ^ 32, points') ∧
        points'.length = n ∧
        (∀ a, points'[a]? = (points[a]?).map (fun p =>
          if i ≤ a ∧ first ≤ p.sample_number ∧ p.sample_number ≤ last then
            { sample_number := first, stream_offset := offset, frame_samples := blocksize }
          else p)) ∧
        (∀ a p, i ≤ a → a < m → points[a]? = some p → p.sample_number ≤ last) ∧
        (∀ a p, m ≤ a → points[a]? = some p → last < p.sample_number) := by
  intro fuel
  induction fuel with
  | zero => intro i ftc points hf; omega
  | succ fuel ih =>
      intro i ftc points hf hi hftc hlen hsorted
      unfold seek_point_loop
      by_cases hin : i < n
      · rw [if_pos hin]
        have hget : points[i]? = some points[i] := List.getElem?_eq_getElem (by omega)
        rw [hget]
        dsimp only
        have hi1 : (i + 1) % 2 ^ 32 = i + 1 := Nat.mod_eq_of_lt (by omega)
        by_cases hbeyond : points[i].sample_number > last
        · rw [if_pos hbeyond]
          refine ⟨i, points, le_refl _, hi, by rw [Nat.sub_self, Nat.add_zero, Nat.mod_eq_of_lt hftc], hlen, ?_, ?_, ?_⟩
          · intro a
            cases hpa : points[a]? with
            | none => rfl
            | some p =>
                simp only [Option.map_some', Option.some.injEq]
                by_cases hia : i ≤ a
                · have := hsorted i a _ _ (le_refl _) hia hget hpa
                  rw [if_neg (by omega)]
                · rw [if_neg (by omega)]
          · intro a p h1 h2
            omega
          · intro a p h1 hpa
            have := hsorted i a _ _ (le_refl _) h1 hget hpa
            omega
        · rw [if_neg hbeyond]
          have hrest : ∀ (pts : List StreamMetaData_SeekPoint),
              (∀ a, a ≠ i → pts[a]? = points[a]?) →
              ∀ a b pa pb, i + 1 ≤ a → a ≤ b → pts[a]? = some pa → pts[b]? = some pb →
                pa.sample_number ≤ pb.sample_number := by
            intro pts hsame a b pa pb h1 h2 h3 h4
            rw [hsame a (by omega)] at h3
            rw [hsame b (by omega)] at h4
            exact hsorted a b pa pb (by omega) h2 h3 h4
          by_cases hinside : points[i].sample_number ≥ first
          · rw [if_pos hinside, hi1]
            obtain ⟨m, points', k1, k2, k3, k4, k5, k6, k7⟩ :=
              ih (i + 1) ((ftc + 1) % 2 ^ 32)
                (points.set i { sample_number := first, stream_offset := offset,
                                frame_samples := blocksize })
                (by omega) (by omega) (Nat.mod_lt _ (by norm_num))
                (by rw [List.length_set]; exact hlen)
                (hrest _ (fun a ha => by rw [List.getElem?_set_ne (by omega)]))
            refine ⟨m, points', by omega, k2, ?_, k4, ?_, ?_, ?_⟩
            · rw [k3]
              congr 2
              rw [Nat.add_mod, Nat.mod_mod, ← Nat.add_mod]
              congr 1
              omega
            · intro a
              rw [k5 a]
              by_cases hai : a = i
              · subst hai
                rw [List.getElem?_set_self (by omega), hget]
                simp only [Option.map_some', Option.some.injEq]
                rw [if_neg (by omega), if_pos ⟨le_refl _, hinside, by omega⟩]
              · rw [List.getElem?_set_ne (by omega)]
                cases hpa : points[a]? with
                | none => rfl
                | some p =>
                    simp only [Option.map_some', Option.some.injEq]
                    by_cases hia : i ≤ a
                    · by_cases hc : first ≤ p.sample_number ∧ p.sample_number ≤ last
                      · rw [if_pos ⟨by omega, hc⟩, if_pos ⟨hia, hc⟩]
                      · rw [if_neg (fun h => hc h.2), if_neg (fun h => hc h.2)]
                    · rw [if_neg (by omega), if_neg (by omega)]
            · intro a p h1 h2 hpa
              by_cases hai : a = i
              · subst hai
                rw [hget] at hpa
                cases hpa
                omega
              · exact k6 a p (by omega) h2 (by rw [List.getElem?_set_ne (by omega)]; exact hpa)
            · intro a p h1 hpa
              exact k7 a p h1 (by rw [List.getElem?_set_ne (by omega)]; exact hpa)
          · rw [if_neg hinside, hi1]
            obtain ⟨m, points', k1, k2, k3, k4, k5, k6, k7⟩ :=
              ih (i + 1) ((ftc + 1) % 2 ^ 32) points (by omega) (by omega)
                (Nat.mod_lt _ (by norm_num)) hlen
                (hrest _ (fun a _ => rfl))
            refine ⟨m, points', by omega, k2, ?_, k4, ?_, ?_, k7⟩
            · rw [k3]
              congr 2
              rw [Nat.add_mod, Nat.mod_mod, ← Nat.add_mod]
              congr 1
              omega
            · intro a
              rw [k5 a]
              cases hpa : points[a]? with
              | none => rfl
              | some p =>
                  simp only [Option.map_some', Option.some.injEq]
                  by_cases hai : a = i
                  · subst hai
                    rw [hget] at hpa
                    cases hpa
                    rw [if_neg (by omega), if_neg (by omega)]
                  · by_cases hia : i ≤ a
                    · by_cases hc : first ≤ p.sample_number ∧ p.sample_number ≤ last
                      · rw [if_pos ⟨by omega, hc⟩, if_pos ⟨hia, hc⟩]
                      · rw [if_neg (fun h => hc h.2), if_neg (fun h => hc h.2)]
                    · rw [if_neg (by omega), if_neg (by omega)]
            · intro a p h1 h2 hpa
              by_cases hai : a = i
              · subst hai
                rw [hget] at hpa
                cases hpa
                omega
              · exact k6 a p (by omega) h2 hpa
      · rw [if_neg hin]
        have hie : i = n := by omega
        subst hie
        refine ⟨i, points, le_refl _, le_refl _, by rw [Nat.sub_self, Nat.add_zero, Nat.mod_eq_of_lt hftc], hlen, ?_, ?_, ?_⟩
        · intro a
          cases hpa : points[a]? with
          | none => rfl
          | some p =>
              have hlt : a < points.length := by
                by_contra hcon
                rw [List.getElem?_eq_none (by omega)] at hpa
                cases hpa
              simp only [Option.map_some', Option.some.injEq]
              rw [if_neg (by omega)]
        · intro a p h1 h2
          omega
        · intro a p h1 hpa
          have hlt : a < points.length := by
            by_contra hcon
            rw [List.getElem?_eq_none (by omega)] at hpa
            cases hpa
          omega

/-- A list that is pairwise ordered from index `k` on is ordered between any two of its
indices from `k` on. -/
theorem sorted_from_index (points : List StreamMetaData_SeekPoint) (k : Nat)
    (h : List.Pairwise (fun p q : StreamMetaData_SeekPoint => p.sample_number ≤ q.sample_number)
      (points.drop k)) :
    ∀ a b pa pb, k ≤ a → a ≤ b → points[a]? = some pa → points[b]? = some pb →
      pa.sample_number ≤ pb.sample_number := by
  intro a b pa pb h1 h2 h3 h4
  by_cases hab : a = b
  · subst hab
    rw [h3] at h4
    cases h4
    exact le_refl _
  · have h3' : (points.drop k)[a - k]? = some pa := by
      rw [List.getElem?_drop, ← h3]
      congr 1
      omega
    have h4' : (points.drop k)[b - k]? = some pb := by
      rw [List.getElem?_drop, ← h4]
      congr 1
      omega
    obtain ⟨ha, hea⟩ := List.getElem?_eq_some_iff.mp h3'
    obtain ⟨hb, heb⟩ := List.getElem?_eq_some_iff.mp h4'
    have := List.pairwise_iff_getElem.mp h (a - k) (b - k) ha hb (by omega)
    rw [hea, heb] at this
    exact this

/-- C32: `write_callback` is called for frame `f` of a fixed blocksize (both `unsigned`, the
blocksize not zero) after the metadata has been written (`stream_offset > 0`), with a seek
table template of `num_points` points that is sorted ascending from
`first_seek_point_to_check` on.  With `F = f * blocksize`, every point from
`first_seek_point_to_check` on whose sample number lies in `[F, F + blocksize - 1]` is set to
`(F, bytes_written - stream_offset, blocksize)`, so several such points become equal; every
other point, among them every placeholder, is left as it was; when the points before
`first_seek_point_to_check` are those of earlier frames (sample numbers below `F`), the points
set are exactly the points of the template with a sample number in the frame;
`first_seek_point_to_check` advances to the first point beyond the frame; and the counters
are updated. -/
theorem seek_points_filled (blocksize : Nat) (w : encoder_wrapper_struct)
    (bytes samples f : Nat) (points : List StreamMetaData_SeekPoint)
    (hp : w.seek_table.points = some points) (hlen : points.length = w.seek_table.num_points)
    (hn : w.seek_table.num_points < 2 ^ 32) (hoff : 0 < w.stream_offset)
    (hb0 : 0 < blocksize) (hb : blocksize < 2 ^ 32) (hf : f < 2 ^ 32)
    (hftc : w.first_seek_point_to_check ≤ w.seek_table.num_points)
    (hsorted : List.Pairwise
      (fun p q : StreamMetaData_SeekPoint => p.sample_number ≤ q.sample_number)
      (points.drop w.first_seek_point_to_check)) :
    ∃ w' points', write_callback blocksize w bytes samples f = some w' ∧
      w'.seek_table.points = some points' ∧
      w'.seek_table.num_points = w.seek_table.num_points ∧
      points'.length = points.length ∧
      (∀ a : Nat, points'[a]? = (points[a]?).map (fun p : StreamMetaData_SeekPoint =>
        if w.first_seek_point_to_check ≤ a ∧ f * blocksize ≤ p.sample_number ∧
            p.sample_number ≤ f * blocksize + blocksize - 1 then
          { sample_number := f * blocksize
            stream_offset := uint64_sub w.bytes_written w.stream_offset
            frame_samples := blocksize }
        else p)) ∧
      ((∀ (b : Nat) (q : StreamMetaData_SeekPoint), b < w.first_seek_point_to_check →
          points[b]? = some q → q.sample_number < f * blocksize) →
        ∀ a : Nat, points'[a]? = (points[a]?).map (fun p : StreamMetaData_SeekPoint =>
          if f * blocksize ≤ p.sample_number ∧
              p.sample_number ≤ f * blocksize + blocksize - 1 then
            { sample_number := f * blocksize
              stream_offset := uint64_sub w.bytes_written w.stream_offset
              frame_samples := blocksize }
          else p)) ∧
      (∀ (a : Nat) (p : StreamMetaData_SeekPoint), points[a]? = some p →
        p.sample_number = FLAC__STREAM_METADATA_SEEKPOINT_PLACEHOLDER → points'[a]? = some p) ∧
      (w.stream_offset ≤ w.bytes_written → w.bytes_written < 2 ^ 64 →
        uint64_sub w.bytes_written w.stream_offset = w.bytes_written - w.stream_offset) ∧
      w.first_seek_point_to_check ≤ w'.first_seek_point_to_check ∧
      w'.first_seek_point_to_check ≤ w.seek_table.num_points ∧
      (∀ (a : Nat) (p : StreamMetaData_SeekPoint), w.first_seek_point_to_check ≤ a →
        a < w'.first_seek_point_to_check →
        points[a]? = some p → p.sample_number ≤ f * blocksize + blocksize - 1) ∧
      (∀ (a : Nat) (p : StreamMetaData_SeekPoint), w'.first_seek_point_to_check ≤ a →
        points[a]? = some p →
        f * blocksize + blocksize - 1 < p.sample_number) ∧
      w'.bytes_written = (w.bytes_written + bytes) % 2 ^ 64 ∧
      w'.samples_written = (w.samples_written + samples) % 2 ^ 64 ∧
      w'.current_frame = f ∧ w'.stream_offset = w.stream_offset := by
  have hmul : f * blocksize ≤ (2 ^ 32 - 1) * (2 ^ 32 - 1) :=
    Nat.mul_le_mul (by omega) (by omega)
  have hF : (f * blocksize) % 2 ^ 64 = f * blocksize := Nat.mod_eq_of_lt (by omega)
  have hL : uint64_sub ((f * blocksize + blocksize) % 2 ^ 64) 1 =
      f * blocksize + blocksize - 1 := by
    unfold uint64_sub
    rw [Nat.mod_eq_of_lt (by omega), if_pos (by omega), Nat.mod_eq_of_lt (by omega)]
  have hsub : w.stream_offset ≤ w.bytes_written → w.bytes_written < 2 ^ 64 →
      uint64_sub w.bytes_written w.stream_offset = w.bytes_written - w.stream_offset := by
    intro h1 h2
    unfold uint64_sub
    rw [if_pos h1, Nat.mod_eq_of_lt (by omega)]
  have hplace : ∀ p : StreamMetaData_SeekPoint,
      p.sample_number = FLAC__STREAM_METADATA_SEEKPOINT_PLACEHOLDER →
      ¬ p.sample_number ≤ f * blocksize + blocksize - 1 := by
    intro p hpl
    rw [hpl]
    unfold FLAC__STREAM_METADATA_SEEKPOINT_PLACEHOLDER
    omega
  obtain ⟨bw, sw, so, cf, ⟨np, pts⟩, ftc⟩ := w
  dsimp only at hp hlen hn hoff hftc hsorted hsub ⊢
  subst hp
  unfold write_callback
  dsimp only
  by_cases hnp : np > 0
  · rw [if_pos ⟨hoff, hnp⟩, hF, hL]
    obtain ⟨m, points', k1, k2, k3, k4, k5, k6, k7⟩ :=
      seek_point_loop_spec blocksize (f * blocksize) (f * blocksize + blocksize - 1)
        (uint64_sub bw so) np hn (np + 1) ftc ftc points (by omega) hftc (by omega) hlen
        (sorted_from_index points ftc hsorted)
    have hm : (ftc + (m - ftc)) % 2 ^ 32 = m := by
      rw [Nat.add_sub_cancel' k1]
      exact Nat.mod_eq_of_lt (by omega)
    rw [k3, hm]
    refine ⟨_, points', rfl, rfl, rfl, by rw [k4, hlen], k5, ?_, ?_, hsub, k1, k2, k6, k7, rfl,
      rfl, rfl, rfl⟩
    · intro hpassed a
      rw [k5 a]
      cases hpa : points[a]? with
      | none => rfl
      | some p =>
          simp only [Option.map_some', Option.some.injEq]
          by_cases hc : ftc ≤ a
          · by_cases hr : f * blocksize ≤ p.sample_number ∧
                p.sample_number ≤ f * blocksize + blocksize - 1
            · rw [if_pos ⟨hc, hr⟩, if_pos hr]
            · rw [if_neg (fun h => hr h.2), if_neg hr]
          · have := hpassed a p (by omega) hpa
            rw [if_neg (fun h => hc h.1), if_neg (fun h => by omega)]
    · intro a p hpa hpl
      rw [k5 a, hpa]
      simp only [Option.map_some', Option.some.injEq]
      rw [if_neg (fun h => hplace p hpl h.2.2)]
  · rw [if_neg (fun h => hnp h.2)]
    have hnil : points = [] := List.length_eq_zero.mp (by omega)
    subst hnil
    refine ⟨_, [], rfl, rfl, rfl, rfl, ?_, ?_, ?_, hsub, le_refl _, hftc, ?_, ?_, rfl, rfl, rfl,
      rfl⟩
    · intro a
      rfl
    · intro _ a
      rfl
    · intro a p hpa
      cases hpa
    · intro a p _ _ hpa
      cases hpa
    · intro a p _ hpa
      cases hpa

/-- Witness for C32: frame 2 (samples 32 to 47) is written to the example wrapper, whose
template from index 1 on is 40, 45, 90 and a placeholder: the points for the samples 40 and
45 both become the point `(32, 60, 16)` of the frame, and the first point, the point for
sample 90 and the placeholder stay as they are. -/
theorem seek_points_filled_witness :
    ∃ w' points', write_callback 16 example_wrapper 30 16 2 = some w' ∧
      w'.seek_table.points = some points' ∧
      w'.seek_table.num_points = example_wrapper.seek_table.num_points ∧
      points'.length = example_template.length ∧
      (∀ a : Nat, points'[a]? = (example_template[a]?).map
        (fun p : StreamMetaData_SeekPoint =>
          if example_wrapper.first_seek_point_to_check ≤ a ∧ 2 * 16 ≤ p.sample_number ∧
              p.sample_number ≤ 2 * 16 + 16 - 1 then
            { sample_number := 2 * 16
              stream_offset :=
                uint64_sub example_wrapper.bytes_written example_wrapper.stream_offset
              frame_samples := 16 }
          else p)) ∧
      ((∀ (b : Nat) (q : StreamMetaData_SeekPoint),
          b < example_wrapper.first_seek_point_to_check →
          example_template[b]? = some q → q.sample_number < 2 * 16) →
        ∀ a : Nat, points'[a]? = (example_template[a]?).map
          (fun p : StreamMetaData_SeekPoint =>
            if 2 * 16 ≤ p.sample_number ∧ p.sample_number ≤ 2 * 16 + 16 - 1 then
              { sample_number := 2 * 16
                stream_offset :=
                  uint64_sub example_wrapper.bytes_written example_wrapper.stream_offset
                frame_samples := 16 }
            else p)) ∧
      (∀ (a : Nat) (p : StreamMetaData_SeekPoint), example_template[a]? = some p →
        p.sample_number = FLAC__STREAM_METADATA_SEEKPOINT_PLACEHOLDER → points'[a]? = some p) ∧
      (example_wrapper.stream_offset ≤ example_wrapper.bytes_written →
        example_wrapper.bytes_written < 2 ^ 64 →
        uint64_sub example_wrapper.bytes_written example_wrapper.stream_offset =
          example_wrapper.bytes_written - example_wrapper.stream_offset) ∧
      example_wrapper.first_seek_point_to_check ≤ w'.first_seek_point_to_check ∧
      w'.first_seek_point_to_check ≤ example_wrapper.seek_table.num_points ∧
      (∀ (a : Nat) (p : StreamMetaData_SeekPoint),
        example_wrapper.first_seek_point_to_check ≤ a →
        a < w'.first_seek_point_to_check →
        example_template[a]? = some p → p.sample_number ≤ 2 * 16 + 16 - 1) ∧
      (∀ (a : Nat) (p : StreamMetaData_SeekPoint), w'.first_seek_point_to_check ≤ a →
        example_template[a]? = some p →
        2 * 16 + 16 - 1 < p.sample_number) ∧
      w'.bytes_written = (example_wrapper.bytes_written + 30) % 2 ^ 64 ∧
      w'.samples_written = (example_wrapper.samples_written + 16) % 2 ^ 64 ∧
      w'.current_frame = 2 ∧ w'.stream_offset = example_wrapper.stream_offset :=
  seek_points_filled 16 example_wrapper 30 16 2 example_template rfl rfl (by decide)
    (by decide) (by decide) (by decide) (by decide) (by decide) (by decide)

/-- The wrapper after frame 2 has been written to the example wrapper. -/
theorem example_wrapper_after_frame :
    write_callback 16 example_wrapper 30 16 2 =
      some { bytes_written := 190, samples_written := 48, stream_offset := 100,
             current_frame := 2, first_seek_point_to_check := 3,
             seek_table :=
               { num_points := 5
                 points := some
                   [{ sample_number := 16, stream_offset := 30, frame_samples := 16 },
                    { sample_number := 32, stream_offset := 60, frame_samples := 16 },
                    { sample_number := 32, stream_offset := 60, frame_samples := 16 },
                    { sample_number := 90, stream_offset := 0, frame_samples := 0 },
                    placeholder_point] } } := by
  decide

/-! ## Stream encoder: the block is never overfilled -/

theorem nested_set_other (sig : List (List Int)) (c i : Nat) (x : Int) (ch k : Nat)
    (h : k ≠ i) :
    ((sig.set c ((sig.getD c []).set i x)).getD ch []).getD k 0 =
      (sig.getD ch []).getD k 0 := by
  rw [getD_set]
  split_ifs with hc
  · obtain ⟨rfl, _⟩ := hc
    rw [getD_set, if_neg (fun h' => h h'.1.symm)]
  · rfl

theorem store_fold_other (buf : Buffers) (i j ch k : Nat) (h : k ≠ i) :
    ∀ (l : List Nat) (sig : List (List Int)),
      ((l.foldl
          (fun sig channel =>
            sig.set channel ((sig.getD channel []).set i ((buf.getD channel []).getD j 0)))
          sig).getD ch []).getD k 0 = (sig.getD ch []).getD k 0 := by
  intro l
  induction l with
  | nil => intro sig; rfl
  | cons c rest ih =>
      intro sig
      rw [List.foldl_cons, ih, nested_set_other _ _ _ _ _ _ h]

/-- `store_sample` for the buffer index `i` changes no other index of the signal buffers. -/
theorem store_sample_other (e : ActiveEncoder) (buf : Buffers) (i j ch k : Nat) (h : k ≠ i) :
    ((store_sample e buf i j).guts.integer_signal.getD ch []).getD k 0 =
        (e.guts.integer_signal.getD ch []).getD k 0 ∧
      ((store_sample e buf i j).guts.integer_signal_mid_side.getD ch []).getD k 0 =
        (e.guts.integer_signal_mid_side.getD ch []).getD k 0 := by
  unfold store_sample
  dsimp only
  split_ifs
  · exact ⟨store_fold_other buf i j ch k h _ _, rfl⟩
  · refine ⟨store_fold_other buf i j ch k h _ _, ?_⟩
    dsimp only
    have hik : ¬ i = k := fun h' => h h'.symm
    rw [getD_set]
    split_ifs with h1
    · obtain ⟨rfl, -⟩ := h1
      rw [getD_set, if_neg (fun h' => hik h'.1)]
    · rw [getD_set]
      split_ifs with h0
      · obtain ⟨rfl, -⟩ := h0
        rw [getD_set, if_neg (fun h' => hik h'.1)]
      · rfl
  · exact ⟨store_fold_other buf i j ch k h _ _, rfl⟩

/-- The sample loop of `FLAC__encoder_process` changes no index from `blocksize` on of the
signal buffers. -/
theorem fill_loop_above (buf : Buffers) (samples : Nat) :
    ∀ (fuel i j : Nat) (e : ActiveEncoder) (ch k : Nat), e.blocksize ≤ k →
      ((fill_loop buf samples fuel i j e).2.2.guts.integer_signal.getD ch []).getD k 0 =
          (e.guts.integer_signal.getD ch []).getD k 0 ∧
        ((fill_loop buf samples fuel i j e).2.2.guts.integer_signal_mid_side.getD ch []).getD k 0 =
          (e.guts.integer_signal_mid_side.getD ch []).getD k 0 := by
  intro fuel
  induction fuel with
  | zero =>
      intro i j e ch k _
      exact ⟨rfl, rfl⟩
  | succ fuel ih =>
      intro i j e ch k hk
      unfold fill_loop
      split_ifs with h
      · have hs := store_sample_other e buf i j ch k (by omega)
        have hb : (store_sample e buf i j).blocksize = e.blocksize :=
          congrArg EncoderSettings.blocksize (store_sample_keeps e buf i j).1
        have := ih (i + 1) (j + 1) (store_sample e buf i j) ch k (by rw [hb]; exact hk)
        exact ⟨this.1.trans hs.1, this.2.trans hs.2⟩
      · exact ⟨rfl, rfl⟩

/-- The outer loop of `FLAC__encoder_process`, entered with `current_sample_number <
blocksize`, returns whenever every frame returns; it keeps the blocksize and the buffer
contents from index `blocksize` on; when it returns `true`, `current_sample_number <
blocksize` again and every sample has been consumed: the samples of the frames written and
the samples left in the block add up to those that were in the block and those given. -/
theorem process_loop_fill (lib : EncoderLib) (client : EncoderClient) (buf : Buffers)
    (samples : Nat) (settings : EncoderSettings)
    (hret : ∀ x : ActiveEncoder, x.toEncoderSettings = settings →
      encoder_process_frame_ lib client x false ≠ none) :
    ∀ (fuel j : Nat) (e : ActiveEncoder) (calls : List EncoderCall),
      samples - j < fuel → j ≤ samples → e.toEncoderSettings = settings →
      0 < e.blocksize → e.blocksize < 2 ^ 32 → e.guts.current_sample_number < e.blocksize →
      ∃ ok e' new, process_loop lib client buf samples fuel j e calls =
          some (ok, e', calls ++ new) ∧
        e'.blocksize = e.blocksize ∧
        (ok = true → e'.guts.current_sample_number < e.blocksize ∧
          (written_samples new).sum + e'.guts.current_sample_number =
            e.guts.current_sample_number + (samples - j)) ∧
        (∀ ch k, e.blocksize ≤ k →
          (e'.guts.integer_signal.getD ch []).getD k 0 =
              (e.guts.integer_signal.getD ch []).getD k 0 ∧
            (e'.guts.integer_signal_mid_side.getD ch []).getD k 0 =
              (e.guts.integer_signal_mid_side.getD ch []).getD k 0) := by
  intro fuel
  induction fuel with
  | zero =>
      intro j e calls hf
      omega
  | succ fuel ih =>
      intro j e calls hf hj hset hb0 hb1 hcs
      have hfill := fill_loop_spec buf samples (samples - j) e.guts.current_sample_number j e
        (le_refl _) (by omega)
      have habove := fill_loop_above buf samples (samples - j) e.guts.current_sample_number j e
      unfold process_loop
      dsimp only
      generalize fill_loop buf samples (samples - j) e.guts.current_sample_number j e = F
        at hfill habove ⊢
      obtain ⟨i', j', f⟩ := F
      dsimp only at hfill habove ⊢
      obtain ⟨hi, hj', hfs, -, -, hfc⟩ := hfill
      have hfb : f.blocksize = e.blocksize := congrArg EncoderSettings.blocksize hfs
      rw [hfb]
      by_cases hfull : i' = e.blocksize
      · rw [if_pos hfull]
        cases hfr : encoder_process_frame_ lib client f false with
        | none => exact absurd hfr (hret f (hfs.trans hset))
        | some r =>
            obtain ⟨ok, e1, c⟩ := r
            have hout := encoder_process_frame_outcome lib client f false ok e1 c hfr
            obtain ⟨o1, -, o3, o4, o5, -⟩ := hout
            have he1b : e1.blocksize = e.blocksize := by
              rw [← hfb]
              have := congrArg EncoderSettings.blocksize o1
              exact this
            have hab : ∀ ch k, e.blocksize ≤ k →
                (e1.guts.integer_signal.getD ch []).getD k 0 =
                    (e.guts.integer_signal.getD ch []).getD k 0 ∧
                  (e1.guts.integer_signal_mid_side.getD ch []).getD k 0 =
                    (e.guts.integer_signal_mid_side.getD ch []).getD k 0 := by
              intro ch k hk
              rw [o3, o4]
              exact habove ch k hk
            cases ok with
            | false =>
                dsimp only
                exact ⟨false, e1, c, rfl, he1b, (fun h => by cases h), hab⟩
            | true =>
                dsimp only
                obtain ⟨p1, -, p3, -, -, buffer, bytes, p6, -, -⟩ := o5 rfl
                have hset1 : e1.toEncoderSettings = settings := by
                  rw [← hset, ← hfs, o1, p1]
                have hws : written_samples c = [e.blocksize] := by
                  rw [p6, ← hfb]
                  rfl
                by_cases hmore : j' < samples
                · rw [if_pos hmore]
                  obtain ⟨ok2, e2, new, q1, q2, q3, q4⟩ :=
                    ih j' e1 (calls ++ c) (by omega) (by omega) hset1 (by omega) (by omega)
                      (by rw [p3]; omega)
                  refine ⟨ok2, e2, c ++ new, by rw [q1, List.append_assoc], by rw [q2, he1b],
                    ?_, ?_⟩
                  · intro hok
                    obtain ⟨r1, r2⟩ := q3 hok
                    rw [he1b] at r1
                    refine ⟨r1, ?_⟩
                    rw [written_samples_append, List.sum_append, hws, p3] at *
                    simp only [List.sum_cons, List.sum_nil] at *
                    omega
                  · intro ch k hk
                    have := q4 ch k (by rw [he1b]; exact hk)
                    exact ⟨this.1.trans (hab ch k hk).1, this.2.trans (hab ch k hk).2⟩
                · rw [if_neg hmore]
                  refine ⟨true, e1, c, rfl, he1b, ?_, hab⟩
                  intro _
                  rw [p3, hws]
                  simp only [List.sum_cons, List.sum_nil]
                  omega
      · rw [if_neg hfull]
        by_cases hmore : j' < samples
        · exfalso
          omega
        · rw [if_neg hmore]
          refine ⟨true, f, [], by rw [List.append_nil], hfb, ?_, habove⟩
          intro _
          rw [hfc]
          simp only [written_samples, List.sum_nil]
          omega

/-- The same for a loop entered with a full block (`current_sample_number = blocksize`, as a
refused frame leaves it): the first pass writes the pending block. -/
theorem process_loop_fill_full (lib : EncoderLib) (client : EncoderClient) (buf : Buffers)
    (samples : Nat) (settings : EncoderSettings)
    (hret : ∀ x : ActiveEncoder, x.toEncoderSettings = settings →
      encoder_process_frame_ lib client x false ≠ none)
    (fuel j : Nat) (e : ActiveEncoder) (calls : List EncoderCall)
    (hf : samples - j + 1 < fuel) (hj : j ≤ samples) (hset : e.toEncoderSettings = settings)
    (hb0 : 0 < e.blocksize) (hb1 : e.blocksize < 2 ^ 32)
    (hcs : e.guts.current_sample_number ≤ e.blocksize) :
    ∃ ok e' new, process_loop lib client buf samples fuel j e calls =
        some (ok, e', calls ++ new) ∧
      e'.blocksize = e.blocksize ∧
      (ok = true → e'.guts.current_sample_number < e.blocksize ∧
        (written_samples new).sum + e'.guts.current_sample_number =
          e.guts.current_sample_number + (samples - j)) ∧
      (∀ ch k, e.blocksize ≤ k →
        (e'.guts.integer_signal.getD ch []).getD k 0 =
            (e.guts.integer_signal.getD ch []).getD k 0 ∧
          (e'.guts.integer_signal_mid_side.getD ch []).getD k 0 =
            (e.guts.integer_signal_mid_side.getD ch []).getD k 0) := by
  by_cases hlt : e.guts.current_sample_number < e.blocksize
  · exact process_loop_fill lib client buf samples settings hret fuel j e calls (by omega) hj
      hset hb0 hb1 hlt
  · have heq : e.guts.current_sample_number = e.blocksize := by omega
    obtain ⟨fuel, rfl⟩ : ∃ n, fuel = n + 1 := ⟨fuel - 1, by omega⟩
    have hfill := fill_loop_spec buf samples (samples - j) e.guts.current_sample_number j e
      (le_refl _) (by rw [heq, Nat.sub_self, Nat.zero_min]; omega)
    have habove := fill_loop_above buf samples (samples - j) e.guts.current_sample_number j e
    unfold process_loop
    dsimp only
    generalize fill_loop buf samples (samples - j) e.guts.current_sample_number j e = F
      at hfill habove ⊢
    obtain ⟨i', j', f⟩ := F
    dsimp only at hfill habove ⊢
    rw [heq, Nat.sub_self, Nat.zero_min, Nat.add_zero, Nat.add_zero] at hfill
    obtain ⟨hi, hj', hfs, -, -, hfc⟩ := hfill
    have hfb : f.blocksize = e.blocksize := congrArg EncoderSettings.blocksize hfs
    rw [hfb, if_pos hi]
    cases hfr : encoder_process_frame_ lib client f false with
    | none => exact absurd hfr (hret f (hfs.trans hset))
    | some r =>
        obtain ⟨ok, e1, c⟩ := r
        have hout := encoder_process_frame_outcome lib client f false ok e1 c hfr
        obtain ⟨o1, -, o3, o4, o5, -⟩ := hout
        have he1b : e1.blocksize = e.blocksize := by
          rw [← hfb]
          have := congrArg EncoderSettings.blocksize o1
          exact this
        have hab : ∀ ch k, e.blocksize ≤ k →
            (e1.guts.integer_signal.getD ch []).getD k 0 =
                (e.guts.integer_signal.getD ch []).getD k 0 ∧
              (e1.guts.integer_signal_mid_side.getD ch []).getD k 0 =
                (e.guts.integer_signal_mid_side.getD ch []).getD k 0 := by
          intro ch k hk
          rw [o3, o4]
          exact habove ch k hk
        cases ok with
        | false =>
            dsimp only
            exact ⟨false, e1, c, rfl, he1b, (fun h => by cases h), hab⟩
        | true =>
            dsimp only
            obtain ⟨p1, -, p3, -, -, buffer, bytes, p6, -, -⟩ := o5 rfl
            have hset1 : e1.toEncoderSettings = settings := by
              rw [← hset, ← hfs, o1, p1]
            have hws : written_samples c = [e.blocksize] := by
              rw [p6, ← hfb]
              rfl
            by_cases hmore : j' < samples
            · rw [if_pos hmore]
              obtain ⟨ok2, e2, new, q1, q2, q3, q4⟩ :=
                process_loop_fill lib client buf samples settings hret fuel j' e1 (calls ++ c)
                  (by omega) (by omega) hset1 (by omega) (by omega) (by rw [p3]; omega)
              refine ⟨ok2, e2, c ++ new, by rw [q1, List.append_assoc], by rw [q2, he1b],
                ?_, ?_⟩
              · intro hok
                obtain ⟨r1, r2⟩ := q3 hok
                rw [he1b] at r1
                refine ⟨r1, ?_⟩
                rw [written_samples_append, List.sum_append, hws, p3] at *
                simp only [List.sum_cons, List.sum_nil] at *
                omega
              · intro ch k hk
                have := q4 ch k (by rw [he1b]; exact hk)
                exact ⟨this.1.trans (hab ch k hk).1, this.2.trans (hab ch k hk).2⟩
            · rw [if_neg hmore]
              refine ⟨true, e1, c, rfl, he1b, ?_, hab⟩
              intro _
              rw [p3, hws]
              simp only [List.sum_cons, List.sum_nil]
              omega

/-- C36: after a successful `FLAC__encoder_init`, `current_sample_number < blocksize` (and
the blocksize is a positive `unsigned`).  A call of `FLAC__encoder_process` that is entered
with `current_sample_number <= blocksize` (`<` after the initialization and after a call that
returned `true`, `=` after a call in which the client refused the frame) returns, for every
sample count, whenever every `encoder_process_frame_` it calls returns; it keeps the
blocksize; when it returns `true`, `current_sample_number < blocksize` holds and all samples
have been consumed: the
samples of the frames written and those left in the block add up to those that were in the
block and the `samples` given.  Neither the call nor its sample loop changes a signal buffer
at an index from `blocksize` on. -/
theorem buffer_fill_invariant (lib : EncoderLib) (client : EncoderClient) :
    (∀ (e : Encoder) (a : ActiveEncoder) (calls0 : List EncoderCall),
      FLAC__encoder_init lib client e = (a.toEncoder, calls0) → a.state = .OK →
        0 < a.blocksize ∧ a.blocksize < 2 ^ 32 ∧ a.guts.current_sample_number < a.blocksize) ∧
    (∀ (e : ActiveEncoder) (buf : Buffers) (samples : Nat),
      0 < e.blocksize → e.blocksize < 2 ^ 32 → e.guts.current_sample_number ≤ e.blocksize →
      (∀ x : ActiveEncoder, x.toEncoderSettings = e.toEncoderSettings →
        encoder_process_frame_ lib client x false ≠ none) →
      ∃ ok e' calls, FLAC__encoder_process lib client e buf samples = some (ok, e', calls) ∧
        e'.blocksize = e.blocksize ∧
        (ok = true → e'.guts.current_sample_number < e'.blocksize ∧
          (written_samples calls).sum + e'.guts.current_sample_number =
            e.guts.current_sample_number + samples) ∧
        (∀ ch k, e.blocksize ≤ k →
          (e'.guts.integer_signal.getD ch []).getD k 0 =
              (e.guts.integer_signal.getD ch []).getD k 0 ∧
            (e'.guts.integer_signal_mid_side.getD ch []).getD k 0 =
              (e.guts.integer_signal_mid_side.getD ch []).getD k 0)) ∧
    (∀ (buf : Buffers) (samples fuel i j : Nat) (e : ActiveEncoder) (ch k : Nat),
      e.blocksize ≤ k →
        ((fill_loop buf samples fuel i j e).2.2.guts.integer_signal.getD ch []).getD k 0 =
            (e.guts.integer_signal.getD ch []).getD k 0 ∧
          ((fill_loop buf samples fuel i j e).2.2.guts.integer_signal_mid_side.getD ch []).getD
              k 0 = (e.guts.integer_signal_mid_side.getD ch []).getD k 0) := by
  refine ⟨?_, ?_, ?_⟩
  · intro e a calls0 hinit hok
    obtain ⟨h1, h2, h3, -⟩ := init_success lib client e a calls0 hinit hok
    unfold FLAC__MIN_BLOCK_SIZE at h1
    unfold FLAC__MAX_BLOCK_SIZE at h2
    omega
  · intro e buf samples hb0 hb1 hcs hret
    obtain ⟨ok, e', new, k1, k2, k3, k4⟩ :=
      process_loop_fill_full lib client buf samples e.toEncoderSettings hret (samples + 2) 0 e
        [] (by omega) (by omega) rfl hb0 hb1 hcs
    refine ⟨ok, e', new, ?_, k2, ?_, k4⟩
    · unfold FLAC__encoder_process
      rw [k1, List.nil_append]
    · intro hok
      obtain ⟨r1, r2⟩ := k3 hok
      rw [k2]
      exact ⟨r1, by rw [r2, Nat.sub_zero]⟩
  · intro buf samples fuel i j e ch k hk
    exact fill_loop_above buf samples fuel i j e ch k hk

/-- Witness for C36: the example encoder, with blocksize 16 and an empty block, is given 20
samples: the call returns `true` having written one frame of 16 samples, and 4 samples are
left in the block. -/
theorem buffer_fill_invariant_witness :
    ∃ ok e' calls,
      FLAC__encoder_process example_lib example_encoder_client example_initialized
          [List.replicate 20 3] 20 = some (ok, e', calls) ∧
        e'.blocksize = example_initialized.blocksize ∧
        (ok = true → e'.guts.current_sample_number < e'.blocksize ∧
          (written_samples calls).sum + e'.guts.current_sample_number =
            example_initialized.guts.current_sample_number + 20) ∧
        (∀ ch k, example_initialized.blocksize ≤ k →
          (e'.guts.integer_signal.getD ch []).getD k 0 =
              (example_initialized.guts.integer_signal.getD ch []).getD k 0 ∧
            (e'.guts.integer_signal_mid_side.getD ch []).getD k 0 =
              (example_initialized.guts.integer_signal_mid_side.getD ch []).getD k 0) :=
  (buffer_fill_invariant example_lib example_encoder_client).2.1 example_initialized
    [List.replicate 20 3] 20 (by decide) (by decide) (by decide)
    (fun x hx => by
      obtain ⟨e', calls, h⟩ := encoder_process_frame_some example_lib example_encoder_client x
        false
        ⟨fun _ => by simp [example_lib], fun _ _ _ _ => by simp [example_lib],
          fun _ _ _ => by simp [example_lib], fun _ _ _ _ _ => by simp [example_lib],
          fun _ _ _ _ _ => by simp [example_lib], fun _ _ _ _ => by simp [example_lib],
          fun _ => by simp [example_lib]⟩
        (fun _ _ _ _ => rfl)
        (by
          rw [hx]
          exact ⟨fun _ _ => by simp [example_lib], fun _ _ _ _ => by simp [example_lib],
            by decide, by decide, by decide⟩)
        (by
          have := congrArg EncoderSettings.blocksize hx
          rw [this]
          decide)
        (by
          have := congrArg EncoderSettings.blocksize hx
          rw [this]
          decide)
      rw [h]
      exact fun h' => by cases h')

end FLAC
